import Mathlib

/-!
SimpleCOLLADA: a shallow embedding of `SimpleCOLLADA.hpp`.

The C++ loader walks a rapidxml tree and fills a `Model`.  The embedding below
follows the header function by function.

Conventions of the embedding.

* A `String` stands for a C++ `std::string`; each `Char` stands for one `char`.
* A nullable `xml_node<>*` / `xml_attribute<>*` is an `Option`.  The XML tree is
  immutable during a load and the code never walks upwards, so a node pointer is
  identified with the subtree it points to.
* An `unordered_map<string, xml_node<>*>` is only ever accessed through
  `operator[]`; it is a total function from keys to nullable pointers (an absent
  key and a key holding the null pointer read the same).
* A `Material*` is the position of the material in `Model::materials`, the
  vector that owns every material that outlives `parse_new_material`.
* Every way of leaving a function abnormally (undefined behaviour or a C++
  exception) is a `Fault`; functions that can do so return `Except Fault _`.
* `size_t` is 64 bit, `long` is 64 bit, `int` and `u32` are 32 bit (LP64).
* A position in a vector is a natural number; the casts `(int)i` of such a
  position (in `getParamOffset` and `doesMaterialNameAlreadyExist`) are taken to
  keep its value, the vectors holding fewer than 2^31 entries.
* A `for` loop over `0 .. n-1` or over the children of a node is a monadic fold
  of its body, a definition of its own, over that list.
* What is written to `cerr` is kept as a list of lines.
* `float` and the libc/libm behaviour on it are parameters (`CFloat`).
-/

namespace SimpleCOLLADA

/-! ## Faults -/

/-- Abnormal ways out of the C++ code. -/
inductive Fault where
  /-- a null pointer is dereferenced -/
  | nullDeref
  /-- an index of `vector::operator[]` is past the end -/
  | outOfBounds
  /-- a member that was never assigned is read -/
  | uninitialized
  /-- the exception `std::invalid_argument` (thrown by `stoi` / `stol`) -/
  | invalidArgument
  /-- the exception `std::out_of_range` (thrown by `stoi` / `stol` / `substr`) -/
  | outOfRange
  /-- unsigned division by zero -/
  | divByZero
  /-- the recursion budget of the model is used up -/
  | outOfFuel
deriving DecidableEq, Repr

deriving instance DecidableEq for Except

/-- Dereference of a nullable pointer. -/
def deref {α : Type} : Option α → Except Fault α
  | some a => .ok a
  | none => .error .nullDeref

/-- Read of a member that has no initialiser. -/
def readInit {α : Type} : Option α → Except Fault α
  | some a => .ok a
  | none => .error .uninitialized

/-- Unchecked `vector::operator[]`. -/
def vecGet {α : Type} (v : List α) (i : Nat) : Except Fault α :=
  match v.get? i with
  | some a => .ok a
  | none => .error .outOfBounds

/-! ## Machine integers -/

/-- Number of values of a `size_t`. -/
def SIZE_MOD : Nat := 2 ^ 64

/-- Number of values of a `u32`. -/
def U32_MOD : Nat := 2 ^ 32

/-- Conversion of a signed integer to `size_t`. -/
def toSizeT (z : Int) : Nat := (z % (SIZE_MOD : Int)).toNat

/-- Conversion of a signed integer to `u32`. -/
def toU32 (z : Int) : Nat := (z % (U32_MOD : Int)).toNat

/-! ## Floats -/

/-- The `float` type of the program together with the library behaviour the
loader relies on. -/
class CFloat (F : Type) where
  /-- the zero that `strtof` returns when it performs no conversion -/
  zero : F
  /-- the `float` that `strtof` returns for a subject sequence: the number it
  writes, rounded -/
  ofSubject : List Char → F
  /-- the literal `1.0` -/
  one : F
  /-- the comparison `a > b` -/
  gt : F → F → Bool
  /-- the conversion `(u8)(x * 255.0)`, before reduction to a byte -/
  scale255 : F → Nat

/-! ## The XML tree (rapidxml) -/

/-- An attribute: name and value. -/
structure XmlAttr where
  name : String
  value : String
deriving DecidableEq, Repr

/-- A node of the parsed document: `name()`, `value()`, attributes in document
order, children in document order (data nodes have the empty name). -/
inductive XmlNode where
  | mk (name : String) (value : String) (attrs : List XmlAttr) (children : List XmlNode)
deriving Repr

namespace XmlNode

/-- Embeds `node->name()` -/
def name : XmlNode → String
  | mk n _ _ _ => n

/-- Embeds `node->value()` -/
def value : XmlNode → String
  | mk _ v _ _ => v

/-- The attributes from `first_attribute()` on. -/
def attrs : XmlNode → List XmlAttr
  | mk _ _ a _ => a

/-- The children from `first_node()` on. -/
def children : XmlNode → List XmlNode
  | mk _ _ _ c => c

/-- Embeds `node->first_node(name)`: the first child with that name. -/
def first_node (node : XmlNode) (nm : String) : Option XmlNode :=
  node.children.find? (fun c => c.name == nm)

/-- Embeds `node->first_node()`: the first child of any kind. -/
def first_child (node : XmlNode) : Option XmlNode :=
  node.children.head?

mutual
/-- Decision procedure for equality of nodes. -/
def decEq : (a b : XmlNode) → Decidable (a = b)
  | .mk n v a cs, .mk n2 v2 a2 cs2 =>
    if h1 : n = n2 then
      if h2 : v = v2 then
        if h3 : a = a2 then
          match decEqList cs cs2 with
          | isTrue h4 => isTrue (by subst h1 h2 h3 h4; rfl)
          | isFalse h4 => isFalse (by intro h; cases h; exact h4 rfl)
        else isFalse (by intro h; cases h; exact h3 rfl)
      else isFalse (by intro h; cases h; exact h2 rfl)
    else isFalse (by intro h; cases h; exact h1 rfl)
/-- Decision procedure for equality of child lists. -/
def decEqList : (as bs : List XmlNode) → Decidable (as = bs)
  | [], [] => isTrue rfl
  | [], _ :: _ => isFalse (by intro h; cases h)
  | _ :: _, [] => isFalse (by intro h; cases h)
  | a :: as, b :: bs =>
    match decEq a b with
    | isTrue h1 =>
      match decEqList as bs with
      | isTrue h2 => isTrue (by subst h1 h2; rfl)
      | isFalse h2 => isFalse (by intro h; cases h; exact h2 rfl)
    | isFalse h1 => isFalse (by intro h; cases h; exact h1 rfl)
end

instance : DecidableEq XmlNode := decEq

end XmlNode

/-- An `unordered_map<string, xml_node<>*>` read and written with `operator[]`. -/
abbrev NodeMap := String → Option XmlNode

namespace NodeMap

/-- The freshly constructed map. -/
def empty : NodeMap := fun _ => none

/-- The assignment `map[key] = node`. -/
def set (map : NodeMap) (key : String) (node : Option XmlNode) : NodeMap :=
  fun k => if k = key then node else map k

end NodeMap

/-! ## Macros -/

/-- Embeds `NOT_FOUND` -/
def NOT_FOUND : Int := -1

/-- Embeds `MAX_ABC(a,b,c)` -/
def MAX_ABC {F : Type} [CFloat F] (a b c : F) : F :=
  if CFloat.gt a b then (if CFloat.gt a c then a else c) else (if CFloat.gt b c then b else c)

/-- Embeds `BYTES_TO_UINT(a,b,c,d)`, stored in a `u32`. -/
def BYTES_TO_UINT (a b c d : Nat) : Nat :=
  ((a <<< 24) ||| (b <<< 16) ||| (c <<< 8) ||| d) % U32_MOD

/-- Embeds `ID_SUBSTR(str)`: `string(str).substr(1, length - 1)`; `substr` throws when
the start position 1 is past the end. -/
def ID_SUBSTR (str : String) : Except Fault String :=
  match str.data with
  | [] => .error .outOfRange
  | _ :: rest => .ok (String.mk rest)

/-- The line written by `ERROR_MSG_NO_FIND(str)`. -/
def ERROR_MSG_NO_FIND (str : String) : String :=
  "Could not find: \"" ++ str ++ "\""

/-! ## Value decoders -/

/-- The function `isspace` in the classic locale. -/
def isspace (c : Char) : Bool :=
  c.toNat == 32 || (9 ≤ c.toNat && c.toNat ≤ 13)

/-- Extraction loop `for (string s; iss >> s;)`: the maximal runs of
non-whitespace characters, `cur` being the run read so far (reversed). -/
def tokensAux : List Char → List Char → List String
  | [], cur => if cur.isEmpty then [] else [String.mk cur.reverse]
  | c :: cs, cur =>
    if isspace c then
      (if cur.isEmpty then tokensAux cs [] else String.mk cur.reverse :: tokensAux cs [])
    else tokensAux cs (c :: cur)

/-- The whitespace separated tokens of a string. -/
def tokens (str : String) : List String := tokensAux str.data []

/-- Value of a run of decimal digits. -/
def digitsValue (ds : List Char) : Nat :=
  ds.foldl (fun acc c => acc * 10 + (c.toNat - 48)) 0

/-- The number `strtol(s, &end, 10)` reads, before any clamping: leading
whitespace, an optional sign, the longest run of digits.  `none` when no digit
is found (no conversion). -/
def strtolRead (s : List Char) : Option Int :=
  let s1 := s.dropWhile isspace
  let neg := s1.head? == some (Char.ofNat 45)
  let s2 := if s1.head? == some (Char.ofNat 45) || s1.head? == some (Char.ofNat 43) then s1.tail else s1
  let ds := s2.takeWhile Char.isDigit
  if ds.isEmpty then none
  else some (if neg then -(digitsValue ds : Int) else (digitsValue ds : Int))

/-- Embeds `strtol(s, &pEnd, 10)`: 0 when nothing converts, clamped to the range of
`long`. -/
def strtol (s : String) : Int :=
  match strtolRead s.data with
  | none => 0
  | some v => max (-(2 ^ 63 : Int)) (min v (2 ^ 63 - 1))

/-- Embeds `std::stoi(s)`: the result as an `int`. -/
def stoi (s : String) : Except Fault Int :=
  match strtolRead s.data with
  | none => .error .invalidArgument
  | some v => if v < -(2 ^ 31 : Int) ∨ (2 ^ 31 : Int) ≤ v then .error .outOfRange else .ok v

/-- Embeds `std::stol(s)`: the result as a `long`. -/
def stol (s : String) : Except Fault Int :=
  match strtolRead s.data with
  | none => .error .invalidArgument
  | some v => if v < -(2 ^ 63 : Int) ∨ (2 ^ 63 : Int) ≤ v then .error .outOfRange else .ok v

/-- The function `tolower` in the classic locale, as a character code. -/
def lowerCode (c : Char) : Nat :=
  if 65 ≤ c.toNat && c.toNat ≤ 90 then c.toNat + 32 else c.toNat

/-- The function `isxdigit`. -/
def isxdigit (c : Char) : Bool :=
  c.isDigit || (97 ≤ lowerCode c && lowerCode c ≤ 102)

/-- The digits of a floating-point number at the start of `s`: the longest run
of digits that may hold one '.' (code 46) and holds at least one digit; empty
when `s` starts with no such run. -/
def mantissaRun (isDig : Char → Bool) (s : List Char) : List Char :=
  let ip := s.takeWhile isDig
  let rest := s.dropWhile isDig
  let fp := rest.tail.takeWhile isDig
  if rest.head? == some (Char.ofNat 46) && !(ip.isEmpty && fp.isEmpty)
  then ip ++ Char.ofNat 46 :: fp
  else ip

/-- The exponent part at the start of `s`: the letter with code `mark` in either
case, an optional sign and a run of decimal digits; empty when `s` does not
start with the letter or no digit follows the sign. -/
def exponentRun (mark : Nat) (s : List Char) : List Char :=
  match s with
  | [] => []
  | m :: rest =>
    if lowerCode m == mark then
      let k := if rest.head? == some (Char.ofNat 45) || rest.head? == some (Char.ofNat 43)
        then 1 else 0
      let ds := (rest.drop k).takeWhile Char.isDigit
      if ds.isEmpty then [] else m :: (rest.take k ++ ds)
    else []

/-- The characters of the sequence that may follow `NAN` in parentheses: digits,
letters and the underscore (code 95). -/
def isNanChar (c : Char) : Bool :=
  c.isDigit || (97 ≤ lowerCode c && lowerCode c ≤ 122) || c.toNat == 95

/-- The parenthesised character sequence that may follow `NAN`: '(' (code 40),
digits, letters and underscores, ')' (code 41); empty when `s` does not start
with a complete one. -/
def nanRun (s : List Char) : List Char :=
  match s with
  | [] => []
  | c :: rest =>
    if c == Char.ofNat 40 && (rest.dropWhile isNanChar).head? == some (Char.ofNat 41)
    then c :: (rest.takeWhile isNanChar ++ [Char.ofNat 41]) else []

/-- The string `s` starts with the letters (or digits) that have the codes of
`word`, in either case. -/
def startsWord (word : List Nat) (s : List Char) : Bool :=
  (s.take word.length).map lowerCode == word

/-- The subject sequence of `strtof` without its sign: the longest initial part
of `s` that is a hexadecimal number (`0x`, hexadecimal digits with an optional
'.', optional exponent `p`), `INFINITY` or `INF`, `NAN` with an optional
parenthesised sequence (letters in either case), or a decimal number (digits
with an optional '.', optional exponent `e`); empty when there is none. -/
def unsignedSubject (s : List Char) : List Char :=
  let hexm := mantissaRun isxdigit (s.drop 2)
  let decm := mantissaRun Char.isDigit s
  if startsWord [48, 120] s && !hexm.isEmpty then
    s.take 2 ++ (hexm ++ exponentRun 112 ((s.drop 2).drop hexm.length))
  else if startsWord [105, 110, 102, 105, 110, 105, 116, 121] s then s.take 8
  else if startsWord [105, 110, 102] s then s.take 3
  else if startsWord [110, 97, 110] s then s.take 3 ++ nanRun (s.drop 3)
  else if !decm.isEmpty then decm ++ exponentRun 101 (s.drop decm.length)
  else []

/-- The subject sequence of `strtof(s, &end)`: after leading whitespace, an
optional sign and the longest part that has the form of a number.  `none` when
there is no such part (no conversion). -/
def strtofSubject (s : List Char) : Option (List Char) :=
  let s1 := s.dropWhile isspace
  let k := if s1.head? == some (Char.ofNat 45) || s1.head? == some (Char.ofNat 43)
    then 1 else 0
  let body := unsignedSubject (s1.drop k)
  if body.isEmpty then none else some (s1.take k ++ body)

/-- Embeds `strtof(s, &pEnd)`: zero when nothing converts, else the `float` of
the subject sequence; what follows the subject sequence is not looked at. -/
def CFloat.strtof {F : Type} [CFloat F] (s : String) : F :=
  match strtofSubject s.data with
  | none => CFloat.zero
  | some subject => CFloat.ofSubject subject

/-- Embeds `parse_float_vector` -/
def parse_float_vector {F : Type} [CFloat F] (str : String) : List F :=
  (tokens str).map CFloat.strtof

/-- Embeds `parse_u32_vector`: each `long` is stored as a `u32`. -/
def parse_u32_vector (str : String) : List Nat :=
  (tokens str).map (fun t => toU32 (strtol t))

/-! ## Attribute lookup and the id index -/

/-- Embeds `findAttribute`: the first attribute with the given name. -/
def findAttribute (node : XmlNode) (name : String) : Option XmlAttr :=
  node.attrs.find? (fun a => a.name == name)

mutual
/-- Embeds `buildLocalIdMap` -/
def buildLocalIdMap (id_pattern : String) : NodeMap → XmlNode → NodeMap
  | map, .mk n v a cs =>
    buildLocalIdMap_children id_pattern
      (match findAttribute (.mk n v a cs) id_pattern with
       | some id_attr => map.set id_attr.value (some (.mk n v a cs))
       | none => map)
      cs
/-- The loop over the children inside `buildLocalIdMap`. -/
def buildLocalIdMap_children (id_pattern : String) : NodeMap → List XmlNode → NodeMap
  | map, [] => map
  | map, child :: rest =>
    buildLocalIdMap_children id_pattern (buildLocalIdMap id_pattern map child) rest
end

/-! ## Up axis -/

/-- Embeds `enum UP_AXIS` -/
inductive UP_AXIS where
  | X_UP | Y_UP | Z_UP | INVALID | NO_FIND
deriving DecidableEq, Repr

/-- The cast `(UP_AXIS)n`. -/
def UP_AXIS.ofInt (n : Int) : UP_AXIS :=
  if n = 0 then .X_UP else if n = 1 then .Y_UP else if n = 2 then .Z_UP
  else if n = 3 then .INVALID else .NO_FIND

/-- Embeds `getUpAxis` -/
def getUpAxis (COLLADA : XmlNode) : Int :=
  match COLLADA.first_node "asset" with
  | some asset =>
    match asset.first_node "up_axis" with
    | some up_axis =>
      if up_axis.value = "X_UP" then 0
      else if up_axis.value = "Y_UP" then 1
      else if up_axis.value = "Z_UP" then 2
      else 3
    | none => 4
  | none => 4

/-! ## The model that is built -/

/-- Embeds `struct Triangle`: per corner the index into each stream, `-1` when unset. -/
structure Triangle where
  position : List Int := [-1, -1, -1]
  normal : List Int := [-1, -1, -1]
  uv : List Int := [-1, -1, -1]
  color : List Int := [-1, -1, -1]
deriving DecidableEq, Repr

/-- Embeds `struct Vertex` -/
structure Vertex (F : Type) where
  x : F
  y : F
  z : F
deriving DecidableEq, Repr

/-- Embeds `struct TextureCoord` -/
structure TextureCoord (F : Type) where
  u : F
  v : F
deriving DecidableEq, Repr

/-- Embeds `struct VertexColor`; `a` starts at `1.0`. -/
structure VertexColor (F : Type) [CFloat F] where
  r : F
  g : F
  b : F
  a : F := CFloat.one
deriving DecidableEq, Repr

/-- Embeds `struct Normal` -/
structure Normal (F : Type) where
  nx : F
  ny : F
  nz : F
deriving DecidableEq, Repr

/-- Embeds `class Material` -/
structure Material (F : Type) [CFloat F] where
  name : String := ""
  filename : String := ""
  transparency : F := CFloat.one
  color : Nat := 0xFFFFFFFF
deriving DecidableEq, Repr

/-- The statement `vertexColorMap[group].push_back(vc)` on the colour groups, kept in the
order in which the groups were created. -/
def pushVertexColor {F : Type} [CFloat F] :
    List (String × List (VertexColor F)) → String → VertexColor F →
    List (String × List (VertexColor F))
  | [], group, vc => [(group, [vc])]
  | (k, l) :: rest, group, vc =>
    if k = group then (k, l ++ [vc]) :: rest else (k, l) :: pushVertexColor rest group vc

/-- Embeds `class ModelNode`; `material` is the position of the shared material in
`Model::materials`, or null. -/
structure ModelNode (F : Type) [CFloat F] where
  triangles : List Triangle := []
  vertices : List (Vertex F) := []
  texuvs : List (TextureCoord F) := []
  normals : List (Normal F) := []
  vertexColorMap : List (String × List (VertexColor F)) := []
  material : Option Nat := none
deriving DecidableEq, Repr

namespace ModelNode
variable {F : Type} [CFloat F]

/-- Embeds `addTriangle` -/
def addTriangle (m : ModelNode F) (tri : Triangle) : ModelNode F :=
  { m with triangles := m.triangles ++ [tri] }

/-- Embeds `addVertex` -/
def addVertex (m : ModelNode F) (vert : Vertex F) : ModelNode F :=
  { m with vertices := m.vertices ++ [vert] }

/-- Embeds `addTextureCoord` -/
def addTextureCoord (m : ModelNode F) (tc : TextureCoord F) : ModelNode F :=
  { m with texuvs := m.texuvs ++ [tc] }

/-- Embeds `addVertexColor` -/
def addVertexColor (m : ModelNode F) (vc : VertexColor F) (group : String) : ModelNode F :=
  { m with vertexColorMap := pushVertexColor m.vertexColorMap group vc }

/-- Embeds `addNormal` -/
def addNormal (m : ModelNode F) (nrm : Normal F) : ModelNode F :=
  { m with normals := m.normals ++ [nrm] }

/-- Embeds `setMaterial` -/
def setMaterial (m : ModelNode F) (mat : Option Nat) : ModelNode F :=
  { m with material := mat }

/-- Embeds `getNumOfTriangles` -/
def getNumOfTriangles (m : ModelNode F) : Nat := m.triangles.length

/-- Embeds `getNumOfVertices` -/
def getNumOfVertices (m : ModelNode F) : Nat := m.vertices.length

/-- Embeds `getNumOfTexCoords` -/
def getNumOfTexCoords (m : ModelNode F) : Nat := m.texuvs.length

/-- Embeds `getNumOfNormals` -/
def getNumOfNormals (m : ModelNode F) : Nat := m.normals.length

/-- The colours of one group (empty when the group does not exist). -/
def vertexColors (m : ModelNode F) (group : String) : List (VertexColor F) :=
  match m.vertexColorMap.find? (fun e => e.1 == group) with
  | some e => e.2
  | none => []

/-- Embeds `getNumOfVertexColors` -/
def getNumOfVertexColors (m : ModelNode F) (group : String) : Nat :=
  (m.vertexColors group).length

end ModelNode

/-- The members of `class Model`. `upAxis` has no initialiser; `cerr` collects
the diagnostic lines. -/
structure Model (F : Type) [CFloat F] where
  lib_visuals : NodeMap := NodeMap.empty
  lib_geometries : NodeMap := NodeMap.empty
  lib_materials : NodeMap := NodeMap.empty
  lib_effects : NodeMap := NodeMap.empty
  lib_images : NodeMap := NodeMap.empty
  materialSymbolTargetMap : NodeMap := NodeMap.empty
  modelNodes : List (ModelNode F) := []
  materials : List (Material F) := []
  upAxis : Option UP_AXIS := none
  cerr : List String := []

/-! ## Sources and accessors -/

/-- Embeds `Accessor_param` -/
structure Accessor_param where
  name : String
  type : String
deriving DecidableEq, Repr

/-- Embeds `Mesh_source`; `count` and `stride` have no initialiser. -/
structure Mesh_source (F : Type) where
  name : String := ""
  count : Option Nat := none
  stride : Option Nat := none
  error : Nat := 0
  float_array : List F := []
  params : List Accessor_param := []
deriving DecidableEq, Repr

/-- Embeds `parse_accessor_params` -/
def parse_accessor_params (accessor : XmlNode) : List Accessor_param :=
  accessor.children.filterMap (fun child =>
    if child.name = "param" then
      match findAttribute child "name", findAttribute child "type" with
      | some nameAttr, some typeAttr => some { name := nameAttr.value, type := typeAttr.value }
      | _, _ => none
    else none)

/-- The search loop of `getParamOffset`, `i` being the current position. -/
def getParamOffsetFrom (paramName : String) : List Accessor_param → Nat → Int
  | [], _ => NOT_FOUND
  | p :: rest, i => if p.name = paramName then (i : Int) else getParamOffsetFrom paramName rest (i + 1)

/-- Embeds `getParamOffset` -/
def getParamOffset (paramName : String) (params : List Accessor_param) : Int :=
  getParamOffsetFrom paramName params 0

section Geometry
variable {F : Type} [CFloat F]

/-- Embeds `parse_source`; `lib_geometries` is the member map it reads. -/
def parse_source (lib_geometries : NodeMap) (source : Option XmlNode) (cerr : List String) :
    Except Fault (Mesh_source F × List String) := do
  let source ← deref source
  let mesh_source : Mesh_source F :=
    match findAttribute source "name" with
    | some srcNameAttr => { name := srcNameAttr.value }
    | none => {}
  match source.first_node "technique_common" with
  | some common =>
    match common.first_node "accessor" with
    | some accessor =>
      match findAttribute accessor "count", findAttribute accessor "stride",
          findAttribute accessor "source" with
      | some cntAttr, some strAttr, some srcAttr =>
        let key ← ID_SUBSTR srcAttr.value
        match lib_geometries key with
        | some float_arr =>
          let stride ← stoi strAttr.value
          let count ← stoi cntAttr.value
          pure ({ mesh_source with
                  params := parse_accessor_params accessor
                  float_array := parse_float_vector float_arr.value
                  stride := some (toSizeT stride)
                  count := some (toSizeT count) }, cerr)
        | none => pure ({ mesh_source with error := 3 }, cerr ++ [ERROR_MSG_NO_FIND "float_array"])
      | _, _, _ => pure (mesh_source, cerr)
    | none => pure ({ mesh_source with error := 2 }, cerr ++ [ERROR_MSG_NO_FIND "accessor"])
  | none => pure ({ mesh_source with error := 1 }, cerr ++ [ERROR_MSG_NO_FIND "technique_common"])

/-- The subscript `i * stride + offset` computed in `size_t`. -/
def elemIndex (i stride : Nat) (offset : Int) : Nat :=
  (i * stride + toSizeT offset) % SIZE_MOD

/-- The body of the loop of `parse_geo_normals` for element `i` (the element
width is the literal 3). -/
def parse_geo_normals_elem (src : Mesh_source F) (xOffset yOffset zOffset : Int)
    (model : ModelNode F) (i : Nat) : Except Fault (ModelNode F) := do
  let nx ← vecGet src.float_array (elemIndex i 3 xOffset)
  let ny ← vecGet src.float_array (elemIndex i 3 yOffset)
  let nz ← vecGet src.float_array (elemIndex i 3 zOffset)
  pure (model.addNormal { nx := nx, ny := ny, nz := nz })

/-- Embeds `parse_geo_normals` (the offsets are used without a `FOUND` test). -/
def parse_geo_normals (lib_geometries : NodeMap) (source : Option XmlNode)
    (model : ModelNode F) (cerr : List String) : Except Fault (ModelNode F × List String) := do
  let r ← parse_source (F := F) lib_geometries source cerr
  if r.1.error = 0 then
    let xOffset := getParamOffset "X" r.1.params
    let yOffset := getParamOffset "Y" r.1.params
    let zOffset := getParamOffset "Z" r.1.params
    let count ← readInit r.1.count
    let model ← (List.range count).foldlM
      (parse_geo_normals_elem r.1 xOffset yOffset zOffset) model
    pure (model, r.2)
  else pure (model, r.2)

/-- The body of the loop of `parse_geo_positions` for element `i`. -/
def parse_geo_positions_elem (src : Mesh_source F) (stride : Nat)
    (xOffset yOffset zOffset : Int) (model : ModelNode F) (i : Nat) :
    Except Fault (ModelNode F) := do
  let x ← vecGet src.float_array (elemIndex i stride xOffset)
  let y ← vecGet src.float_array (elemIndex i stride yOffset)
  let z ← vecGet src.float_array (elemIndex i stride zOffset)
  pure (model.addVertex { x := x, y := y, z := z })

/-- Embeds `parse_geo_positions` -/
def parse_geo_positions (lib_geometries : NodeMap) (source : Option XmlNode)
    (model : ModelNode F) (cerr : List String) : Except Fault (ModelNode F × List String) := do
  let r ← parse_source (F := F) lib_geometries source cerr
  if r.1.error = 0 then
    let xOffset := getParamOffset "X" r.1.params
    let yOffset := getParamOffset "Y" r.1.params
    let zOffset := getParamOffset "Z" r.1.params
    if xOffset ≠ NOT_FOUND ∧ yOffset ≠ NOT_FOUND ∧ zOffset ≠ NOT_FOUND then
      let count ← readInit r.1.count
      let stride ← readInit r.1.stride
      let model ← (List.range count).foldlM
        (parse_geo_positions_elem r.1 stride xOffset yOffset zOffset) model
      pure (model, r.2)
    else pure (model, r.2)
  else pure (model, r.2)

/-- The body of the loop of `parse_geo_texCoords` for element `i`. -/
def parse_geo_texCoords_elem (src : Mesh_source F) (stride : Nat)
    (sOffset tOffset : Int) (model : ModelNode F) (i : Nat) : Except Fault (ModelNode F) := do
  let u ← vecGet src.float_array (elemIndex i stride sOffset)
  let v ← vecGet src.float_array (elemIndex i stride tOffset)
  pure (model.addTextureCoord { u := u, v := v })

/-- Embeds `parse_geo_texCoords` -/
def parse_geo_texCoords (lib_geometries : NodeMap) (source : Option XmlNode)
    (model : ModelNode F) (cerr : List String) : Except Fault (ModelNode F × List String) := do
  let r ← parse_source (F := F) lib_geometries source cerr
  if r.1.error = 0 then
    let sOffset := getParamOffset "S" r.1.params
    let tOffset := getParamOffset "T" r.1.params
    if sOffset ≠ NOT_FOUND ∧ tOffset ≠ NOT_FOUND then
      let count ← readInit r.1.count
      let stride ← readInit r.1.stride
      let model ← (List.range count).foldlM
        (parse_geo_texCoords_elem r.1 stride sOffset tOffset) model
      pure (model, r.2)
    else pure (model, r.2)
  else pure (model, r.2)

/-- The colour read for element `i` in `parse_geo_rgb`: `a` keeps its initial
value unless the "A" column exists and the stride exceeds 3. -/
def parse_geo_rgb_color (src : Mesh_source F) (stride : Nat)
    (rOffset gOffset bOffset aOffset : Int) (i : Nat) : Except Fault (VertexColor F) := do
  let r ← vecGet src.float_array (elemIndex i stride rOffset)
  let g ← vecGet src.float_array (elemIndex i stride gOffset)
  let b ← vecGet src.float_array (elemIndex i stride bOffset)
  if aOffset ≠ NOT_FOUND ∧ stride > 3 then do
    let a ← vecGet src.float_array (elemIndex i stride aOffset)
    pure { r := r, g := g, b := b, a := a }
  else pure { r := r, g := g, b := b }

/-- The body of the loop of `parse_geo_rgb` for element `i`. -/
def parse_geo_rgb_elem (src : Mesh_source F) (stride : Nat)
    (rOffset gOffset bOffset aOffset : Int) (model : ModelNode F) (i : Nat) :
    Except Fault (ModelNode F) := do
  let vc ← parse_geo_rgb_color src stride rOffset gOffset bOffset aOffset i
  pure (model.addVertexColor vc src.name)

/-- Embeds `parse_geo_rgb` (`src.stride` is read before `src.error` is tested). -/
def parse_geo_rgb (lib_geometries : NodeMap) (source : Option XmlNode)
    (model : ModelNode F) (cerr : List String) : Except Fault (ModelNode F × List String) := do
  let r ← parse_source (F := F) lib_geometries source cerr
  let stride ← readInit r.1.stride
  if stride < 3 then pure (model, r.2)
  else if r.1.error = 0 then
    let rOffset := getParamOffset "R" r.1.params
    let gOffset := getParamOffset "G" r.1.params
    let bOffset := getParamOffset "B" r.1.params
    let aOffset := getParamOffset "A" r.1.params
    if rOffset ≠ NOT_FOUND ∧ gOffset ≠ NOT_FOUND ∧ bOffset ≠ NOT_FOUND then
      let count ← readInit r.1.count
      let model ← (List.range count).foldlM
        (parse_geo_rgb_elem r.1 stride rOffset gOffset bOffset aOffset) model
      pure (model, r.2)
    else pure (model, r.2)
  else pure (model, r.2)

/-- The body of the loop of `parse_geo_vertices` for one child. -/
def parse_geo_vertices_child (lib_geometries : NodeMap)
    (acc : ModelNode F × List String) (child : XmlNode) :
    Except Fault (ModelNode F × List String) :=
  if child.name = "input" then
    match findAttribute child "semantic", findAttribute child "source" with
    | some semAttr, some srcAttr =>
      if semAttr.value = "POSITION" then do
        let key ← ID_SUBSTR srcAttr.value
        parse_geo_positions lib_geometries (lib_geometries key) acc.1 acc.2
      else if semAttr.value = "NORMAL" then do
        let key ← ID_SUBSTR srcAttr.value
        parse_geo_normals lib_geometries (lib_geometries key) acc.1 acc.2
      else pure acc
    | _, _ => pure acc
  else pure acc

/-- Embeds `parse_geo_vertices` -/
def parse_geo_vertices (lib_geometries : NodeMap) (vertices : Option XmlNode)
    (model : ModelNode F) (cerr : List String) : Except Fault (ModelNode F × List String) := do
  let vertices ← deref vertices
  vertices.children.foldlM (parse_geo_vertices_child lib_geometries) (model, cerr)

end Geometry

/-! ## Triangles -/

/-- Embeds `Semantics_offsets` -/
structure Semantics_offsets where
  vertexOffset : Int := -1
  normalOffset : Int := -1
  texCoordOffset : Int := -1
  colorOffset : Int := -1
deriving DecidableEq, Repr

/-- What the loop of `parse_triangles_inputs` carries from child to child. -/
structure InputsState (F : Type) [CFloat F] where
  model : ModelNode F
  offsets : Semantics_offsets
  cerr : List String

section Triangles
variable {F : Type} [CFloat F]

/-- The body of the loop of `parse_triangles_inputs` for one child. -/
def parse_triangles_inputs_child (lib_geometries : NodeMap)
    (acc : InputsState F) (child : XmlNode) : Except Fault (InputsState F) :=
  if child.name = "input" then
    match findAttribute child "semantic", findAttribute child "source" with
    | some semAttr, some srcAttr =>
      if semAttr.value = "VERTEX" then do
        let key ← ID_SUBSTR srcAttr.value
        let r ← parse_geo_vertices lib_geometries (lib_geometries key) acc.model acc.cerr
        let offAttr ← deref (findAttribute child "offset")
        let off ← stoi offAttr.value
        pure { model := r.1, offsets := { acc.offsets with vertexOffset := off }, cerr := r.2 }
      else if semAttr.value = "NORMAL" then do
        let key ← ID_SUBSTR srcAttr.value
        let r ← parse_geo_normals lib_geometries (lib_geometries key) acc.model acc.cerr
        let offAttr ← deref (findAttribute child "offset")
        let off ← stoi offAttr.value
        pure { model := r.1, offsets := { acc.offsets with normalOffset := off }, cerr := r.2 }
      else if semAttr.value = "TEXCOORD" then do
        let offAttr ← deref (findAttribute child "offset")
        let off ← stoi offAttr.value
        let offsets := { acc.offsets with texCoordOffset := off }
        match findAttribute child "set" with
        | some setAttr =>
          if setAttr.value = "0" then do
            let key ← ID_SUBSTR srcAttr.value
            let r ← parse_geo_texCoords lib_geometries (lib_geometries key) acc.model acc.cerr
            pure { model := r.1, offsets := offsets, cerr := r.2 }
          else pure { acc with offsets := offsets }
        | none => do
          let key ← ID_SUBSTR srcAttr.value
          let r ← parse_geo_texCoords lib_geometries (lib_geometries key) acc.model acc.cerr
          pure { model := r.1, offsets := offsets, cerr := r.2 }
      else if semAttr.value = "COLOR" then do
        let setAttr ← deref (findAttribute child "set")
        let offsets ← (if setAttr.value = "0" then do
            let offAttr ← deref (findAttribute child "offset")
            let off ← stoi offAttr.value
            pure { acc.offsets with colorOffset := off }
          else pure acc.offsets)
        let key ← ID_SUBSTR srcAttr.value
        let r ← parse_geo_rgb lib_geometries (lib_geometries key) acc.model acc.cerr
        pure { model := r.1, offsets := offsets, cerr := r.2 }
      else pure acc
    | _, _ => pure acc
  else pure acc

/-- Embeds `parse_triangles_inputs` -/
def parse_triangles_inputs (lib_geometries : NodeMap) (triangles : XmlNode)
    (model : ModelNode F) (offsets : Semantics_offsets) (cerr : List String) :
    Except Fault (InputsState F) :=
  triangles.children.foldlM (parse_triangles_inputs_child lib_geometries)
    { model := model, offsets := offsets, cerr := cerr }

end Triangles

/-- The subscript `(i*stride*3) + (j*stride) + offset` computed in `size_t`. -/
def cornerIndex (i stride j : Nat) (offset : Int) : Nat :=
  ((i * stride * 3) + (j * stride) + toSizeT offset) % SIZE_MOD

/-- The body of the inner loop of `parse_triangles`: corner `j` of triangle `i`.
The entries of `index_list` are `u32` and are stored in a `long`. -/
def parse_triangles_corner (index_list : List Nat) (stride : Nat)
    (offset_pos : Semantics_offsets) (normalsAreInVertices : Bool) (i : Nat)
    (tri : Triangle) (j : Nat) : Except Fault Triangle := do
  let tri ← (if offset_pos.vertexOffset > -1 then do
      let v ← vecGet index_list (cornerIndex i stride j offset_pos.vertexOffset)
      pure { tri with position := tri.position.set j (v : Int) }
    else pure tri)
  let tri ← (if offset_pos.texCoordOffset > -1 then do
      let v ← vecGet index_list (cornerIndex i stride j offset_pos.texCoordOffset)
      pure { tri with uv := tri.uv.set j (v : Int) }
    else pure tri)
  let tri ← (if offset_pos.colorOffset > -1 then do
      let v ← vecGet index_list (cornerIndex i stride j offset_pos.colorOffset)
      pure { tri with color := tri.color.set j (v : Int) }
    else pure tri)
  if normalsAreInVertices then do
    let v ← vecGet index_list (cornerIndex i stride j offset_pos.vertexOffset)
    pure { tri with normal := tri.normal.set j (v : Int) }
  else if offset_pos.normalOffset > -1 then do
    let v ← vecGet index_list (cornerIndex i stride j offset_pos.normalOffset)
    pure { tri with normal := tri.normal.set j (v : Int) }
  else pure tri

/-- One triangle of `parse_triangles`: a fresh `Triangle` and its three corners. -/
def parse_triangles_triangle (index_list : List Nat) (stride : Nat)
    (offset_pos : Semantics_offsets) (normalsAreInVertices : Bool) (i : Nat) :
    Except Fault Triangle :=
  [0, 1, 2].foldlM (parse_triangles_corner index_list stride offset_pos normalsAreInVertices i) {}

section Triangles2
variable {F : Type} [CFloat F]

/-- Embeds `parse_triangles` -/
def parse_triangles (lib_geometries : NodeMap) (triangles : XmlNode)
    (model : ModelNode F) (cerr : List String) : Except Fault (ModelNode F × List String) :=
  match triangles.first_node "p", findAttribute triangles "count" with
  | some indices, some countAttr => do
    let cnt ← stol countAttr.value
    let tri_count := toU32 cnt
    let st ← parse_triangles_inputs lib_geometries triangles model {} cerr
    let index_list := parse_u32_vector indices.value
    if (tri_count * 3) % U32_MOD = 0 then throw Fault.divByZero
    else
      let stride := (index_list.length / ((tri_count * 3) % U32_MOD)) % U32_MOD
      let normalsAreInVertices : Bool :=
        decide (st.offsets.normalOffset < 1) && decide (st.model.getNumOfNormals > 0)
      let model ← (List.range tri_count).foldlM (fun (model : ModelNode F) i => do
        let tri ← parse_triangles_triangle index_list stride st.offsets normalsAreInVertices i
        pure (model.addTriangle tri)) st.model
      pure (model, st.cerr)
  | _, _ => pure (model, cerr ++ [ERROR_MSG_NO_FIND "p"])

end Triangles2

/-- Embeds `checkPolylistIsTriangulated` -/
def checkPolylistIsTriangulated (polylist : XmlNode) : Bool :=
  match polylist.first_node "vcount" with
  | some vcount => (parse_u32_vector vcount.value).all (fun n => n == 3)
  | none => false

/-! ## Scene walk -/

/-- Embeds `recursivelyFindAllInstanceGeometryNodes`; `lib_visuals` is the member map
it reads, the first argument bounds the depth of the recursion. -/
def recursivelyFindAllInstanceGeometryNodes (lib_visuals : NodeMap) :
    Nat → List XmlNode → Option XmlNode → Except Fault (List XmlNode)
  | 0, _, _ => .error .outOfFuel
  | fuel + 1, nodes, current => do
    let current ← deref current
    if current.name = "instance_geometry" then pure (nodes ++ [current])
    else if current.name = "instance_node" then
      match findAttribute current "url" with
      | some urlAttr => do
        let key ← ID_SUBSTR urlAttr.value
        recursivelyFindAllInstanceGeometryNodes lib_visuals fuel nodes (lib_visuals key)
      | none => pure nodes
    else
      current.children.foldlM
        (fun nodes child =>
          recursivelyFindAllInstanceGeometryNodes lib_visuals fuel nodes (some child))
        nodes

/-! ## Materials -/

/-- The search loop of `doesMaterialNameAlreadyExist`, `i` being the current
position. -/
def doesMaterialNameAlreadyExistFrom {F : Type} [CFloat F] (name : String) :
    List (Material F) → Nat → Int
  | [], _ => NOT_FOUND
  | m :: rest, i =>
    if m.name = name then (i : Int) else doesMaterialNameAlreadyExistFrom name rest (i + 1)

/-- Embeds `doesMaterialNameAlreadyExist` -/
def doesMaterialNameAlreadyExist {F : Type} [CFloat F] (materials : List (Material F))
    (name : String) : Int :=
  doesMaterialNameAlreadyExistFrom name materials 0

section Materials
variable {F : Type} [CFloat F]

/-- The `diffuse` branch of `parse_new_material` (lines 488 to 514). -/
def parse_material_diffuse (lib_images localSidMap : NodeMap) (diffuse : XmlNode)
    (mat : Material F) (cerr : List String) : Except Fault (Material F × List String) :=
  match diffuse.first_node "texture" with
  | some texture =>
    match findAttribute texture "texture" with
    | some urlTexAttr => do
      let samplerParam ← deref (localSidMap urlTexAttr.value)
      match samplerParam.first_node "sampler2D" with
      | some sampler2D =>
        match sampler2D.first_node "source" with
        | some samplerSource => do
          let surfaceParam ← deref (localSidMap samplerSource.value)
          match surfaceParam.first_node "surface" with
          | some surface =>
            match surface.first_node "init_from" with
            | some init_from =>
              match lib_images init_from.value with
              | some image => do
                let imageFile ← deref (image.first_node "init_from")
                pure ({ mat with filename := imageFile.value }, cerr)
              | none => pure (mat, cerr ++ [ERROR_MSG_NO_FIND "image"])
            | none => pure (mat, cerr ++ [ERROR_MSG_NO_FIND "init_from"])
          | none => pure (mat, cerr ++ [ERROR_MSG_NO_FIND "surface"])
        | none => pure (mat, cerr ++ [ERROR_MSG_NO_FIND "sampler2D"])
      | none => pure (mat, cerr ++ [ERROR_MSG_NO_FIND "sampler2D"])
    | none => pure (mat, cerr ++ [ERROR_MSG_NO_FIND "urlTexAttr"])
  | none =>
    match diffuse.first_node "color" with
    | some color => do
      let col_data : List F := parse_float_vector color.value
      let c0 ← vecGet col_data 0
      let c1 ← vecGet col_data 1
      let c2 ← vecGet col_data 2
      let r := CFloat.scale255 c0 % 256
      let g := CFloat.scale255 c1 % 256
      let b := CFloat.scale255 c2 % 256
      pure ({ mat with color := BYTES_TO_UINT r g b 0xFF }, cerr)
    | none => pure (mat, cerr)

/-- The `transparent` branch of `parse_new_material` (lines 515 to 530). -/
def parse_material_transparent (transparent : XmlNode) (mat : Material F) :
    Except Fault (Material F) := do
  let opaqueAttr ← deref (findAttribute transparent "opaque")
  if opaqueAttr.value = "A_ONE" then
    match transparent.first_node "color" with
    | some color => do
      let trans_data : List F := parse_float_vector color.value
      let a ← vecGet trans_data 3
      pure { mat with transparency := a }
    | none => pure mat
  else if opaqueAttr.value = "RGB_ZERO" then
    match transparent.first_node "color" with
    | some color => do
      let trans_data : List F := parse_float_vector color.value
      let t0 ← vecGet trans_data 0
      let t1 ← vecGet trans_data 1
      let t2 ← vecGet trans_data 2
      pure { mat with transparency := MAX_ABC t0 t1 t2 }
    | none => pure mat
  else pure mat

/-- The resolution of a new material through its effect (lines 474 to 534 of
`parse_new_material`). -/
def parse_material_effect (lib_effects lib_images : NodeMap) (mat_node : XmlNode)
    (mat : Material F) (cerr : List String) : Except Fault (Material F × List String) :=
  match mat_node.first_node "instance_effect" with
  | some instance_effect =>
    match findAttribute instance_effect "url" with
    | some urlAttr => do
      let key ← ID_SUBSTR urlAttr.value
      match lib_effects key with
      | some effect => do
        let profile_COMMON ← deref (effect.first_node "profile_COMMON")
        let localSidMap := buildLocalIdMap "sid" NodeMap.empty profile_COMMON
        match profile_COMMON.first_node "technique" with
        | some technique =>
          match technique.first_child with
          | some shader => do
            let r ← (match shader.first_node "diffuse" with
              | some diffuse => parse_material_diffuse lib_images localSidMap diffuse mat cerr
              | none => pure (mat, cerr))
            match shader.first_node "transparent" with
            | some transparent => do
              let mat ← parse_material_transparent transparent r.1
              pure (mat, r.2)
            | none => pure r
          | none => pure (mat, cerr ++ [ERROR_MSG_NO_FIND "technique"])
        | none => pure (mat, cerr ++ [ERROR_MSG_NO_FIND "technique"])
      | none => pure (mat, cerr ++ [ERROR_MSG_NO_FIND "effect"])
    | none => pure (mat, cerr ++ [ERROR_MSG_NO_FIND "urlAttr"])
  | none => pure (mat, cerr ++ [ERROR_MSG_NO_FIND "instance_effect"])

/-- Embeds `parse_new_material`: the returned `Material*` is the position of the
material in `materials`. -/
def parse_new_material (mat_node : Option XmlNode) (st : Model F) :
    Except Fault (Option Nat × Model F) :=
  match mat_node with
  | none => pure (none, { st with cerr := st.cerr ++ ["Material node is null!"] })
  | some mat_node =>
    let mat : Material F :=
      match findAttribute mat_node "name" with
      | some nameAttr => { name := nameAttr.value }
      | none => {}
    let findMaterial := doesMaterialNameAlreadyExist st.materials mat.name
    if findMaterial ≠ NOT_FOUND then pure (some findMaterial.toNat, st)
    else do
      let r ← parse_material_effect st.lib_effects st.lib_images mat_node mat st.cerr
      pure (some st.materials.length,
        { st with materials := st.materials ++ [r.1], cerr := r.2 })

/-! ## Geometry and scene -/

/-- The part shared by the two branches of `parse_geometry`: a new `ModelNode`,
its material, its triangles, and the `push_back`. -/
def parse_geometry_primitive (child : XmlNode) (st : Model F) : Except Fault (Model F) := do
  let model : ModelNode F := {}
  let ms ← (match findAttribute child "material" with
    | some matAttr => do
      let r ← parse_new_material (st.materialSymbolTargetMap matAttr.value) st
      pure (model.setMaterial r.1, r.2)
    | none => pure (model, st))
  let r ← parse_triangles ms.2.lib_geometries child ms.1 ms.2.cerr
  pure { ms.2 with modelNodes := ms.2.modelNodes ++ [r.1], cerr := r.2 }

/-- The body of the loop of `parse_geometry` for one child of the mesh. -/
def parse_geometry_child (st : Model F) (child : XmlNode) : Except Fault (Model F) :=
  if child.name = "triangles" then parse_geometry_primitive child st
  else if child.name = "polylist" then
    if checkPolylistIsTriangulated child then parse_geometry_primitive child st
    else pure { st with cerr := st.cerr ++ ["Error: Mesh is not triangulated!"] }
  else pure st

/-- Embeds `parse_geometry` -/
def parse_geometry (geometry : Option XmlNode) (st : Model F) : Except Fault (Model F) := do
  let geometry ← deref geometry
  match geometry.first_node "mesh" with
  | some mesh => mesh.children.foldlM parse_geometry_child st
  | none => pure { st with cerr := st.cerr ++ [ERROR_MSG_NO_FIND "mesh"] }

/-- The body of the loop of `parse_geo_material` for one child. -/
def parse_geo_material_child (st : Model F) (child : XmlNode) : Except Fault (Model F) :=
  if child.name = "instance_material" then
    match findAttribute child "target", findAttribute child "symbol" with
    | some mat_tarAttr, some mat_symAttr => do
      let key ← ID_SUBSTR mat_tarAttr.value
      pure { st with materialSymbolTargetMap :=
        st.materialSymbolTargetMap.set mat_symAttr.value (st.lib_materials key) }
    | _, _ => pure st
  else pure st

/-- Embeds `parse_geo_material` -/
def parse_geo_material (geonode : XmlNode) (st : Model F) : Except Fault (Model F) :=
  match geonode.first_node "bind_material" with
  | some bind_material =>
    match bind_material.first_node "technique_common" with
    | some technique_common => technique_common.children.foldlM parse_geo_material_child st
    | none => pure { st with cerr := st.cerr ++ [ERROR_MSG_NO_FIND "technique_common"] }
  | none => pure { st with cerr := st.cerr ++ [ERROR_MSG_NO_FIND "bind_material"] }

/-- The body of the loop of `parse_scene` for one instance_geometry node. -/
def parse_scene_geonode (st : Model F) (geonode : XmlNode) : Except Fault (Model F) := do
  let st ← parse_geo_material geonode st
  match findAttribute geonode "url" with
  | some geo_urlAttr => do
    let key ← ID_SUBSTR geo_urlAttr.value
    parse_geometry (st.lib_geometries key) st
  | none => pure st

/-- Embeds `parse_scene`; the first argument bounds the depth of the scene walk. -/
def parse_scene (fuel : Nat) (scene : Option XmlNode) (st : Model F) : Except Fault (Model F) :=
  match scene with
  | some scene =>
    match scene.first_node "instance_visual_scene" with
    | some ins =>
      match findAttribute ins "url" with
      | some urlAttr => do
        let key ← ID_SUBSTR urlAttr.value
        let geonodes ← recursivelyFindAllInstanceGeometryNodes st.lib_visuals fuel []
          (st.lib_visuals key)
        geonodes.foldlM parse_scene_geonode st
      | none => pure st
    | none => pure { st with cerr := st.cerr ++ [ERROR_MSG_NO_FIND "instance_visual_scene"] }
  | none => pure { st with cerr := st.cerr ++ ["Error: Scene node is NULL!"] }

/-- One library of `buildLibraryMaps`: indexed by "id" when the section exists. -/
def buildLibraryMap (map : NodeMap) (lib : Option XmlNode) : NodeMap :=
  match lib with
  | some lib => buildLocalIdMap "id" map lib
  | none => map

/-- Embeds `buildLibraryMaps` -/
def buildLibraryMaps (COLLADA : XmlNode) (st : Model F) : Model F :=
  { st with
    lib_visuals := buildLibraryMap st.lib_visuals (COLLADA.first_node "library_visual_scenes")
    lib_geometries := buildLibraryMap st.lib_geometries (COLLADA.first_node "library_geometries")
    lib_materials := buildLibraryMap st.lib_materials (COLLADA.first_node "library_materials")
    lib_effects := buildLibraryMap st.lib_effects (COLLADA.first_node "library_effects")
    lib_images := buildLibraryMap st.lib_images (COLLADA.first_node "library_images") }

/-- The constructor `Model::Model`, from the parsed document on: `doc` holds the
children of the document node, `fuel` bounds the depth of the scene walk. -/
def Model.load (fuel : Nat) (doc : List XmlNode) : Except Fault (Model F) := do
  let root ← deref doc.head?
  if root.name = "COLLADA" then
    let st := buildLibraryMaps root ({} : Model F)
    let st ← parse_scene fuel (root.first_node "scene") st
    pure { st with upAxis := some (UP_AXIS.ofInt (getUpAxis root)) }
  else pure {}

end Materials

/-! ## A float model for evaluating examples -/

/-- Exact decimals `num / 10 ^ scale`: the float model used to evaluate the
loader on concrete documents. -/
structure Dec where
  num : Int
  scale : Nat
deriving DecidableEq, Repr

/-- Reading of a decimal token: optional sign, digits, optional fraction; a token
that does not start with a number reads as zero. -/
def Dec.ofString (s : String) : Dec :=
  let cs := s.data
  let neg := cs.head? == some (Char.ofNat 45)
  let cs1 := if cs.head? == some (Char.ofNat 45) || cs.head? == some (Char.ofNat 43)
    then cs.tail else cs
  let ip := cs1.takeWhile Char.isDigit
  let rest := cs1.dropWhile Char.isDigit
  let fp := if rest.head? == some (Char.ofNat 46) then rest.tail.takeWhile Char.isDigit else []
  { num := if neg then -(digitsValue (ip ++ fp) : Int) else (digitsValue (ip ++ fp) : Int)
    scale := fp.length }

instance : CFloat Dec where
  zero := { num := 0, scale := 0 }
  ofSubject := fun subject => Dec.ofString (String.mk subject)
  one := { num := 1, scale := 0 }
  gt := fun a b => decide (a.num * 10 ^ b.scale > b.num * 10 ^ a.scale)
  scale255 := fun x => ((x.num * 255) / 10 ^ x.scale).toNat

/-! ## Document order -/

mutual
/-- The nodes of a subtree in pre-order, which is document order. -/
def preorder : XmlNode → List XmlNode
  | .mk n v a cs => .mk n v a cs :: preorderList cs
/-- The nodes of a list of sibling subtrees in document order. -/
def preorderList : List XmlNode → List XmlNode
  | [] => []
  | c :: cs => preorder c ++ preorderList cs
end

/-- The node carries the attribute `id_pattern` with value `key`. -/
def carries (id_pattern key : String) (node : XmlNode) : Bool :=
  match findAttribute node id_pattern with
  | some id_attr => id_attr.value == key
  | none => false

/-- The last node, in document order, among `nodes` that carries `key`. -/
def lastCarrier (id_pattern key : String) (nodes : List XmlNode) : Option XmlNode :=
  (nodes.filter (carries id_pattern key)).getLast?

/-! ## Documents used in the examples -/

namespace Examples

/-- An element without text. -/
def el (name : String) (attrs : List XmlAttr) (children : List XmlNode) : XmlNode :=
  .mk name "" attrs children

/-- An element whose only child is a data node. -/
def tx (name : String) (attrs : List XmlAttr) (text : String) : XmlNode :=
  .mk name text attrs [.mk "" text [] []]

/-- A COLLADA root with the given `asset` children. -/
def rootWithAsset (assetChildren : List XmlNode) : XmlNode :=
  el "COLLADA" [] [el "asset" [] assetChildren, el "scene" [] []]

/-- A small library with a repeated id. -/
def dupLibrary : XmlNode :=
  el "library_images" [] [
    el "image" [⟨"id", "a"⟩] [tx "init_from" [] "first.png"],
    el "image" [⟨"id", "b"⟩] [tx "init_from" [] "other.png"],
    el "image" [⟨"id", "a"⟩] [tx "init_from" [] "second.png"]]

end Examples

/-! ## Names used in the statements -/

/-- The name `parse_new_material` gives to the material of a node: the value of
its `name` attribute, the empty string when it has none. -/
def materialName (mat_node : XmlNode) : String :=
  match findAttribute mat_node "name" with
  | some nameAttr => nameAttr.value
  | none => ""

/-- The line written when a polylist is not triangulated. -/
def NOT_TRIANGULATED_MSG : String := "Error: Mesh is not triangulated!"

namespace Examples

/-- A material node with an effect that cannot be resolved. -/
def matRed : XmlNode :=
  el "material" [⟨"id", "m1"⟩, ⟨"name", "red"⟩] [el "instance_effect" [⟨"url", "#fx"⟩] []]

/-- Another material node carrying the same name. -/
def matRedAgain : XmlNode :=
  el "material" [⟨"id", "m2"⟩, ⟨"name", "red"⟩] []

/-- A polylist with a quad among its faces. -/
def quadPolylist : XmlNode :=
  el "polylist" [⟨"count", "3"⟩] [
    el "input" [⟨"semantic", "VERTEX"⟩, ⟨"source", "#verts"⟩, ⟨"offset", "0"⟩] [],
    tx "vcount" [] "3 4 3",
    tx "p" [] "0 1 2 0 2 3 4 4 5 6"]

end Examples

namespace Examples

/-- A colour source with four columns R, G, B, A and two elements. -/
def rgbaSource : XmlNode :=
  el "source" [⟨"id", "col"⟩, ⟨"name", "Col"⟩] [
    tx "float_array" [⟨"id", "col-array"⟩, ⟨"count", "8"⟩] "1 0 0 0.5 0 1 0 0.25",
    el "technique_common" [] [
      el "accessor" [⟨"source", "#col-array"⟩, ⟨"count", "2"⟩, ⟨"stride", "4"⟩] [
        el "param" [⟨"name", "R"⟩, ⟨"type", "float"⟩] [],
        el "param" [⟨"name", "G"⟩, ⟨"type", "float"⟩] [],
        el "param" [⟨"name", "B"⟩, ⟨"type", "float"⟩] [],
        el "param" [⟨"name", "A"⟩, ⟨"type", "float"⟩] []]]]

/-- A colour source with three columns R, G, B and two elements. -/
def rgbSource : XmlNode :=
  el "source" [⟨"id", "rgb"⟩, ⟨"name", "Rgb"⟩] [
    tx "float_array" [⟨"id", "rgb-array"⟩, ⟨"count", "6"⟩] "1 0 0 0 1 0",
    el "technique_common" [] [
      el "accessor" [⟨"source", "#rgb-array"⟩, ⟨"count", "2"⟩, ⟨"stride", "3"⟩] [
        el "param" [⟨"name", "R"⟩, ⟨"type", "float"⟩] [],
        el "param" [⟨"name", "G"⟩, ⟨"type", "float"⟩] [],
        el "param" [⟨"name", "B"⟩, ⟨"type", "float"⟩] []]]]

/-- The geometry index over the two colour sources. -/
def colourLib : NodeMap :=
  buildLocalIdMap "id" NodeMap.empty (el "library_geometries" [] [rgbaSource, rgbSource])

/-- What `parse_source` decodes from `rgbaSource`. -/
def rgbaDecoded : Mesh_source Dec :=
  { name := "Col", count := some 2, stride := some 4, error := 0
    float_array := [⟨1, 0⟩, ⟨0, 0⟩, ⟨0, 0⟩, ⟨5, 1⟩, ⟨0, 0⟩, ⟨1, 0⟩, ⟨0, 0⟩, ⟨25, 2⟩]
    params := [⟨"R", "float"⟩, ⟨"G", "float"⟩, ⟨"B", "float"⟩, ⟨"A", "float"⟩] }

/-- What `parse_source` decodes from `rgbSource`. -/
def rgbDecoded : Mesh_source Dec :=
  { name := "Rgb", count := some 2, stride := some 3, error := 0
    float_array := [⟨1, 0⟩, ⟨0, 0⟩, ⟨0, 0⟩, ⟨0, 0⟩, ⟨1, 0⟩, ⟨0, 0⟩]
    params := [⟨"R", "float"⟩, ⟨"G", "float"⟩, ⟨"B", "float"⟩] }

end Examples

namespace Examples

/-- A `transparent` element with the given mode and colour text. -/
def transparentNode (mode colour : String) : XmlNode :=
  el "transparent" [⟨"opaque", mode⟩] [tx "color" [] colour]

/-- A shading element without `diffuse`. -/
def phongNode (mode colour : String) : XmlNode :=
  el "phong" [] [transparentNode mode colour]

/-- The technique around `phongNode`. -/
def techniqueNode (mode colour : String) : XmlNode :=
  el "technique" [⟨"sid", "common"⟩] [phongNode mode colour]

/-- The common profile around `techniqueNode`. -/
def profileNode (mode colour : String) : XmlNode :=
  el "profile_COMMON" [] [techniqueNode mode colour]

/-- An effect whose technique has a `transparent` element with the given mode
and colour text, and no `diffuse` element. -/
def transparentEffect (mode colour : String) : XmlNode :=
  el "effect" [⟨"id", "fx"⟩] [profileNode mode colour]

/-- A state whose effect library holds `transparentEffect`. -/
def transparentState (mode colour : String) : Model Dec :=
  { lib_effects := buildLocalIdMap "id" NodeMap.empty
      (el "library_effects" [] [transparentEffect mode colour]) }

end Examples

namespace Examples

/-- A POSITION source with three elements. -/
def positionsSource : XmlNode :=
  el "source" [⟨"id", "pos"⟩] [
    tx "float_array" [⟨"id", "pos-array"⟩, ⟨"count", "9"⟩] "0 0 0 1 0 0 0 1 0",
    el "technique_common" [] [
      el "accessor" [⟨"source", "#pos-array"⟩, ⟨"count", "3"⟩, ⟨"stride", "3"⟩] [
        el "param" [⟨"name", "X"⟩, ⟨"type", "float"⟩] [],
        el "param" [⟨"name", "Y"⟩, ⟨"type", "float"⟩] [],
        el "param" [⟨"name", "Z"⟩, ⟨"type", "float"⟩] []]]]

/-- What `parse_source` decodes from `positionsSource`. -/
def positionsDecoded : Mesh_source Dec :=
  { name := "", count := some 3, stride := some 3, error := 0
    float_array := [⟨0, 0⟩, ⟨0, 0⟩, ⟨0, 0⟩, ⟨1, 0⟩, ⟨0, 0⟩, ⟨0, 0⟩, ⟨0, 0⟩, ⟨1, 0⟩, ⟨0, 0⟩]
    params := [⟨"X", "float"⟩, ⟨"Y", "float"⟩, ⟨"Z", "float"⟩] }

/-- The input of the vertices element. -/
def positionInput : XmlNode :=
  el "input" [⟨"semantic", "POSITION"⟩, ⟨"source", "#pos"⟩] []

/-- The vertices element. -/
def vertsNode : XmlNode := el "vertices" [⟨"id", "verts"⟩] [positionInput]

/-- The VERTEX input of the triangles element. -/
def vertexInput : XmlNode :=
  el "input" [⟨"semantic", "VERTEX"⟩, ⟨"source", "#verts"⟩, ⟨"offset", "0"⟩] []

/-- The index list of the triangles element. -/
def indicesNode (indices : String) : XmlNode := tx "p" [] indices

/-- A triangles element with the given `count` text and index text whose only
input is the VERTEX input. -/
def trianglesNode (count indices : String) : XmlNode :=
  el "triangles" [⟨"count", count⟩] [vertexInput, indicesNode indices]

/-- The mesh: source, vertices, triangles. -/
def meshNode (count indices : String) : XmlNode :=
  el "mesh" [] [positionsSource, vertsNode, trianglesNode count indices]

/-- The geometry with id "g". -/
def geometryNode (count indices : String) : XmlNode :=
  el "geometry" [⟨"id", "g"⟩] [meshNode count indices]

/-- An instance_geometry with the given url. -/
def instanceGeometry (geoUrl : String) : XmlNode :=
  el "instance_geometry" [⟨"url", geoUrl⟩] []

/-- The `instance_visual_scene` of the scene. -/
def instanceVisualScene : XmlNode := el "instance_visual_scene" [⟨"url", "#vs"⟩] []

/-- The scene element. -/
def sceneNode : XmlNode := el "scene" [] [instanceVisualScene]

/-- A COLLADA root with one triangles element under one instance_geometry. -/
def triangleRoot (geoUrl count indices : String) : XmlNode :=
  el "COLLADA" [] [
    el "asset" [] [tx "up_axis" [] "Z_UP"],
    el "library_geometries" [] [geometryNode count indices],
    el "library_visual_scenes" [] [
      el "visual_scene" [⟨"id", "vs"⟩] [el "node" [] [instanceGeometry geoUrl]]],
    sceneNode]

/-- The document around `triangleRoot`. -/
def triangleDoc (geoUrl count indices : String) : List XmlNode :=
  [triangleRoot geoUrl count indices]

/-- The well-formed single triangle document. -/
def goodDoc : List XmlNode := triangleDoc "#g" "1" "0 1 2"

/-- The root of `goodDoc`. -/
def goodRoot : XmlNode := triangleRoot "#g" "1" "0 1 2"

end Examples

/-- The outcome of a load without the model: unit when a model is returned, the
fault otherwise. -/
def loadOutcome {F : Type} [CFloat F] (r : Except Fault (Model F)) : Except Fault Unit :=
  match r with
  | .ok _ => .ok ()
  | .error e => .error e

/-! ## Index channels of a primitive -/

/-- Every index that the triangle loop reads on the channel at `offset`, for
`tri_count` triangles, is below `bound`. -/
def ChannelBelow (index_list : List Nat) (stride tri_count : Nat) (offset : Int)
    (bound : Nat) : Prop :=
  ∀ i j v, i < tri_count → j < 3 →
    vecGet index_list (cornerIndex i stride j offset) = Except.ok v → v < bound

/-- The value `x` is an entry of the index list that the triangle loop reads on
the channel at `offset`. -/
def ReadOn (index_list : List Nat) (stride tri_count : Nat) (offset : Int) (x : Int) : Prop :=
  ∃ i j v, i < tri_count ∧ j < 3 ∧
    vecGet index_list (cornerIndex i stride j offset) = Except.ok v ∧ x = (v : Int)

/-- Every index of the triangle is the sentinel -1 or an entry of the index list
read on the channel of its stream: the VERTEX channel for `position`, the
TEXCOORD channel for `uv`, the COLOR channel for `color`, and for `normal` the
VERTEX channel when normals are aliased, else the NORMAL channel. -/
def TriangleFrom (index_list : List Nat) (stride tri_count : Nat)
    (offsets : Semantics_offsets) (normalsAreInVertices : Bool) (t : Triangle) : Prop :=
  (∀ x ∈ t.position, x = -1 ∨
    (offsets.vertexOffset > -1 ∧ ReadOn index_list stride tri_count offsets.vertexOffset x)) ∧
  (∀ x ∈ t.uv, x = -1 ∨
    (offsets.texCoordOffset > -1 ∧
      ReadOn index_list stride tri_count offsets.texCoordOffset x)) ∧
  (∀ x ∈ t.color, x = -1 ∨
    (offsets.colorOffset > -1 ∧ ReadOn index_list stride tri_count offsets.colorOffset x)) ∧
  (∀ x ∈ t.normal, x = -1 ∨
    (normalsAreInVertices = true ∧
      ReadOn index_list stride tri_count offsets.vertexOffset x) ∨
    (normalsAreInVertices = false ∧ offsets.normalOffset > -1 ∧
      ReadOn index_list stride tri_count offsets.normalOffset x))

/-! ## Well-formed primitives -/

/-- The stride `parse_triangles` computes: the number of indices divided by
`tri_count * 3`, both in `u32`. -/
def primitiveStride (index_list : List Nat) (tri_count : Nat) : Nat :=
  (index_list.length / ((tri_count * 3) % U32_MOD)) % U32_MOD

section WellFormed
variable {F : Type} [CFloat F]

/-- Whatever has been written to `cerr` before, what `parse_source` decodes from
`node` satisfies `P`. -/
def SourceSatisfies (lib_geometries : NodeMap) (node : Option XmlNode)
    (P : Mesh_source F → Prop) : Prop :=
  ∀ cerr0 src cerr1, parse_source lib_geometries node cerr0 = Except.ok (src, cerr1) → P src

/-- The source decoded without error and every index read on the channel at
`offset` is below its element count. -/
def CountBounds (index_list : List Nat) (stride tri_count : Nat) (offset : Int)
    (src : Mesh_source F) : Prop :=
  src.error = 0 ∧
    ∃ cnt, src.count = some cnt ∧ ChannelBelow index_list stride tri_count offset cnt

/-- The vertices element bound by a VERTEX input at `offset`: it has a POSITION
input, every POSITION source has X, Y, Z columns, and the element count of every
POSITION and NORMAL source bounds the indices of the channel. -/
def VerticesOK (F : Type) [CFloat F] (lib_geometries : NodeMap) (index_list : List Nat)
    (stride tri_count : Nat) (offset : Int) (vertices : XmlNode) : Prop :=
  (∃ c ∈ vertices.children, c.name = "input" ∧
    ∃ semAttr srcAttr, findAttribute c "semantic" = some semAttr ∧
      findAttribute c "source" = some srcAttr ∧ semAttr.value = "POSITION") ∧
  ∀ c ∈ vertices.children, c.name = "input" →
    ∀ semAttr srcAttr key, findAttribute c "semantic" = some semAttr →
      findAttribute c "source" = some srcAttr → ID_SUBSTR srcAttr.value = Except.ok key →
      (semAttr.value = "POSITION" →
        SourceSatisfies lib_geometries (lib_geometries key) (fun src : Mesh_source F =>
          CountBounds index_list stride tri_count offset src ∧
          getParamOffset "X" src.params ≠ NOT_FOUND ∧
          getParamOffset "Y" src.params ≠ NOT_FOUND ∧
          getParamOffset "Z" src.params ≠ NOT_FOUND)) ∧
      (semAttr.value = "NORMAL" →
        SourceSatisfies lib_geometries (lib_geometries key) (fun src : Mesh_source F =>
          CountBounds index_list stride tri_count offset src))

/-- What a well-formed primitive asks of one of its children, when the child is
an input with a semantic, a source and an offset `k`: a VERTEX input binds a
`VerticesOK` vertices element; a NORMAL input sits at an offset of at least 1; a
TEXCOORD input has no `set` attribute or set "0"; the sources of NORMAL,
TEXCOORD and COLOR inputs decode without error, carry the columns their
extractor needs, and their element count bounds the indices of channel `k`. -/
def InputOK (F : Type) [CFloat F] (lib_geometries : NodeMap) (index_list : List Nat)
    (stride tri_count : Nat) (c : XmlNode) : Prop :=
  c.name = "input" →
  ∀ semAttr srcAttr offAttr k, findAttribute c "semantic" = some semAttr →
    findAttribute c "source" = some srcAttr →
    findAttribute c "offset" = some offAttr → stoi offAttr.value = Except.ok k →
    (semAttr.value = "VERTEX" →
      ∀ key vertices, ID_SUBSTR srcAttr.value = Except.ok key →
        lib_geometries key = some vertices →
        VerticesOK F lib_geometries index_list stride tri_count k vertices) ∧
    (semAttr.value = "NORMAL" → 1 ≤ k ∧
      ∀ key, ID_SUBSTR srcAttr.value = Except.ok key →
        SourceSatisfies lib_geometries (lib_geometries key) (fun src : Mesh_source F =>
          CountBounds index_list stride tri_count k src)) ∧
    (semAttr.value = "TEXCOORD" →
      (∀ setAttr, findAttribute c "set" = some setAttr → setAttr.value = "0") ∧
      ∀ key, ID_SUBSTR srcAttr.value = Except.ok key →
        SourceSatisfies lib_geometries (lib_geometries key) (fun src : Mesh_source F =>
          CountBounds index_list stride tri_count k src ∧
          getParamOffset "S" src.params ≠ NOT_FOUND ∧
          getParamOffset "T" src.params ≠ NOT_FOUND)) ∧
    (semAttr.value = "COLOR" →
      ∀ key, ID_SUBSTR srcAttr.value = Except.ok key →
        SourceSatisfies lib_geometries (lib_geometries key) (fun src : Mesh_source F =>
          CountBounds index_list stride tri_count k src ∧
          (∀ s, src.stride = some s → 3 ≤ s) ∧
          getParamOffset "R" src.params ≠ NOT_FOUND ∧
          getParamOffset "G" src.params ≠ NOT_FOUND ∧
          getParamOffset "B" src.params ≠ NOT_FOUND))

/-- The child is an input with semantic VERTEX and a source. -/
def isVertexInput (c : XmlNode) : Bool :=
  decide (c.name = "input") &&
    (match findAttribute c "semantic", findAttribute c "source" with
     | some semAttr, some _ => decide (semAttr.value = "VERTEX")
     | _, _ => false)

/-- A well-formed primitive: at most one VERTEX input, and every child is
`InputOK` for the index list, stride and triangle count of the primitive. -/
def WellFormedPrimitive (F : Type) [CFloat F] (lib_geometries : NodeMap) (triangles : XmlNode)
    (index_list : List Nat) (stride tri_count : Nat) : Prop :=
  (triangles.children.filter isVertexInput).length ≤ 1 ∧
  ∀ c ∈ triangles.children, InputOK F lib_geometries index_list stride tri_count c

/-- The invariant of the loop of `parse_triangles_inputs` on a fresh node: each
bound channel is below the length of its stream; `rest` holds the children still
to come. -/
def InputsInv (index_list : List Nat) (stride tri_count : Nat) (rest : List XmlNode)
    (st : InputsState F) : Prop :=
  st.model.triangles = [] ∧
  (st.offsets.vertexOffset > -1 →
    ChannelBelow index_list stride tri_count st.offsets.vertexOffset
      st.model.vertices.length) ∧
  (st.offsets.texCoordOffset > -1 →
    ChannelBelow index_list stride tri_count st.offsets.texCoordOffset
      st.model.texuvs.length) ∧
  (st.offsets.colorOffset > -1 →
    ∃ group, ChannelBelow index_list stride tri_count st.offsets.colorOffset
      (st.model.vertexColors group).length) ∧
  (st.offsets.normalOffset = -1 ∨ 1 ≤ st.offsets.normalOffset) ∧
  (1 ≤ st.offsets.normalOffset →
    ChannelBelow index_list stride tri_count st.offsets.normalOffset
      st.model.normals.length) ∧
  (st.offsets.normalOffset = -1 →
    st.model.normals = [] ∨
      (rest.filter isVertexInput = [] ∧
        ChannelBelow index_list stride tri_count st.offsets.vertexOffset
          st.model.normals.length))

end WellFormed

namespace Examples

/-- A TEXCOORD source with three elements. -/
def uvSource : XmlNode :=
  el "source" [⟨"id", "uv"⟩] [
    tx "float_array" [⟨"id", "uv-array"⟩, ⟨"count", "6"⟩] "0 0 1 0 0 1",
    el "technique_common" [] [
      el "accessor" [⟨"source", "#uv-array"⟩, ⟨"count", "3"⟩, ⟨"stride", "2"⟩] [
        el "param" [⟨"name", "S"⟩, ⟨"type", "float"⟩] [],
        el "param" [⟨"name", "T"⟩, ⟨"type", "float"⟩] []]]]

/-- What `parse_source` decodes from `uvSource`. -/
def uvDecoded : Mesh_source Dec :=
  { name := "", count := some 3, stride := some 2, error := 0
    float_array := [⟨0, 0⟩, ⟨0, 0⟩, ⟨1, 0⟩, ⟨0, 0⟩, ⟨0, 0⟩, ⟨1, 0⟩]
    params := [⟨"S", "float"⟩, ⟨"T", "float"⟩] }

/-- A TEXCOORD input at offset 1 with the given `set`. -/
def texInput (set : String) : XmlNode :=
  el "input" [⟨"semantic", "TEXCOORD"⟩, ⟨"source", "#uv"⟩, ⟨"offset", "1"⟩, ⟨"set", set⟩] []

/-- A triangles element with a VERTEX input at offset 0 and a TEXCOORD input at
offset 1. -/
def trianglesUv (set indices : String) : XmlNode :=
  el "triangles" [⟨"count", "1"⟩] [vertexInput, texInput set, indicesNode indices]

/-- The geometry index over the position source, the uv source and the vertices
element. -/
def uvLib : NodeMap :=
  buildLocalIdMap "id" NodeMap.empty
    (el "library_geometries" [] [
      el "geometry" [⟨"id", "g"⟩] [el "mesh" [] [positionsSource, uvSource, vertsNode]]])

end Examples


/-! ## Documents used for the decoder, extractor and resolver examples -/

namespace Examples

/-- The three parameters X, Y, Z of an accessor. -/
def xyzParams : List XmlNode :=
  [el "param" [⟨"name", "X"⟩, ⟨"type", "float"⟩] [],
   el "param" [⟨"name", "Y"⟩, ⟨"type", "float"⟩] [],
   el "param" [⟨"name", "Z"⟩, ⟨"type", "float"⟩] []]

/-- A source with id "nrm" over the float array "nrm-array" holding `floats`,
whose accessor carries the given attributes and parameters. -/
def sourceWith (accessorAttrs : List XmlAttr) (params : List XmlNode) (floats : String) :
    XmlNode :=
  el "source" [⟨"id", "nrm"⟩] [
    tx "float_array" [⟨"id", "nrm-array"⟩] floats,
    el "technique_common" [] [el "accessor" accessorAttrs params]]

/-- A source whose accessor has `count` and `source` attributes and no `stride`
attribute. -/
def noStrideSource : XmlNode :=
  sourceWith [⟨"source", "#nrm-array"⟩, ⟨"count", "1"⟩] xyzParams "0 0 1"

/-- A source of three normals with stride 3. -/
def normalsSource : XmlNode :=
  sourceWith [⟨"source", "#nrm-array"⟩, ⟨"count", "3"⟩, ⟨"stride", "3"⟩] xyzParams
    "0 0 1 0 1 0 1 0 0"

/-- A source of two normals with stride 4: the columns X, Y, Z and a fourth
column W. -/
def wideNormalsSource : XmlNode :=
  sourceWith [⟨"source", "#nrm-array"⟩, ⟨"count", "2"⟩, ⟨"stride", "4"⟩]
    (xyzParams ++ [el "param" [⟨"name", "W"⟩, ⟨"type", "float"⟩] []])
    "1 0 0 9 0 1 0 9"

/-- A source of one normal whose accessor has no parameter "Z". -/
def flatNormalsSource : XmlNode :=
  sourceWith [⟨"source", "#nrm-array"⟩, ⟨"count", "1"⟩, ⟨"stride", "3"⟩]
    (xyzParams.take 2) "0 0 1"

/-- The geometry index over the position source, the vertices element and the
given source with id "nrm". -/
def libWith (source : XmlNode) : NodeMap :=
  buildLocalIdMap "id" NodeMap.empty
    (el "library_geometries" [] [
      el "geometry" [⟨"id", "g"⟩] [el "mesh" [] [positionsSource, source, vertsNode]]])

/-- A VERTEX input at the given offset. -/
def vertexInputAt (offset : String) : XmlNode :=
  el "input" [⟨"semantic", "VERTEX"⟩, ⟨"source", "#verts"⟩, ⟨"offset", offset⟩] []

/-- A NORMAL input at the given offset. -/
def normalInputAt (offset : String) : XmlNode :=
  el "input" [⟨"semantic", "NORMAL"⟩, ⟨"source", "#nrm"⟩, ⟨"offset", offset⟩] []

/-- A triangles element of one triangle with a NORMAL input and a VERTEX input
at the given offsets. -/
def trianglesNormal (normalOffset vertexOffset indices : String) : XmlNode :=
  el "triangles" [⟨"count", "1"⟩]
    [normalInputAt normalOffset, vertexInputAt vertexOffset, indicesNode indices]

end Examples

namespace Examples

/-- A state whose effect library holds the given effect. -/
def effectState (effect : XmlNode) : Model Dec :=
  { lib_effects := buildLocalIdMap "id" NodeMap.empty (el "library_effects" [] [effect]) }

/-- An effect with id "fx" that has no common profile. -/
def bareEffect : XmlNode := el "effect" [⟨"id", "fx"⟩] []

/-- An effect with id "fx" whose shading element has the given children. -/
def shaderEffect (shaderChildren : List XmlNode) : XmlNode :=
  el "effect" [⟨"id", "fx"⟩] [
    el "profile_COMMON" [] [
      el "technique" [⟨"sid", "common"⟩] [el "phong" [] shaderChildren]]]

/-- A `transparent` element without an `opaque` attribute. -/
def plainTransparent : XmlNode := el "transparent" [] [tx "color" [] "1 1 1 0.5"]

/-- A `diffuse` element with a texture that names the given sampler. -/
def texturedDiffuse (sampler : String) : XmlNode :=
  el "diffuse" [] [el "texture" [⟨"texture", sampler⟩] []]

end Examples

/-! ## Sequences of material resolutions -/

/-- One call in a sequence of calls of `parse_new_material`: the returned pointer
is appended to the pointers returned so far, the state is passed on. -/
def parse_new_material_call {F : Type} [CFloat F] (acc : List (Option Nat) × Model F)
    (mat_node : Option XmlNode) : Except Fault (List (Option Nat) × Model F) := do
  let r ← parse_new_material mat_node acc.2
  pure (acc.1 ++ [r.1], r.2)

/-- The calls `parse_new_material(nodes[0])`, `parse_new_material(nodes[1])`, ...
made one after the other on the same `Model`: the pointers they return, in
order, and the final state. -/
def parse_new_material_calls {F : Type} [CFloat F] (nodes : List (Option XmlNode))
    (st : Model F) : Except Fault (List (Option Nat) × Model F) :=
  nodes.foldlM parse_new_material_call ([], st)

namespace Examples

/-- A material node without a `name` attribute. -/
def matNameless : XmlNode := el "material" [⟨"id", "m3"⟩] []

end Examples

/-! ## Material bindings of a geometry instance -/

/-- The binding an `instance_material` child makes in `parse_geo_material`: the
text of its `symbol` and of its `target` attribute. -/
def materialBinding (child : XmlNode) : Option (String × String) :=
  if child.name = "instance_material" then
    match findAttribute child "target", findAttribute child "symbol" with
    | some mat_tarAttr, some mat_symAttr => some (mat_symAttr.value, mat_tarAttr.value)
    | _, _ => none
  else none

/-- The bindings of an instance_geometry node, in document order: those of the
children of `bind_material/technique_common`. -/
def instanceBindings (geonode : XmlNode) : List (String × String) :=
  match geonode.first_node "bind_material" with
  | some bind_material =>
    match bind_material.first_node "technique_common" with
    | some technique_common => technique_common.children.filterMap materialBinding
    | none => []
  | none => []

/-- The target text of the last binding of `symbol` in a list of bindings, if
there is one. -/
def lastTarget (symbol : String) : List (String × String) → Option String
  | [] => none
  | b :: rest =>
    match lastTarget symbol rest with
    | some target => some target
    | none => if b.1 = symbol then some b.2 else none

namespace Examples

/-- A triangles element of one triangle without inputs, with the given material
symbol. -/
def bareTriangles (symbol : String) : XmlNode :=
  el "triangles" [⟨"count", "1"⟩, ⟨"material", symbol⟩] [indicesNode "0 1 2"]

/-- A geometry with the given id whose mesh holds `bareTriangles`. -/
def bareGeometry (id symbol : String) : XmlNode :=
  el "geometry" [⟨"id", id⟩] [el "mesh" [] [bareTriangles symbol]]

/-- An instance_geometry that binds one material symbol to a target. -/
def boundInstance (geoUrl symbol target : String) : XmlNode :=
  el "instance_geometry" [⟨"url", geoUrl⟩] [
    el "bind_material" [] [
      el "technique_common" [] [
        el "instance_material" [⟨"symbol", symbol⟩, ⟨"target", target⟩] []]]]

/-- A COLLADA root with the material "red", two geometries "g1" and "g2" whose
primitive has material symbol "S", and the given instance_geometry nodes in its
visual scene. -/
def instancesRoot (instances : List XmlNode) : XmlNode :=
  el "COLLADA" [] [
    el "library_materials" [] [matRed],
    el "library_geometries" [] [bareGeometry "g1" "S", bareGeometry "g2" "S"],
    el "library_visual_scenes" [] [
      el "visual_scene" [⟨"id", "vs"⟩] [el "node" [] instances]],
    sceneNode]

end Examples

namespace Examples

/-- A polylist of one face over the indices "0 1 2" with a VERTEX input at
offset 0 and the given `vcount` text. -/
def truncatedPolylist (vcount : String) : XmlNode :=
  el "polylist" [⟨"count", "1"⟩]
    [vertexInputAt "0", tx "vcount" [] vcount, indicesNode "0 1 2"]

end Examples

/-! ## Whitespace separated tokens, by their description -/

/-- The whitespace separated tokens of a string as the spec words them: the
string is split at every whitespace character and the pieces that are not empty
are kept, in order. -/
def wsTokens (str : String) : List String :=
  ((str.data.splitOnP isspace).filter (fun run => !run.isEmpty)).map String.mk

/-! ## The triangle the assembler builds -/

/-- The entry `index_list[i*stride*3 + j*stride + offset]` for corner `j` of
triangle `i` on the channel at a non-negative `offset`, as stored in a `long`. -/
def cornerValue (index_list : List Nat) (stride i j : Nat) (offset : Int) : Int :=
  (index_list.getD (i * stride * 3 + j * stride + offset.toNat) 0 : Nat)

/-- The indices of the three corners of triangle `i` on the channel at `offset`. -/
def channelValues (index_list : List Nat) (stride i : Nat) (offset : Int) : List Int :=
  [cornerValue index_list stride i 0 offset, cornerValue index_list stride i 1 offset,
    cornerValue index_list stride i 2 offset]

/-- Triangle `i` with, on every bound channel, the entries of the index list at
the offset of the channel, and the sentinel on the other channels; the normal
indices are those of the VERTEX channel when normals are aliased. -/
def assembledTriangle (index_list : List Nat) (stride : Nat) (offsets : Semantics_offsets)
    (normalsAreInVertices : Bool) (i : Nat) : Triangle :=
  { position := if offsets.vertexOffset > -1
      then channelValues index_list stride i offsets.vertexOffset else [-1, -1, -1]
    uv := if offsets.texCoordOffset > -1
      then channelValues index_list stride i offsets.texCoordOffset else [-1, -1, -1]
    color := if offsets.colorOffset > -1
      then channelValues index_list stride i offsets.colorOffset else [-1, -1, -1]
    normal := if normalsAreInVertices
      then channelValues index_list stride i offsets.vertexOffset
      else if offsets.normalOffset > -1
        then channelValues index_list stride i offsets.normalOffset else [-1, -1, -1] }

/-- The three reads of triangle `i` on the channel at `offset` fall inside the
index list. -/
def ChannelInside (index_list : List Nat) (stride i : Nat) (offset : Int) : Prop :=
  0 ≤ offset ∧ ∀ j, j < 3 → i * stride * 3 + j * stride + offset.toNat < index_list.length

namespace Examples

/-- A triangles element whose only input is a VERTEX input at the given offset. -/
def trianglesVertexAt (offset count indices : String) : XmlNode :=
  el "triangles" [⟨"count", count⟩] [vertexInputAt offset, indicesNode indices]

/-- What `parse_triangles_inputs` leaves for `trianglesUv "0"`: three vertices,
three texture coordinates, VERTEX at offset 0 and TEXCOORD at offset 1. -/
def uvInputsState : InputsState Dec :=
  { model :=
      { vertices := [⟨⟨0, 0⟩, ⟨0, 0⟩, ⟨0, 0⟩⟩, ⟨⟨1, 0⟩, ⟨0, 0⟩, ⟨0, 0⟩⟩, ⟨⟨0, 0⟩, ⟨1, 0⟩, ⟨0, 0⟩⟩]
        texuvs := [⟨⟨0, 0⟩, ⟨0, 0⟩⟩, ⟨⟨1, 0⟩, ⟨0, 0⟩⟩, ⟨⟨0, 0⟩, ⟨1, 0⟩⟩] }
    offsets := { vertexOffset := 0, texCoordOffset := 1 }
    cerr := [] }

end Examples

/-! ## Parameters of an accessor, by their description -/

/-- The `param` children of an accessor, in document order. -/
def paramChildren (accessor : XmlNode) : List XmlNode :=
  accessor.children.filter (fun c => decide (c.name = "param"))

/-- The `param` children of an accessor that carry both a `name` and a `type`
attribute, in document order. -/
def completeParams (accessor : XmlNode) : List XmlNode :=
  accessor.children.filter (fun c =>
    decide (c.name = "param") && (findAttribute c "name").isSome &&
      (findAttribute c "type").isSome)

/-- The position `k` is that of the first node of `l` whose `name` attribute
is `paramName`. -/
def IsFirstNamed (paramName : String) (l : List XmlNode) (k : Nat) : Prop :=
  (∃ c, l.get? k = some c ∧ carries "name" paramName c = true) ∧
  ∀ k' c', k' < k → l.get? k' = some c' → carries "name" paramName c' = false

namespace Examples

/-- An accessor whose first `param` child has no name: it stands for a column
that is skipped. -/
def skippingAccessor : XmlNode :=
  el "accessor" [⟨"source", "#nrm-array"⟩, ⟨"count", "1"⟩, ⟨"stride", "4"⟩]
    (el "param" [⟨"type", "float"⟩] [] :: xyzParams)

/-- An accessor whose only `param` child has a name and no type. -/
def untypedAccessor : XmlNode :=
  el "accessor" [⟨"source", "#nrm-array"⟩, ⟨"count", "1"⟩, ⟨"stride", "1"⟩]
    [el "param" [⟨"name", "X"⟩] []]

end Examples

namespace Examples

/-- A `diffuse` element with the flat colour (0.2, 0.7, 0.4, 1). -/
def flatDiffuse : XmlNode := el "diffuse" [] [tx "color" [] "0.2 0.7 0.4 1"]

end Examples

/-! ## The scene walk, by its description -/

mutual
/-- The url texts of the `instance_node` elements that the walk of a subtree
meets, in document order; the walk does not look below an `instance_geometry`
or an `instance_node` element. -/
def instanceUrls : XmlNode → List String
  | .mk n v a cs =>
    if n = "instance_geometry" then []
    else if n = "instance_node" then
      (match findAttribute (.mk n v a cs) "url" with
       | some urlAttr => [urlAttr.value]
       | none => [])
    else instanceUrlsList cs
/-- The url texts met in a list of sibling subtrees. -/
def instanceUrlsList : List XmlNode → List String
  | [] => []
  | c :: cs => instanceUrls c ++ instanceUrlsList cs
end

/-- The url text names an entry of the library, and that entry has a level
below `n`. -/
def Resolves (lib_visuals : NodeMap) (level : String → Nat) (n : Nat) (url : String) : Prop :=
  ∃ key target, ID_SUBSTR url = Except.ok key ∧ lib_visuals key = some target ∧ level key < n

/-- Every `instance_node` url met in an entry of the library resolves to an
entry of a lower level: every url resolves and the graph of the `instance_node`
references has no cycle (in a graph without cycles, the length of the longest
chain of references that starts at an entry is such a level). -/
def Layered (lib_visuals : NodeMap) (level : String → Nat) : Prop :=
  ∀ key target, lib_visuals key = some target →
    ∀ url ∈ instanceUrls target, Resolves lib_visuals level (level key) url

mutual
/-- The instance_geometry nodes of a subtree in depth-first order, one entry per
instance path: an `instance_geometry` element gives itself, an `instance_node`
element gives what the entry it names gives (nothing without a url), any other
element gives what its children give, one after the other. -/
inductive SceneWalk (lib_visuals : NodeMap) : XmlNode → List XmlNode → Prop
  | geometry (node : XmlNode) : node.name = "instance_geometry" →
      SceneWalk lib_visuals node [node]
  | unbound (node : XmlNode) : node.name ≠ "instance_geometry" →
      node.name = "instance_node" → findAttribute node "url" = none →
      SceneWalk lib_visuals node []
  | reference (node : XmlNode) (urlAttr : XmlAttr) (key : String) (target : XmlNode)
      (leaves : List XmlNode) : node.name ≠ "instance_geometry" →
      node.name = "instance_node" → findAttribute node "url" = some urlAttr →
      ID_SUBSTR urlAttr.value = Except.ok key → lib_visuals key = some target →
      SceneWalk lib_visuals target leaves → SceneWalk lib_visuals node leaves
  | descend (node : XmlNode) (leaves : List XmlNode) : node.name ≠ "instance_geometry" →
      node.name ≠ "instance_node" → SceneWalkAll lib_visuals node.children leaves →
      SceneWalk lib_visuals node leaves
/-- The instance_geometry nodes of a list of sibling subtrees. -/
inductive SceneWalkAll (lib_visuals : NodeMap) : List XmlNode → List XmlNode → Prop
  | nil : SceneWalkAll lib_visuals [] []
  | cons (c : XmlNode) (cs : List XmlNode) (first rest : List XmlNode) :
      SceneWalk lib_visuals c first → SceneWalkAll lib_visuals cs rest →
      SceneWalkAll lib_visuals (c :: cs) (first ++ rest)
end

/-- A call of `recursivelyFindAllInstanceGeometryNodes` on `x` makes a call on
`y`: `y` is a child of `x`, which is neither an `instance_geometry` nor an
`instance_node` element, or `x` is an `instance_node` element whose url names
the entry `y`. -/
inductive WalkCalls (lib_visuals : NodeMap) : XmlNode → XmlNode → Prop
  | child (x y : XmlNode) : x.name ≠ "instance_geometry" → x.name ≠ "instance_node" →
      y ∈ x.children → WalkCalls lib_visuals x y
  | reference (x y : XmlNode) (urlAttr : XmlAttr) (key : String) :
      x.name ≠ "instance_geometry" → x.name = "instance_node" →
      findAttribute x "url" = some urlAttr → ID_SUBSTR urlAttr.value = Except.ok key →
      lib_visuals key = some y → WalkCalls lib_visuals x y

namespace Examples

/-- A node with id "part" that holds one instance_geometry. -/
def partNode : XmlNode := el "node" [⟨"id", "part"⟩] [instanceGeometry "#g"]

/-- An `instance_node` with the given url. -/
def instanceNode (url : String) : XmlNode := el "instance_node" [⟨"url", url⟩] []

/-- A visual scene that refers to "part" twice. -/
def reuseScene : XmlNode :=
  el "visual_scene" [⟨"id", "vs"⟩] [el "node" [] [instanceNode "#part", instanceNode "#part"]]

/-- The library of `reuseScene` and `partNode`. -/
def reuseLib : NodeMap :=
  fun key => if key = "vs" then some reuseScene else if key = "part" then some partNode else none

/-- The level of the entries of `reuseLib`. -/
def reuseLevel : String → Nat := fun key => if key = "vs" then 1 else 0

/-- A node with id "loop" that refers to itself. -/
def loopNode : XmlNode := el "node" [⟨"id", "loop"⟩] [instanceNode "#loop"]

/-- The library of `loopNode`. -/
def loopLib : NodeMap := fun key => if key = "loop" then some loopNode else none

end Examples

/-- With enough budget for the depth of the recursion (any budget from some
`fuel` on), `recursivelyFindAllInstanceGeometryNodes` called on `current`
returns, having appended `leaves` to the vector it was given. -/
def ReturnsLeaves (lib_visuals : NodeMap) (current : XmlNode) (leaves : List XmlNode) : Prop :=
  ∃ fuel, ∀ fuel', fuel ≤ fuel' → ∀ nodes,
    recursivelyFindAllInstanceGeometryNodes lib_visuals fuel' nodes (some current)
      = Except.ok (nodes ++ leaves)

/-- With enough budget, the loop of `recursivelyFindAllInstanceGeometryNodes` over
the children `cs` returns, having appended `leaves`. -/
def ReturnsLeavesAll (lib_visuals : NodeMap) (cs : List XmlNode) (leaves : List XmlNode) :
    Prop :=
  ∃ fuel, ∀ fuel', fuel ≤ fuel' → ∀ nodes,
    cs.foldlM (fun nodes child =>
        recursivelyFindAllInstanceGeometryNodes lib_visuals fuel' nodes (some child)) nodes
      = Except.ok (nodes ++ leaves)

/-- Every chain of `instance_node` references that starts with `url` resolves
and ends after at most `n` references: `url` names an entry of the library, and
the urls met in that entry do so with `n - 1`.  No url does so when it leads
into a cycle of references. -/
def ResolvesWithin (lib_visuals : NodeMap) : Nat → String → Prop
  | 0, _ => False
  | n + 1, url =>
    ∃ key target, ID_SUBSTR url = Except.ok key ∧ lib_visuals key = some target ∧
      ∀ url' ∈ instanceUrls target, ResolvesWithin lib_visuals n url'

/-! ## The reads of the triangle loop -/

namespace Examples

end Examples
end SimpleCOLLADA

namespace SimpleCOLLADA

/-! ## Up axis (C4) -/

/-- C4: `getUpAxis` gives X_UP, Y_UP, Z_UP for an `asset/up_axis` whose text is
"X_UP", "Y_UP", "Z_UP", INVALID for any other text, and NO_FIND when the
`up_axis` node or the `asset` node is missing. -/
theorem getUpAxis_decodes (COLLADA : XmlNode) :
    (∀ asset up_axis, COLLADA.first_node "asset" = some asset →
      asset.first_node "up_axis" = some up_axis →
        (up_axis.value = "X_UP" → UP_AXIS.ofInt (getUpAxis COLLADA) = UP_AXIS.X_UP) ∧
        (up_axis.value = "Y_UP" → UP_AXIS.ofInt (getUpAxis COLLADA) = UP_AXIS.Y_UP) ∧
        (up_axis.value = "Z_UP" → UP_AXIS.ofInt (getUpAxis COLLADA) = UP_AXIS.Z_UP) ∧
        (up_axis.value ≠ "X_UP" → up_axis.value ≠ "Y_UP" → up_axis.value ≠ "Z_UP" →
          UP_AXIS.ofInt (getUpAxis COLLADA) = UP_AXIS.INVALID)) ∧
    (∀ asset, COLLADA.first_node "asset" = some asset →
      asset.first_node "up_axis" = none →
        UP_AXIS.ofInt (getUpAxis COLLADA) = UP_AXIS.NO_FIND) ∧
    (COLLADA.first_node "asset" = none →
      UP_AXIS.ofInt (getUpAxis COLLADA) = UP_AXIS.NO_FIND) := by
  refine ⟨?_, ?_, ?_⟩
  · intro asset up_axis ha hu
    refine ⟨?_, ?_, ?_, ?_⟩
    · intro hv
      simp [getUpAxis, ha, hu, hv, UP_AXIS.ofInt]
    · intro hv
      simp [getUpAxis, ha, hu, hv, UP_AXIS.ofInt]
    · intro hv
      simp [getUpAxis, ha, hu, hv, UP_AXIS.ofInt]
    · intro hx hy hz
      simp [getUpAxis, ha, hu, hx, hy, hz, UP_AXIS.ofInt]
  · intro asset ha hu
    simp [getUpAxis, ha, hu, UP_AXIS.ofInt]
  · intro ha
    simp [getUpAxis, ha, UP_AXIS.ofInt]

/-- Witness for C4: the six cases on concrete documents. -/
theorem getUpAxis_decodes_witness :
    UP_AXIS.ofInt (getUpAxis (Examples.rootWithAsset [Examples.tx "up_axis" [] "X_UP"]))
      = UP_AXIS.X_UP ∧
    UP_AXIS.ofInt (getUpAxis (Examples.rootWithAsset [Examples.tx "up_axis" [] "Y_UP"]))
      = UP_AXIS.Y_UP ∧
    UP_AXIS.ofInt (getUpAxis (Examples.rootWithAsset [Examples.tx "up_axis" [] "Z_UP"]))
      = UP_AXIS.Z_UP ∧
    UP_AXIS.ofInt (getUpAxis (Examples.rootWithAsset [Examples.tx "up_axis" [] "Bogus"]))
      = UP_AXIS.INVALID ∧
    UP_AXIS.ofInt (getUpAxis (Examples.rootWithAsset [Examples.tx "unit" [] ""]))
      = UP_AXIS.NO_FIND ∧
    UP_AXIS.ofInt (getUpAxis (Examples.el "COLLADA" [] [Examples.el "scene" [] []]))
      = UP_AXIS.NO_FIND :=
  ⟨((getUpAxis_decodes (Examples.rootWithAsset [Examples.tx "up_axis" [] "X_UP"])).1
      (Examples.el "asset" [] [Examples.tx "up_axis" [] "X_UP"])
      (Examples.tx "up_axis" [] "X_UP") (by decide) (by decide)).1 (by decide),
   ((getUpAxis_decodes (Examples.rootWithAsset [Examples.tx "up_axis" [] "Y_UP"])).1
      (Examples.el "asset" [] [Examples.tx "up_axis" [] "Y_UP"])
      (Examples.tx "up_axis" [] "Y_UP") (by decide) (by decide)).2.1 (by decide),
   ((getUpAxis_decodes (Examples.rootWithAsset [Examples.tx "up_axis" [] "Z_UP"])).1
      (Examples.el "asset" [] [Examples.tx "up_axis" [] "Z_UP"])
      (Examples.tx "up_axis" [] "Z_UP") (by decide) (by decide)).2.2.1 (by decide),
   ((getUpAxis_decodes (Examples.rootWithAsset [Examples.tx "up_axis" [] "Bogus"])).1
      (Examples.el "asset" [] [Examples.tx "up_axis" [] "Bogus"])
      (Examples.tx "up_axis" [] "Bogus") (by decide) (by decide)).2.2.2
      (by decide) (by decide) (by decide),
   (getUpAxis_decodes (Examples.rootWithAsset [Examples.tx "unit" [] ""])).2.1
      (Examples.el "asset" [] [Examples.tx "unit" [] ""]) (by decide) (by decide),
   (getUpAxis_decodes (Examples.el "COLLADA" [] [Examples.el "scene" [] []])).2.2 (by decide)⟩

/-! ## The id index (C9, C10) -/

/-- The last carrier over a concatenation is the last carrier of the second
part when there is one, else that of the first part. -/
theorem lastCarrier_append (id_pattern key : String) (xs ys : List XmlNode) :
    lastCarrier id_pattern key (xs ++ ys) =
      (lastCarrier id_pattern key ys).or (lastCarrier id_pattern key xs) := by
  simp [lastCarrier, List.filter_append, List.getLast?_append]

/-- The last carrier of a list that starts with `node`. -/
theorem lastCarrier_cons (id_pattern key : String) (node : XmlNode) (xs : List XmlNode) :
    lastCarrier id_pattern key (node :: xs) =
      (lastCarrier id_pattern key xs).or
        (if carries id_pattern key node then some node else none) := by
  have h := lastCarrier_append id_pattern key [node] xs
  simp only [List.singleton_append] at h
  rw [h]
  by_cases hc : carries id_pattern key node <;> simp [lastCarrier, hc]

mutual
/-- Lookup in the map built from a subtree: the last carrier of the key in the
subtree, and the old entry when the subtree has no carrier. -/
theorem buildLocalIdMap_lookup (id_pattern : String) :
    ∀ (root : XmlNode) (map : NodeMap) (key : String),
      buildLocalIdMap id_pattern map root key =
        (lastCarrier id_pattern key (preorder root)).or (map key)
  | .mk n v a cs, map, key => by
    rw [buildLocalIdMap, preorder, buildLocalIdMap_children_lookup id_pattern cs,
      lastCarrier_cons, Option.or_assoc]
    congr 1
    cases hf : findAttribute (.mk n v a cs) id_pattern with
    | none => simp [carries, hf]
    | some id_attr =>
      by_cases hk : id_attr.value = key
      · simp [carries, hf, hk, NodeMap.set]
      · have hk2 : ¬ key = id_attr.value := fun h => hk h.symm
        simp [carries, hf, hk, hk2, NodeMap.set]
/-- Lookup in the map built from a list of sibling subtrees. -/
theorem buildLocalIdMap_children_lookup (id_pattern : String) :
    ∀ (cs : List XmlNode) (map : NodeMap) (key : String),
      buildLocalIdMap_children id_pattern map cs key =
        (lastCarrier id_pattern key (preorderList cs)).or (map key)
  | [], map, key => by
    simp [buildLocalIdMap_children, preorderList, lastCarrier]
  | c :: cs, map, key => by
    rw [buildLocalIdMap_children, preorderList, buildLocalIdMap_children_lookup id_pattern cs,
      buildLocalIdMap_lookup id_pattern c, lastCarrier_append, Option.or_assoc]
end

/-- C9: started on the empty map, `buildLocalIdMap` yields a map whose keys are
exactly the values of the attribute carried by nodes of the subtree, each key
mapped to the last node in document order that carries it (every node after it
carries another value or no such attribute); the function is total, a repeated
id is simply overwritten. -/
theorem buildLocalIdMap_last_wins (root : XmlNode) (id_pattern key : String) :
    buildLocalIdMap id_pattern NodeMap.empty root key
        = lastCarrier id_pattern key (preorder root) ∧
    (buildLocalIdMap id_pattern NodeMap.empty root key ≠ none ↔
      ∃ node ∈ preorder root, ∃ id_attr,
        findAttribute node id_pattern = some id_attr ∧ id_attr.value = key) ∧
    (∀ node, buildLocalIdMap id_pattern NodeMap.empty root key = some node →
      ∃ before after, preorder root = before ++ node :: after ∧
        (∃ id_attr, findAttribute node id_pattern = some id_attr ∧ id_attr.value = key) ∧
        ∀ later ∈ after, ∀ id_attr,
          findAttribute later id_pattern = some id_attr → id_attr.value ≠ key) := by
  have hcar : ∀ node : XmlNode, carries id_pattern key node = true ↔
      ∃ id_attr, findAttribute node id_pattern = some id_attr ∧ id_attr.value = key := by
    intro node
    unfold carries
    cases findAttribute node id_pattern with
    | none => simp
    | some id_attr => simp
  have hmain : buildLocalIdMap id_pattern NodeMap.empty root key
      = lastCarrier id_pattern key (preorder root) := by
    rw [buildLocalIdMap_lookup]
    simp [NodeMap.empty]
  refine ⟨hmain, ?_, ?_⟩
  · rw [hmain, lastCarrier, ne_eq, List.getLast?_eq_none_iff, List.filter_eq_nil_iff]
    constructor
    · intro h
      by_contra hno
      apply h
      intro node hnode hc
      exact hno ⟨node, hnode, (hcar node).1 hc⟩
    · rintro ⟨node, hnode, hattr⟩ h
      exact h node hnode ((hcar node).2 hattr)
  · intro node hnode
    rw [hmain, lastCarrier, List.getLast?_eq_some_iff] at hnode
    obtain ⟨ys, hys⟩ := hnode
    obtain ⟨l₁, l₂, hl, _, h2⟩ := List.filter_eq_append_iff.1 hys
    obtain ⟨m₁, m₂, hm, _, hcn, hrest⟩ := List.filter_eq_cons_iff.1 h2
    refine ⟨l₁ ++ m₁, m₂, ?_, (hcar node).1 hcn, ?_⟩
    · rw [hl, hm, List.append_assoc]
    · intro later hlater id_attr hfind hval
      have hnil := List.filter_eq_nil_iff.1 hrest later hlater
      exact hnil ((hcar later).2 ⟨id_attr, hfind, hval⟩)

/-- C10: running `buildLocalIdMap` a second time over the same subtree changes
nothing, from any starting map, and so does a second run of `buildLibraryMaps`;
two runs from equal starting maps give equal maps. -/
theorem buildLocalIdMap_twice {F : Type} [CFloat F] (root : XmlNode) (id_pattern : String)
    (map : NodeMap) :
    buildLocalIdMap id_pattern (buildLocalIdMap id_pattern map root) root
        = buildLocalIdMap id_pattern map root ∧
    (∀ map2 : NodeMap, map2 = map →
      buildLocalIdMap id_pattern map2 root = buildLocalIdMap id_pattern map root) ∧
    (∀ st : Model F, buildLibraryMaps root (buildLibraryMaps root st) = buildLibraryMaps root st) := by
  have hidem : ∀ (r : XmlNode) (m : NodeMap),
      buildLocalIdMap id_pattern (buildLocalIdMap id_pattern m r) r
        = buildLocalIdMap id_pattern m r := by
    intro r m
    funext key
    rw [buildLocalIdMap_lookup id_pattern r (buildLocalIdMap id_pattern m r),
      buildLocalIdMap_lookup id_pattern r m]
    cases lastCarrier id_pattern key (preorder r) <;> simp
  refine ⟨hidem root map, ?_, ?_⟩
  · intro map2 h
    rw [h]
  · intro st
    have hlib : ∀ (m : NodeMap) (lib : Option XmlNode),
        buildLibraryMap (buildLibraryMap m lib) lib = buildLibraryMap m lib := by
      intro m lib
      cases lib with
      | none => rfl
      | some l =>
        simp only [buildLibraryMap]
        funext key
        rw [buildLocalIdMap_lookup "id" l (buildLocalIdMap "id" m l),
          buildLocalIdMap_lookup "id" l m]
        cases lastCarrier "id" key (preorder l) <;> simp
    simp only [buildLibraryMaps, hlib]

/-! ## Materials are shared by name (C2) -/

section MaterialLemmas
variable {F : Type} [CFloat F]

/-- A bind after a returned value runs the rest on it. -/
@[simp] theorem bind_ok {ε α β : Type} (a : α) (f : α → Except ε β) :
    (Except.ok a >>= f) = f a := rfl

/-- A bind after a fault is that fault. -/
@[simp] theorem bind_error {ε α β : Type} (e : ε) (f : α → Except ε β) :
    (Except.error e >>= f) = Except.error e := rfl

/-- Returning a value is `Except.ok`. -/
@[simp] theorem pure_eq_ok {ε α : Type} (a : α) : (pure a : Except ε α) = Except.ok a := rfl

/-- Throwing is `Except.error`. -/
@[simp] theorem throw_eq_error {ε α : Type} (e : ε) :
    (throw e : Except ε α) = Except.error e := rfl

/-- A bind that succeeds: the first computation succeeded and so did the rest. -/
theorem bind_eq_ok {α β ε : Type} {first : Except ε α} {rest : α → Except ε β} {out : β}
    (hrun : (first >>= rest) = Except.ok out) :
    ∃ mid, first = Except.ok mid ∧ rest mid = Except.ok out := by
  match first, hrun with
  | Except.ok mid, hrun => exact ⟨mid, rfl, hrun⟩
  | Except.error _, hrun => exact absurd hrun (by simp)

/-- A dereference that returns was of a non-null pointer. -/
theorem deref_eq_ok {α : Type} {o : Option α} {a : α} (h : deref o = Except.ok a) :
    o = some a := by
  cases o with
  | none => simp [deref] at h
  | some b => simp [deref] at h; rw [h]

/-- A subscript that returns read an existing entry. -/
theorem vecGet_eq_ok {α : Type} {v : List α} {i : Nat} {a : α}
    (h : vecGet v i = Except.ok a) : v.get? i = some a := by
  unfold vecGet at h
  split at h
  · rename_i b hb
    simp at h
    rw [hb, h]
  · simp at h

/-- The diffuse branch never changes the name or the transparency. -/
theorem parse_material_diffuse_keeps (lib_images localSidMap : NodeMap) (diffuse : XmlNode)
    (mat : Material F) (cerr : List String) (r : Material F × List String)
    (h : parse_material_diffuse lib_images localSidMap diffuse mat cerr = Except.ok r) :
    r.1.name = mat.name ∧ r.1.transparency = mat.transparency := by
  unfold parse_material_diffuse at h
  split at h
  · split at h
    · obtain ⟨_, _, h⟩ := bind_eq_ok h
      split at h
      · split at h
        · obtain ⟨_, _, h⟩ := bind_eq_ok h
          split at h
          · split at h
            · split at h
              · obtain ⟨_, _, h⟩ := bind_eq_ok h
                simp at h
                subst h
                exact ⟨rfl, rfl⟩
              · simp at h; subst h; exact ⟨rfl, rfl⟩
            · simp at h; subst h; exact ⟨rfl, rfl⟩
          · simp at h; subst h; exact ⟨rfl, rfl⟩
        · simp at h; subst h; exact ⟨rfl, rfl⟩
      · simp at h; subst h; exact ⟨rfl, rfl⟩
    · simp at h; subst h; exact ⟨rfl, rfl⟩
  · split at h
    · obtain ⟨_, _, h⟩ := bind_eq_ok h
      obtain ⟨_, _, h⟩ := bind_eq_ok h
      obtain ⟨_, _, h⟩ := bind_eq_ok h
      simp at h
      subst h
      exact ⟨rfl, rfl⟩
    · simp at h; subst h; exact ⟨rfl, rfl⟩

/-- The transparent branch never changes the name. -/
theorem parse_material_transparent_name (transparent : XmlNode) (mat r : Material F)
    (h : parse_material_transparent transparent mat = Except.ok r) : r.name = mat.name := by
  unfold parse_material_transparent at h
  obtain ⟨_, _, h⟩ := bind_eq_ok h
  split at h
  · split at h
    · obtain ⟨_, _, h⟩ := bind_eq_ok h
      simp at h; subst h; rfl
    · simp at h; subst h; rfl
  · split at h
    · split at h
      · obtain ⟨_, _, h⟩ := bind_eq_ok h
        obtain ⟨_, _, h⟩ := bind_eq_ok h
        obtain ⟨_, _, h⟩ := bind_eq_ok h
        simp at h; subst h; rfl
      · simp at h; subst h; rfl
    · simp at h; subst h; rfl

/-- Resolution through the effect never changes the name. -/
theorem parse_material_effect_name (lib_effects lib_images : NodeMap) (mat_node : XmlNode)
    (mat : Material F) (cerr : List String) (r : Material F × List String)
    (h : parse_material_effect lib_effects lib_images mat_node mat cerr = Except.ok r) :
    r.1.name = mat.name := by
  unfold parse_material_effect at h
  split at h
  · split at h
    · obtain ⟨_, _, h⟩ := bind_eq_ok h
      split at h
      · obtain ⟨_, _, h⟩ := bind_eq_ok h
        split at h
        · split at h
          · obtain ⟨r1, hr1, h⟩ := bind_eq_ok h
            have hn1 : r1.1.name = mat.name := by
              split at hr1
              · exact (parse_material_diffuse_keeps _ _ _ _ _ _ hr1).1
              · simp at hr1; subst hr1; rfl
            split at h
            · obtain ⟨m2, hm2, h⟩ := bind_eq_ok h
              simp at h; subst h
              exact (parse_material_transparent_name _ _ _ hm2).trans hn1
            · simp at h; subst h; exact hn1
          · simp at h; subst h; rfl
        · simp at h; subst h; rfl
      · simp at h; subst h; rfl
    · simp at h; subst h; rfl
  · simp at h; subst h; rfl

/-- The search answers `NOT_FOUND` exactly when no material has the name. -/
theorem doesMaterialNameAlreadyExistFrom_eq_NOT_FOUND (name : String) :
    ∀ (materials : List (Material F)) (i : Nat),
      doesMaterialNameAlreadyExistFrom name materials i = NOT_FOUND ↔
        ∀ m ∈ materials, m.name ≠ name
  | [], i => by simp [doesMaterialNameAlreadyExistFrom]
  | m :: rest, i => by
    unfold doesMaterialNameAlreadyExistFrom
    by_cases hm : m.name = name
    · simp [hm, NOT_FOUND]
    · simp [hm, doesMaterialNameAlreadyExistFrom_eq_NOT_FOUND name rest (i + 1)]

/-- A successful search answers the position of a material with the name. -/
theorem doesMaterialNameAlreadyExistFrom_found (name : String) :
    ∀ (materials : List (Material F)) (i : Nat),
      doesMaterialNameAlreadyExistFrom name materials i ≠ NOT_FOUND →
        ∃ j m, doesMaterialNameAlreadyExistFrom name materials i = ((i + j : Nat) : Int) ∧
          materials.get? j = some m ∧ m.name = name
  | [], i => by simp [doesMaterialNameAlreadyExistFrom]
  | m :: rest, i => by
    intro h
    unfold doesMaterialNameAlreadyExistFrom at h ⊢
    by_cases hm : m.name = name
    · exact ⟨0, m, by simp [hm], rfl, hm⟩
    · simp only [hm, if_false] at h ⊢
      obtain ⟨j, m', hj, hget, hname⟩ :=
        doesMaterialNameAlreadyExistFrom_found name rest (i + 1) h
      refine ⟨j + 1, m', ?_, by simpa using hget, hname⟩
      rw [hj]
      congr 1
      omega

/-- After a material with a new name is appended, the search finds it at the
end. -/
theorem doesMaterialNameAlreadyExistFrom_append (name : String) (mat : Material F)
    (hmat : mat.name = name) :
    ∀ (materials : List (Material F)) (i : Nat), (∀ m ∈ materials, m.name ≠ name) →
      doesMaterialNameAlreadyExistFrom name (materials ++ [mat]) i
        = ((i + materials.length : Nat) : Int)
  | [], i, _ => by simp [doesMaterialNameAlreadyExistFrom, hmat]
  | m :: rest, i, h => by
    have hm : m.name ≠ name := h m (List.mem_cons_self _ _)
    have hrest : ∀ m' ∈ rest, m'.name ≠ name := fun m' hm' => h m' (List.mem_cons_of_mem _ hm')
    rw [List.cons_append, doesMaterialNameAlreadyExistFrom]
    simp only [hm, if_false]
    rw [doesMaterialNameAlreadyExistFrom_append name mat hmat rest (i + 1) hrest]
    congr 1
    simp only [List.length_cons]
    omega

end MaterialLemmas

/-- The material a fresh `parse_new_material` starts from carries the name of
the node. -/
theorem newMaterial_name {F : Type} [CFloat F] (mat_node : XmlNode) :
    (match findAttribute mat_node "name" with
      | some nameAttr => ({ name := nameAttr.value } : Material F)
      | none => {}).name = materialName mat_node := by
  unfold materialName
  cases findAttribute mat_node "name" <;> rfl

/-- C2: when `parse_new_material` has returned for a material node, a call on
any node with the same name returns the identical material (the same position
in `materials`, which holds a material of that name) and leaves the whole state,
the materials list included, unchanged. -/
theorem parse_new_material_same_name {F : Type} [CFloat F] (st st1 : Model F)
    (node1 node2 : XmlNode) (r1 : Option Nat)
    (hname : materialName node1 = materialName node2)
    (h1 : parse_new_material (some node1) st = Except.ok (r1, st1)) :
    parse_new_material (some node2) st1 = Except.ok (r1, st1) ∧
    ∃ i mat, r1 = some i ∧ st1.materials.get? i = some mat ∧ mat.name = materialName node1 := by
  unfold parse_new_material at h1
  simp only [newMaterial_name] at h1
  have hgoal : ∀ i : Nat,
      doesMaterialNameAlreadyExist st1.materials (materialName node1) = (i : Int) →
      r1 = some i →
      parse_new_material (some node2) st1 = Except.ok (r1, st1) := by
    intro i hi hr
    unfold parse_new_material
    simp only [newMaterial_name]
    rw [← hname, hi, hr]
    simp [NOT_FOUND]
  by_cases hfound : doesMaterialNameAlreadyExist st.materials (materialName node1) = NOT_FOUND
  · -- the name is new: the material is appended
    simp only [hfound, ne_eq, not_true_eq_false, if_false] at h1
    obtain ⟨r, hr, h1⟩ := bind_eq_ok h1
    simp only [pure_eq_ok, Except.ok.injEq, Prod.mk.injEq] at h1
    obtain ⟨hr1, hst1⟩ := h1
    have hrname : r.1.name = materialName node1 := by
      have := parse_material_effect_name _ _ _ _ _ _ hr
      rw [this, newMaterial_name]
    have hnone : ∀ m ∈ st.materials, m.name ≠ materialName node1 :=
      (doesMaterialNameAlreadyExistFrom_eq_NOT_FOUND _ _ 0).1 hfound
    have hidx : doesMaterialNameAlreadyExist st1.materials (materialName node1)
        = (st.materials.length : Int) := by
      rw [← hst1]
      unfold doesMaterialNameAlreadyExist
      rw [doesMaterialNameAlreadyExistFrom_append _ r.1 hrname st.materials 0 hnone]
      simp
    refine ⟨hgoal st.materials.length hidx hr1.symm, st.materials.length, r.1, hr1.symm, ?_, hrname⟩
    rw [← hst1]
    simp
  · -- the name is known: the existing material is returned
    simp only [ne_eq, hfound, not_false_eq_true, if_true, pure_eq_ok, Except.ok.injEq,
      Prod.mk.injEq] at h1
    obtain ⟨hr1, hst1⟩ := h1
    subst hst1
    obtain ⟨j, m, hj, hget, hmname⟩ := doesMaterialNameAlreadyExistFrom_found _ _ 0 hfound
    simp only [Nat.zero_add] at hj
    have hj' : doesMaterialNameAlreadyExist st.materials (materialName node1) = (j : Int) := hj
    have hr : r1 = some j := by
      rw [← hr1, hj']
      simp
    exact ⟨hgoal j hj' hr, j, m, hr, hget, hmname⟩

/-- Witness for C2: two nodes named "red" resolved one after the other from the
empty state. -/
theorem parse_new_material_same_name_witness :
    parse_new_material (some Examples.matRedAgain)
        { materials := [{ name := "red" }], cerr := [ERROR_MSG_NO_FIND "effect"] }
      = Except.ok (some 0,
          ({ materials := [{ name := "red" }], cerr := [ERROR_MSG_NO_FIND "effect"] } : Model Dec)) ∧
    ∃ i mat, some 0 = some i ∧
      ({ materials := [{ name := "red" }], cerr := [ERROR_MSG_NO_FIND "effect"] }
        : Model Dec).materials.get? i = some mat ∧
      mat.name = materialName Examples.matRed :=
  parse_new_material_same_name ({} : Model Dec)
    { materials := [{ name := "red" }], cerr := [ERROR_MSG_NO_FIND "effect"] }
    Examples.matRed Examples.matRedAgain (some 0) (by decide) (by rfl)

/-! ## Colour extraction (C5) -/

section ColourLemmas
variable {F : Type} [CFloat F]

/-- A number below 2^64 is its own `size_t`. -/
theorem toSizeT_natCast (k : Nat) (h : k < SIZE_MOD) : toSizeT (k : Int) = k := by
  unfold toSizeT
  unfold SIZE_MOD at *
  omega

/-- Without overflow the element subscript is `i * stride + k`. -/
theorem elemIndex_natCast (i stride k : Nat) (h : i * stride + k < SIZE_MOD) :
    elemIndex i stride (k : Int) = i * stride + k := by
  have hk : k < SIZE_MOD := by omega
  unfold elemIndex
  rw [toSizeT_natCast k hk, Nat.mod_eq_of_lt h]

/-- A subscript below the length returns the entry. -/
theorem vecGet_of_lt {α : Type} (v : List α) (i : Nat) (d : α) (h : i < v.length) :
    vecGet v i = Except.ok (v.getD i d) := by
  unfold vecGet
  simp [List.getD, List.getElem?_eq_getElem h]

/-- A successful parameter search answers a position inside the list. -/
theorem getParamOffsetFrom_found (paramName : String) :
    ∀ (params : List Accessor_param) (i : Nat),
      getParamOffsetFrom paramName params i ≠ NOT_FOUND →
        ∃ j, j < params.length ∧ getParamOffsetFrom paramName params i = ((i + j : Nat) : Int)
  | [], i => by simp [getParamOffsetFrom]
  | p :: rest, i => by
    intro h
    unfold getParamOffsetFrom at h ⊢
    by_cases hp : p.name = paramName
    · exact ⟨0, by simp, by simp [hp]⟩
    · simp only [hp, if_false] at h ⊢
      obtain ⟨j, hj, hval⟩ := getParamOffsetFrom_found paramName rest (i + 1) h
      refine ⟨j + 1, by simpa using hj, ?_⟩
      rw [hval]
      congr 1
      omega

/-- A found parameter offset is a column number below the number of parameters. -/
theorem getParamOffset_found (paramName : String) (params : List Accessor_param)
    (h : getParamOffset paramName params ≠ NOT_FOUND) :
    ∃ k, k < params.length ∧ getParamOffset paramName params = (k : Int) := by
  obtain ⟨j, hj, hval⟩ := getParamOffsetFrom_found paramName params 0 h
  exact ⟨j, hj, by simpa [getParamOffset] using hval⟩

/-- Pushing a colour on a group appends it to the colours of that group. -/
theorem pushVertexColor_lookup (group : String) (vc : VertexColor F) :
    ∀ map : List (String × List (VertexColor F)),
      (match (pushVertexColor map group vc).find? (fun e => e.1 == group) with
        | some e => e.2
        | none => []) =
      (match map.find? (fun e => e.1 == group) with
        | some e => e.2
        | none => []) ++ [vc]
  | [] => by simp [pushVertexColor]
  | (k, l) :: rest => by
    unfold pushVertexColor
    by_cases hk : k = group
    · simp [hk]
    · have hk2 : (k == group) = false := by simpa using hk
      simp only [hk, if_false, List.find?_cons, hk2]
      exact pushVertexColor_lookup group vc rest

/-- Adding a colour to a group appends it to the colours of the group. -/
theorem vertexColors_addVertexColor (model : ModelNode F) (vc : VertexColor F)
    (group : String) :
    (model.addVertexColor vc group).vertexColors group = model.vertexColors group ++ [vc] := by
  unfold ModelNode.addVertexColor ModelNode.vertexColors
  exact pushVertexColor_lookup group vc model.vertexColorMap

/-- The loop of `parse_geo_rgb` over elements whose colour can be read appends
those colours, in order, to the group of the source. -/
theorem parse_geo_rgb_loop (src : Mesh_source F) (stride : Nat)
    (rOffset gOffset bOffset aOffset : Int) (colorOf : Nat → VertexColor F) :
    ∀ (elems : List Nat) (model : ModelNode F),
      (∀ i ∈ elems, parse_geo_rgb_color src stride rOffset gOffset bOffset aOffset i
        = Except.ok (colorOf i)) →
      ∃ model', elems.foldlM
          (parse_geo_rgb_elem src stride rOffset gOffset bOffset aOffset) model
          = Except.ok model' ∧
        model'.vertexColors src.name = model.vertexColors src.name ++ elems.map colorOf
  | [], model, _ => ⟨model, rfl, by simp⟩
  | i :: rest, model, h => by
    have hi := h i (List.mem_cons_self _ _)
    obtain ⟨model', hfold, hcolors⟩ :=
      parse_geo_rgb_loop src stride rOffset gOffset bOffset aOffset colorOf rest
        (model.addVertexColor (colorOf i) src.name)
        (fun i' hi' => h i' (List.mem_cons_of_mem _ hi'))
    refine ⟨model', ?_, ?_⟩
    · simp only [List.foldlM_cons, parse_geo_rgb_elem, hi, bind_ok, pure_eq_ok]
      exact hfold
    · rw [hcolors, vertexColors_addVertexColor]
      simp

end ColourLemmas

/-- C5: for a colour source decoded without error, with R, G and B parameters,
whose parameter columns fit in the stride and whose float array holds
`count * stride` values: with stride 3 and no "A" parameter every appended
colour has alpha 1.0; with stride 4 and an "A" parameter at column `k` the
`i`-th appended colour has alpha `float_array[i * stride + k]`.  In both cases
exactly `count` colours are appended to the group named after the source. -/
theorem parse_geo_rgb_alpha {F : Type} [CFloat F] (lib_geometries : NodeMap)
    (source : Option XmlNode) (model : ModelNode F) (cerr cerr' : List String)
    (src : Mesh_source F) (count stride : Nat)
    (hsrc : parse_source lib_geometries source cerr = Except.ok (src, cerr'))
    (herr : src.error = 0)
    (hcount : src.count = some count) (hstride : src.stride = some stride)
    (hR : getParamOffset "R" src.params ≠ NOT_FOUND)
    (hG : getParamOffset "G" src.params ≠ NOT_FOUND)
    (hB : getParamOffset "B" src.params ≠ NOT_FOUND)
    (hcols : src.params.length ≤ stride)
    (hlen : count * stride ≤ src.float_array.length)
    (hsize : src.float_array.length < SIZE_MOD) :
    (stride = 3 → getParamOffset "A" src.params = NOT_FOUND →
      ∃ model' colors,
        parse_geo_rgb lib_geometries source model cerr = Except.ok (model', cerr') ∧
        model'.vertexColors src.name = model.vertexColors src.name ++ colors ∧
        colors.length = count ∧
        ∀ vc ∈ colors, vc.a = CFloat.one) ∧
    (stride = 4 → ∀ k : Nat, getParamOffset "A" src.params = (k : Int) →
      ∃ model' colors,
        parse_geo_rgb lib_geometries source model cerr = Except.ok (model', cerr') ∧
        model'.vertexColors src.name = model.vertexColors src.name ++ colors ∧
        colors.length = count ∧
        ∀ i, i < count →
          (colors.get? i).map (fun vc => vc.a) = src.float_array.get? (i * stride + k)) := by
  obtain ⟨kr, hkr, hRk⟩ := getParamOffset_found "R" src.params hR
  obtain ⟨kg, hkg, hGk⟩ := getParamOffset_found "G" src.params hG
  obtain ⟨kb, hkb, hBk⟩ := getParamOffset_found "B" src.params hB
  -- every read of a column below the stride stays inside the array
  have hbound : ∀ i k, i < count → k < stride → i * stride + k < src.float_array.length := by
    intro i k hi hk
    have h1 : i * stride + stride ≤ count * stride := by
      have : (i + 1) * stride ≤ count * stride := Nat.mul_le_mul_right _ hi
      simpa [Nat.add_mul] using this
    omega
  have hread : ∀ i k, i < count → k < stride →
      vecGet src.float_array (elemIndex i stride (k : Int))
        = Except.ok (src.float_array.getD (i * stride + k) CFloat.one) := by
    intro i k hi hk
    have hb := hbound i k hi hk
    rw [elemIndex_natCast i stride k (by omega)]
    exact vecGet_of_lt _ _ _ hb
  constructor
  · intro hs3 hA
    have hloop := parse_geo_rgb_loop src stride (kr : Int) (kg : Int) (kb : Int) NOT_FOUND
      (fun i => { r := src.float_array.getD (i * stride + kr) CFloat.one
                  g := src.float_array.getD (i * stride + kg) CFloat.one
                  b := src.float_array.getD (i * stride + kb) CFloat.one })
      (List.range count) model
      (by
        intro i hi
        have hi' : i < count := List.mem_range.1 hi
        simp [parse_geo_rgb_color, hread i kr hi' (by omega), hread i kg hi' (by omega),
          hread i kb hi' (by omega)])
    obtain ⟨model', hfold, hcolors⟩ := hloop
    refine ⟨model', _, ?_, hcolors, by simp, ?_⟩
    · unfold parse_geo_rgb
      simp only [hsrc, bind_ok, hstride, readInit, hcount]
      have h3 : ¬ stride < 3 := by omega
      simp only [NOT_FOUND] at hfold
      simp [h3, herr, hRk, hGk, hBk, hA, NOT_FOUND, hfold]
    · intro vc hvc
      simp only [List.mem_map] at hvc
      obtain ⟨i, _, hvc⟩ := hvc
      rw [← hvc]
  · intro hs4 k hA
    have hAfound : getParamOffset "A" src.params ≠ NOT_FOUND := by
      rw [hA]
      simp [NOT_FOUND]
    obtain ⟨ka, hka, hAk⟩ := getParamOffset_found "A" src.params hAfound
    have hkk : ka = k := by
      rw [hA] at hAk
      exact_mod_cast hAk.symm
    subst hkk
    have hloop := parse_geo_rgb_loop src stride (kr : Int) (kg : Int) (kb : Int) (ka : Int)
      (fun i => { r := src.float_array.getD (i * stride + kr) CFloat.one
                  g := src.float_array.getD (i * stride + kg) CFloat.one
                  b := src.float_array.getD (i * stride + kb) CFloat.one
                  a := src.float_array.getD (i * stride + ka) CFloat.one })
      (List.range count) model
      (by
        intro i hi
        have hi' : i < count := List.mem_range.1 hi
        have hcond : ((ka : Int) ≠ NOT_FOUND ∧ stride > 3) := by
          refine ⟨?_, by omega⟩
          simp [NOT_FOUND]
        simp [parse_geo_rgb_color, hread i kr hi' (by omega), hread i kg hi' (by omega),
          hread i kb hi' (by omega), hread i ka hi' (by omega), hcond])
    obtain ⟨model', hfold, hcolors⟩ := hloop
    refine ⟨model', _, ?_, hcolors, by simp, ?_⟩
    · unfold parse_geo_rgb
      simp only [hsrc, bind_ok, hstride, readInit, hcount]
      have h3 : ¬ stride < 3 := by omega
      simp [h3, herr, hRk, hGk, hBk, hA, NOT_FOUND, hfold]
    · intro i hi
      have hb := hbound i ka hi (by omega)
      simp [List.getElem?_map, List.getElem?_range hi, List.getD, List.getElem?_eq_getElem hb]

/-- Witness for C5: a four column source (alpha read from column 3) and a three
column source (alpha 1.0). -/
theorem parse_geo_rgb_alpha_witness :
    (∃ model' colors,
      parse_geo_rgb Examples.colourLib (some Examples.rgbaSource) ({} : ModelNode Dec) []
        = Except.ok (model', []) ∧
      model'.vertexColors "Col" = ({} : ModelNode Dec).vertexColors "Col" ++ colors ∧
      colors.length = 2 ∧
      ∀ i, i < 2 → (colors.get? i).map (fun vc => vc.a)
        = Examples.rgbaDecoded.float_array.get? (i * 4 + 3)) ∧
    (∃ model' colors,
      parse_geo_rgb Examples.colourLib (some Examples.rgbSource) ({} : ModelNode Dec) []
        = Except.ok (model', []) ∧
      model'.vertexColors "Rgb" = ({} : ModelNode Dec).vertexColors "Rgb" ++ colors ∧
      colors.length = 2 ∧
      ∀ vc ∈ colors, vc.a = CFloat.one) :=
    by
  constructor
  · refine (parse_geo_rgb_alpha Examples.colourLib (some Examples.rgbaSource) {} [] []
      Examples.rgbaDecoded 2 4 ?_ ?_ ?_ ?_ ?_ ?_ ?_ ?_ ?_ ?_).2 rfl 3 ?_
    all_goals decide
  · refine (parse_geo_rgb_alpha Examples.colourLib (some Examples.rgbSource) {} [] []
      Examples.rgbDecoded 2 3 ?_ ?_ ?_ ?_ ?_ ?_ ?_ ?_ ?_ ?_).1 rfl ?_
    all_goals decide

/-- Witness for C9: in a library where the id "a" occurs twice, "a" is mapped to
the second image. -/
theorem buildLocalIdMap_last_wins_witness :
    buildLocalIdMap "id" NodeMap.empty Examples.dupLibrary "a"
      = some (Examples.el "image" [⟨"id", "a"⟩] [Examples.tx "init_from" [] "second.png"]) :=
  (buildLocalIdMap_last_wins Examples.dupLibrary "id" "a").1.trans (by decide)

/-- Witness for C10: a second run over the example library. -/
theorem buildLocalIdMap_twice_witness :
    buildLocalIdMap "id" (buildLocalIdMap "id" NodeMap.empty Examples.dupLibrary)
        Examples.dupLibrary
      = buildLocalIdMap "id" NodeMap.empty Examples.dupLibrary ∧
    buildLocalIdMap "id" NodeMap.empty Examples.dupLibrary
      = buildLocalIdMap "id" NodeMap.empty Examples.dupLibrary :=
  ⟨(buildLocalIdMap_twice (F := Dec) Examples.dupLibrary "id" NodeMap.empty).1,
   (buildLocalIdMap_twice (F := Dec) Examples.dupLibrary "id" NodeMap.empty).2.1
      NodeMap.empty rfl⟩

/-! ## Transparency (C6) -/

/-- The macro `MAX_ABC` answers one of its arguments, and one that none of the three
exceeds when `>` is asymmetric and negatively transitive on them. -/
theorem MAX_ABC_is_max {F : Type} [CFloat F] (a b c : F)
    (hasym : ∀ x ∈ [a, b, c], ∀ y ∈ [a, b, c], CFloat.gt x y = true → CFloat.gt y x = false)
    (hneg : ∀ x ∈ [a, b, c], ∀ y ∈ [a, b, c], ∀ z ∈ [a, b, c],
      CFloat.gt x y = false → CFloat.gt y z = false → CFloat.gt x z = false) :
    MAX_ABC a b c ∈ [a, b, c] ∧ ∀ x ∈ [a, b, c], CFloat.gt x (MAX_ABC a b c) = false := by
  have ma : a ∈ [a, b, c] := by simp
  have mb : b ∈ [a, b, c] := by simp
  have mc : c ∈ [a, b, c] := by simp
  have irr : ∀ x ∈ [a, b, c], CFloat.gt x x = false := by
    intro x hx
    cases h : CFloat.gt x x with
    | false => rfl
    | true => exact (hasym x hx x hx h).symm.trans h ▸ rfl
  have key : ∀ m : F,
      CFloat.gt a m = false → CFloat.gt b m = false → CFloat.gt c m = false →
      ∀ x ∈ [a, b, c], CFloat.gt x m = false := by
    intro m h1 h2 h3 x hx
    simp only [List.mem_cons, List.mem_singleton, List.mem_nil_iff, or_false] at hx
    rcases hx with hx | hx | hx <;> rw [hx] <;> assumption
  have ia := irr a ma
  have ib := irr b mb
  have ic := irr c mc
  have n1 := hneg a ma b mb c mc
  have n2 := hneg a ma c mc b mb
  have s1 := hasym a ma b mb
  have s2 := hasym a ma c mc
  have s3 := hasym b mb c mc
  unfold MAX_ABC
  cases hab : CFloat.gt a b
  · cases hbc : CFloat.gt b c
    · simp only [Bool.false_eq_true, if_false]
      exact ⟨mc, key c (n1 hab hbc) hbc ic⟩
    · simp only [Bool.false_eq_true, if_false, if_true]
      exact ⟨mb, key b hab ib (s3 hbc)⟩
  · cases hac : CFloat.gt a c
    · simp only [Bool.false_eq_true, if_false, if_true]
      have hbc : CFloat.gt b c = false := by
        cases h : CFloat.gt b c with
        | false => rfl
        | true =>
          have h2 := n2 hac (s3 h)
          rw [hab] at h2
          exact absurd h2 (by decide)
      exact ⟨mc, key c hac hbc ic⟩
    · simp only [if_true]
      exact ⟨ma, key a ia (s1 hab) (s2 hac)⟩

/-- C6: a material with a new name whose effect chain resolves up to a
technique with a `transparent` element that has an `opaque` attribute and a
colour of four components (r, g, b, a) is appended with transparency `a` for
"A_ONE", `MAX_ABC r g b` for "RGB_ZERO" (the largest of the three for a
comparison that orders them) and the default 1.0 for any other mode.  The
`diffuse` element, when there is one, is assumed to resolve without fault. -/
theorem parse_new_material_transparency {F : Type} [CFloat F] (st : Model F)
    (mat_node instance_effect effect profile_COMMON technique shader transparent color : XmlNode)
    (urlAttr opaqueAttr : XmlAttr) (key : String) (r g b a : F)
    (hnew : doesMaterialNameAlreadyExist st.materials (materialName mat_node) = NOT_FOUND)
    (hinst : mat_node.first_node "instance_effect" = some instance_effect)
    (hurl : findAttribute instance_effect "url" = some urlAttr)
    (hkey : ID_SUBSTR urlAttr.value = Except.ok key)
    (heffect : st.lib_effects key = some effect)
    (hprofile : effect.first_node "profile_COMMON" = some profile_COMMON)
    (htechnique : profile_COMMON.first_node "technique" = some technique)
    (hshader : technique.first_child = some shader)
    (hdiffuse : ∀ diffuse, shader.first_node "diffuse" = some diffuse →
      ∀ (mat : Material F) (cerr : List String), ∃ rd,
        parse_material_diffuse st.lib_images
          (buildLocalIdMap "sid" NodeMap.empty profile_COMMON) diffuse mat cerr = Except.ok rd)
    (htransparent : shader.first_node "transparent" = some transparent)
    (hmodeAttr : findAttribute transparent "opaque" = some opaqueAttr)
    (hcolor : transparent.first_node "color" = some color)
    (hdata : parse_float_vector color.value = [r, g, b, a]) :
    ∃ st1 mat,
      parse_new_material (some mat_node) st = Except.ok (some st.materials.length, st1) ∧
      st1.materials = st.materials ++ [mat] ∧
      mat.name = materialName mat_node ∧
      (opaqueAttr.value = "A_ONE" → mat.transparency = a) ∧
      (opaqueAttr.value = "RGB_ZERO" → mat.transparency = MAX_ABC r g b ∧
        ((∀ x ∈ [r, g, b], ∀ y ∈ [r, g, b], CFloat.gt x y = true → CFloat.gt y x = false) →
         (∀ x ∈ [r, g, b], ∀ y ∈ [r, g, b], ∀ z ∈ [r, g, b],
            CFloat.gt x y = false → CFloat.gt y z = false → CFloat.gt x z = false) →
         mat.transparency ∈ [r, g, b] ∧
           ∀ x ∈ [r, g, b], CFloat.gt x mat.transparency = false)) ∧
      (opaqueAttr.value ≠ "A_ONE" → opaqueAttr.value ≠ "RGB_ZERO" →
        mat.transparency = CFloat.one) := by
  -- the material before the transparent branch: name and default transparency
  have hpre : ∃ rd : Material F × List String,
      (match shader.first_node "diffuse" with
        | some diffuse => parse_material_diffuse st.lib_images
            (buildLocalIdMap "sid" NodeMap.empty profile_COMMON) diffuse
            (match findAttribute mat_node "name" with
              | some nameAttr => ({ name := nameAttr.value } : Material F)
              | none => {}) st.cerr
        | none => Except.ok ((match findAttribute mat_node "name" with
              | some nameAttr => ({ name := nameAttr.value } : Material F)
              | none => {}), st.cerr)) = Except.ok rd ∧
      rd.1.name = materialName mat_node ∧ rd.1.transparency = CFloat.one := by
    have hdef : (match findAttribute mat_node "name" with
              | some nameAttr => ({ name := nameAttr.value } : Material F)
              | none => {}).transparency = CFloat.one := by
      cases findAttribute mat_node "name" <;> rfl
    cases hd : shader.first_node "diffuse" with
    | none => exact ⟨_, rfl, newMaterial_name mat_node, hdef⟩
    | some diffuse =>
      obtain ⟨rd, hrd⟩ := hdiffuse diffuse hd _ st.cerr
      have hk := parse_material_diffuse_keeps _ _ _ _ _ _ hrd
      exact ⟨rd, hrd, hk.1.trans (newMaterial_name mat_node), hk.2.trans hdef⟩
  obtain ⟨rd, hrd, hrdname, hrdtrans⟩ := hpre
  -- the transparent branch
  have htr : ∃ mat : Material F, parse_material_transparent transparent rd.1 = Except.ok mat ∧
      mat.name = rd.1.name ∧
      (opaqueAttr.value = "A_ONE" → mat.transparency = a) ∧
      (opaqueAttr.value = "RGB_ZERO" → mat.transparency = MAX_ABC r g b) ∧
      (opaqueAttr.value ≠ "A_ONE" → opaqueAttr.value ≠ "RGB_ZERO" →
        mat.transparency = rd.1.transparency) := by
    unfold parse_material_transparent
    simp only [hmodeAttr, deref, bind_ok, hcolor, hdata, vecGet]
    by_cases hA : opaqueAttr.value = "A_ONE"
    · refine ⟨{ rd.1 with transparency := a }, by simp [hA], rfl, fun _ => rfl, ?_, ?_⟩
      · intro hZ
        rw [hA] at hZ
        exact absurd hZ (by decide)
      · intro h
        exact absurd hA h
    · by_cases hZ : opaqueAttr.value = "RGB_ZERO"
      · exact ⟨{ rd.1 with transparency := MAX_ABC r g b }, by simp [hA, hZ], rfl,
          fun h => absurd h hA, fun _ => rfl, fun _ h => absurd hZ h⟩
      · exact ⟨rd.1, by simp [hA, hZ], rfl, fun h => absurd h hA, fun h => absurd h hZ,
          fun _ _ => rfl⟩
  obtain ⟨mat, hmat, hmatname, hmA, hmZ, hmO⟩ := htr
  refine ⟨{ st with materials := st.materials ++ [mat], cerr := rd.2 }, mat, ?_, rfl,
    hmatname.trans hrdname, hmA, ?_, ?_⟩
  · unfold parse_new_material
    simp only [newMaterial_name, hnew, ne_eq, not_true_eq_false, if_false]
    unfold parse_material_effect
    simp only [hinst, hurl, hkey, bind_ok, heffect, hprofile, deref, htechnique, hshader,
      htransparent, pure_eq_ok]
    rw [hrd]
    simp [hmat]
  · intro hZ
    refine ⟨hmZ hZ, ?_⟩
    intro hasym hneg
    rw [hmZ hZ]
    exact MAX_ABC_is_max r g b hasym hneg
  · intro hA hZ
    rw [hmO hA hZ, hrdtrans]

/-- Witness for C6: "A_ONE" with (0, 0, 0, 0.5) gives 0.5 and "RGB_ZERO" with
(0.2, 0.7, 0.4, 1) gives 0.7. -/
theorem parse_new_material_transparency_witness :
    (∃ st1 mat,
      parse_new_material (some Examples.matRed) (Examples.transparentState "A_ONE" "0 0 0 0.5")
        = Except.ok (some 0, st1) ∧
      st1.materials = [mat] ∧ mat.transparency = (CFloat.strtof "0.5" : Dec)) ∧
    (∃ st1 mat,
      parse_new_material (some Examples.matRed)
          (Examples.transparentState "RGB_ZERO" "0.2 0.7 0.4 1")
        = Except.ok (some 0, st1) ∧
      st1.materials = [mat] ∧ mat.transparency = (CFloat.strtof "0.7" : Dec)) := by
  constructor
  · obtain ⟨st1, mat, h1, h2, _, hA, _, _⟩ :=
      parse_new_material_transparency (Examples.transparentState "A_ONE" "0 0 0 0.5")
        Examples.matRed (Examples.el "instance_effect" [⟨"url", "#fx"⟩] [])
        (Examples.transparentEffect "A_ONE" "0 0 0 0.5")
        (Examples.profileNode "A_ONE" "0 0 0 0.5")
        (Examples.techniqueNode "A_ONE" "0 0 0 0.5")
        (Examples.phongNode "A_ONE" "0 0 0 0.5")
        (Examples.transparentNode "A_ONE" "0 0 0 0.5")
        (Examples.tx "color" [] "0 0 0 0.5")
        ⟨"url", "#fx"⟩ ⟨"opaque", "A_ONE"⟩ "fx"
        (⟨0, 0⟩ : Dec) ⟨0, 0⟩ ⟨0, 0⟩ ⟨5, 1⟩
        (by decide) (by decide) (by decide) (by decide) (by decide) (by decide) (by decide)
        (by decide)
        (fun d h => by
          rw [show (Examples.phongNode "A_ONE" "0 0 0 0.5").first_node "diffuse" = none
            from by decide] at h
          cases h)
        (by decide) (by decide) (by decide) (by decide)
    exact ⟨st1, mat, h1, h2, (hA rfl).trans (by decide)⟩
  · obtain ⟨st1, mat, h1, h2, _, _, hZ, _⟩ :=
      parse_new_material_transparency (Examples.transparentState "RGB_ZERO" "0.2 0.7 0.4 1")
        Examples.matRed (Examples.el "instance_effect" [⟨"url", "#fx"⟩] [])
        (Examples.transparentEffect "RGB_ZERO" "0.2 0.7 0.4 1")
        (Examples.profileNode "RGB_ZERO" "0.2 0.7 0.4 1")
        (Examples.techniqueNode "RGB_ZERO" "0.2 0.7 0.4 1")
        (Examples.phongNode "RGB_ZERO" "0.2 0.7 0.4 1")
        (Examples.transparentNode "RGB_ZERO" "0.2 0.7 0.4 1")
        (Examples.tx "color" [] "0.2 0.7 0.4 1")
        ⟨"url", "#fx"⟩ ⟨"opaque", "RGB_ZERO"⟩ "fx"
        (⟨2, 1⟩ : Dec) ⟨7, 1⟩ ⟨4, 1⟩ ⟨1, 0⟩
        (by decide) (by decide) (by decide) (by decide) (by decide) (by decide) (by decide)
        (by decide)
        (fun d h => by
          rw [show (Examples.phongNode "RGB_ZERO" "0.2 0.7 0.4 1").first_node "diffuse" = none
            from by decide] at h
          cases h)
        (by decide) (by decide) (by decide) (by decide)
    exact ⟨st1, mat, h1, h2, (hZ rfl).1.trans (by decide)⟩

/-! ## Loops that skip most children -/

section LoopLemmas
variable {F : Type} [CFloat F]

/-- A loop whose body leaves the state alone on every element is the identity. -/
theorem foldlM_skip {α β : Type} (f : β → α → Except Fault β) :
    ∀ (l : List α) (acc : β), (∀ acc c, c ∈ l → f acc c = Except.ok acc) →
      l.foldlM f acc = Except.ok acc
  | [], _, _ => rfl
  | c :: l, acc, h => by
    rw [List.foldlM_cons, h acc c (List.mem_cons_self _ _), bind_ok]
    exact foldlM_skip f l acc (fun acc c hc => h acc c (List.mem_cons_of_mem _ hc))

/-- A loop whose body leaves the state alone on the elements that fail `p`, over
a list with a single element `x` that passes `p`, is the body at `x`. -/
theorem foldlM_filter_single {α β : Type} (f : β → α → Except Fault β) (p : α → Bool)
    (hskip : ∀ acc c, p c = false → f acc c = Except.ok acc) :
    ∀ (l : List α) (acc : β) (x : α), l.filter p = [x] → l.foldlM f acc = f acc x
  | [], _, _, h => by simp at h
  | c :: l, acc, x, h => by
    rw [List.foldlM_cons]
    cases hp : p c with
    | false =>
      rw [hskip acc c hp, bind_ok]
      apply foldlM_filter_single f p hskip l acc x
      simpa [List.filter_cons, hp] using h
    | true =>
      simp only [List.filter_cons, hp, if_true, List.cons.injEq] at h
      obtain ⟨hc, hl⟩ := h
      subst hc
      have hrest : ∀ acc', l.foldlM f acc' = Except.ok acc' := by
        intro acc'
        apply foldlM_skip
        intro acc'' c' hc'
        apply hskip
        have := List.filter_eq_nil_iff.1 hl c' hc'
        simpa using this
      cases hf : f acc c with
      | error e => rfl
      | ok acc' => exact hrest acc'

/-- The loop of `parse_geo_positions` over elements whose three columns can be
read appends one vertex per element, in order. -/
theorem parse_geo_positions_loop (src : Mesh_source F) (stride : Nat)
    (xOffset yOffset zOffset : Int) (vertexOf : Nat → Vertex F) :
    ∀ (elems : List Nat) (model : ModelNode F),
      (∀ i ∈ elems,
        vecGet src.float_array (elemIndex i stride xOffset) = Except.ok (vertexOf i).x ∧
        vecGet src.float_array (elemIndex i stride yOffset) = Except.ok (vertexOf i).y ∧
        vecGet src.float_array (elemIndex i stride zOffset) = Except.ok (vertexOf i).z) →
      elems.foldlM (parse_geo_positions_elem src stride xOffset yOffset zOffset) model
        = Except.ok { model with vertices := model.vertices ++ elems.map vertexOf }
  | [], model, _ => by simp
  | i :: rest, model, h => by
    obtain ⟨hx, hy, hz⟩ := h i (List.mem_cons_self _ _)
    rw [List.foldlM_cons]
    simp only [parse_geo_positions_elem, hx, hy, hz, bind_ok, pure_eq_ok]
    rw [parse_geo_positions_loop src stride xOffset yOffset zOffset vertexOf rest _
      (fun i' hi' => h i' (List.mem_cons_of_mem _ hi'))]
    simp [ModelNode.addVertex]

/-- The function `parse_geo_positions` on a source that decodes without error, with X, Y, Z
columns inside the stride and `count * stride` floats: exactly `count` vertices
are appended and nothing else changes. -/
theorem parse_geo_positions_ok (lib_geometries : NodeMap) (source : Option XmlNode)
    (model : ModelNode F) (cerr cerr' : List String) (src : Mesh_source F) (count stride : Nat)
    (hsrc : parse_source lib_geometries source cerr = Except.ok (src, cerr'))
    (herr : src.error = 0)
    (hcount : src.count = some count) (hstride : src.stride = some stride)
    (hX : getParamOffset "X" src.params ≠ NOT_FOUND)
    (hY : getParamOffset "Y" src.params ≠ NOT_FOUND)
    (hZ : getParamOffset "Z" src.params ≠ NOT_FOUND)
    (hcols : src.params.length ≤ stride)
    (hlen : count * stride ≤ src.float_array.length)
    (hsize : src.float_array.length < SIZE_MOD) :
    ∃ vs : List (Vertex F), vs.length = count ∧
      parse_geo_positions lib_geometries source model cerr
        = Except.ok ({ model with vertices := model.vertices ++ vs }, cerr') := by
  obtain ⟨kx, hkx, hXk⟩ := getParamOffset_found "X" src.params hX
  obtain ⟨ky, hky, hYk⟩ := getParamOffset_found "Y" src.params hY
  obtain ⟨kz, hkz, hZk⟩ := getParamOffset_found "Z" src.params hZ
  have hread : ∀ i k, i < count → k < stride →
      vecGet src.float_array (elemIndex i stride (k : Int))
        = Except.ok (src.float_array.getD (i * stride + k) CFloat.one) := by
    intro i k hi hk
    have h1 : i * stride + stride ≤ count * stride := by
      have : (i + 1) * stride ≤ count * stride := Nat.mul_le_mul_right _ hi
      simpa [Nat.add_mul] using this
    have hb : i * stride + k < src.float_array.length := by omega
    rw [elemIndex_natCast i stride k (by omega)]
    exact vecGet_of_lt _ _ _ hb
  have hloop := parse_geo_positions_loop src stride (kx : Int) (ky : Int) (kz : Int)
    (fun i => { x := src.float_array.getD (i * stride + kx) CFloat.one
                y := src.float_array.getD (i * stride + ky) CFloat.one
                z := src.float_array.getD (i * stride + kz) CFloat.one })
    (List.range count) model
    (by
      intro i hi
      have hi' : i < count := List.mem_range.1 hi
      exact ⟨hread i kx hi' (by omega), hread i ky hi' (by omega), hread i kz hi' (by omega)⟩)
  refine ⟨(List.range count).map (fun i =>
      { x := src.float_array.getD (i * stride + kx) CFloat.one
        y := src.float_array.getD (i * stride + ky) CFloat.one
        z := src.float_array.getD (i * stride + kz) CFloat.one }), by simp, ?_⟩
  have hc : ((kx : Int) ≠ NOT_FOUND ∧ (ky : Int) ≠ NOT_FOUND ∧ (kz : Int) ≠ NOT_FOUND) := by
    simp [NOT_FOUND]
  unfold parse_geo_positions
  simp only [hsrc, bind_ok, herr, if_true, hXk, hYk, hZk, hcount, hstride, readInit, hloop,
    pure_eq_ok, if_pos hc]

end LoopLemmas

/-! ## One triangle, positions only (C7) -/

section SingleTriangle
variable {F : Type} [CFloat F]

/-- A property that every step of a loop carries over is carried over by the
loop. -/
theorem foldlM_invariant {α β : Type} (f : β → α → Except Fault β) (P : β → Prop)
    (hstep : ∀ acc c acc', f acc c = Except.ok acc' → P acc → P acc') :
    ∀ (l : List α) (acc acc' : β), l.foldlM f acc = Except.ok acc' → P acc → P acc'
  | [], acc, acc', h, hP => by
    simp only [List.foldlM_nil, pure_eq_ok, Except.ok.injEq] at h
    exact h ▸ hP
  | c :: l, acc, acc', h, hP => by
    rw [List.foldlM_cons] at h
    obtain ⟨acc1, h1, h2⟩ := bind_eq_ok h
    exact foldlM_invariant f P hstep l acc1 acc' h2 (hstep acc c acc1 h1 hP)

/-- The function `parse_new_material` touches only `materials` and `cerr`. -/
theorem parse_new_material_frame (mat_node : Option XmlNode) (st st1 : Model F)
    (r : Option Nat) (h : parse_new_material mat_node st = Except.ok (r, st1)) :
    st1.lib_geometries = st.lib_geometries ∧ st1.modelNodes = st.modelNodes := by
  cases mat_node with
  | none =>
    simp only [parse_new_material, pure_eq_ok, Except.ok.injEq, Prod.mk.injEq] at h
    rw [← h.2]
    exact ⟨rfl, rfl⟩
  | some node =>
    unfold parse_new_material at h
    simp only [newMaterial_name] at h
    by_cases hfound : doesMaterialNameAlreadyExist st.materials (materialName node) = NOT_FOUND
    · simp only [hfound, ne_eq, not_true_eq_false, if_false] at h
      obtain ⟨_, _, h⟩ := bind_eq_ok h
      simp only [pure_eq_ok, Except.ok.injEq, Prod.mk.injEq] at h
      rw [← h.2]
      exact ⟨rfl, rfl⟩
    · simp only [ne_eq, hfound, not_false_eq_true, if_true, pure_eq_ok, Except.ok.injEq,
        Prod.mk.injEq] at h
      rw [← h.2]
      exact ⟨rfl, rfl⟩

/-- The function `parse_geo_material` touches only `materialSymbolTargetMap` and `cerr`. -/
theorem parse_geo_material_frame (geonode : XmlNode) (st st1 : Model F)
    (h : parse_geo_material geonode st = Except.ok st1) :
    st1.lib_geometries = st.lib_geometries ∧ st1.modelNodes = st.modelNodes ∧
      st1.materials = st.materials ∧ st1.lib_effects = st.lib_effects ∧
      st1.lib_images = st.lib_images ∧ st1.lib_materials = st.lib_materials := by
  unfold parse_geo_material at h
  split at h
  · split at h
    · refine foldlM_invariant parse_geo_material_child
        (fun s : Model F => s.lib_geometries = st.lib_geometries ∧ s.modelNodes = st.modelNodes ∧
          s.materials = st.materials ∧ s.lib_effects = st.lib_effects ∧
          s.lib_images = st.lib_images ∧ s.lib_materials = st.lib_materials)
        ?_ _ st st1 h ⟨rfl, rfl, rfl, rfl, rfl, rfl⟩
      intro acc c acc' hc hP
      unfold parse_geo_material_child at hc
      split at hc
      · split at hc
        · obtain ⟨_, _, hc⟩ := bind_eq_ok hc
          simp only [pure_eq_ok, Except.ok.injEq] at hc
          rw [← hc]
          exact hP
        · simp only [pure_eq_ok, Except.ok.injEq] at hc
          exact hc ▸ hP
      · simp only [pure_eq_ok, Except.ok.injEq] at hc
        exact hc ▸ hP
    · simp only [pure_eq_ok, Except.ok.injEq] at h
      rw [← h]
      exact ⟨rfl, rfl, rfl, rfl, rfl, rfl⟩
  · simp only [pure_eq_ok, Except.ok.injEq] at h
    rw [← h]
    exact ⟨rfl, rfl, rfl, rfl, rfl, rfl⟩

/-- The `u32` of 1 is 1. -/
theorem toU32_one : toU32 1 = 1 := by decide

/-- The triangle assembled from three indices read at offset 0 with stride 1. -/
theorem parse_triangles_triangle_single (a b c : Nat) :
    parse_triangles_triangle [a, b, c] 1 { vertexOffset := 0 } false 0
      = Except.ok { position := [(a : Int), (b : Int), (c : Int)] } := by
  have h0 : cornerIndex 0 1 0 0 = 0 := by decide
  have h1 : cornerIndex 0 1 1 0 = 1 := by decide
  have h2 : cornerIndex 0 1 2 0 = 2 := by decide
  simp [parse_triangles_triangle, parse_triangles_corner, h0, h1, h2, vecGet]

/-- The function `parse_triangles` on an element with count 1, three indices, and a single
input, a VERTEX input at offset 0 whose vertices element has a single input, a
POSITION input whose source decodes to three elements. -/
theorem parse_triangles_single (lib_geometries : NodeMap)
    (tri p inp verts vinp : XmlNode)
    (countAttr semAttr srcAttr offAttr vsemAttr vsrcAttr : XmlAttr)
    (vKey pKey : String) (src : Mesh_source F) (stride : Nat)
    (model : ModelNode F) (cerr : List String)
    (hnormals : model.normals = [])
    (hcountAttr : findAttribute tri "count" = some countAttr)
    (hcount : stol countAttr.value = Except.ok 1)
    (hp : tri.first_node "p" = some p)
    (hplen : (parse_u32_vector p.value).length = 3)
    (hinputs : tri.children.filter (fun c => decide (c.name = "input")) = [inp])
    (hsem : findAttribute inp "semantic" = some semAttr)
    (hsemv : semAttr.value = "VERTEX")
    (hsrcAttr : findAttribute inp "source" = some srcAttr)
    (hvKey : ID_SUBSTR srcAttr.value = Except.ok vKey)
    (hverts : lib_geometries vKey = some verts)
    (hoffAttr : findAttribute inp "offset" = some offAttr)
    (hoff : stoi offAttr.value = Except.ok 0)
    (hvinputs : verts.children.filter (fun c => decide (c.name = "input")) = [vinp])
    (hvsem : findAttribute vinp "semantic" = some vsemAttr)
    (hvsemv : vsemAttr.value = "POSITION")
    (hvsrcAttr : findAttribute vinp "source" = some vsrcAttr)
    (hpKey : ID_SUBSTR vsrcAttr.value = Except.ok pKey)
    (hdecode : ∀ cerr0, parse_source lib_geometries (lib_geometries pKey) cerr0
      = Except.ok (src, cerr0))
    (herr : src.error = 0)
    (hcount3 : src.count = some 3) (hstride : src.stride = some stride)
    (hX : getParamOffset "X" src.params ≠ NOT_FOUND)
    (hY : getParamOffset "Y" src.params ≠ NOT_FOUND)
    (hZ : getParamOffset "Z" src.params ≠ NOT_FOUND)
    (hcols : src.params.length ≤ stride)
    (hlen : 3 * stride ≤ src.float_array.length)
    (hsize : src.float_array.length < SIZE_MOD) :
    ∃ (vs : List (Vertex F)) (t : Triangle), vs.length = 3 ∧
      t.normal = [-1, -1, -1] ∧ t.uv = [-1, -1, -1] ∧ t.color = [-1, -1, -1] ∧
      t.position = (parse_u32_vector p.value).map (fun n => (n : Int)) ∧
      parse_triangles lib_geometries tri model cerr
        = Except.ok ({ model with vertices := model.vertices ++ vs,
                                  triangles := model.triangles ++ [t] }, cerr) := by
  obtain ⟨vs, hvs, hpos⟩ := parse_geo_positions_ok lib_geometries (lib_geometries pKey) model
    cerr cerr src 3 stride (hdecode cerr) herr hcount3 hstride hX hY hZ hcols hlen hsize
  -- the vertices element
  have hvertsRun : parse_geo_vertices lib_geometries (some verts) model cerr
      = Except.ok ({ model with vertices := model.vertices ++ vs }, cerr) := by
    unfold parse_geo_vertices
    simp only [deref, bind_ok]
    rw [foldlM_filter_single (parse_geo_vertices_child lib_geometries)
      (fun c => decide (c.name = "input")) ?_ verts.children (model, cerr) vinp hvinputs]
    · unfold parse_geo_vertices_child
      have hin : vinp.name = "input" := by
        have hm : vinp ∈ verts.children.filter (fun c => decide (c.name = "input")) := by
          rw [hvinputs]; simp
        simpa using (List.mem_filter.1 hm).2
      simp only [hin, if_true, hvsem, hvsrcAttr, hvsemv, hpKey, bind_ok, hpos]
    · intro acc c hc
      have hne : ¬ c.name = "input" := by simpa using hc
      simp [parse_geo_vertices_child, hne]
  -- the inputs of the primitive
  have hinputsRun : parse_triangles_inputs lib_geometries tri model {} cerr
      = Except.ok { model := { model with vertices := model.vertices ++ vs }
                    offsets := { vertexOffset := 0 }
                    cerr := cerr } := by
    unfold parse_triangles_inputs
    rw [foldlM_filter_single (parse_triangles_inputs_child lib_geometries)
      (fun c => decide (c.name = "input")) ?_ tri.children _ inp hinputs]
    · unfold parse_triangles_inputs_child
      have hin : inp.name = "input" := by
        have hm : inp ∈ tri.children.filter (fun c => decide (c.name = "input")) := by
          rw [hinputs]; simp
        simpa using (List.mem_filter.1 hm).2
      simp only [hin, if_true, hsem, hsrcAttr, hsemv, hvKey, bind_ok, hverts, hvertsRun,
        hoffAttr, deref, hoff, pure_eq_ok]
    · intro acc c hc
      have hne : ¬ c.name = "input" := by simpa using hc
      simp [parse_triangles_inputs_child, hne]
  -- the three indices
  obtain ⟨a, b, c, habc⟩ : ∃ a b c, parse_u32_vector p.value = [a, b, c] := by
    match hl : parse_u32_vector p.value, hplen with
    | [a, b, c], _ => exact ⟨a, b, c, rfl⟩
  refine ⟨vs, { position := [(a : Int), (b : Int), (c : Int)] }, hvs, rfl, rfl, rfl, ?_, ?_⟩
  · rw [habc]
    rfl
  · unfold parse_triangles
    simp only [hp, hcountAttr, hcount, bind_ok, toU32_one, hinputsRun, habc]
    have hd : (1 * 3) % U32_MOD = 3 := by decide
    have hs : (([a, b, c] : List Nat).length / 3) % U32_MOD = 1 := by
      simp [U32_MOD]
    have hn : (decide ((-1 : Int) < 1) && decide (0 < ([] : List (Normal F)).length)) = false := by
      simp
    have h1m : 1 % U32_MOD = 1 := by decide
    simp [hd, hs, h1m, ModelNode.getNumOfNormals, hnormals, List.range_succ,
      parse_triangles_triangle_single, ModelNode.addTriangle]

end SingleTriangle

/-- C7: a document whose scene walk reaches exactly one instance_geometry, whose
geometry's mesh holds one primitive, a triangles element with count 1 and three
indices, with a single input, a VERTEX input at offset 0 bound to a vertices
element whose single input is a POSITION source of three elements with X, Y, Z
columns, loads into exactly one ModelNode with 1 triangle, 3 vertices, no
normals and no texture coordinates; the normal, uv and colour indices of the
triangle are -1 on all three corners.  The material binding of the instance and
the material of the primitive, when there are any, are assumed to resolve
without fault. -/
theorem load_single_triangle {F : Type} [CFloat F] (fuel : Nat) (doc : List XmlNode)
    (root scene ins geonode geometry mesh tri p inp verts vinp : XmlNode)
    (urlAttr geoUrlAttr countAttr semAttr srcAttr offAttr vsemAttr vsrcAttr : XmlAttr)
    (vsKey gKey vKey pKey : String) (lv lg : NodeMap)
    (src : Mesh_source F) (stride : Nat) (st1 : Model F)
    (hdoc : doc.head? = some root)
    (hroot : root.name = "COLLADA")
    (hlv : (buildLibraryMaps root ({} : Model F)).lib_visuals = lv)
    (hlg : (buildLibraryMaps root ({} : Model F)).lib_geometries = lg)
    (hscene : root.first_node "scene" = some scene)
    (hins : scene.first_node "instance_visual_scene" = some ins)
    (hurl : findAttribute ins "url" = some urlAttr)
    (hvsKey : ID_SUBSTR urlAttr.value = Except.ok vsKey)
    (hreach : recursivelyFindAllInstanceGeometryNodes lv fuel [] (lv vsKey)
      = Except.ok [geonode])
    (hbind : parse_geo_material geonode (buildLibraryMaps root ({} : Model F)) = Except.ok st1)
    (hgeoUrl : findAttribute geonode "url" = some geoUrlAttr)
    (hgKey : ID_SUBSTR geoUrlAttr.value = Except.ok gKey)
    (hgeometry : lg gKey = some geometry)
    (hmesh : geometry.first_node "mesh" = some mesh)
    (hprims : mesh.children.filter
      (fun c => decide (c.name = "triangles") || decide (c.name = "polylist")) = [tri])
    (htri : tri.name = "triangles")
    (hmaterial : ∀ matAttr, findAttribute tri "material" = some matAttr →
      ∃ r, parse_new_material (st1.materialSymbolTargetMap matAttr.value) st1 = Except.ok r)
    (hcountAttr : findAttribute tri "count" = some countAttr)
    (hcount : stol countAttr.value = Except.ok 1)
    (hp : tri.first_node "p" = some p)
    (hplen : (parse_u32_vector p.value).length = 3)
    (hinputs : tri.children.filter (fun c => decide (c.name = "input")) = [inp])
    (hsem : findAttribute inp "semantic" = some semAttr)
    (hsemv : semAttr.value = "VERTEX")
    (hsrcAttr : findAttribute inp "source" = some srcAttr)
    (hvKey : ID_SUBSTR srcAttr.value = Except.ok vKey)
    (hverts : lg vKey = some verts)
    (hoffAttr : findAttribute inp "offset" = some offAttr)
    (hoff : stoi offAttr.value = Except.ok 0)
    (hvinputs : verts.children.filter (fun c => decide (c.name = "input")) = [vinp])
    (hvsem : findAttribute vinp "semantic" = some vsemAttr)
    (hvsemv : vsemAttr.value = "POSITION")
    (hvsrcAttr : findAttribute vinp "source" = some vsrcAttr)
    (hpKey : ID_SUBSTR vsrcAttr.value = Except.ok pKey)
    (hdecode : ∀ cerr0, parse_source lg (lg pKey) cerr0 = Except.ok (src, cerr0))
    (herr : src.error = 0)
    (hcount3 : src.count = some 3) (hstride : src.stride = some stride)
    (hX : getParamOffset "X" src.params ≠ NOT_FOUND)
    (hY : getParamOffset "Y" src.params ≠ NOT_FOUND)
    (hZ : getParamOffset "Z" src.params ≠ NOT_FOUND)
    (hcols : src.params.length ≤ stride)
    (hlen : 3 * stride ≤ src.float_array.length)
    (hsize : src.float_array.length < SIZE_MOD) :
    ∃ (st : Model F) (node : ModelNode F) (t : Triangle),
      Model.load fuel doc = Except.ok st ∧
      st.modelNodes = [node] ∧
      node.getNumOfTriangles = 1 ∧ node.triangles = [t] ∧
      node.getNumOfVertices = 3 ∧ node.getNumOfNormals = 0 ∧ node.getNumOfTexCoords = 0 ∧
      t.normal = [-1, -1, -1] ∧ t.uv = [-1, -1, -1] ∧ t.color = [-1, -1, -1] := by
  have hframe := parse_geo_material_frame geonode _ st1 hbind
  have hlg1 : st1.lib_geometries = lg := hframe.1.trans hlg
  have hnodes1 : st1.modelNodes = [] := hframe.2.1
  -- the primitive, in a state `s` that agrees with `st1` on the geometry index
  have hprim : ∀ (s : Model F) (m0 : ModelNode F), s.lib_geometries = lg → s.modelNodes = [] →
      m0.normals = [] → m0.vertices = [] → m0.triangles = [] → m0.texuvs = [] →
      ∃ (node : ModelNode F) (t : Triangle) (cerr2 : List String),
        parse_triangles s.lib_geometries tri m0 s.cerr = Except.ok (node, cerr2) ∧
        node.getNumOfTriangles = 1 ∧ node.triangles = [t] ∧
        node.getNumOfVertices = 3 ∧ node.getNumOfNormals = 0 ∧ node.getNumOfTexCoords = 0 ∧
        t.normal = [-1, -1, -1] ∧ t.uv = [-1, -1, -1] ∧ t.color = [-1, -1, -1] := by
    intro s m0 hs _ hn hv ht hu
    obtain ⟨vs, t, hvs, htn, htu, htc, _, hrun⟩ :=
      parse_triangles_single lg tri p inp verts vinp countAttr semAttr srcAttr offAttr
        vsemAttr vsrcAttr vKey pKey src stride m0 s.cerr hn hcountAttr hcount hp hplen hinputs
        hsem hsemv hsrcAttr hvKey hverts hoffAttr hoff hvinputs hvsem hvsemv hvsrcAttr hpKey
        hdecode herr hcount3 hstride hX hY hZ hcols hlen hsize
    refine ⟨_, t, _, by rw [hs]; exact hrun, ?_, ?_, ?_, ?_, ?_, htn, htu, htc⟩
    · simp [ModelNode.getNumOfTriangles, ht]
    · simp [ht]
    · simp [ModelNode.getNumOfVertices, hv, hvs]
    · simp [ModelNode.getNumOfNormals, hn]
    · simp [ModelNode.getNumOfTexCoords, hu]
  -- the loop body of `parse_geometry` at the primitive
  have hchild : ∃ (st2 : Model F) (node : ModelNode F) (t : Triangle),
      parse_geometry_child st1 tri = Except.ok st2 ∧ st2.modelNodes = [node] ∧
      node.getNumOfTriangles = 1 ∧ node.triangles = [t] ∧
      node.getNumOfVertices = 3 ∧ node.getNumOfNormals = 0 ∧ node.getNumOfTexCoords = 0 ∧
      t.normal = [-1, -1, -1] ∧ t.uv = [-1, -1, -1] ∧ t.color = [-1, -1, -1] := by
    unfold parse_geometry_child
    simp only [htri, if_true]
    unfold parse_geometry_primitive
    cases hm : findAttribute tri "material" with
    | none =>
      obtain ⟨node, t, cerr2, hrun, hrest⟩ := hprim st1 {} hlg1 hnodes1 rfl rfl rfl rfl
      refine ⟨{ st1 with modelNodes := st1.modelNodes ++ [node], cerr := cerr2 }, node, t,
        ?_, ?_, hrest⟩
      · simp only [pure_eq_ok, bind_ok, hrun]
      · simp [hnodes1]
    | some matAttr =>
      obtain ⟨r, hr⟩ := hmaterial matAttr hm
      have hfr := parse_new_material_frame _ st1 r.2 r.1 hr
      obtain ⟨node, t, cerr2, hrun, hrest⟩ :=
        hprim r.2 (({} : ModelNode F).setMaterial r.1) (hfr.1.trans hlg1)
          (hfr.2.trans hnodes1) rfl rfl rfl rfl
      refine ⟨{ r.2 with modelNodes := r.2.modelNodes ++ [node], cerr := cerr2 }, node, t,
        ?_, ?_, hrest⟩
      · simp only [hr, pure_eq_ok, bind_ok, hrun]
      · simp [hfr.2, hnodes1]
  obtain ⟨st2, node, t, hst2, hnodes2, hrest⟩ := hchild
  refine ⟨{ st2 with upAxis := some (UP_AXIS.ofInt (getUpAxis root)) }, node, t, ?_, hnodes2,
    hrest⟩
  have hgeom : parse_geometry (some geometry) st1 = Except.ok st2 := by
    unfold parse_geometry
    simp only [deref, bind_ok, hmesh]
    rw [foldlM_filter_single parse_geometry_child
      (fun c => decide (c.name = "triangles") || decide (c.name = "polylist")) ?_
      mesh.children st1 tri hprims]
    · exact hst2
    · intro acc c hc
      simp only [Bool.or_eq_false_iff, decide_eq_false_iff_not] at hc
      simp [parse_geometry_child, hc.1, hc.2]
  unfold Model.load
  simp only [hdoc, deref, bind_ok, hroot, if_true]
  unfold parse_scene
  simp only [hscene, hins, hurl, hvsKey, bind_ok, hlv, hreach, List.foldlM_cons,
    List.foldlM_nil]
  unfold parse_scene_geonode
  simp only [hbind, bind_ok, hgeoUrl, hgKey, hlg1, hgeometry, hgeom, pure_eq_ok]

/-- Witness for C7: the single triangle document. -/
theorem load_single_triangle_witness :
    ∃ (st : Model Dec) (node : ModelNode Dec) (t : Triangle),
      Model.load 8 Examples.goodDoc = Except.ok st ∧
      st.modelNodes = [node] ∧
      node.getNumOfTriangles = 1 ∧ node.triangles = [t] ∧
      node.getNumOfVertices = 3 ∧ node.getNumOfNormals = 0 ∧ node.getNumOfTexCoords = 0 ∧
      t.normal = [-1, -1, -1] ∧ t.uv = [-1, -1, -1] ∧ t.color = [-1, -1, -1] := by
  apply load_single_triangle (F := Dec) 8 Examples.goodDoc Examples.goodRoot
    Examples.sceneNode Examples.instanceVisualScene (Examples.instanceGeometry "#g")
    (Examples.geometryNode "1" "0 1 2") (Examples.meshNode "1" "0 1 2")
    (Examples.trianglesNode "1" "0 1 2") (Examples.indicesNode "0 1 2")
    Examples.vertexInput Examples.vertsNode Examples.positionInput
    ⟨"url", "#vs"⟩ ⟨"url", "#g"⟩ ⟨"count", "1"⟩ ⟨"semantic", "VERTEX"⟩ ⟨"source", "#verts"⟩
    ⟨"offset", "0"⟩ ⟨"semantic", "POSITION"⟩ ⟨"source", "#pos"⟩
    "vs" "g" "verts" "pos"
    (buildLibraryMaps Examples.goodRoot ({} : Model Dec)).lib_visuals
    (buildLibraryMaps Examples.goodRoot ({} : Model Dec)).lib_geometries
    Examples.positionsDecoded 3
    { buildLibraryMaps Examples.goodRoot ({} : Model Dec) with
      cerr := [ERROR_MSG_NO_FIND "bind_material"] }
  case hmaterial =>
    intro matAttr h
    rw [show findAttribute (Examples.trianglesNode "1" "0 1 2") "material" = none
      from by decide] at h
    cases h
  case hdecode =>
    intro cerr0
    rfl
  all_goals first
    | rfl
    | decide

/-! ## Triangle indices come from the index list (C1) -/

section TriangleLemmas
variable {F : Type} [CFloat F]

/-- A property that every step of a loop carries over, for the elements of the
list, is carried over by the loop. -/
theorem foldlM_invariant_mem {α β : Type} (f : β → α → Except Fault β) (P : β → Prop) :
    ∀ (l : List α) (acc acc' : β),
      (∀ acc c acc', c ∈ l → f acc c = Except.ok acc' → P acc → P acc') →
      l.foldlM f acc = Except.ok acc' → P acc → P acc'
  | [], acc, acc', _, h, hP => by
    simp only [List.foldlM_nil, pure_eq_ok, Except.ok.injEq] at h
    exact h ▸ hP
  | c :: l, acc, acc', hstep, h, hP => by
    rw [List.foldlM_cons] at h
    obtain ⟨acc1, h1, h2⟩ := bind_eq_ok h
    exact foldlM_invariant_mem f P l acc1 acc'
      (fun a c' a' hc' => hstep a c' a' (List.mem_cons_of_mem _ hc'))
      h2 (hstep acc c acc1 (List.mem_cons_self _ _) h1 hP)

/-- One conditional store of the corner loop: the list after the store holds old
entries and possibly the value read. -/
theorem corner_store (index_list : List Nat) (pos : Nat) (cond : Prop) [Decidable cond]
    (tri tri' : Triangle) (upd : Triangle → Int → Triangle)
    (h : (if cond then (vecGet index_list pos >>= fun v => pure (upd tri (v : Int)))
          else pure tri) = Except.ok tri') :
    (¬ cond ∧ tri' = tri) ∨ (cond ∧ ∃ v, vecGet index_list pos = Except.ok v ∧
      tri' = upd tri (v : Int)) := by
  by_cases hc : cond
  · rw [if_pos hc] at h
    obtain ⟨v, hv, h⟩ := bind_eq_ok h
    simp only [pure_eq_ok, Except.ok.injEq] at h
    exact Or.inr ⟨hc, v, hv, h.symm⟩
  · rw [if_neg hc] at h
    simp only [pure_eq_ok, Except.ok.injEq] at h
    exact Or.inl ⟨hc, h.symm⟩

/-- The corner loop keeps `TriangleFrom`. -/
theorem parse_triangles_corner_from (index_list : List Nat) (stride tri_count : Nat)
    (offsets : Semantics_offsets) (nv : Bool) (i j : Nat) (tri tri' : Triangle)
    (hi : i < tri_count) (hj : j < 3)
    (hfrom : TriangleFrom index_list stride tri_count offsets nv tri)
    (h : parse_triangles_corner index_list stride offsets nv i tri j = Except.ok tri') :
    TriangleFrom index_list stride tri_count offsets nv tri' := by
  unfold parse_triangles_corner at h
  obtain ⟨t1, h1, h⟩ := bind_eq_ok h
  obtain ⟨t2, h2, h⟩ := bind_eq_ok h
  obtain ⟨t3, h3, h⟩ := bind_eq_ok h
  obtain ⟨hp, hu, hc, hn⟩ := hfrom
  have hread : ∀ (off : Int) (v : Nat),
      vecGet index_list (cornerIndex i stride j off) = Except.ok v →
      ReadOn index_list stride tri_count off (v : Int) :=
    fun off v hv => ⟨i, j, v, hi, hj, hv, rfl⟩
  -- position
  have f1 : TriangleFrom index_list stride tri_count offsets nv t1 := by
    rcases corner_store index_list _ _ tri t1
      (fun t v => { t with position := t.position.set j v }) h1 with ⟨_, e⟩ | ⟨hc1, v, hv, e⟩
    · rw [e]; exact ⟨hp, hu, hc, hn⟩
    · rw [e]
      refine ⟨?_, hu, hc, hn⟩
      intro x hx
      rcases List.mem_or_eq_of_mem_set hx with hx | hx
      · exact hp x hx
      · exact Or.inr ⟨hc1, hx ▸ hread _ v hv⟩
  obtain ⟨hp, hu, hc, hn⟩ := f1
  -- uv
  have f2 : TriangleFrom index_list stride tri_count offsets nv t2 := by
    rcases corner_store index_list _ _ t1 t2
      (fun t v => { t with uv := t.uv.set j v }) h2 with ⟨_, e⟩ | ⟨hc1, v, hv, e⟩
    · rw [e]; exact ⟨hp, hu, hc, hn⟩
    · rw [e]
      refine ⟨hp, ?_, hc, hn⟩
      intro x hx
      rcases List.mem_or_eq_of_mem_set hx with hx | hx
      · exact hu x hx
      · exact Or.inr ⟨hc1, hx ▸ hread _ v hv⟩
  obtain ⟨hp, hu, hc, hn⟩ := f2
  -- colour
  have f3 : TriangleFrom index_list stride tri_count offsets nv t3 := by
    rcases corner_store index_list _ _ t2 t3
      (fun t v => { t with color := t.color.set j v }) h3 with ⟨_, e⟩ | ⟨hc1, v, hv, e⟩
    · rw [e]; exact ⟨hp, hu, hc, hn⟩
    · rw [e]
      refine ⟨hp, hu, ?_, hn⟩
      intro x hx
      rcases List.mem_or_eq_of_mem_set hx with hx | hx
      · exact hc x hx
      · exact Or.inr ⟨hc1, hx ▸ hread _ v hv⟩
  obtain ⟨hp, hu, hc, hn⟩ := f3
  -- normal
  cases hnv : nv with
  | true =>
    rw [hnv] at h
    simp only [if_true] at h
    obtain ⟨v, hv, h⟩ := bind_eq_ok h
    simp only [pure_eq_ok, Except.ok.injEq] at h
    rw [← h]
    refine ⟨hp, hu, hc, ?_⟩
    intro x hx
    rcases List.mem_or_eq_of_mem_set hx with hx | hx
    · exact hnv ▸ hn x hx
    · exact Or.inr (Or.inl ⟨rfl, hx ▸ hread _ v hv⟩)
  | false =>
    rw [hnv] at h
    simp only [Bool.false_eq_true, if_false] at h
    rcases corner_store index_list _ _ t3 tri'
      (fun t v => { t with normal := t.normal.set j v }) h with ⟨_, e⟩ | ⟨hc1, v, hv, e⟩
    · rw [e]; exact ⟨hp, hu, hc, hnv ▸ hn⟩
    · rw [e]
      refine ⟨hp, hu, hc, ?_⟩
      intro x hx
      rcases List.mem_or_eq_of_mem_set hx with hx | hx
      · exact hnv ▸ hn x hx
      · exact Or.inr (Or.inr ⟨rfl, hc1, hx ▸ hread _ v hv⟩)

/-- Every triangle the loop builds satisfies `TriangleFrom`. -/
theorem parse_triangles_triangle_from (index_list : List Nat) (stride tri_count : Nat)
    (offsets : Semantics_offsets) (nv : Bool) (i : Nat) (tri : Triangle)
    (hi : i < tri_count)
    (h : parse_triangles_triangle index_list stride offsets nv i = Except.ok tri) :
    TriangleFrom index_list stride tri_count offsets nv tri := by
  unfold parse_triangles_triangle at h
  refine foldlM_invariant_mem
    (parse_triangles_corner index_list stride offsets nv i)
    (TriangleFrom index_list stride tri_count offsets nv) [0, 1, 2] {} tri ?_ h ?_
  · intro acc j acc' hj hstep hacc
    have hj3 : j < 3 := by
      simp only [List.mem_cons, List.mem_singleton, List.mem_nil_iff, or_false] at hj
      omega
    exact parse_triangles_corner_from index_list stride tri_count offsets nv i j acc acc'
      hi hj3 hacc hstep
  · refine ⟨?_, ?_, ?_, ?_⟩ <;>
    · intro x hx
      left
      simp only [List.mem_cons, List.mem_singleton, List.mem_nil_iff, or_false, or_self] at hx
      exact hx

end TriangleLemmas

/-! ## What the extractors add to the streams -/

section GrowthLemmas
variable {F : Type} [CFloat F]

/-- A relation between the start of a loop and its current state, indexed by the
number of steps, that every step extends, holds at the end for the length of
the list. -/
theorem foldlM_steps {α β : Type} (f : β → α → Except Fault β) (R : β → β → Nat → Prop)
    (hstep : ∀ a b c x k, R a b k → f b x = Except.ok c → R a c (k + 1)) (a : β) :
    ∀ (l : List α) (b c : β) (k : Nat), R a b k → l.foldlM f b = Except.ok c →
      R a c (k + l.length)
  | [], b, c, k, hR, h => by
    simp only [List.foldlM_nil, pure_eq_ok, Except.ok.injEq] at h
    simpa [← h] using hR
  | x :: l, b, c, k, hR, h => by
    rw [List.foldlM_cons] at h
    obtain ⟨b1, h1, h2⟩ := bind_eq_ok h
    have := foldlM_steps f R hstep a l b1 c (k + 1) (hstep a b b1 x k hR h1) h2
    simpa [Nat.add_assoc, Nat.add_comm 1] using this

/-- A read that returns was of an assigned member. -/
theorem readInit_eq_ok {α : Type} {o : Option α} {a : α} (h : readInit o = Except.ok a) :
    o = some a := by
  cases o with
  | none => simp [readInit] at h
  | some b => simp [readInit] at h; rw [h]

/-- Pushing a colour on a group leaves the other groups alone. -/
theorem pushVertexColor_lookup_ne (group other : String) (vc : VertexColor F)
    (hne : other ≠ group) :
    ∀ map : List (String × List (VertexColor F)),
      (match (pushVertexColor map group vc).find? (fun e => e.1 == other) with
        | some e => e.2
        | none => []) =
      (match map.find? (fun e => e.1 == other) with
        | some e => e.2
        | none => [])
  | [] => by
    have h : (group == other) = false := by simpa using fun h => hne h.symm
    simp [pushVertexColor, h]
  | (k, l) :: rest => by
    unfold pushVertexColor
    by_cases hk : k = group
    · have h : (group == other) = false := by simpa using fun h => hne h.symm
      simp [hk, h]
    · simp only [hk, if_false, List.find?_cons]
      cases hko : (k == other) with
      | true => rfl
      | false => exact pushVertexColor_lookup_ne group other vc hne rest

/-- Pushing a colour never shortens the colour list of any group. -/
theorem vertexColors_addVertexColor_le (model : ModelNode F) (vc : VertexColor F)
    (group other : String) :
    (model.vertexColors other).length ≤ ((model.addVertexColor vc group).vertexColors other).length := by
  by_cases h : other = group
  · rw [h, vertexColors_addVertexColor]
    simp
  · unfold ModelNode.addVertexColor ModelNode.vertexColors
    rw [pushVertexColor_lookup_ne group other vc h]

/-- The function `parse_geo_normals` on return: the source was decoded; with error 0 exactly
`count` normals were appended, otherwise nothing changed; the other streams are
untouched. -/
theorem parse_geo_normals_growth (lib_geometries : NodeMap) (source : Option XmlNode)
    (m m' : ModelNode F) (cerr cerr' : List String)
    (h : parse_geo_normals lib_geometries source m cerr = Except.ok (m', cerr')) :
    ∃ src : Mesh_source F, parse_source lib_geometries source cerr = Except.ok (src, cerr') ∧
      m'.vertices = m.vertices ∧ m'.texuvs = m.texuvs ∧
      m'.vertexColorMap = m.vertexColorMap ∧ m'.triangles = m.triangles ∧
      (src.error ≠ 0 → m'.normals = m.normals) ∧
      (src.error = 0 → ∃ cnt, src.count = some cnt ∧
        m'.normals.length = m.normals.length + cnt) := by
  unfold parse_geo_normals at h
  obtain ⟨r, hr, h⟩ := bind_eq_ok h
  by_cases he : r.1.error = 0
  · rw [if_pos he] at h
    obtain ⟨cnt, hcnt, h⟩ := bind_eq_ok h
    obtain ⟨m1, hloop, h⟩ := bind_eq_ok h
    simp only [pure_eq_ok, Except.ok.injEq, Prod.mk.injEq] at h
    obtain ⟨hm, hc⟩ := h
    subst hm
    have hR := foldlM_steps
      (parse_geo_normals_elem r.1 (getParamOffset "X" r.1.params)
        (getParamOffset "Y" r.1.params) (getParamOffset "Z" r.1.params))
      (fun (a b : ModelNode F) k => b.normals.length = a.normals.length + k ∧
        b.vertices = a.vertices ∧ b.texuvs = a.texuvs ∧
        b.vertexColorMap = a.vertexColorMap ∧ b.triangles = a.triangles)
      (by
        intro a b c x k hab hstep
        unfold parse_geo_normals_elem at hstep
        obtain ⟨_, _, hstep⟩ := bind_eq_ok hstep
        obtain ⟨_, _, hstep⟩ := bind_eq_ok hstep
        obtain ⟨_, _, hstep⟩ := bind_eq_ok hstep
        simp only [pure_eq_ok, Except.ok.injEq] at hstep
        rw [← hstep]
        simp only [ModelNode.addNormal, List.length_append, List.length_singleton]
        exact ⟨by omega, hab.2.1, hab.2.2.1, hab.2.2.2.1, hab.2.2.2.2⟩)
      m (List.range cnt) m m1 0 ⟨rfl, rfl, rfl, rfl, rfl⟩ hloop
    simp only [Nat.zero_add, List.length_range] at hR
    refine ⟨r.1, by rw [hr, ← hc], hR.2.1, hR.2.2.1, hR.2.2.2.1, hR.2.2.2.2, ?_, ?_⟩
    · intro hne
      exact absurd he hne
    · intro _
      exact ⟨cnt, readInit_eq_ok hcnt, hR.1⟩
  · rw [if_neg he] at h
    simp only [pure_eq_ok, Except.ok.injEq, Prod.mk.injEq] at h
    obtain ⟨hm, hc⟩ := h
    subst hm
    exact ⟨r.1, by rw [hr, ← hc], rfl, rfl, rfl, rfl, fun _ => rfl, fun h0 => absurd h0 he⟩

/-- The function `parse_geo_positions` on return: the source was decoded; with error 0 and
X, Y, Z columns exactly `count` vertices were appended, otherwise nothing
changed; the other streams are untouched. -/
theorem parse_geo_positions_growth (lib_geometries : NodeMap) (source : Option XmlNode)
    (m m' : ModelNode F) (cerr cerr' : List String)
    (h : parse_geo_positions lib_geometries source m cerr = Except.ok (m', cerr')) :
    ∃ src : Mesh_source F, parse_source lib_geometries source cerr = Except.ok (src, cerr') ∧
      m'.normals = m.normals ∧ m'.texuvs = m.texuvs ∧
      m'.vertexColorMap = m.vertexColorMap ∧ m'.triangles = m.triangles ∧
      m.vertices.length ≤ m'.vertices.length ∧
      (src.error = 0 → getParamOffset "X" src.params ≠ NOT_FOUND →
        getParamOffset "Y" src.params ≠ NOT_FOUND →
        getParamOffset "Z" src.params ≠ NOT_FOUND →
        ∃ cnt, src.count = some cnt ∧ m'.vertices.length = m.vertices.length + cnt) := by
  unfold parse_geo_positions at h
  obtain ⟨r, hr, h⟩ := bind_eq_ok h
  by_cases he : r.1.error = 0
  · rw [if_pos he] at h
    by_cases hf : getParamOffset "X" r.1.params ≠ NOT_FOUND ∧
        getParamOffset "Y" r.1.params ≠ NOT_FOUND ∧ getParamOffset "Z" r.1.params ≠ NOT_FOUND
    · rw [if_pos hf] at h
      obtain ⟨cnt, hcnt, h⟩ := bind_eq_ok h
      obtain ⟨stride, _, h⟩ := bind_eq_ok h
      obtain ⟨m1, hloop, h⟩ := bind_eq_ok h
      simp only [pure_eq_ok, Except.ok.injEq, Prod.mk.injEq] at h
      obtain ⟨hm, hc⟩ := h
      subst hm
      have hR := foldlM_steps
        (parse_geo_positions_elem r.1 stride (getParamOffset "X" r.1.params)
          (getParamOffset "Y" r.1.params) (getParamOffset "Z" r.1.params))
        (fun (a b : ModelNode F) k => b.vertices.length = a.vertices.length + k ∧
          b.normals = a.normals ∧ b.texuvs = a.texuvs ∧
          b.vertexColorMap = a.vertexColorMap ∧ b.triangles = a.triangles)
        (by
          intro a b c x k hab hstep
          unfold parse_geo_positions_elem at hstep
          obtain ⟨_, _, hstep⟩ := bind_eq_ok hstep
          obtain ⟨_, _, hstep⟩ := bind_eq_ok hstep
          obtain ⟨_, _, hstep⟩ := bind_eq_ok hstep
          simp only [pure_eq_ok, Except.ok.injEq] at hstep
          rw [← hstep]
          simp only [ModelNode.addVertex, List.length_append, List.length_singleton]
          exact ⟨by omega, hab.2.1, hab.2.2.1, hab.2.2.2.1, hab.2.2.2.2⟩)
        m (List.range cnt) m m1 0 ⟨rfl, rfl, rfl, rfl, rfl⟩ hloop
      simp only [Nat.zero_add, List.length_range] at hR
      refine ⟨r.1, by rw [hr, ← hc], hR.2.1, hR.2.2.1, hR.2.2.2.1, hR.2.2.2.2, by omega, ?_⟩
      intro _ _ _ _
      exact ⟨cnt, readInit_eq_ok hcnt, hR.1⟩
    · rw [if_neg hf] at h
      simp only [pure_eq_ok, Except.ok.injEq, Prod.mk.injEq] at h
      obtain ⟨hm, hc⟩ := h
      subst hm
      exact ⟨r.1, by rw [hr, ← hc], rfl, rfl, rfl, rfl, Nat.le_refl _,
        fun _ hx hy hz => absurd ⟨hx, hy, hz⟩ hf⟩
  · rw [if_neg he] at h
    simp only [pure_eq_ok, Except.ok.injEq, Prod.mk.injEq] at h
    obtain ⟨hm, hc⟩ := h
    subst hm
    exact ⟨r.1, by rw [hr, ← hc], rfl, rfl, rfl, rfl, Nat.le_refl _,
      fun h0 => absurd h0 he⟩

/-- The function `parse_geo_texCoords` on return: the source was decoded; with error 0 and
S, T columns exactly `count` texture coordinates were appended, otherwise
nothing changed; the other streams are untouched. -/
theorem parse_geo_texCoords_growth (lib_geometries : NodeMap) (source : Option XmlNode)
    (m m' : ModelNode F) (cerr cerr' : List String)
    (h : parse_geo_texCoords lib_geometries source m cerr = Except.ok (m', cerr')) :
    ∃ src : Mesh_source F, parse_source lib_geometries source cerr = Except.ok (src, cerr') ∧
      m'.normals = m.normals ∧ m'.vertices = m.vertices ∧
      m'.vertexColorMap = m.vertexColorMap ∧ m'.triangles = m.triangles ∧
      m.texuvs.length ≤ m'.texuvs.length ∧
      (src.error = 0 → getParamOffset "S" src.params ≠ NOT_FOUND →
        getParamOffset "T" src.params ≠ NOT_FOUND →
        ∃ cnt, src.count = some cnt ∧ m'.texuvs.length = m.texuvs.length + cnt) := by
  unfold parse_geo_texCoords at h
  obtain ⟨r, hr, h⟩ := bind_eq_ok h
  by_cases he : r.1.error = 0
  · rw [if_pos he] at h
    by_cases hf : getParamOffset "S" r.1.params ≠ NOT_FOUND ∧
        getParamOffset "T" r.1.params ≠ NOT_FOUND
    · rw [if_pos hf] at h
      obtain ⟨cnt, hcnt, h⟩ := bind_eq_ok h
      obtain ⟨stride, _, h⟩ := bind_eq_ok h
      obtain ⟨m1, hloop, h⟩ := bind_eq_ok h
      simp only [pure_eq_ok, Except.ok.injEq, Prod.mk.injEq] at h
      obtain ⟨hm, hc⟩ := h
      subst hm
      have hR := foldlM_steps
        (parse_geo_texCoords_elem r.1 stride (getParamOffset "S" r.1.params)
          (getParamOffset "T" r.1.params))
        (fun (a b : ModelNode F) k => b.texuvs.length = a.texuvs.length + k ∧
          b.normals = a.normals ∧ b.vertices = a.vertices ∧
          b.vertexColorMap = a.vertexColorMap ∧ b.triangles = a.triangles)
        (by
          intro a b c x k hab hstep
          unfold parse_geo_texCoords_elem at hstep
          obtain ⟨_, _, hstep⟩ := bind_eq_ok hstep
          obtain ⟨_, _, hstep⟩ := bind_eq_ok hstep
          simp only [pure_eq_ok, Except.ok.injEq] at hstep
          rw [← hstep]
          simp only [ModelNode.addTextureCoord, List.length_append, List.length_singleton]
          exact ⟨by omega, hab.2.1, hab.2.2.1, hab.2.2.2.1, hab.2.2.2.2⟩)
        m (List.range cnt) m m1 0 ⟨rfl, rfl, rfl, rfl, rfl⟩ hloop
      simp only [Nat.zero_add, List.length_range] at hR
      refine ⟨r.1, by rw [hr, ← hc], hR.2.1, hR.2.2.1, hR.2.2.2.1, hR.2.2.2.2, by omega, ?_⟩
      intro _ _ _
      exact ⟨cnt, readInit_eq_ok hcnt, hR.1⟩
    · rw [if_neg hf] at h
      simp only [pure_eq_ok, Except.ok.injEq, Prod.mk.injEq] at h
      obtain ⟨hm, hc⟩ := h
      subst hm
      exact ⟨r.1, by rw [hr, ← hc], rfl, rfl, rfl, rfl, Nat.le_refl _,
        fun _ hx hy => absurd ⟨hx, hy⟩ hf⟩
  · rw [if_neg he] at h
    simp only [pure_eq_ok, Except.ok.injEq, Prod.mk.injEq] at h
    obtain ⟨hm, hc⟩ := h
    subst hm
    exact ⟨r.1, by rw [hr, ← hc], rfl, rfl, rfl, rfl, Nat.le_refl _,
      fun h0 => absurd h0 he⟩

/-- The function `parse_geo_rgb` on return: the source was decoded; no colour list got
shorter; with error 0, stride at least 3 and R, G, B columns exactly `count`
colours were appended to the group of the source; the other streams are
untouched. -/
theorem parse_geo_rgb_growth (lib_geometries : NodeMap) (source : Option XmlNode)
    (m m' : ModelNode F) (cerr cerr' : List String)
    (h : parse_geo_rgb lib_geometries source m cerr = Except.ok (m', cerr')) :
    ∃ src : Mesh_source F, parse_source lib_geometries source cerr = Except.ok (src, cerr') ∧
      m'.normals = m.normals ∧ m'.vertices = m.vertices ∧
      m'.texuvs = m.texuvs ∧ m'.triangles = m.triangles ∧
      (∀ group, (m.vertexColors group).length ≤ (m'.vertexColors group).length) ∧
      (src.error = 0 → (∀ stride, src.stride = some stride → 3 ≤ stride) →
        getParamOffset "R" src.params ≠ NOT_FOUND →
        getParamOffset "G" src.params ≠ NOT_FOUND →
        getParamOffset "B" src.params ≠ NOT_FOUND →
        ∃ cnt, src.count = some cnt ∧
          (m'.vertexColors src.name).length = (m.vertexColors src.name).length + cnt) := by
  unfold parse_geo_rgb at h
  obtain ⟨r, hr, h⟩ := bind_eq_ok h
  obtain ⟨stride, hstride, h⟩ := bind_eq_ok h
  have hstride' := readInit_eq_ok hstride
  by_cases hs : stride < 3
  · rw [if_pos hs] at h
    simp only [pure_eq_ok, Except.ok.injEq, Prod.mk.injEq] at h
    obtain ⟨hm, hc⟩ := h
    subst hm
    refine ⟨r.1, by rw [hr, ← hc], rfl, rfl, rfl, rfl, fun _ => Nat.le_refl _, ?_⟩
    intro _ h3
    have := h3 stride hstride'
    omega
  · rw [if_neg hs] at h
    by_cases he : r.1.error = 0
    · rw [if_pos he] at h
      by_cases hf : getParamOffset "R" r.1.params ≠ NOT_FOUND ∧
          getParamOffset "G" r.1.params ≠ NOT_FOUND ∧ getParamOffset "B" r.1.params ≠ NOT_FOUND
      · rw [if_pos hf] at h
        obtain ⟨cnt, hcnt, h⟩ := bind_eq_ok h
        obtain ⟨m1, hloop, h⟩ := bind_eq_ok h
        simp only [pure_eq_ok, Except.ok.injEq, Prod.mk.injEq] at h
        obtain ⟨hm, hc⟩ := h
        subst hm
        have hR := foldlM_steps
          (parse_geo_rgb_elem r.1 stride (getParamOffset "R" r.1.params)
            (getParamOffset "G" r.1.params) (getParamOffset "B" r.1.params)
            (getParamOffset "A" r.1.params))
          (fun (a b : ModelNode F) k =>
            (b.vertexColors r.1.name).length = (a.vertexColors r.1.name).length + k ∧
            (∀ group, (a.vertexColors group).length ≤ (b.vertexColors group).length) ∧
            b.normals = a.normals ∧ b.vertices = a.vertices ∧
            b.texuvs = a.texuvs ∧ b.triangles = a.triangles)
          (by
            intro a b c x k hab hstep
            unfold parse_geo_rgb_elem at hstep
            obtain ⟨vc, _, hstep⟩ := bind_eq_ok hstep
            simp only [pure_eq_ok, Except.ok.injEq] at hstep
            rw [← hstep]
            refine ⟨?_, ?_, hab.2.2.1, hab.2.2.2.1, hab.2.2.2.2.1, hab.2.2.2.2.2⟩
            · rw [vertexColors_addVertexColor, List.length_append, hab.1]
              simp only [List.length_singleton]
              omega
            · intro group
              exact Nat.le_trans (hab.2.1 group) (vertexColors_addVertexColor_le b vc _ group))
          m (List.range cnt) m m1 0 ⟨rfl, fun _ => Nat.le_refl _, rfl, rfl, rfl, rfl⟩ hloop
        simp only [Nat.zero_add, List.length_range] at hR
        refine ⟨r.1, by rw [hr, ← hc], hR.2.2.1, hR.2.2.2.1, hR.2.2.2.2.1, hR.2.2.2.2.2,
          hR.2.1, ?_⟩
        intro _ _ _ _ _
        exact ⟨cnt, readInit_eq_ok hcnt, hR.1⟩
      · rw [if_neg hf] at h
        simp only [pure_eq_ok, Except.ok.injEq, Prod.mk.injEq] at h
        obtain ⟨hm, hc⟩ := h
        subst hm
        exact ⟨r.1, by rw [hr, ← hc], rfl, rfl, rfl, rfl, fun _ => Nat.le_refl _,
          fun _ _ hx hy hz => absurd ⟨hx, hy, hz⟩ hf⟩
    · rw [if_neg he] at h
      simp only [pure_eq_ok, Except.ok.injEq, Prod.mk.injEq] at h
      obtain ⟨hm, hc⟩ := h
      subst hm
      exact ⟨r.1, by rw [hr, ← hc], rfl, rfl, rfl, rfl, fun _ => Nat.le_refl _,
        fun h0 => absurd h0 he⟩

end GrowthLemmas

/-! ## The inputs of a well-formed primitive -/

section InputsLemmas
variable {F : Type} [CFloat F]

/-- A channel below a bound is below every larger bound. -/
theorem ChannelBelow.mono {index_list : List Nat} {stride tri_count : Nat} {offset : Int}
    {b b' : Nat} (h : ChannelBelow index_list stride tri_count offset b) (hb : b ≤ b') :
    ChannelBelow index_list stride tri_count offset b' :=
  fun i j v hi hj hv => Nat.lt_of_lt_of_le (h i j v hi hj hv) hb

/-- The loop of `parse_geo_vertices` over a list of inputs that are all fine for
the channel at `offset`: the vertices and normals only grow, the other streams
stay; when the list holds a POSITION input the channel is below the number of
vertices; the number of normals is unchanged or bounds the channel. -/
theorem parse_geo_vertices_loop (lib_geometries : NodeMap) (index_list : List Nat)
    (stride tri_count : Nat) (offset : Int) :
    ∀ (l : List XmlNode) (acc acc' : ModelNode F × List String),
      (∀ c ∈ l, c.name = "input" →
        ∀ semAttr srcAttr key, findAttribute c "semantic" = some semAttr →
          findAttribute c "source" = some srcAttr → ID_SUBSTR srcAttr.value = Except.ok key →
          (semAttr.value = "POSITION" →
            SourceSatisfies lib_geometries (lib_geometries key) (fun src : Mesh_source F =>
              CountBounds index_list stride tri_count offset src ∧
              getParamOffset "X" src.params ≠ NOT_FOUND ∧
              getParamOffset "Y" src.params ≠ NOT_FOUND ∧
              getParamOffset "Z" src.params ≠ NOT_FOUND)) ∧
          (semAttr.value = "NORMAL" →
            SourceSatisfies lib_geometries (lib_geometries key) (fun src : Mesh_source F =>
              CountBounds index_list stride tri_count offset src))) →
      l.foldlM (parse_geo_vertices_child lib_geometries) acc = Except.ok acc' →
      acc'.1.texuvs = acc.1.texuvs ∧ acc'.1.vertexColorMap = acc.1.vertexColorMap ∧
      acc'.1.triangles = acc.1.triangles ∧
      acc.1.vertices.length ≤ acc'.1.vertices.length ∧
      acc.1.normals.length ≤ acc'.1.normals.length ∧
      ((∃ c ∈ l, c.name = "input" ∧
        ∃ semAttr srcAttr, findAttribute c "semantic" = some semAttr ∧
          findAttribute c "source" = some srcAttr ∧ semAttr.value = "POSITION") →
        ChannelBelow index_list stride tri_count offset acc'.1.vertices.length) ∧
      (acc'.1.normals.length = acc.1.normals.length ∨
        ChannelBelow index_list stride tri_count offset acc'.1.normals.length)
  | [], acc, acc', _, h => by
    simp only [List.foldlM_nil, pure_eq_ok, Except.ok.injEq] at h
    subst h
    refine ⟨rfl, rfl, rfl, Nat.le_refl _, Nat.le_refl _, ?_, Or.inl rfl⟩
    rintro ⟨c, hc, _⟩
    simp at hc
  | c :: rest, acc, acc', hok, h => by
    rw [List.foldlM_cons] at h
    obtain ⟨acc1, hstep, hrest⟩ := bind_eq_ok h
    obtain ⟨ih1, ih2, ih3, ih4, ih5, ih6, ih7⟩ :=
      parse_geo_vertices_loop lib_geometries index_list stride tri_count offset rest acc1 acc'
        (fun c' hc' => hok c' (List.mem_cons_of_mem _ hc')) hrest
    -- what the step at `c` does
    have hc : acc1.1.texuvs = acc.1.texuvs ∧ acc1.1.vertexColorMap = acc.1.vertexColorMap ∧
        acc1.1.triangles = acc.1.triangles ∧
        acc.1.vertices.length ≤ acc1.1.vertices.length ∧
        acc.1.normals.length ≤ acc1.1.normals.length ∧
        ((c.name = "input" ∧
          ∃ semAttr srcAttr, findAttribute c "semantic" = some semAttr ∧
            findAttribute c "source" = some srcAttr ∧ semAttr.value = "POSITION") →
          ChannelBelow index_list stride tri_count offset acc1.1.vertices.length) ∧
        (acc1.1.normals.length = acc.1.normals.length ∨
          ChannelBelow index_list stride tri_count offset acc1.1.normals.length) := by
      have hsame : acc1 = acc →
          ¬ (c.name = "input" ∧
            ∃ semAttr srcAttr, findAttribute c "semantic" = some semAttr ∧
              findAttribute c "source" = some srcAttr ∧ semAttr.value = "POSITION") →
          acc1.1.texuvs = acc.1.texuvs ∧ acc1.1.vertexColorMap = acc.1.vertexColorMap ∧
          acc1.1.triangles = acc.1.triangles ∧
          acc.1.vertices.length ≤ acc1.1.vertices.length ∧
          acc.1.normals.length ≤ acc1.1.normals.length ∧
          ((c.name = "input" ∧
            ∃ semAttr srcAttr, findAttribute c "semantic" = some semAttr ∧
              findAttribute c "source" = some srcAttr ∧ semAttr.value = "POSITION") →
            ChannelBelow index_list stride tri_count offset acc1.1.vertices.length) ∧
          (acc1.1.normals.length = acc.1.normals.length ∨
            ChannelBelow index_list stride tri_count offset acc1.1.normals.length) := by
        intro e hno
        subst e
        exact ⟨rfl, rfl, rfl, Nat.le_refl _, Nat.le_refl _, fun hp => absurd hp hno, Or.inl rfl⟩
      unfold parse_geo_vertices_child at hstep
      by_cases hin : c.name = "input"
      · rw [if_pos hin] at hstep
        rcases Option.eq_none_or_eq_some (findAttribute c "semantic") with
          hsem | ⟨semAttr, hsem⟩
        · simp only [hsem, pure_eq_ok, Except.ok.injEq] at hstep
          exact hsame hstep.symm (by simp [hsem])
        · rcases Option.eq_none_or_eq_some (findAttribute c "source") with
            hsrc | ⟨srcAttr, hsrc⟩
          · simp only [hsem, hsrc, pure_eq_ok, Except.ok.injEq] at hstep
            exact hsame hstep.symm (by simp [hsrc])
          · simp only [hsem, hsrc] at hstep
            by_cases hpos : semAttr.value = "POSITION"
            · rw [if_pos hpos] at hstep
              obtain ⟨key, hkey, hstep⟩ := bind_eq_ok hstep
              obtain ⟨src, hdec, g1, g2, g3, g4, g5, g6⟩ :=
                parse_geo_positions_growth lib_geometries _ acc.1 acc1.1 acc.2 acc1.2 hstep
              obtain ⟨⟨herr, cnt, hcnt, hbelow⟩, hx, hy, hz⟩ :=
                (hok c (List.mem_cons_self _ _) hin semAttr srcAttr key hsem hsrc hkey).1 hpos
                  _ _ _ hdec
              obtain ⟨cnt', hcnt', hlen⟩ := g6 herr hx hy hz
              have hcc : cnt' = cnt := by
                rw [hcnt] at hcnt'
                exact (Option.some.inj hcnt').symm
              refine ⟨g2, g3, g4, g5, by rw [g1], fun _ => hbelow.mono (by omega),
                Or.inl (by rw [g1])⟩
            · rw [if_neg hpos] at hstep
              have hnop : ¬ (c.name = "input" ∧
                  ∃ semAttr srcAttr, findAttribute c "semantic" = some semAttr ∧
                    findAttribute c "source" = some srcAttr ∧ semAttr.value = "POSITION") := by
                rintro ⟨_, s, _, hs, _, hv⟩
                rw [hsem] at hs
                exact hpos ((Option.some.inj hs) ▸ hv)
              by_cases hnrm : semAttr.value = "NORMAL"
              · rw [if_pos hnrm] at hstep
                obtain ⟨key, hkey, hstep⟩ := bind_eq_ok hstep
                obtain ⟨src, hdec, g1, g2, g3, g4, _, g6⟩ :=
                  parse_geo_normals_growth lib_geometries _ acc.1 acc1.1 acc.2 acc1.2 hstep
                obtain ⟨herr, cnt, hcnt, hbelow⟩ :=
                  (hok c (List.mem_cons_self _ _) hin semAttr srcAttr key hsem hsrc hkey).2 hnrm
                    _ _ _ hdec
                obtain ⟨cnt', hcnt', hlen⟩ := g6 herr
                have hcc : cnt' = cnt := by
                  rw [hcnt] at hcnt'
                  exact (Option.some.inj hcnt').symm
                refine ⟨g2, g3, g4, by rw [g1], by omega, fun hp => absurd hp hnop,
                  Or.inr (hbelow.mono (by omega))⟩
              · rw [if_neg hnrm] at hstep
                simp only [pure_eq_ok, Except.ok.injEq] at hstep
                exact hsame hstep.symm hnop
      · rw [if_neg hin] at hstep
        simp only [pure_eq_ok, Except.ok.injEq] at hstep
        exact hsame hstep.symm (fun hp => hin hp.1)
    obtain ⟨c1, c2, c3, c4, c5, c6, c7⟩ := hc
    refine ⟨ih1.trans c1, ih2.trans c2, ih3.trans c3, Nat.le_trans c4 ih4,
      Nat.le_trans c5 ih5, ?_, ?_⟩
    · rintro ⟨c', hc', hin', hattrs⟩
      rcases List.mem_cons.1 hc' with e | hmem
      · subst e
        exact (c6 ⟨hin', hattrs⟩).mono ih4
      · exact ih6 ⟨c', hmem, hin', hattrs⟩
    · rcases ih7 with e | hb
      · rcases c7 with e1 | hb1
        · exact Or.inl (e.trans e1)
        · exact Or.inr (e ▸ hb1)
      · exact Or.inr hb

end InputsLemmas

section InputsStep
variable {F : Type} [CFloat F]

/-- Nodes with the same colour map have the same colours in every group. -/
theorem vertexColors_congr (m m' : ModelNode F) (h : m'.vertexColorMap = m.vertexColorMap)
    (group : String) : m'.vertexColors group = m.vertexColors group := by
  unfold ModelNode.vertexColors
  rw [h]

/-- A list without VERTEX input has a tail without VERTEX input. -/
theorem filter_isVertexInput_tail (c : XmlNode) (rest : List XmlNode)
    (h : (c :: rest).filter isVertexInput = []) : rest.filter isVertexInput = [] := by
  rw [List.filter_eq_nil_iff] at h ⊢
  exact fun a ha => h a (List.mem_cons_of_mem _ ha)

/-- One step of the loop of `parse_triangles_inputs` keeps the invariant. -/
theorem parse_triangles_inputs_step (lib_geometries : NodeMap) (index_list : List Nat)
    (stride tri_count : Nat) (c : XmlNode) (rest : List XmlNode) (st st1 : InputsState F)
    (hone : ((c :: rest).filter isVertexInput).length ≤ 1)
    (hok : InputOK F lib_geometries index_list stride tri_count c)
    (hinv : InputsInv index_list stride tri_count (c :: rest) st)
    (hstep : parse_triangles_inputs_child lib_geometries st c = Except.ok st1) :
    InputsInv index_list stride tri_count rest st1 := by
  obtain ⟨i0, i1, i2, i3, i4, i5, i6⟩ := hinv
  have i6' : st.offsets.normalOffset = -1 →
      st.model.normals = [] ∨
        (rest.filter isVertexInput = [] ∧
          ChannelBelow index_list stride tri_count st.offsets.vertexOffset
            st.model.normals.length) := by
    intro h
    rcases i6 h with e | ⟨e1, e2⟩
    · exact Or.inl e
    · exact Or.inr ⟨filter_isVertexInput_tail c rest e1, e2⟩
  have hsame : st1 = st → InputsInv index_list stride tri_count rest st1 := by
    intro e
    subst e
    exact ⟨i0, i1, i2, i3, i4, i5, i6'⟩
  unfold parse_triangles_inputs_child at hstep
  by_cases hin : c.name = "input"
  swap
  · rw [if_neg hin] at hstep
    simp only [pure_eq_ok, Except.ok.injEq] at hstep
    exact hsame hstep.symm
  rw [if_pos hin] at hstep
  rcases Option.eq_none_or_eq_some (findAttribute c "semantic") with hsem | ⟨semAttr, hsem⟩
  · simp only [hsem, pure_eq_ok, Except.ok.injEq] at hstep
    exact hsame hstep.symm
  rcases Option.eq_none_or_eq_some (findAttribute c "source") with hsrc | ⟨srcAttr, hsrc⟩
  · simp only [hsem, hsrc, pure_eq_ok, Except.ok.injEq] at hstep
    exact hsame hstep.symm
  simp only [hsem, hsrc] at hstep
  by_cases hV : semAttr.value = "VERTEX"
  · -- a VERTEX input
    rw [if_pos hV] at hstep
    obtain ⟨key, hkey, hstep⟩ := bind_eq_ok hstep
    obtain ⟨r, hr, hstep⟩ := bind_eq_ok hstep
    obtain ⟨offAttr, hoffAttr, hstep⟩ := bind_eq_ok hstep
    obtain ⟨off, hoff, hstep⟩ := bind_eq_ok hstep
    simp only [pure_eq_ok, Except.ok.injEq] at hstep
    subst hstep
    have hoffAttr' := deref_eq_ok hoffAttr
    unfold parse_geo_vertices at hr
    obtain ⟨vertices, hverts, hr⟩ := bind_eq_ok hr
    have hverts' := deref_eq_ok hverts
    obtain ⟨hposEx, hall⟩ :=
      (hok hin semAttr srcAttr offAttr off hsem hsrc hoffAttr' hoff).1 hV key vertices hkey
        hverts'
    obtain ⟨g1, g2, g3, g4, g5, g6, g7⟩ :=
      parse_geo_vertices_loop lib_geometries index_list stride tri_count off vertices.children
        (st.model, st.cerr) r hall hr
    have hisV : isVertexInput c = true := by
      simp [isVertexInput, hin, hsem, hsrc, hV]
    have hrestV : rest.filter isVertexInput = [] := by
      rw [List.filter_cons, if_pos hisV, List.length_cons] at hone
      exact List.length_eq_zero.1 (by omega)
    refine ⟨g3.trans i0, fun _ => g6 hposEx, ?_, ?_, i4, ?_, ?_⟩
    · intro h
      show ChannelBelow _ _ _ _ r.1.texuvs.length
      rw [g1]
      exact i2 h
    · intro h
      obtain ⟨group, hg⟩ := i3 h
      exact ⟨group, by
        show ChannelBelow _ _ _ _ (r.1.vertexColors group).length
        rw [vertexColors_congr _ _ g2]
        exact hg⟩
    · intro h
      exact (i5 h).mono g5
    · intro h
      have hnil : st.model.normals = [] := by
        rcases i6 h with e | ⟨e1, _⟩
        · exact e
        · rw [List.filter_cons, if_pos hisV] at e1
          cases e1
      rcases g7 with e | hb
      · left
        apply List.length_eq_zero.1
        show r.1.normals.length = 0
        rw [e, hnil]
        rfl
      · exact Or.inr ⟨hrestV, hb⟩
  rw [if_neg hV] at hstep
  have hnotV : isVertexInput c = false := by
    simp [isVertexInput, hin, hsem, hsrc, hV]
  by_cases hN : semAttr.value = "NORMAL"
  · -- a NORMAL input
    rw [if_pos hN] at hstep
    obtain ⟨key, hkey, hstep⟩ := bind_eq_ok hstep
    obtain ⟨r, hr, hstep⟩ := bind_eq_ok hstep
    obtain ⟨offAttr, hoffAttr, hstep⟩ := bind_eq_ok hstep
    obtain ⟨off, hoff, hstep⟩ := bind_eq_ok hstep
    simp only [pure_eq_ok, Except.ok.injEq] at hstep
    subst hstep
    have hoffAttr' := deref_eq_ok hoffAttr
    obtain ⟨hk1, hsat⟩ :=
      (hok hin semAttr srcAttr offAttr off hsem hsrc hoffAttr' hoff).2.1 hN
    have hsat := hsat key hkey
    obtain ⟨src, hdec, g1, g2, g3, g4, _, g6⟩ :=
      parse_geo_normals_growth lib_geometries _ st.model r.1 st.cerr r.2 hr
    obtain ⟨herr, cnt, hcnt, hbelow⟩ := hsat _ _ _ hdec
    obtain ⟨cnt', hcnt', hlen⟩ := g6 herr
    have hcc : cnt' = cnt := by
      rw [hcnt] at hcnt'
      exact (Option.some.inj hcnt').symm
    have hcntle : cnt ≤ r.1.normals.length := by omega
    refine ⟨g4.trans i0, ?_, ?_, ?_, Or.inr hk1, fun _ => hbelow.mono hcntle, ?_⟩
    · intro h
      show ChannelBelow _ _ _ _ r.1.vertices.length
      rw [g1]
      exact i1 h
    · intro h
      show ChannelBelow _ _ _ _ r.1.texuvs.length
      rw [g2]
      exact i2 h
    · intro h
      obtain ⟨group, hg⟩ := i3 h
      exact ⟨group, by
        show ChannelBelow _ _ _ _ (r.1.vertexColors group).length
        rw [vertexColors_congr _ _ g3]
        exact hg⟩
    · intro h
      have h' : off = -1 := h
      omega
  rw [if_neg hN] at hstep
  by_cases hT : semAttr.value = "TEXCOORD"
  · -- a TEXCOORD input
    rw [if_pos hT] at hstep
    obtain ⟨offAttr, hoffAttr, hstep⟩ := bind_eq_ok hstep
    obtain ⟨off, hoff, hstep⟩ := bind_eq_ok hstep
    have hoffAttr' := deref_eq_ok hoffAttr
    -- in both branches that are allowed the texture coordinates are extracted
    have hextract : ∃ key r, ID_SUBSTR srcAttr.value = Except.ok key ∧
        parse_geo_texCoords lib_geometries (lib_geometries key) st.model st.cerr = Except.ok r ∧
        st1 = { model := r.1, offsets := { st.offsets with texCoordOffset := off },
                cerr := r.2 } := by
      rcases Option.eq_none_or_eq_some (findAttribute c "set") with hset | ⟨setAttr, hset⟩
      · simp only [hset] at hstep
        obtain ⟨key, hkey, hstep⟩ := bind_eq_ok hstep
        obtain ⟨r, hr, hstep⟩ := bind_eq_ok hstep
        simp only [pure_eq_ok, Except.ok.injEq] at hstep
        exact ⟨key, r, hkey, hr, hstep.symm⟩
      · simp only [hset] at hstep
        by_cases h0 : setAttr.value = "0"
        · rw [if_pos h0] at hstep
          obtain ⟨key, hkey, hstep⟩ := bind_eq_ok hstep
          obtain ⟨r, hr, hstep⟩ := bind_eq_ok hstep
          simp only [pure_eq_ok, Except.ok.injEq] at hstep
          exact ⟨key, r, hkey, hr, hstep.symm⟩
        · exact absurd (((hok hin semAttr srcAttr offAttr off hsem hsrc hoffAttr'
            hoff).2.2.1 hT).1 setAttr hset) h0
    obtain ⟨key, r, hkey, hr, hst1⟩ := hextract
    subst hst1
    obtain ⟨_, hsat⟩ :=
      (hok hin semAttr srcAttr offAttr off hsem hsrc hoffAttr' hoff).2.2.1 hT
    have hsat := hsat key hkey
    obtain ⟨src, hdec, g1, g2, g3, g4, _, g6⟩ :=
      parse_geo_texCoords_growth lib_geometries _ st.model r.1 st.cerr r.2 hr
    obtain ⟨⟨herr, cnt, hcnt, hbelow⟩, hs, ht⟩ := hsat _ _ _ hdec
    obtain ⟨cnt', hcnt', hlen⟩ := g6 herr hs ht
    have hcc : cnt' = cnt := by
      rw [hcnt] at hcnt'
      exact (Option.some.inj hcnt').symm
    have hcntle : cnt ≤ r.1.texuvs.length := by omega
    refine ⟨g4.trans i0, ?_, fun _ => hbelow.mono hcntle, ?_, i4, ?_, ?_⟩
    · intro h
      show ChannelBelow _ _ _ _ r.1.vertices.length
      rw [g2]
      exact i1 h
    · intro h
      obtain ⟨group, hg⟩ := i3 h
      exact ⟨group, by
        show ChannelBelow _ _ _ _ (r.1.vertexColors group).length
        rw [vertexColors_congr _ _ g3]
        exact hg⟩
    · intro h
      show ChannelBelow _ _ _ _ r.1.normals.length
      rw [g1]
      exact i5 h
    · intro h
      show r.1.normals = [] ∨ _
      rw [g1]
      exact i6' h
  rw [if_neg hT] at hstep
  by_cases hC : semAttr.value = "COLOR"
  swap
  · rw [if_neg hC] at hstep
    simp only [pure_eq_ok, Except.ok.injEq] at hstep
    exact hsame hstep.symm
  -- a COLOR input
  rw [if_pos hC] at hstep
  obtain ⟨setAttr, hsetAttr, hstep⟩ := bind_eq_ok hstep
  obtain ⟨offsets1, hoffsets, hstep⟩ := bind_eq_ok hstep
  obtain ⟨key, hkey, hstep⟩ := bind_eq_ok hstep
  obtain ⟨r, hr, hstep⟩ := bind_eq_ok hstep
  simp only [pure_eq_ok, Except.ok.injEq] at hstep
  subst hstep
  obtain ⟨src, hdec, g1, g2, g3, g4, g5, g6⟩ :=
    parse_geo_rgb_growth lib_geometries _ st.model r.1 st.cerr r.2 hr
  have hothers : offsets1.vertexOffset = st.offsets.vertexOffset ∧
      offsets1.texCoordOffset = st.offsets.texCoordOffset ∧
      offsets1.normalOffset = st.offsets.normalOffset ∧
      (offsets1.colorOffset > -1 →
        ∃ group, ChannelBelow index_list stride tri_count offsets1.colorOffset
          (r.1.vertexColors group).length) := by
    by_cases h0 : setAttr.value = "0"
    · rw [if_pos h0] at hoffsets
      obtain ⟨offAttr, hoffAttr, hoffsets⟩ := bind_eq_ok hoffsets
      obtain ⟨off, hoff, hoffsets⟩ := bind_eq_ok hoffsets
      simp only [pure_eq_ok, Except.ok.injEq] at hoffsets
      subst hoffsets
      have hoffAttr' := deref_eq_ok hoffAttr
      obtain ⟨⟨herr, cnt, hcnt, hbelow⟩, h3, hR, hG, hB⟩ :=
        (hok hin semAttr srcAttr offAttr off hsem hsrc hoffAttr' hoff).2.2.2 hC key hkey
          _ _ _ hdec
      obtain ⟨cnt', hcnt', hlen⟩ := g6 herr h3 hR hG hB
      have hcc : cnt' = cnt := by
        rw [hcnt] at hcnt'
        exact (Option.some.inj hcnt').symm
      have hcntle : cnt ≤ (r.1.vertexColors src.name).length := by omega
      exact ⟨rfl, rfl, rfl, fun _ => ⟨src.name, hbelow.mono hcntle⟩⟩
    · rw [if_neg h0] at hoffsets
      simp only [pure_eq_ok, Except.ok.injEq] at hoffsets
      subst hoffsets
      refine ⟨rfl, rfl, rfl, ?_⟩
      intro h
      obtain ⟨group, hg⟩ := i3 h
      exact ⟨group, hg.mono (g5 group)⟩
  obtain ⟨o1, o2, o3, o4⟩ := hothers
  refine ⟨g4.trans i0, ?_, ?_, o4, ?_, ?_, ?_⟩
  · intro h
    show ChannelBelow _ _ _ offsets1.vertexOffset r.1.vertices.length
    rw [g2, o1]
    exact i1 (o1 ▸ h)
  · intro h
    show ChannelBelow _ _ _ offsets1.texCoordOffset r.1.texuvs.length
    rw [g3, o2]
    exact i2 (o2 ▸ h)
  · show offsets1.normalOffset = -1 ∨ 1 ≤ offsets1.normalOffset
    rw [o3]
    exact i4
  · intro h
    show ChannelBelow _ _ _ offsets1.normalOffset r.1.normals.length
    rw [g1, o3]
    exact i5 (o3 ▸ h)
  · intro h
    show r.1.normals = [] ∨ (_ ∧ ChannelBelow _ _ _ offsets1.vertexOffset r.1.normals.length)
    rw [g1, o1]
    exact i6' (o3 ▸ h)

end InputsStep

section InputsLoop
variable {F : Type} [CFloat F]

/-- The loop of `parse_triangles_inputs` keeps the invariant. -/
theorem parse_triangles_inputs_inv (lib_geometries : NodeMap) (index_list : List Nat)
    (stride tri_count : Nat) :
    ∀ (l : List XmlNode) (st st' : InputsState F),
      (l.filter isVertexInput).length ≤ 1 →
      (∀ c ∈ l, InputOK F lib_geometries index_list stride tri_count c) →
      InputsInv index_list stride tri_count l st →
      l.foldlM (parse_triangles_inputs_child lib_geometries) st = Except.ok st' →
      InputsInv index_list stride tri_count [] st'
  | [], st, st', _, _, hinv, h => by
    simp only [List.foldlM_nil, pure_eq_ok, Except.ok.injEq] at h
    exact h ▸ hinv
  | c :: rest, st, st', hone, hok, hinv, h => by
    rw [List.foldlM_cons] at h
    obtain ⟨st1, hstep, hrest⟩ := bind_eq_ok h
    have hinv1 := parse_triangles_inputs_step lib_geometries index_list stride tri_count c rest
      st st1 hone (hok c (List.mem_cons_self _ _)) hinv hstep
    have hone' : (rest.filter isVertexInput).length ≤ 1 := by
      rw [List.filter_cons] at hone
      split at hone
      · rw [List.length_cons] at hone
        omega
      · exact hone
    exact parse_triangles_inputs_inv lib_geometries index_list stride tri_count rest st1 st'
      hone' (fun c' hc' => hok c' (List.mem_cons_of_mem _ hc')) hinv1 hrest

/-- The triangle loop of `parse_triangles` leaves the streams alone and every
triangle it adds satisfies `TriangleFrom`. -/
theorem parse_triangles_loop_from (index_list : List Nat) (stride tri_count : Nat)
    (offsets : Semantics_offsets) (nv : Bool) (m0 m : ModelNode F)
    (h : (List.range tri_count).foldlM (fun (model : ModelNode F) i => do
        let tri ← parse_triangles_triangle index_list stride offsets nv i
        pure (model.addTriangle tri)) m0 = Except.ok m) :
    m.vertices = m0.vertices ∧ m.normals = m0.normals ∧ m.texuvs = m0.texuvs ∧
    m.vertexColorMap = m0.vertexColorMap ∧
    ∀ t ∈ m.triangles, t ∈ m0.triangles ∨
      TriangleFrom index_list stride tri_count offsets nv t := by
  refine foldlM_invariant_mem _
    (fun m : ModelNode F => m.vertices = m0.vertices ∧ m.normals = m0.normals ∧
      m.texuvs = m0.texuvs ∧ m.vertexColorMap = m0.vertexColorMap ∧
      ∀ t ∈ m.triangles, t ∈ m0.triangles ∨
        TriangleFrom index_list stride tri_count offsets nv t)
    (List.range tri_count) m0 m ?_ h ⟨rfl, rfl, rfl, rfl, fun t ht => Or.inl ht⟩
  intro acc i acc' hi hstep hacc
  obtain ⟨tri, htri, hstep⟩ := bind_eq_ok hstep
  simp only [pure_eq_ok, Except.ok.injEq] at hstep
  subst hstep
  refine ⟨hacc.1, hacc.2.1, hacc.2.2.1, hacc.2.2.2.1, ?_⟩
  intro t ht
  simp only [ModelNode.addTriangle, List.mem_append, List.mem_singleton] at ht
  rcases ht with ht | ht
  · exact hacc.2.2.2.2 t ht
  · exact Or.inr (ht ▸ parse_triangles_triangle_from index_list stride tri_count offsets nv i
      tri (List.mem_range.1 hi) htri)

end InputsLoop

/-- C1 (amended): for a primitive with a `p` child and a `count` attribute that
is well-formed for its decoded index list (at most one VERTEX input, NORMAL
inputs at offsets of at least 1, TEXCOORD inputs without `set` or with set "0",
bound sources that decode without error with the columns their extractor needs,
and every index read on a bound channel below the element count of the source
bound to that channel), when `parse_triangles` returns on a fresh ModelNode
every set index of every triangle is strictly less than the length of its
target stream (for `color`: of the colours of a group of the node). -/
theorem parse_triangles_indices_in_range {F : Type} [CFloat F] (lib_geometries : NodeMap)
    (triangles indices : XmlNode) (countAttr : XmlAttr) (cnt : Int)
    (cerr cerr' : List String) (m : ModelNode F)
    (hp : triangles.first_node "p" = some indices)
    (hcountAttr : findAttribute triangles "count" = some countAttr)
    (hcnt : stol countAttr.value = Except.ok cnt)
    (hwf : WellFormedPrimitive F lib_geometries triangles (parse_u32_vector indices.value)
      (primitiveStride (parse_u32_vector indices.value) (toU32 cnt)) (toU32 cnt))
    (hrun : parse_triangles lib_geometries triangles {} cerr = Except.ok (m, cerr')) :
    ∀ t ∈ m.triangles,
      (∀ x ∈ t.position, x ≠ -1 → x < (m.getNumOfVertices : Int)) ∧
      (∀ x ∈ t.normal, x ≠ -1 → x < (m.getNumOfNormals : Int)) ∧
      (∀ x ∈ t.uv, x ≠ -1 → x < (m.getNumOfTexCoords : Int)) ∧
      (∀ x ∈ t.color, x ≠ -1 → ∃ group, x < (m.getNumOfVertexColors group : Int)) := by
  unfold parse_triangles at hrun
  simp only [hp, hcountAttr, hcnt, bind_ok] at hrun
  obtain ⟨st, hinputs, hrun⟩ := bind_eq_ok hrun
  by_cases hd : (toU32 cnt * 3) % U32_MOD = 0
  · rw [if_pos hd] at hrun
    simp at hrun
  rw [if_neg hd] at hrun
  obtain ⟨m1, hloop, hrun⟩ := bind_eq_ok hrun
  simp only [pure_eq_ok, Except.ok.injEq, Prod.mk.injEq] at hrun
  obtain ⟨hm, _⟩ := hrun
  subst hm
  -- the invariant after the inputs
  have hinv : InputsInv (parse_u32_vector indices.value)
      (primitiveStride (parse_u32_vector indices.value) (toU32 cnt)) (toU32 cnt) [] st := by
    unfold parse_triangles_inputs at hinputs
    refine parse_triangles_inputs_inv lib_geometries _ _ _ triangles.children _ st hwf.1 hwf.2
      ?_ hinputs
    refine ⟨rfl, ?_, ?_, ?_, Or.inl rfl, ?_, fun _ => Or.inl rfl⟩
    · intro h
      have h' : (-1 : Int) > -1 := h
      omega
    · intro h
      have h' : (-1 : Int) > -1 := h
      omega
    · intro h
      have h' : (-1 : Int) > -1 := h
      omega
    · intro h
      have h' : (1 : Int) ≤ -1 := h
      omega
  obtain ⟨i0, i1, i2, i3, i4, i5, i6⟩ := hinv
  obtain ⟨e1, e2, e3, e4, htris⟩ := parse_triangles_loop_from _ _ _ _ _ st.model m1 hloop
  have below : ∀ (off : Int) (bound : Nat) (x : Int),
      ChannelBelow (parse_u32_vector indices.value)
        (primitiveStride (parse_u32_vector indices.value) (toU32 cnt)) (toU32 cnt) off bound →
      ReadOn (parse_u32_vector indices.value)
        (primitiveStride (parse_u32_vector indices.value) (toU32 cnt)) (toU32 cnt) off x →
      x < (bound : Int) := by
    intro off bound x hb ⟨i, j, v, hi, hj, hv, hx⟩
    rw [hx]
    exact_mod_cast hb i j v hi hj hv
  intro t ht
  have hfrom : TriangleFrom (parse_u32_vector indices.value)
      (primitiveStride (parse_u32_vector indices.value) (toU32 cnt)) (toU32 cnt) st.offsets
      (decide (st.offsets.normalOffset < 1) && decide (st.model.getNumOfNormals > 0)) t := by
    rcases htris t ht with h | h
    · rw [i0] at h
      cases h
    · exact h
  obtain ⟨fp, fu, fc, fn⟩ := hfrom
  refine ⟨?_, ?_, ?_, ?_⟩
  · intro x hx hne
    rcases fp x hx with h | ⟨hoff, hread⟩
    · exact absurd h hne
    · simp only [ModelNode.getNumOfVertices, e1]
      exact below _ _ _ (i1 hoff) hread
  · intro x hx hne
    simp only [ModelNode.getNumOfNormals, e2]
    rcases fn x hx with h | ⟨hnv, hread⟩ | ⟨_, hoff, hread⟩
    · exact absurd h hne
    · simp only [Bool.and_eq_true, decide_eq_true_eq, ModelNode.getNumOfNormals] at hnv
      have hminus : st.offsets.normalOffset = -1 := by
        rcases i4 with h | h
        · exact h
        · omega
      rcases i6 hminus with h | ⟨_, hb⟩
      · rw [h] at hnv
        simp at hnv
      · exact below _ _ _ hb hread
    · have h1 : 1 ≤ st.offsets.normalOffset := by
        rcases i4 with h | h
        · omega
        · exact h
      exact below _ _ _ (i5 h1) hread
  · intro x hx hne
    rcases fu x hx with h | ⟨hoff, hread⟩
    · exact absurd h hne
    · simp only [ModelNode.getNumOfTexCoords, e3]
      exact below _ _ _ (i2 hoff) hread
  · intro x hx hne
    rcases fc x hx with h | ⟨hoff, hread⟩
    · exact absurd h hne
    · obtain ⟨group, hb⟩ := i3 hoff
      refine ⟨group, ?_⟩
      simp only [ModelNode.getNumOfVertexColors, vertexColors_congr _ _ e4]
      exact below _ _ _ hb hread

/-- Counterexample for C1 as stated: a triangles element whose third index is 7
is assembled over 3 vertices with position index 7; and a triangles element
whose only TEXCOORD input has set "1", with all indices below the element
counts of its sources, gets its uv indices set while no texture coordinate is
extracted. -/
theorem parse_triangles_index_not_below_stream :
    (∃ (m : ModelNode Dec) (cerr' : List String) (t : Triangle) (x : Int),
      parse_triangles Examples.uvLib (Examples.trianglesNode "1" "0 1 7") {} []
        = Except.ok (m, cerr') ∧
      t ∈ m.triangles ∧ x ∈ t.position ∧ x ≠ -1 ∧ ¬ x < (m.getNumOfVertices : Int)) ∧
    (∃ (m : ModelNode Dec) (cerr' : List String) (t : Triangle) (x : Int),
      parse_triangles Examples.uvLib (Examples.trianglesUv "1" "0 0 1 1 2 2") {} []
        = Except.ok (m, cerr') ∧
      t ∈ m.triangles ∧ x ∈ t.uv ∧ x ≠ -1 ∧ ¬ x < (m.getNumOfTexCoords : Int)) := by
  constructor
  · refine ⟨{ triangles := [{ position := [0, 1, 7] }]
              vertices := [⟨⟨0, 0⟩, ⟨0, 0⟩, ⟨0, 0⟩⟩, ⟨⟨1, 0⟩, ⟨0, 0⟩, ⟨0, 0⟩⟩,
                ⟨⟨0, 0⟩, ⟨1, 0⟩, ⟨0, 0⟩⟩] },
      [], { position := [0, 1, 7] }, 7, by decide, by decide, by decide, by decide, by decide⟩
  · refine ⟨{ triangles := [{ position := [0, 1, 2], uv := [0, 1, 2] }]
              vertices := [⟨⟨0, 0⟩, ⟨0, 0⟩, ⟨0, 0⟩⟩, ⟨⟨1, 0⟩, ⟨0, 0⟩, ⟨0, 0⟩⟩,
                ⟨⟨0, 0⟩, ⟨1, 0⟩, ⟨0, 0⟩⟩] },
      [], { position := [0, 1, 2], uv := [0, 1, 2] }, 2, by decide, by decide, by decide,
      by decide, by decide⟩

/-- The predicate `ChannelBelow` written with bounded quantifiers, so that it can be evaluated
on a concrete index list. -/
theorem channelBelow_of_reads (index_list : List Nat) (stride tri_count : Nat) (offset : Int)
    (bound : Nat)
    (h : ∀ i, i < tri_count → ∀ j, j < 3 →
      (match index_list.get? (cornerIndex i stride j offset) with
        | some v => decide (v < bound)
        | none => true) = true) :
    ChannelBelow index_list stride tri_count offset bound := by
  intro i j v hi hj hv
  have hij := h i hi j hj
  rw [vecGet_eq_ok hv] at hij
  simpa using hij

/-- Witness for C1 (amended): a triangles element with a VERTEX input at offset
0 and a TEXCOORD input with set "0" at offset 1, over sources of three elements
each, is well-formed, is assembled, and its indices are in range. -/
theorem parse_triangles_indices_in_range_witness :
    ∃ (m : ModelNode Dec) (cerr' : List String),
      parse_triangles Examples.uvLib (Examples.trianglesUv "0" "0 0 1 1 2 2") {} []
        = Except.ok (m, cerr') ∧
      m.getNumOfTriangles = 1 ∧
      ∀ t ∈ m.triangles,
        (∀ x ∈ t.position, x ≠ -1 → x < (m.getNumOfVertices : Int)) ∧
        (∀ x ∈ t.normal, x ≠ -1 → x < (m.getNumOfNormals : Int)) ∧
        (∀ x ∈ t.uv, x ≠ -1 → x < (m.getNumOfTexCoords : Int)) ∧
        (∀ x ∈ t.color, x ≠ -1 → ∃ group, x < (m.getNumOfVertexColors group : Int)) := by
  have hrun : parse_triangles Examples.uvLib (Examples.trianglesUv "0" "0 0 1 1 2 2")
      ({} : ModelNode Dec) []
      = Except.ok
        ({ triangles := [{ position := [0, 1, 2], uv := [0, 1, 2] }]
           vertices := [⟨⟨0, 0⟩, ⟨0, 0⟩, ⟨0, 0⟩⟩, ⟨⟨1, 0⟩, ⟨0, 0⟩, ⟨0, 0⟩⟩,
             ⟨⟨0, 0⟩, ⟨1, 0⟩, ⟨0, 0⟩⟩]
           texuvs := [⟨⟨0, 0⟩, ⟨0, 0⟩⟩, ⟨⟨1, 0⟩, ⟨0, 0⟩⟩, ⟨⟨0, 0⟩, ⟨1, 0⟩⟩] }, []) := by
    decide
  have hwf : WellFormedPrimitive Dec Examples.uvLib (Examples.trianglesUv "0" "0 0 1 1 2 2")
      (parse_u32_vector (Examples.indicesNode "0 0 1 1 2 2").value)
      (primitiveStride (parse_u32_vector (Examples.indicesNode "0 0 1 1 2 2").value) (toU32 1))
      (toU32 1) := by
    have hidx : parse_u32_vector (Examples.indicesNode "0 0 1 1 2 2").value
        = [0, 0, 1, 1, 2, 2] := by decide
    have hstr : primitiveStride [0, 0, 1, 1, 2, 2] (toU32 1) = 2 := by decide
    rw [hidx, hstr, toU32_one]
    refine ⟨by decide, ?_⟩
    intro c hc
    have hcs : c = Examples.vertexInput ∨ c = Examples.texInput "0" ∨
        c = Examples.indicesNode "0 0 1 1 2 2" := by
      simpa [Examples.trianglesUv, Examples.el, XmlNode.children] using hc
    rcases hcs with rfl | rfl | rfl
    · -- the VERTEX input
      intro _ semAttr srcAttr offAttr k hsem hsrc hoff hk
      have e1 : semAttr = ⟨"semantic", "VERTEX"⟩ :=
        (Option.some.inj ((show findAttribute Examples.vertexInput "semantic" = some _
          from by decide).symm.trans hsem)).symm
      have e2 : srcAttr = ⟨"source", "#verts"⟩ :=
        (Option.some.inj ((show findAttribute Examples.vertexInput "source" = some _
          from by decide).symm.trans hsrc)).symm
      have e3 : offAttr = ⟨"offset", "0"⟩ :=
        (Option.some.inj ((show findAttribute Examples.vertexInput "offset" = some _
          from by decide).symm.trans hoff)).symm
      subst e1 e2 e3
      have e4 : k = 0 := by
        have h0 : stoi "0" = Except.ok 0 := by decide
        rw [show (⟨"offset", "0"⟩ : XmlAttr).value = "0" from rfl, h0] at hk
        exact (Except.ok.inj hk).symm
      subst e4
      refine ⟨?_, fun h => absurd h (by decide), fun h => absurd h (by decide),
        fun h => absurd h (by decide)⟩
      intro _ key vertices hkey hverts
      have e5 : key = "verts" :=
        (Except.ok.inj ((show ID_SUBSTR "#verts" = Except.ok "verts"
          from by decide).symm.trans hkey)).symm
      subst e5
      have e6 : vertices = Examples.vertsNode :=
        (Option.some.inj ((show Examples.uvLib "verts" = some Examples.vertsNode
          from by decide).symm.trans hverts)).symm
      subst e6
      refine ⟨⟨Examples.positionInput, by decide, by decide, ⟨"semantic", "POSITION"⟩,
        ⟨"source", "#pos"⟩, by decide, by decide, rfl⟩, ?_⟩
      intro c hc hin semAttr srcAttr key hsem hsrc hkey
      have hc' : c = Examples.positionInput := by
        simpa [Examples.vertsNode, Examples.el, XmlNode.children] using hc
      subst hc'
      have e1 : semAttr = ⟨"semantic", "POSITION"⟩ :=
        (Option.some.inj ((show findAttribute Examples.positionInput "semantic" = some _
          from by decide).symm.trans hsem)).symm
      have e2 : srcAttr = ⟨"source", "#pos"⟩ :=
        (Option.some.inj ((show findAttribute Examples.positionInput "source" = some _
          from by decide).symm.trans hsrc)).symm
      subst e1 e2
      have e5 : key = "pos" :=
        (Except.ok.inj ((show ID_SUBSTR "#pos" = Except.ok "pos"
          from by decide).symm.trans hkey)).symm
      subst e5
      refine ⟨fun _ => ?_, fun h => absurd h (by decide)⟩
      intro cerr0 src cerr1 hdec
      have hd : parse_source Examples.uvLib (Examples.uvLib "pos") cerr0
          = Except.ok (Examples.positionsDecoded, cerr0) := rfl
      rw [hd] at hdec
      have e7 : src = Examples.positionsDecoded := (Prod.mk.inj (Except.ok.inj hdec)).1.symm
      subst e7
      refine ⟨⟨rfl, 3, rfl, ?_⟩, by decide, by decide, by decide⟩
      exact channelBelow_of_reads _ _ _ _ _ (by decide)
    · -- the TEXCOORD input
      intro _ semAttr srcAttr offAttr k hsem hsrc hoff hk
      have e1 : semAttr = ⟨"semantic", "TEXCOORD"⟩ :=
        (Option.some.inj ((show findAttribute (Examples.texInput "0") "semantic" = some _
          from by decide).symm.trans hsem)).symm
      have e2 : srcAttr = ⟨"source", "#uv"⟩ :=
        (Option.some.inj ((show findAttribute (Examples.texInput "0") "source" = some _
          from by decide).symm.trans hsrc)).symm
      have e3 : offAttr = ⟨"offset", "1"⟩ :=
        (Option.some.inj ((show findAttribute (Examples.texInput "0") "offset" = some _
          from by decide).symm.trans hoff)).symm
      subst e1 e2 e3
      have e4 : k = 1 := by
        have h1 : stoi "1" = Except.ok 1 := by decide
        rw [show (⟨"offset", "1"⟩ : XmlAttr).value = "1" from rfl, h1] at hk
        exact (Except.ok.inj hk).symm
      subst e4
      refine ⟨fun h => absurd h (by decide), fun h => absurd h (by decide), fun _ => ⟨?_, ?_⟩,
        fun h => absurd h (by decide)⟩
      · intro setAttr hset
        have e8 : setAttr = ⟨"set", "0"⟩ :=
          (Option.some.inj ((show findAttribute (Examples.texInput "0") "set" = some _
            from by decide).symm.trans hset)).symm
        subst e8
        rfl
      · intro key hkey
        have e5 : key = "uv" :=
          (Except.ok.inj ((show ID_SUBSTR "#uv" = Except.ok "uv"
            from by decide).symm.trans hkey)).symm
        subst e5
        intro cerr0 src cerr1 hdec
        have hd : parse_source Examples.uvLib (Examples.uvLib "uv") cerr0
            = Except.ok (Examples.uvDecoded, cerr0) := rfl
        rw [hd] at hdec
        have e7 : src = Examples.uvDecoded := (Prod.mk.inj (Except.ok.inj hdec)).1.symm
        subst e7
        refine ⟨⟨rfl, 3, rfl, ?_⟩, by decide, by decide⟩
        exact channelBelow_of_reads _ _ _ _ _ (by decide)
    · -- the index list is not an input
      intro hin
      exact absurd hin (by decide)
  exact ⟨_, [], hrun, by decide,
    parse_triangles_indices_in_range Examples.uvLib (Examples.trianglesUv "0" "0 0 1 1 2 2")
      (Examples.indicesNode "0 0 1 1 2 2") ⟨"count", "1"⟩ 1 [] [] _ (by decide) (by decide)
      (by decide) hwf hrun⟩

/-! ## Faults that leave the load (C8) -/

/-- C8 (evaluation at failing inputs): with any float model and any budget of at
least 3 for the scene walk, the load of the single triangle document does not
return a model when the url of the instance_geometry names no geometry (a null
pointer is dereferenced in `parse_geometry`), when that url is empty (`substr`
throws `out_of_range`), and when the `count` attribute of the triangles element
is not a number (`stol` throws `invalid_argument`). -/
theorem load_does_not_return {F : Type} [CFloat F] (n : Nat) :
    loadOutcome (Model.load (F := F) (n + 3) (Examples.triangleDoc "#missing" "1" "0 1 2"))
      = Except.error Fault.nullDeref ∧
    loadOutcome (Model.load (F := F) (n + 3) (Examples.triangleDoc "" "1" "0 1 2"))
      = Except.error Fault.outOfRange ∧
    loadOutcome (Model.load (F := F) (n + 3) (Examples.triangleDoc "#g" "one" "0 1 2"))
      = Except.error Fault.invalidArgument :=
  ⟨rfl, rfl, rfl⟩


/-! ## Error codes of the source decoder (C11) -/

/-- C11 (evaluation at a failing input): for a source whose technique container
and accessor exist and whose accessor has no `stride` attribute, `parse_source`
returns with error 0 although no float array was looked up: count and stride are
never assigned, the parameter list and the float array are empty.  The caller
`parse_geo_normals`, which tests the error code only, then reads the unassigned
count. -/
theorem parse_source_error_zero_without_stride {F : Type} [CFloat F] :
    parse_source (F := F) (Examples.libWith Examples.noStrideSource)
        (some Examples.noStrideSource) []
      = Except.ok ({ name := "", count := none, stride := none, error := 0,
                     float_array := [], params := [] }, []) ∧
    parse_geo_normals (F := F) (Examples.libWith Examples.noStrideSource)
        (some Examples.noStrideSource) {} []
      = Except.error Fault.uninitialized :=
  ⟨rfl, rfl⟩

/-! ## Normals bound at offset 0 (C15) -/

/-- C15 (evaluation at a failing input): a triangles element with a NORMAL input
at offset 0 and a VERTEX input at offset 1, index list "2 0 1 1 0 2", gets the
normal indices 0, 1, 2 of the VERTEX channel instead of the indices 2, 1, 0 at
offset 0; with the two offsets exchanged the normal indices are read at the
offset of the NORMAL input. -/
theorem parse_triangles_normal_at_offset_zero :
    (parse_triangles (F := Dec) (Examples.libWith Examples.normalsSource)
        (Examples.trianglesNormal "0" "1" "2 0 1 1 0 2") {} []).map (fun r => r.1.triangles)
      = Except.ok [{ position := [0, 1, 2], normal := [0, 1, 2] }] ∧
    (parse_triangles (F := Dec) (Examples.libWith Examples.normalsSource)
        (Examples.trianglesNormal "1" "0" "0 2 1 1 2 0") {} []).map (fun r => r.1.triangles)
      = Except.ok [{ position := [0, 1, 2], normal := [2, 1, 0] }] := by
  constructor <;> decide

/-! ## Normal extraction (C16) -/

/-- C16 (evaluation at failing inputs): from a source with stride 4, count 2
and floats "1 0 0 9 0 1 0 9", `parse_geo_normals` takes (9, 0, 1) as second
normal, the floats at 3, 4, 5, where element 1 of the source is (0, 1, 0), the
floats at 4, 5, 6; and from a source of one element without a parameter "Z" it
does not return (the subscript `0 * 3 + (size_t)(-1)` is past the end) where
`parse_geo_positions` appends nothing. -/
theorem parse_geo_normals_ignores_stride :
    (parse_geo_normals (F := Dec) (Examples.libWith Examples.wideNormalsSource)
        (some Examples.wideNormalsSource) {} []).map (fun r => r.1.normals)
      = Except.ok [⟨⟨1, 0⟩, ⟨0, 0⟩, ⟨0, 0⟩⟩, ⟨⟨9, 0⟩, ⟨0, 0⟩, ⟨1, 0⟩⟩] ∧
    (parse_geo_normals (F := Dec) (Examples.libWith Examples.flatNormalsSource)
        (some Examples.flatNormalsSource) {} []).map (fun r => r.1.normals)
      = Except.error Fault.outOfBounds ∧
    (parse_geo_positions (F := Dec) (Examples.libWith Examples.flatNormalsSource)
        (some Examples.flatNormalsSource) {} []).map (fun r => r.1.vertices)
      = Except.ok [] := by
  refine ⟨?_, ?_, ?_⟩ <;> decide

/-! ## TEXCOORD inputs of another set (C18) -/

/-- C18 (evaluation at a failing input): for a triangles element whose only
TEXCOORD input has set "1" and offset 1, `parse_triangles_inputs` extracts no
texture coordinate and binds the texcoord offset 1, and `parse_triangles` stores
the indices 0, 1, 2 read at offset 1 as uv indices of the triangle. -/
theorem parse_triangles_inputs_binds_other_set :
    (parse_triangles_inputs (F := Dec) Examples.uvLib
        (Examples.trianglesUv "1" "0 0 1 1 2 2") {} {} []).map
        (fun st => (st.offsets.texCoordOffset, st.model.texuvs))
      = Except.ok (1, []) ∧
    (parse_triangles (F := Dec) Examples.uvLib
        (Examples.trianglesUv "1" "0 0 1 1 2 2") {} []).map
        (fun r => (r.1.triangles, r.1.texuvs))
      = Except.ok ([{ position := [0, 1, 2], uv := [0, 1, 2] }], []) := by
  constructor <;> decide

/-! ## Missing hops of the material chain (C19) -/

/-- C19 (evaluation at failing inputs): `parse_new_material` on the node
"red", whose effect is "fx", does not return when the effect has no
`profile_COMMON` child, when the `transparent` element has no `opaque`
attribute, and when the texture of `diffuse` names a sampler that is not in the
local sid map: each time a null pointer is dereferenced.  When the effect is not
in the library the material "red" is appended with its defaults and a
diagnostic. -/
theorem parse_new_material_missing_hop :
    (parse_new_material (some Examples.matRed) (Examples.effectState Examples.bareEffect)).map
        (fun r => r.1) = Except.error Fault.nullDeref ∧
    (parse_new_material (some Examples.matRed)
        (Examples.effectState (Examples.shaderEffect [Examples.plainTransparent]))).map
        (fun r => r.1) = Except.error Fault.nullDeref ∧
    (parse_new_material (some Examples.matRed)
        (Examples.effectState (Examples.shaderEffect [Examples.texturedDiffuse "sampler"]))).map
        (fun r => r.1) = Except.error Fault.nullDeref ∧
    (parse_new_material (some Examples.matRed) ({} : Model Dec)).map
        (fun r => (r.1, r.2.materials, r.2.cerr))
      = Except.ok (some 0, [{ name := "red" }], [ERROR_MSG_NO_FIND "effect"]) := by
  refine ⟨?_, ?_, ?_, ?_⟩ <;> decide

/-! ## Position extraction (C17) -/

section PositionLemmas
variable {F : Type} [CFloat F]

/-- A source returned by `parse_source` with a parameter list that is not empty
went through the full decode: its count and stride are assigned. -/
theorem parse_source_params (lib_geometries : NodeMap) (source : Option XmlNode)
    (cerr cerr' : List String) (src : Mesh_source F)
    (h : parse_source lib_geometries source cerr = Except.ok (src, cerr'))
    (hp : src.params ≠ []) :
    ∃ count stride, src.count = some count ∧ src.stride = some stride := by
  unfold parse_source at h
  obtain ⟨node, _, h⟩ := bind_eq_ok h
  have hnil : ∀ m : Mesh_source F, m.params = [] → src = m → False :=
    fun m hm hsrc => hp (hsrc ▸ hm)
  split at h
  all_goals
    simp only [] at h
    split at h
    · split at h
      · split at h
        · obtain ⟨_, _, h⟩ := bind_eq_ok h
          split at h
          · obtain ⟨stride, _, h⟩ := bind_eq_ok h
            obtain ⟨count, _, h⟩ := bind_eq_ok h
            simp only [pure_eq_ok, Except.ok.injEq, Prod.mk.injEq] at h
            rw [← h.1]
            exact ⟨_, _, rfl, rfl⟩
          · simp only [pure_eq_ok, Except.ok.injEq, Prod.mk.injEq] at h
            exact absurd h.1.symm (fun hs => hnil _ rfl hs)
        · simp only [pure_eq_ok, Except.ok.injEq, Prod.mk.injEq] at h
          exact absurd h.1.symm (fun hs => hnil _ rfl hs)
      · simp only [pure_eq_ok, Except.ok.injEq, Prod.mk.injEq] at h
        exact absurd h.1.symm (fun hs => hnil _ rfl hs)
    · simp only [pure_eq_ok, Except.ok.injEq, Prod.mk.injEq] at h
      exact absurd h.1.symm (fun hs => hnil _ rfl hs)

/-- A parameter that is found is in a list that is not empty. -/
theorem params_ne_nil_of_found (paramName : String) (params : List Accessor_param) (k : Nat)
    (h : getParamOffset paramName params = (k : Int)) : params ≠ [] := by
  intro hnil
  rw [hnil] at h
  simp [getParamOffset, getParamOffsetFrom, NOT_FOUND] at h

end PositionLemmas

/-- C17: for a source that `parse_source` decodes, `parse_geo_positions` does
the following.  When the error is 0 and the parameters "X", "Y", "Z" are found
at the columns `xo`, `yo`, `zo`, the source has a count and a stride and, the
parameter columns fitting in the stride and the float array holding
`count * stride` values, exactly `count` vertices are appended, the `i`-th of
them being `(float_array[i*stride + xo], float_array[i*stride + yo],
float_array[i*stride + zo])`, and nothing else changes.  When the error is not
0, or one of the three parameters is missing, the node is left as it was. -/
theorem parse_geo_positions_extracts {F : Type} [CFloat F] (lib_geometries : NodeMap)
    (source : Option XmlNode) (model : ModelNode F) (cerr cerr' : List String)
    (src : Mesh_source F)
    (hsrc : parse_source lib_geometries source cerr = Except.ok (src, cerr')) :
    (src.error = 0 → ∀ xo yo zo : Nat,
      getParamOffset "X" src.params = (xo : Int) →
      getParamOffset "Y" src.params = (yo : Int) →
      getParamOffset "Z" src.params = (zo : Int) →
      ∃ count stride, src.count = some count ∧ src.stride = some stride ∧
        (src.params.length ≤ stride → count * stride ≤ src.float_array.length →
          src.float_array.length < SIZE_MOD →
          ∃ vs : List (Vertex F),
            parse_geo_positions lib_geometries source model cerr
              = Except.ok ({ model with vertices := model.vertices ++ vs }, cerr') ∧
            vs.length = count ∧
            ∀ i, i < count →
              (vs.get? i).map (fun v => v.x) = src.float_array.get? (i * stride + xo) ∧
              (vs.get? i).map (fun v => v.y) = src.float_array.get? (i * stride + yo) ∧
              (vs.get? i).map (fun v => v.z) = src.float_array.get? (i * stride + zo))) ∧
    ((src.error ≠ 0 ∨ getParamOffset "X" src.params = NOT_FOUND ∨
        getParamOffset "Y" src.params = NOT_FOUND ∨
        getParamOffset "Z" src.params = NOT_FOUND) →
      parse_geo_positions lib_geometries source model cerr = Except.ok (model, cerr')) := by
  constructor
  · intro herr xo yo zo hX hY hZ
    obtain ⟨count, stride, hcount, hstride⟩ :=
      parse_source_params lib_geometries source cerr cerr' src hsrc
        (params_ne_nil_of_found "X" src.params xo hX)
    refine ⟨count, stride, hcount, hstride, ?_⟩
    intro hcols hlen hsize
    have hXne : getParamOffset "X" src.params ≠ NOT_FOUND := by
      rw [hX]; simp only [NOT_FOUND]; omega
    have hYne : getParamOffset "Y" src.params ≠ NOT_FOUND := by
      rw [hY]; simp only [NOT_FOUND]; omega
    have hZne : getParamOffset "Z" src.params ≠ NOT_FOUND := by
      rw [hZ]; simp only [NOT_FOUND]; omega
    obtain ⟨kx, hkx, hXk⟩ := getParamOffset_found "X" src.params hXne
    obtain ⟨ky, hky, hYk⟩ := getParamOffset_found "Y" src.params hYne
    obtain ⟨kz, hkz, hZk⟩ := getParamOffset_found "Z" src.params hZne
    have ex : kx = xo := by rw [hX] at hXk; exact_mod_cast hXk.symm
    have ey : ky = yo := by rw [hY] at hYk; exact_mod_cast hYk.symm
    have ez : kz = zo := by rw [hZ] at hZk; exact_mod_cast hZk.symm
    subst ex ey ez
    have hbound : ∀ i k, i < count → k < stride → i * stride + k < src.float_array.length := by
      intro i k hi hk
      have h1 : i * stride + stride ≤ count * stride := by
        have : (i + 1) * stride ≤ count * stride := Nat.mul_le_mul_right _ hi
        simpa [Nat.add_mul] using this
      omega
    have hread : ∀ i k, i < count → k < stride →
        vecGet src.float_array (elemIndex i stride (k : Int))
          = Except.ok (src.float_array.getD (i * stride + k) CFloat.one) := by
      intro i k hi hk
      have hb := hbound i k hi hk
      rw [elemIndex_natCast i stride k (by omega)]
      exact vecGet_of_lt _ _ _ hb
    have hloop := parse_geo_positions_loop src stride (kx : Int) (ky : Int) (kz : Int)
      (fun i => { x := src.float_array.getD (i * stride + kx) CFloat.one
                  y := src.float_array.getD (i * stride + ky) CFloat.one
                  z := src.float_array.getD (i * stride + kz) CFloat.one })
      (List.range count) model
      (by
        intro i hi
        have hi' : i < count := List.mem_range.1 hi
        exact ⟨hread i kx hi' (by omega), hread i ky hi' (by omega), hread i kz hi' (by omega)⟩)
    refine ⟨(List.range count).map (fun i =>
        { x := src.float_array.getD (i * stride + kx) CFloat.one
          y := src.float_array.getD (i * stride + ky) CFloat.one
          z := src.float_array.getD (i * stride + kz) CFloat.one }), ?_, by simp, ?_⟩
    · have hc : ((kx : Int) ≠ NOT_FOUND ∧ (ky : Int) ≠ NOT_FOUND ∧ (kz : Int) ≠ NOT_FOUND) := by
        simp only [NOT_FOUND]
        omega
      unfold parse_geo_positions
      simp only [hsrc, bind_ok, herr, if_true, hX, hY, hZ, hcount, hstride, readInit, hloop,
        pure_eq_ok, if_pos hc]
    · intro i hi
      have gx := hbound i kx hi (by omega)
      have gy := hbound i ky hi (by omega)
      have gz := hbound i kz hi (by omega)
      simp [List.getD, hi, List.getElem?_eq_getElem gx, List.getElem?_eq_getElem gy,
        List.getElem?_eq_getElem gz]
  · intro h
    unfold parse_geo_positions
    simp only [hsrc, bind_ok]
    by_cases herr : src.error = 0
    · have hmiss : ¬ (getParamOffset "X" src.params ≠ NOT_FOUND ∧
          getParamOffset "Y" src.params ≠ NOT_FOUND ∧
          getParamOffset "Z" src.params ≠ NOT_FOUND) := by
        rcases h with h | h | h | h
        · exact absurd herr h
        · exact fun hc => hc.1 h
        · exact fun hc => hc.2.1 h
        · exact fun hc => hc.2.2 h
      simp only [herr, if_true, if_neg hmiss, pure_eq_ok]
    · simp only [herr, if_false, pure_eq_ok]

/-- Witness for C17: the position source of three elements with stride 3 gives
three vertices, read at the columns 0, 1, 2 of each element; a source without a
parameter "Z" gives none. -/
theorem parse_geo_positions_extracts_witness :
    (∃ vs : List (Vertex Dec),
      parse_geo_positions Examples.uvLib (Examples.uvLib "pos") {} []
        = Except.ok ({ ({} : ModelNode Dec) with vertices := [] ++ vs }, []) ∧
      vs.length = 3 ∧
      ∀ i, i < 3 →
        (vs.get? i).map (fun v => v.x)
          = Examples.positionsDecoded.float_array.get? (i * 3 + 0) ∧
        (vs.get? i).map (fun v => v.y)
          = Examples.positionsDecoded.float_array.get? (i * 3 + 1) ∧
        (vs.get? i).map (fun v => v.z)
          = Examples.positionsDecoded.float_array.get? (i * 3 + 2)) ∧
    parse_geo_positions (F := Dec) (Examples.libWith Examples.flatNormalsSource)
        (some Examples.flatNormalsSource) {} []
      = Except.ok ({}, []) := by
  constructor
  · obtain ⟨count, stride, hcount, hstride, h⟩ :=
      (parse_geo_positions_extracts Examples.uvLib (Examples.uvLib "pos")
        ({} : ModelNode Dec) [] [] Examples.positionsDecoded (by decide)).1
        (by decide) 0 1 2 (by decide) (by decide) (by decide)
    have hc : count = 3 := by
      have e : some count = some 3 := hcount.symm
      exact Option.some.inj e
    have hs : stride = 3 := by
      have e : some stride = some 3 := hstride.symm
      exact Option.some.inj e
    subst hc hs
    exact h (by decide) (by decide) (by decide)
  · exact (parse_geo_positions_extracts (Examples.libWith Examples.flatNormalsSource)
      (some Examples.flatNormalsSource) {} [] []
      { count := some 1, stride := some 3, float_array := [⟨0, 0⟩, ⟨0, 0⟩, ⟨1, 0⟩],
        params := [⟨"X", "float"⟩, ⟨"Y", "float"⟩] } (by decide)).2
      (Or.inr (Or.inr (Or.inr (by decide))))

/-! ## Materials are unique by name (C13) -/

section UniqueMaterials
variable {F : Type} [CFloat F]

/-- One call of `parse_new_material` on a list without repeated names: the list
it leaves has no repeated names and extends the old one, and the pointer it
returns for a node is the position of a material that carries the name of the
node. -/
theorem parse_new_material_step (mat_node : Option XmlNode) (st st1 : Model F)
    (r : Option Nat)
    (h : parse_new_material mat_node st = Except.ok (r, st1))
    (hnd : (st.materials.map (fun m => m.name)).Nodup) :
    (st1.materials.map (fun m => m.name)).Nodup ∧
    (∃ ext, st1.materials = st.materials ++ ext) ∧
    (∀ node, mat_node = some node →
      ∃ i m, r = some i ∧ st1.materials.get? i = some m ∧ m.name = materialName node) ∧
    (mat_node = none → r = none) := by
  cases mat_node with
  | none =>
    simp only [parse_new_material, pure_eq_ok, Except.ok.injEq, Prod.mk.injEq] at h
    obtain ⟨hr, hst⟩ := h
    subst hst
    exact ⟨hnd, ⟨[], by simp⟩, (fun node hn => by cases hn), fun _ => hr.symm⟩
  | some node =>
    unfold parse_new_material at h
    simp only [newMaterial_name] at h
    by_cases hfound : doesMaterialNameAlreadyExist st.materials (materialName node) = NOT_FOUND
    · simp only [hfound, ne_eq, not_true_eq_false, if_false] at h
      obtain ⟨res, hres, h⟩ := bind_eq_ok h
      simp only [pure_eq_ok, Except.ok.injEq, Prod.mk.injEq] at h
      obtain ⟨hr, hst⟩ := h
      have hname : res.1.name = materialName node := by
        have := parse_material_effect_name _ _ _ _ _ _ hres
        rw [this, newMaterial_name]
      have hnone : ∀ m ∈ st.materials, m.name ≠ materialName node :=
        (doesMaterialNameAlreadyExistFrom_eq_NOT_FOUND _ _ 0).1 hfound
      have hmats : st1.materials = st.materials ++ [res.1] := by rw [← hst]
      refine ⟨?_, ⟨[res.1], hmats⟩, ?_, fun hn => by cases hn⟩
      · rw [hmats, List.map_append, List.nodup_append]
        refine ⟨hnd, by simp, ?_⟩
        intro a ha hb
        simp only [List.map_cons, List.map_nil, List.mem_singleton] at hb
        obtain ⟨m, hm, hma⟩ := List.mem_map.1 ha
        exact hnone m hm (by rw [hma, hb, hname])
      · intro node' hn
        cases hn
        refine ⟨st.materials.length, res.1, hr.symm, ?_, hname⟩
        rw [hmats]
        simp
    · simp only [ne_eq, hfound, not_false_eq_true, if_true, pure_eq_ok, Except.ok.injEq,
        Prod.mk.injEq] at h
      obtain ⟨hr, hst⟩ := h
      subst hst
      obtain ⟨j, m, hj, hget, hmname⟩ := doesMaterialNameAlreadyExistFrom_found _ _ 0 hfound
      simp only [Nat.zero_add] at hj
      have hj' : doesMaterialNameAlreadyExist st.materials (materialName node) = (j : Int) := hj
      refine ⟨hnd, ⟨[], by simp⟩, ?_, fun hn => by cases hn⟩
      intro node' hn
      cases hn
      refine ⟨j, m, ?_, hget, hmname⟩
      rw [← hr, hj']
      simp

/-- A sequence of calls of `parse_new_material` from a list without repeated
names, with `acc` the pointers returned before. -/
theorem parse_new_material_calls_from :
    ∀ (nodes : List (Option XmlNode)) (acc rs : List (Option Nat)) (st st1 : Model F),
      nodes.foldlM parse_new_material_call (acc, st) = Except.ok (rs, st1) →
      (st.materials.map (fun m => m.name)).Nodup →
      (st1.materials.map (fun m => m.name)).Nodup ∧
      (∃ ext, st1.materials = st.materials ++ ext) ∧
      ∃ rs', rs = acc ++ rs' ∧ rs'.length = nodes.length ∧
        ∀ k,
          (∀ node, nodes.get? k = some (some node) →
            ∃ i m, rs'.get? k = some (some i) ∧ st1.materials.get? i = some m ∧
              m.name = materialName node) ∧
          (nodes.get? k = some none → rs'.get? k = some none)
  | [], acc, rs, st, st1, h, hnd => by
    simp only [List.foldlM_nil, pure_eq_ok, Except.ok.injEq, Prod.mk.injEq] at h
    obtain ⟨hrs, hst⟩ := h
    subst hrs hst
    exact ⟨hnd, ⟨[], by simp⟩, [], by simp, rfl, fun k => by simp⟩
  | node :: rest, acc, rs, st, st1, h, hnd => by
    rw [List.foldlM_cons] at h
    obtain ⟨mid, hmid, h⟩ := bind_eq_ok h
    unfold parse_new_material_call at hmid
    obtain ⟨res, hres, hmid⟩ := bind_eq_ok hmid
    simp only [pure_eq_ok, Except.ok.injEq] at hmid
    subst hmid
    obtain ⟨hnd2, ⟨ext2, hext2⟩, hsome, hnone⟩ :=
      parse_new_material_step node st res.2 res.1 hres hnd
    obtain ⟨hnd1, ⟨ext1, hext1⟩, rs', hrs, hlen, hk⟩ :=
      parse_new_material_calls_from rest (acc ++ [res.1]) rs res.2 st1 h hnd2
    refine ⟨hnd1, ⟨ext2 ++ ext1, by rw [hext1, hext2, List.append_assoc]⟩,
      res.1 :: rs', by rw [hrs]; simp, by simp [hlen], ?_⟩
    intro k
    cases k with
    | zero =>
      constructor
      · intro nd hnd0
        simp only [List.get?_cons_zero, Option.some.injEq] at hnd0
        obtain ⟨i, m, hri, hget, hname⟩ := hsome nd hnd0
        refine ⟨i, m, by simp [hri], ?_, hname⟩
        rw [hext1]
        have hi : i < res.2.materials.length := by
          rcases Nat.lt_or_ge i res.2.materials.length with hlt | hge
          · exact hlt
          · have : res.2.materials.get? i = none := by simp [hge]
            rw [this] at hget
            cases hget
        simp only [List.get?_eq_getElem?] at hget ⊢
        rw [List.getElem?_append_left hi]
        exact hget
      · intro hnd0
        simp only [List.get?_cons_zero, Option.some.injEq] at hnd0
        simp [hnone hnd0]
    | succ k =>
      simpa using hk k

end UniqueMaterials

/-- C13: starting from an empty materials list, after any sequence of calls of
`parse_new_material` (on nodes with or without a `name` attribute, and on the
null node) that have returned, no two materials of the list have the same name,
and every call on a node returned the position of an entry of the list, a
material that carries the name of the node; a call on the null node returned
null. -/
theorem materials_unique_by_name {F : Type} [CFloat F] (nodes : List (Option XmlNode))
    (st st1 : Model F) (rs : List (Option Nat))
    (hempty : st.materials = [])
    (hrun : parse_new_material_calls nodes st = Except.ok (rs, st1)) :
    (st1.materials.map (fun m => m.name)).Nodup ∧
    rs.length = nodes.length ∧
    (∀ k node, nodes.get? k = some (some node) →
      ∃ i m, rs.get? k = some (some i) ∧ st1.materials.get? i = some m ∧
        m.name = materialName node) ∧
    (∀ k, nodes.get? k = some none → rs.get? k = some none) ∧
    (∀ i, some i ∈ rs → i < st1.materials.length) := by
  obtain ⟨hnd, _, rs', hrs, hlen, hk⟩ :=
    parse_new_material_calls_from nodes [] rs st st1 hrun (by rw [hempty]; simp)
  simp only [List.nil_append] at hrs
  subst hrs
  refine ⟨hnd, hlen, fun k node hn => (hk k).1 node hn, fun k hn => (hk k).2 hn, ?_⟩
  intro i hi
  obtain ⟨k, hk1⟩ := List.get?_of_mem hi
  have hklt : k < nodes.length := by
    rw [← hlen]
    rcases Nat.lt_or_ge k rs.length with hlt | hge
    · exact hlt
    · have : rs.get? k = none := by simp [hge]
      rw [this] at hk1
      cases hk1
  cases hnode : nodes.get? k with
  | none =>
    have : nodes.get? k ≠ none := by simp; omega
    exact absurd hnode this
  | some nd =>
    cases nd with
    | none =>
      have := (hk k).2 hnode
      rw [hk1] at this
      cases this
    | some node =>
      obtain ⟨i', m, hri, hget, _⟩ := (hk k).1 node hnode
      rw [hk1] at hri
      cases hri
      rcases Nat.lt_or_ge i st1.materials.length with hlt | hge
      · exact hlt
      · have : st1.materials.get? i = none := by simp [hge]
        rw [this] at hget
        cases hget

/-- Witness for C13: the nodes "red", "red" again, the null node, a node without
name and that node again, resolved from the empty state, give two materials. -/
theorem materials_unique_by_name_witness :
    ∃ (rs : List (Option Nat)) (st1 : Model Dec),
      parse_new_material_calls
          [some Examples.matRed, some Examples.matRedAgain, none,
            some Examples.matNameless, some Examples.matNameless] ({} : Model Dec)
        = Except.ok (rs, st1) ∧
      rs = [some 0, some 0, none, some 1, some 1] ∧
      st1.materials = [{ name := "red" }, { name := "" }] ∧
      (st1.materials.map (fun m => m.name)).Nodup ∧
      (∀ i, some i ∈ rs → i < st1.materials.length) := by
  have hrun : parse_new_material_calls
      [some Examples.matRed, some Examples.matRedAgain, none,
        some Examples.matNameless, some Examples.matNameless] ({} : Model Dec)
      = Except.ok ([some 0, some 0, none, some 1, some 1],
          { materials := [{ name := "red" }, { name := "" }]
            cerr := [ERROR_MSG_NO_FIND "effect", "Material node is null!",
              ERROR_MSG_NO_FIND "instance_effect"] }) := by rfl
  have h := materials_unique_by_name _ ({} : Model Dec) _ _ rfl hrun
  exact ⟨_, _, hrun, rfl, rfl, h.1, h.2.2.2.2⟩

/-! ## The material of a node is kept by the geometry extractors -/

section MaterialKept
variable {F : Type} [CFloat F]

/-- The function `parse_geo_normals` keeps the material of the node. -/
theorem parse_geo_normals_material (lib_geometries : NodeMap) (source : Option XmlNode)
    (m : ModelNode F) (cerr : List String) (r : ModelNode F × List String)
    (h : parse_geo_normals lib_geometries source m cerr = Except.ok r) :
    r.1.material = m.material := by
  unfold parse_geo_normals at h
  obtain ⟨src, _, h⟩ := bind_eq_ok h
  split at h
  · obtain ⟨count, _, h⟩ := bind_eq_ok h
    obtain ⟨m', hm', h⟩ := bind_eq_ok h
    simp only [pure_eq_ok, Except.ok.injEq] at h
    subst h
    refine foldlM_invariant _ (fun x : ModelNode F => x.material = m.material) ?_ _ m m' hm' rfl
    intro acc i acc' hstep hacc
    unfold parse_geo_normals_elem at hstep
    obtain ⟨_, _, hstep⟩ := bind_eq_ok hstep
    obtain ⟨_, _, hstep⟩ := bind_eq_ok hstep
    obtain ⟨_, _, hstep⟩ := bind_eq_ok hstep
    simp only [pure_eq_ok, Except.ok.injEq] at hstep
    subst hstep
    exact hacc
  · simp only [pure_eq_ok, Except.ok.injEq] at h
    subst h
    rfl

/-- The function `parse_geo_positions` keeps the material of the node. -/
theorem parse_geo_positions_material (lib_geometries : NodeMap) (source : Option XmlNode)
    (m : ModelNode F) (cerr : List String) (r : ModelNode F × List String)
    (h : parse_geo_positions lib_geometries source m cerr = Except.ok r) :
    r.1.material = m.material := by
  unfold parse_geo_positions at h
  obtain ⟨src, _, h⟩ := bind_eq_ok h
  split at h
  · simp only [] at h
    split at h
    · obtain ⟨count, _, h⟩ := bind_eq_ok h
      obtain ⟨stride, _, h⟩ := bind_eq_ok h
      obtain ⟨m', hm', h⟩ := bind_eq_ok h
      simp only [pure_eq_ok, Except.ok.injEq] at h
      subst h
      refine foldlM_invariant _ (fun x : ModelNode F => x.material = m.material) ?_ _ m m' hm' rfl
      intro acc i acc' hstep hacc
      unfold parse_geo_positions_elem at hstep
      obtain ⟨_, _, hstep⟩ := bind_eq_ok hstep
      obtain ⟨_, _, hstep⟩ := bind_eq_ok hstep
      obtain ⟨_, _, hstep⟩ := bind_eq_ok hstep
      simp only [pure_eq_ok, Except.ok.injEq] at hstep
      subst hstep
      exact hacc
    · simp only [pure_eq_ok, Except.ok.injEq] at h
      subst h
      rfl
  · simp only [pure_eq_ok, Except.ok.injEq] at h
    subst h
    rfl

/-- The function `parse_geo_texCoords` keeps the material of the node. -/
theorem parse_geo_texCoords_material (lib_geometries : NodeMap) (source : Option XmlNode)
    (m : ModelNode F) (cerr : List String) (r : ModelNode F × List String)
    (h : parse_geo_texCoords lib_geometries source m cerr = Except.ok r) :
    r.1.material = m.material := by
  unfold parse_geo_texCoords at h
  obtain ⟨src, _, h⟩ := bind_eq_ok h
  split at h
  · simp only [] at h
    split at h
    · obtain ⟨count, _, h⟩ := bind_eq_ok h
      obtain ⟨stride, _, h⟩ := bind_eq_ok h
      obtain ⟨m', hm', h⟩ := bind_eq_ok h
      simp only [pure_eq_ok, Except.ok.injEq] at h
      subst h
      refine foldlM_invariant _ (fun x : ModelNode F => x.material = m.material) ?_ _ m m' hm' rfl
      intro acc i acc' hstep hacc
      unfold parse_geo_texCoords_elem at hstep
      obtain ⟨_, _, hstep⟩ := bind_eq_ok hstep
      obtain ⟨_, _, hstep⟩ := bind_eq_ok hstep
      simp only [pure_eq_ok, Except.ok.injEq] at hstep
      subst hstep
      exact hacc
    · simp only [pure_eq_ok, Except.ok.injEq] at h
      subst h
      rfl
  · simp only [pure_eq_ok, Except.ok.injEq] at h
    subst h
    rfl

/-- The function `parse_geo_rgb` keeps the material of the node. -/
theorem parse_geo_rgb_material (lib_geometries : NodeMap) (source : Option XmlNode)
    (m : ModelNode F) (cerr : List String) (r : ModelNode F × List String)
    (h : parse_geo_rgb lib_geometries source m cerr = Except.ok r) :
    r.1.material = m.material := by
  unfold parse_geo_rgb at h
  obtain ⟨src, _, h⟩ := bind_eq_ok h
  obtain ⟨stride, _, h⟩ := bind_eq_ok h
  split at h
  · simp only [pure_eq_ok, Except.ok.injEq] at h
    subst h
    rfl
  · split at h
    · simp only [] at h
      split at h
      · obtain ⟨count, _, h⟩ := bind_eq_ok h
        obtain ⟨m', hm', h⟩ := bind_eq_ok h
        simp only [pure_eq_ok, Except.ok.injEq] at h
        subst h
        refine foldlM_invariant _ (fun x : ModelNode F => x.material = m.material) ?_ _ m m'
          hm' rfl
        intro acc i acc' hstep hacc
        unfold parse_geo_rgb_elem at hstep
        obtain ⟨_, _, hstep⟩ := bind_eq_ok hstep
        simp only [pure_eq_ok, Except.ok.injEq] at hstep
        subst hstep
        exact hacc
      · simp only [pure_eq_ok, Except.ok.injEq] at h
        subst h
        rfl
    · simp only [pure_eq_ok, Except.ok.injEq] at h
      subst h
      rfl

/-- The function `parse_geo_vertices` keeps the material of the node. -/
theorem parse_geo_vertices_material (lib_geometries : NodeMap) (vertices : Option XmlNode)
    (m : ModelNode F) (cerr : List String) (r : ModelNode F × List String)
    (h : parse_geo_vertices lib_geometries vertices m cerr = Except.ok r) :
    r.1.material = m.material := by
  unfold parse_geo_vertices at h
  obtain ⟨node, _, h⟩ := bind_eq_ok h
  refine foldlM_invariant _ (fun x : ModelNode F × List String => x.1.material = m.material)
    ?_ _ (m, cerr) r h rfl
  intro acc c acc' hstep hacc
  unfold parse_geo_vertices_child at hstep
  split at hstep
  · split at hstep
    · split at hstep
      · obtain ⟨_, _, hstep⟩ := bind_eq_ok hstep
        exact (parse_geo_positions_material _ _ _ _ _ hstep).trans hacc
      · split at hstep
        · obtain ⟨_, _, hstep⟩ := bind_eq_ok hstep
          exact (parse_geo_normals_material _ _ _ _ _ hstep).trans hacc
        · simp only [pure_eq_ok, Except.ok.injEq] at hstep
          exact hstep ▸ hacc
    · simp only [pure_eq_ok, Except.ok.injEq] at hstep
      exact hstep ▸ hacc
  · simp only [pure_eq_ok, Except.ok.injEq] at hstep
    exact hstep ▸ hacc

/-- The function `parse_triangles_inputs` keeps the material of the node. -/
theorem parse_triangles_inputs_material (lib_geometries : NodeMap) (triangles : XmlNode)
    (m : ModelNode F) (offsets : Semantics_offsets) (cerr : List String) (st : InputsState F)
    (h : parse_triangles_inputs lib_geometries triangles m offsets cerr = Except.ok st) :
    st.model.material = m.material := by
  unfold parse_triangles_inputs at h
  refine foldlM_invariant _ (fun x : InputsState F => x.model.material = m.material)
    ?_ _ _ st h rfl
  intro acc c acc' hstep hacc
  unfold parse_triangles_inputs_child at hstep
  split at hstep
  · split at hstep
    · split at hstep
      · obtain ⟨_, _, hstep⟩ := bind_eq_ok hstep
        obtain ⟨r, hr, hstep⟩ := bind_eq_ok hstep
        obtain ⟨_, _, hstep⟩ := bind_eq_ok hstep
        obtain ⟨_, _, hstep⟩ := bind_eq_ok hstep
        simp only [pure_eq_ok, Except.ok.injEq] at hstep
        subst hstep
        exact (parse_geo_vertices_material _ _ _ _ _ hr).trans hacc
      · split at hstep
        · obtain ⟨_, _, hstep⟩ := bind_eq_ok hstep
          obtain ⟨r, hr, hstep⟩ := bind_eq_ok hstep
          obtain ⟨_, _, hstep⟩ := bind_eq_ok hstep
          obtain ⟨_, _, hstep⟩ := bind_eq_ok hstep
          simp only [pure_eq_ok, Except.ok.injEq] at hstep
          subst hstep
          exact (parse_geo_normals_material _ _ _ _ _ hr).trans hacc
        · split at hstep
          · obtain ⟨_, _, hstep⟩ := bind_eq_ok hstep
            obtain ⟨_, _, hstep⟩ := bind_eq_ok hstep
            split at hstep
            · split at hstep
              · obtain ⟨_, _, hstep⟩ := bind_eq_ok hstep
                obtain ⟨r, hr, hstep⟩ := bind_eq_ok hstep
                simp only [pure_eq_ok, Except.ok.injEq] at hstep
                subst hstep
                exact (parse_geo_texCoords_material _ _ _ _ _ hr).trans hacc
              · simp only [pure_eq_ok, Except.ok.injEq] at hstep
                subst hstep
                exact hacc
            · obtain ⟨_, _, hstep⟩ := bind_eq_ok hstep
              obtain ⟨r, hr, hstep⟩ := bind_eq_ok hstep
              simp only [pure_eq_ok, Except.ok.injEq] at hstep
              subst hstep
              exact (parse_geo_texCoords_material _ _ _ _ _ hr).trans hacc
          · split at hstep
            · obtain ⟨_, _, hstep⟩ := bind_eq_ok hstep
              obtain ⟨_, _, hstep⟩ := bind_eq_ok hstep
              obtain ⟨_, _, hstep⟩ := bind_eq_ok hstep
              obtain ⟨r, hr, hstep⟩ := bind_eq_ok hstep
              simp only [pure_eq_ok, Except.ok.injEq] at hstep
              subst hstep
              exact (parse_geo_rgb_material _ _ _ _ _ hr).trans hacc
            · simp only [pure_eq_ok, Except.ok.injEq] at hstep
              exact hstep ▸ hacc
    · simp only [pure_eq_ok, Except.ok.injEq] at hstep
      exact hstep ▸ hacc
  · simp only [pure_eq_ok, Except.ok.injEq] at hstep
    exact hstep ▸ hacc

/-- The function `parse_triangles` keeps the material of the node. -/
theorem parse_triangles_material (lib_geometries : NodeMap) (triangles : XmlNode)
    (m : ModelNode F) (cerr : List String) (r : ModelNode F × List String)
    (h : parse_triangles lib_geometries triangles m cerr = Except.ok r) :
    r.1.material = m.material := by
  unfold parse_triangles at h
  split at h
  · obtain ⟨_, _, h⟩ := bind_eq_ok h
    obtain ⟨st, hst, h⟩ := bind_eq_ok h
    split at h
    · simp at h
    · obtain ⟨m', hm', h⟩ := bind_eq_ok h
      simp only [pure_eq_ok, Except.ok.injEq] at h
      subst h
      have hin := parse_triangles_inputs_material _ _ _ _ _ _ hst
      refine foldlM_invariant _ (fun x : ModelNode F => x.material = m.material) ?_ _ _ m'
        hm' hin
      intro acc i acc' hstep hacc
      obtain ⟨_, _, hstep⟩ := bind_eq_ok hstep
      simp only [pure_eq_ok, Except.ok.injEq] at hstep
      subst hstep
      exact hacc
  · simp only [pure_eq_ok, Except.ok.injEq] at h
    subst h
    rfl

end MaterialKept

/-! ## The table of material bindings (C20) -/

/-- Counterexample for C20 as stated: in a scene with two instance_geometry
nodes of which only the first binds the symbol "S" (to the material "red"), the
primitive with material "S" in the geometry of the second instance gets the
material "red" as well; loaded on its own, the second instance has no binding
for "S", the material node is null and the primitive gets no material. -/
theorem second_instance_sees_first_binding :
    (Model.load (F := Dec) 3
        [Examples.instancesRoot
          [Examples.boundInstance "#g1" "S" "#m1", Examples.instanceGeometry "#g2"]]).map
        (fun st => (st.modelNodes.map (fun node => node.material),
          st.materials.map (fun m => m.name), st.cerr))
      = Except.ok ([some 0, some 0], ["red"],
          [ERROR_MSG_NO_FIND "effect", ERROR_MSG_NO_FIND "bind_material"]) ∧
    (Model.load (F := Dec) 3
        [Examples.instancesRoot [Examples.instanceGeometry "#g2"]]).map
        (fun st => (st.modelNodes.map (fun node => node.material),
          st.materials.map (fun m => m.name), st.cerr))
      = Except.ok ([none], [], [ERROR_MSG_NO_FIND "bind_material", "Material node is null!"]) := by
  constructor <;> decide

section BindingTable
variable {F : Type} [CFloat F]

/-- The function `parse_new_material` leaves the binding table, the material
library and the nodes as they are. -/
theorem parse_new_material_keeps_table (mat_node : Option XmlNode) (st st1 : Model F)
    (r : Option Nat) (h : parse_new_material mat_node st = Except.ok (r, st1)) :
    st1.materialSymbolTargetMap = st.materialSymbolTargetMap ∧
      st1.lib_materials = st.lib_materials ∧ st1.modelNodes = st.modelNodes := by
  cases mat_node with
  | none =>
    simp only [parse_new_material, pure_eq_ok, Except.ok.injEq, Prod.mk.injEq] at h
    rw [← h.2]
    exact ⟨rfl, rfl, rfl⟩
  | some node =>
    unfold parse_new_material at h
    simp only [newMaterial_name] at h
    by_cases hfound : doesMaterialNameAlreadyExist st.materials (materialName node) = NOT_FOUND
    · simp only [hfound, ne_eq, not_true_eq_false, if_false] at h
      obtain ⟨_, _, h⟩ := bind_eq_ok h
      simp only [pure_eq_ok, Except.ok.injEq, Prod.mk.injEq] at h
      rw [← h.2]
      exact ⟨rfl, rfl, rfl⟩
    · simp only [ne_eq, hfound, not_false_eq_true, if_true, pure_eq_ok, Except.ok.injEq,
        Prod.mk.injEq] at h
      rw [← h.2]
      exact ⟨rfl, rfl, rfl⟩

/-- The function `parse_geometry_primitive` leaves the binding table and the
material library as they are. -/
theorem parse_geometry_primitive_keeps_table (child : XmlNode) (st st1 : Model F)
    (h : parse_geometry_primitive child st = Except.ok st1) :
    st1.materialSymbolTargetMap = st.materialSymbolTargetMap ∧
      st1.lib_materials = st.lib_materials := by
  unfold parse_geometry_primitive at h
  obtain ⟨ms, hms, h⟩ := bind_eq_ok h
  obtain ⟨r, _, h⟩ := bind_eq_ok h
  simp only [pure_eq_ok, Except.ok.injEq] at h
  have hkeep : ms.2.materialSymbolTargetMap = st.materialSymbolTargetMap ∧
      ms.2.lib_materials = st.lib_materials := by
    split at hms
    · obtain ⟨res, hres, hms⟩ := bind_eq_ok hms
      simp only [pure_eq_ok, Except.ok.injEq] at hms
      subst hms
      have := parse_new_material_keeps_table _ _ _ _ hres
      exact ⟨this.1, this.2.1⟩
    · simp only [pure_eq_ok, Except.ok.injEq] at hms
      subst hms
      exact ⟨rfl, rfl⟩
  rw [← h]
  exact hkeep

/-- The loop of `parse_geometry` leaves the binding table and the material
library as they are. -/
theorem parse_geometry_children_keep_table (children : List XmlNode) (st st1 : Model F)
    (h : children.foldlM parse_geometry_child st = Except.ok st1) :
    st1.materialSymbolTargetMap = st.materialSymbolTargetMap ∧
      st1.lib_materials = st.lib_materials := by
  refine foldlM_invariant parse_geometry_child
    (fun s : Model F => s.materialSymbolTargetMap = st.materialSymbolTargetMap ∧
      s.lib_materials = st.lib_materials) ?_ _ st st1 h ⟨rfl, rfl⟩
  intro acc c acc' hc hP
  unfold parse_geometry_child at hc
  split at hc
  · have := parse_geometry_primitive_keeps_table _ _ _ hc
    exact ⟨this.1.trans hP.1, this.2.trans hP.2⟩
  · split at hc
    · split at hc
      · have := parse_geometry_primitive_keeps_table _ _ _ hc
        exact ⟨this.1.trans hP.1, this.2.trans hP.2⟩
      · simp only [pure_eq_ok, Except.ok.injEq] at hc
        exact hc ▸ hP
    · simp only [pure_eq_ok, Except.ok.injEq] at hc
      exact hc ▸ hP

/-- The function `parse_geometry` leaves the binding table and the material
library as they are. -/
theorem parse_geometry_keeps_table (geometry : Option XmlNode) (st st1 : Model F)
    (h : parse_geometry geometry st = Except.ok st1) :
    st1.materialSymbolTargetMap = st.materialSymbolTargetMap ∧
      st1.lib_materials = st.lib_materials := by
  unfold parse_geometry at h
  obtain ⟨_, _, h⟩ := bind_eq_ok h
  split at h
  · exact parse_geometry_children_keep_table _ _ _ h
  · simp only [pure_eq_ok, Except.ok.injEq] at h
    rw [← h]
    exact ⟨rfl, rfl⟩

/-- One step of the loop of `parse_geo_material`: a child that makes a binding
assigns the entry of its symbol, any other child changes no entry. -/
theorem parse_geo_material_child_table (st st1 : Model F) (child : XmlNode)
    (h : parse_geo_material_child st child = Except.ok st1) :
    st1.lib_materials = st.lib_materials ∧
    (materialBinding child = none → st1.materialSymbolTargetMap = st.materialSymbolTargetMap) ∧
    (∀ b, materialBinding child = some b →
      ∃ key, ID_SUBSTR b.2 = Except.ok key ∧
        st1.materialSymbolTargetMap = st.materialSymbolTargetMap.set b.1 (st.lib_materials key)) := by
  unfold parse_geo_material_child at h
  split at h
  · rename_i hname
    split at h
    · rename_i tar sym htar hsym
      obtain ⟨key, hkey, h⟩ := bind_eq_ok h
      simp only [pure_eq_ok, Except.ok.injEq] at h
      subst h
      have hmb : materialBinding child = some (sym.value, tar.value) := by
        simp [materialBinding, hname, htar, hsym]
      refine ⟨rfl, (fun hb => by rw [hmb] at hb; cases hb), ?_⟩
      intro b hb
      rw [hmb] at hb
      cases hb
      exact ⟨key, hkey, rfl⟩
    · rename_i hno
      simp only [pure_eq_ok, Except.ok.injEq] at h
      subst h
      have hmb : materialBinding child = none := by
        unfold materialBinding
        simp only [hname, if_true]
      exact ⟨rfl, (fun _ => rfl), (fun b hb => by rw [hmb] at hb; cases hb)⟩
  · rename_i hname
    simp only [pure_eq_ok, Except.ok.injEq] at h
    subst h
    have hmb : materialBinding child = none := by
      simp [materialBinding, hname]
    exact ⟨rfl, (fun _ => rfl), (fun b hb => by rw [hmb] at hb; cases hb)⟩

/-- The loop of `parse_geo_material`: after it the entry of a symbol is the
library node of the target of the last binding of the symbol, and is what it was
when no child binds the symbol. -/
theorem parse_geo_material_children_table (symbol : String) :
    ∀ (children : List XmlNode) (st st1 : Model F),
      children.foldlM parse_geo_material_child st = Except.ok st1 →
      st1.lib_materials = st.lib_materials ∧
      (lastTarget symbol (children.filterMap materialBinding) = none →
        st1.materialSymbolTargetMap symbol = st.materialSymbolTargetMap symbol) ∧
      (∀ target, lastTarget symbol (children.filterMap materialBinding) = some target →
        ∃ key, ID_SUBSTR target = Except.ok key ∧
          st1.materialSymbolTargetMap symbol = st.lib_materials key)
  | [], st, st1, h => by
    simp only [List.foldlM_nil, pure_eq_ok, Except.ok.injEq] at h
    subst h
    exact ⟨rfl, fun _ => rfl, fun t ht => by simp [lastTarget] at ht⟩
  | c :: rest, st, st1, h => by
    rw [List.foldlM_cons] at h
    obtain ⟨st2, hc, h⟩ := bind_eq_ok h
    obtain ⟨hlib2, hnoneC, hsomeC⟩ := parse_geo_material_child_table st st2 c hc
    obtain ⟨hlib1, hnoneR, hsomeR⟩ := parse_geo_material_children_table symbol rest st2 st1 h
    refine ⟨hlib1.trans hlib2, ?_, ?_⟩
    · intro hlast
      cases hb : materialBinding c with
      | none =>
        simp only [List.filterMap_cons, hb] at hlast
        rw [hnoneR hlast, hnoneC hb]
      | some b =>
        simp only [List.filterMap_cons, hb, lastTarget] at hlast
        cases hrest : lastTarget symbol (rest.filterMap materialBinding) with
        | some t => simp [hrest] at hlast
        | none =>
          simp only [hrest] at hlast
          have hne : ¬ b.1 = symbol := by
            intro he
            simp [he] at hlast
          obtain ⟨key, _, htab⟩ := hsomeC b hb
          rw [hnoneR hrest, htab]
          simp only [NodeMap.set]
          rw [if_neg (fun he => hne he.symm)]
    · intro target hlast
      cases hb : materialBinding c with
      | none =>
        simp only [List.filterMap_cons, hb] at hlast
        obtain ⟨key, hkey, htab⟩ := hsomeR target hlast
        exact ⟨key, hkey, by rw [htab, hlib2]⟩
      | some b =>
        simp only [List.filterMap_cons, hb, lastTarget] at hlast
        cases hrest : lastTarget symbol (rest.filterMap materialBinding) with
        | some t =>
          simp only [hrest, Option.some.injEq] at hlast
          subst hlast
          obtain ⟨key, hkey, htab⟩ := hsomeR t hrest
          exact ⟨key, hkey, by rw [htab, hlib2]⟩
        | none =>
          simp only [hrest] at hlast
          by_cases he : b.1 = symbol
          · simp only [he, if_true, Option.some.injEq] at hlast
            subst hlast
            obtain ⟨key, hkey, htab⟩ := hsomeC b hb
            refine ⟨key, hkey, ?_⟩
            rw [hnoneR hrest, htab]
            simp [NodeMap.set, he]
          · simp [he] at hlast

/-- The function `parse_geo_material`: after it the entry of a symbol is the
library node of the target of the last binding the instance makes for the
symbol, and is what it was before when the instance does not bind the symbol. -/
theorem parse_geo_material_table (symbol : String) (geonode : XmlNode) (st st1 : Model F)
    (h : parse_geo_material geonode st = Except.ok st1) :
    st1.lib_materials = st.lib_materials ∧
    (lastTarget symbol (instanceBindings geonode) = none →
      st1.materialSymbolTargetMap symbol = st.materialSymbolTargetMap symbol) ∧
    (∀ target, lastTarget symbol (instanceBindings geonode) = some target →
      ∃ key, ID_SUBSTR target = Except.ok key ∧
        st1.materialSymbolTargetMap symbol = st.lib_materials key) := by
  unfold parse_geo_material at h
  unfold instanceBindings
  split at h
  · split at h
    · exact parse_geo_material_children_table symbol _ st st1 h
    · simp only [pure_eq_ok, Except.ok.injEq] at h
      subst h
      exact ⟨rfl, fun _ => rfl, fun t ht => by simp [lastTarget] at ht⟩
  · simp only [pure_eq_ok, Except.ok.injEq] at h
    subst h
    exact ⟨rfl, fun _ => rfl, fun t ht => by simp [lastTarget] at ht⟩

end BindingTable

/-- C20 (amended): the binding table belongs to the `Model` and outlives the
geometry instance that filled it.  When the first of two instance_geometry
nodes has been processed and binds `symbol` to `target`, and the second one
makes no binding for `symbol`, then after `parse_geo_material` of the second
node the table still maps `symbol` to the material-library node of `target`,
and every primitive with material `symbol` met while the geometry of the second
instance is parsed is resolved by `parse_new_material` on that node: the node
it appends carries the material returned for it. -/
theorem binding_table_outlives_instance {F : Type} [CFloat F] (st st1 st2 : Model F)
    (g1 g2 : XmlNode) (symbol target : String)
    (h1 : parse_scene_geonode st g1 = Except.ok st1)
    (hb1 : lastTarget symbol (instanceBindings g1) = some target)
    (hb2 : lastTarget symbol (instanceBindings g2) = none)
    (h2 : parse_geo_material g2 st1 = Except.ok st2) :
    ∃ key, ID_SUBSTR target = Except.ok key ∧
      st2.materialSymbolTargetMap symbol = st.lib_materials key ∧
      ∀ (before : List XmlNode) (child : XmlNode) (matAttr : XmlAttr) (s s' : Model F),
        before.foldlM parse_geometry_child st2 = Except.ok s →
        findAttribute child "material" = some matAttr → matAttr.value = symbol →
        parse_geometry_primitive child s = Except.ok s' →
        ∃ r sm node, parse_new_material (st.lib_materials key) s = Except.ok (r, sm) ∧
          s'.modelNodes = s.modelNodes ++ [node] ∧ node.material = r := by
  unfold parse_scene_geonode at h1
  obtain ⟨sta, ha, h1⟩ := bind_eq_ok h1
  obtain ⟨_, _, hsome⟩ := parse_geo_material_table symbol g1 st sta ha
  obtain ⟨key, hkey, htab⟩ := hsome target hb1
  have hst1 : st1.materialSymbolTargetMap = sta.materialSymbolTargetMap := by
    split at h1
    · obtain ⟨_, _, h1⟩ := bind_eq_ok h1
      exact (parse_geometry_keeps_table _ _ _ h1).1
    · simp only [pure_eq_ok, Except.ok.injEq] at h1
      rw [h1]
  obtain ⟨_, hnone, _⟩ := parse_geo_material_table symbol g2 st1 st2 h2
  have hst2 : st2.materialSymbolTargetMap symbol = st.lib_materials key := by
    rw [hnone hb2, hst1, htab]
  refine ⟨key, hkey, hst2, ?_⟩
  intro before child matAttr s s' hbefore hmat hsym hprim
  have hs : s.materialSymbolTargetMap symbol = st.lib_materials key := by
    rw [(parse_geometry_children_keep_table before st2 s hbefore).1, hst2]
  unfold parse_geometry_primitive at hprim
  obtain ⟨ms, hms, hprim⟩ := bind_eq_ok hprim
  obtain ⟨tr, htr, hprim⟩ := bind_eq_ok hprim
  simp only [pure_eq_ok, Except.ok.injEq] at hprim
  simp only [hmat] at hms
  obtain ⟨res, hres, hms⟩ := bind_eq_ok hms
  simp only [pure_eq_ok, Except.ok.injEq] at hms
  subst hms
  rw [hsym, hs] at hres
  refine ⟨res.1, res.2, tr.1, hres, ?_, ?_⟩
  · rw [← hprim]
    simp only
    rw [(parse_new_material_keeps_table _ _ _ _ hres).2.2]
  · rw [parse_triangles_material _ _ _ _ _ htr]
    rfl

/-- Witness for C20 (amended): the instance of "g1" that binds "S" to "#m1"
followed by the instance of "g2" that binds nothing. -/
theorem binding_table_outlives_instance_witness :
    ∃ (st1 st2 : Model Dec),
      parse_scene_geonode
          (buildLibraryMaps (Examples.instancesRoot []) ({} : Model Dec))
          (Examples.boundInstance "#g1" "S" "#m1") = Except.ok st1 ∧
      parse_geo_material (Examples.instanceGeometry "#g2") st1 = Except.ok st2 ∧
      ∃ key, ID_SUBSTR "#m1" = Except.ok key ∧
        st2.materialSymbolTargetMap "S"
          = (buildLibraryMaps (Examples.instancesRoot []) ({} : Model Dec)).lib_materials key ∧
        ∀ (before : List XmlNode) (child : XmlNode) (matAttr : XmlAttr) (s s' : Model Dec),
          before.foldlM parse_geometry_child st2 = Except.ok s →
          findAttribute child "material" = some matAttr → matAttr.value = "S" →
          parse_geometry_primitive child s = Except.ok s' →
          ∃ r sm node,
            parse_new_material
              ((buildLibraryMaps (Examples.instancesRoot []) ({} : Model Dec)).lib_materials key)
              s = Except.ok (r, sm) ∧
            s'.modelNodes = s.modelNodes ++ [node] ∧ node.material = r := by
  obtain ⟨st1, h1⟩ : ∃ st1 : Model Dec, parse_scene_geonode
      (buildLibraryMaps (Examples.instancesRoot []) ({} : Model Dec))
      (Examples.boundInstance "#g1" "S" "#m1") = Except.ok st1 := ⟨_, rfl⟩
  obtain ⟨st2, h2⟩ : ∃ st2 : Model Dec,
      parse_geo_material (Examples.instanceGeometry "#g2") st1 = Except.ok st2 := ⟨_, rfl⟩
  exact ⟨st1, st2, h1, h2,
    binding_table_outlives_instance _ st1 st2 _ _ "S" "#m1" h1 (by decide) (by decide) h2⟩

/-! ## Value decoders (C12) -/

section Decoders

/-- The extraction loop yields the pieces between whitespace characters that
are not empty, the first piece being continued from `cur`. -/
theorem tokensAux_eq_splitOnP :
    ∀ (cs cur : List Char),
      tokensAux cs cur
        = ((List.splitOnP.go isspace cs cur).filter (fun run => !run.isEmpty)).map String.mk
  | [], cur => by
    cases cur with
    | nil => simp [tokensAux, List.splitOnP.go]
    | cons c cur => simp [tokensAux, List.splitOnP.go]
  | c :: cs, cur => by
    unfold tokensAux List.splitOnP.go
    by_cases hc : isspace c = true
    · simp only [hc, if_true]
      rw [tokensAux_eq_splitOnP cs []]
      cases cur with
      | nil => simp
      | cons d cur => simp
    · simp only [hc]
      exact tokensAux_eq_splitOnP cs (c :: cur)

/-- The tokens read by the extraction loop are the tokens of the description. -/
theorem tokens_eq_wsTokens (str : String) : tokens str = wsTokens str := by
  unfold tokens wsTokens List.splitOnP
  exact tokensAux_eq_splitOnP str.data []

/-- A token read by the extraction loop is not empty and holds no whitespace
character. -/
theorem tokensAux_no_space :
    ∀ (cs cur : List Char), (∀ c ∈ cur, isspace c = false) →
      ∀ t ∈ tokensAux cs cur, t.data ≠ [] ∧ ∀ c ∈ t.data, isspace c = false
  | [], cur, hcur, t, ht => by
    unfold tokensAux at ht
    cases cur with
    | nil => simp at ht
    | cons d cur =>
      simp only [List.isEmpty_cons, Bool.false_eq_true, if_false, List.mem_singleton] at ht
      subst ht
      refine ⟨by simp, ?_⟩
      intro c hc
      exact hcur c (List.mem_reverse.1 hc)
  | c :: cs, cur, hcur, t, ht => by
    unfold tokensAux at ht
    by_cases hc : isspace c = true
    · simp only [hc, if_true] at ht
      cases cur with
      | nil =>
        simp only [List.isEmpty_nil, if_true] at ht
        exact tokensAux_no_space cs [] (by simp) t ht
      | cons d cur =>
        simp only [List.isEmpty_cons, Bool.false_eq_true, if_false, List.mem_cons] at ht
        rcases ht with ht | ht
        · subst ht
          refine ⟨by simp, ?_⟩
          intro c' hc'
          exact hcur c' (List.mem_reverse.1 hc')
        · exact tokensAux_no_space cs [] (by simp) t ht
    · simp only [hc] at ht
      refine tokensAux_no_space cs (c :: cur) ?_ t ht
      intro c' hc'
      rcases List.mem_cons.1 hc' with h | h
      · rw [h]
        simpa using hc
      · exact hcur c' h

/-- The code of a decimal digit is between 48 and 57. -/
theorem isDigit_toNat (c : Char) (h : c.isDigit = true) : 48 ≤ c.toNat ∧ c.toNat ≤ 57 := by
  simp only [Char.isDigit, Bool.and_eq_true, decide_eq_true_eq] at h
  obtain ⟨h1, h2⟩ := h
  have h1' : (48 : UInt32).toNat ≤ c.val.toNat := h1
  have h2' : c.val.toNat ≤ (57 : UInt32).toNat := h2
  exact ⟨h1', h2'⟩

/-- A decimal digit is not a whitespace character. -/
theorem isspace_of_isDigit (c : Char) (h : c.isDigit = true) : isspace c = false := by
  obtain ⟨h1, h2⟩ := isDigit_toNat c h
  unfold isspace
  simp
  omega

/-- A decimal digit is not a sign. -/
theorem ne_sign_of_isDigit (c : Char) (h : c.isDigit = true) :
    c ≠ Char.ofNat 45 ∧ c ≠ Char.ofNat 43 := by
  obtain ⟨h1, h2⟩ := isDigit_toNat c h
  constructor
  · intro he
    rw [he] at h1
    exact absurd h1 (by decide)
  · intro he
    rw [he] at h1
    exact absurd h1 (by decide)

/-- The longest run of digits at the start of digits followed by a non-digit. -/
theorem takeWhile_digits (rest : List Char)
    (hrest : ∀ c, rest.head? = some c → c.isDigit = false) :
    ∀ ds : List Char, (∀ c ∈ ds, c.isDigit = true) →
      (ds ++ rest).takeWhile Char.isDigit = ds
  | [], _ => by
    cases rest with
    | nil => rfl
    | cons r rest => simp [List.takeWhile, hrest r rfl]
  | d :: ds, h => by
    have hd : d.isDigit = true := h d (List.mem_cons_self _ _)
    rw [List.cons_append, List.takeWhile_cons, if_pos hd,
      takeWhile_digits rest hrest ds (fun c hc => h c (List.mem_cons_of_mem _ hc))]

/-- What `strtol` reads from a run of digits followed by something that is not a
digit: the value of the digits. -/
theorem strtolRead_digits (ds rest : List Char) (hne : ds ≠ [])
    (hds : ∀ c ∈ ds, c.isDigit = true)
    (hrest : ∀ c, rest.head? = some c → c.isDigit = false) :
    strtolRead (ds ++ rest) = some (digitsValue ds : Int) := by
  cases ds with
  | nil => exact absurd rfl hne
  | cons d ds' =>
    have hd : d.isDigit = true := hds d (List.mem_cons_self _ _)
    have hsp := isspace_of_isDigit d hd
    obtain ⟨hm, hp⟩ := ne_sign_of_isDigit d hd
    have htake := takeWhile_digits rest hrest (d :: ds') hds
    simp only [List.cons_append] at htake
    have e1 : (some d == some (Char.ofNat 45)) = false := by simpa using hm
    have e2 : (some d == some (Char.ofNat 43)) = false := by simpa using hp
    have hdrop : (d :: (ds' ++ rest)).dropWhile isspace = d :: (ds' ++ rest) := by
      rw [List.dropWhile_cons, hsp]
      rfl
    unfold strtolRead
    simp only [List.cons_append, hdrop, List.head?_cons, e1, e2, Bool.or_self,
      Bool.false_eq_true, if_false, htake, List.isEmpty_cons]

/-- The function `strtol` reads nothing from text that starts with a character that is
neither whitespace, nor a sign, nor a digit. -/
theorem strtolRead_no_number (c : Char) (rest : List Char) (hsp : isspace c = false)
    (hd : c.isDigit = false) (hm : c ≠ Char.ofNat 45) (hp : c ≠ Char.ofNat 43) :
    strtolRead (c :: rest) = none := by
  unfold strtolRead
  have e1 : (some c == some (Char.ofNat 45)) = false := by simpa using hm
  have e2 : (some c == some (Char.ofNat 43)) = false := by simpa using hp
  simp [List.dropWhile, hsp, e1, e2, List.takeWhile, hd]

/-- The function `strtol` reads nothing from a sign that is not followed by a digit. -/
theorem strtolRead_sign_only (sign : Char) (rest : List Char)
    (hsign : sign = Char.ofNat 45 ∨ sign = Char.ofNat 43)
    (hrest : ∀ c, rest.head? = some c → c.isDigit = false) :
    strtolRead (sign :: rest) = none := by
  have hsp : isspace sign = false := by
    rcases hsign with h | h <;> subst h <;> decide
  have htake : rest.takeWhile Char.isDigit = [] := by
    cases rest with
    | nil => rfl
    | cons r rest => simp [List.takeWhile, hrest r rfl]
  unfold strtolRead
  rcases hsign with h | h <;> subst h <;>
    simp [List.dropWhile, hsp, htake]

end Decoders

section DecoderCases

/-- What `strtol` reads from a sign followed by a run of digits: the number the
digits write, negated after a minus sign. -/
theorem strtolRead_signed_digits (sign : Char) (ds rest : List Char)
    (hsign : sign = Char.ofNat 45 ∨ sign = Char.ofNat 43) (hne : ds ≠ [])
    (hds : ∀ c ∈ ds, c.isDigit = true)
    (hrest : ∀ c, rest.head? = some c → c.isDigit = false) :
    strtolRead (sign :: (ds ++ rest))
      = some (if sign = Char.ofNat 45 then -(digitsValue ds : Int) else (digitsValue ds : Int)) := by
  have hsp : isspace sign = false := by
    rcases hsign with h | h <;> subst h <;> decide
  have htake := takeWhile_digits rest hrest ds hds
  have hemp : ds.isEmpty = false := by
    cases ds with
    | nil => exact absurd rfl hne
    | cons d ds' => rfl
  unfold strtolRead
  rcases hsign with h | h <;> subst h <;>
    simp [List.dropWhile, hsp, htake, hemp]

/-- The clamped value of a number that is not negative, as a `u32`. -/
theorem toU32_clamp_nonneg (v : Nat) :
    toU32 (max (-(2 ^ 63 : Int)) (min (v : Int) (2 ^ 63 - 1))) = min v (2 ^ 63 - 1) % U32_MOD := by
  unfold toU32 U32_MOD
  omega

/-- The clamped value of a negated number, as a `u32`. -/
theorem toU32_clamp_neg (v : Nat) :
    toU32 (max (-(2 ^ 63 : Int)) (min (-(v : Int)) (2 ^ 63 - 1)))
      = (U32_MOD - min v (2 ^ 63) % U32_MOD) % U32_MOD := by
  unfold toU32 U32_MOD
  omega

end DecoderCases

section FloatSubject

/-- A character that is not a decimal digit has a code outside 48..57. -/
theorem toNat_of_not_isDigit (c : Char) (h : c.isDigit = false) :
    c.toNat < 48 ∨ 57 < c.toNat := by
  simp only [Char.isDigit, Bool.and_eq_false_iff, decide_eq_false_iff_not] at h
  rcases h with h | h
  · left
    have h1 : ¬ (48 : UInt32).toNat ≤ c.val.toNat := h
    have h2 : (48 : UInt32).toNat = 48 := rfl
    have h3 : c.toNat = c.val.toNat := rfl
    omega
  · right
    have h1 : ¬ c.val.toNat ≤ (57 : UInt32).toNat := h
    have h2 : (57 : UInt32).toNat = 57 := rfl
    have h3 : c.toNat = c.val.toNat := rfl
    omega

/-- The lower-case code of a decimal digit is its code. -/
theorem lowerCode_of_isDigit (c : Char) (h : c.isDigit = true) :
    48 ≤ lowerCode c ∧ lowerCode c ≤ 57 := by
  obtain ⟨h1, h2⟩ := isDigit_toNat c h
  unfold lowerCode
  have : ¬ (65 ≤ c.toNat ∧ c.toNat ≤ 90) := by omega
  simp [this]
  omega

/-- The lower-case code of a character that is not a decimal digit is not the
code of a digit. -/
theorem lowerCode_of_not_isDigit (c : Char) (h : c.isDigit = false) :
    lowerCode c < 48 ∨ 57 < lowerCode c := by
  have h1 := toNat_of_not_isDigit c h
  unfold lowerCode
  by_cases hu : 65 ≤ c.toNat ∧ c.toNat ≤ 90
  · simp [hu]
    omega
  · simp [hu]
    omega

/-- A string whose first character does not have the first code of a word does
not start with the word. -/
theorem startsWord_head_false (a : Nat) (w : List Nat) (s : List Char)
    (h : ∀ c, s.head? = some c → lowerCode c ≠ a) : startsWord (a :: w) s = false := by
  cases s with
  | nil => simp [startsWord]
  | cons c rest =>
    have hc := h c rfl
    simp [startsWord, hc]

/-- The string after a matching first character decides whether the word
starts the string. -/
theorem startsWord_cons (a : Nat) (w : List Nat) (c : Char) (rest : List Char) :
    startsWord (a :: w) (c :: rest) = (lowerCode c == a && startsWord w rest) := by
  simp [startsWord]

/-- The rest after the longest run of digits at the start of digits followed by a
non-digit. -/
theorem dropWhile_digits (rest : List Char)
    (hrest : ∀ c, rest.head? = some c → c.isDigit = false) :
    ∀ ds : List Char, (∀ c ∈ ds, c.isDigit = true) →
      (ds ++ rest).dropWhile Char.isDigit = rest
  | [], _ => by
    cases rest with
    | nil => rfl
    | cons r rest => simp [List.dropWhile, hrest r rfl]
  | d :: ds, h => by
    have hd : d.isDigit = true := h d (List.mem_cons_self _ _)
    rw [List.cons_append, List.dropWhile_cons, if_pos hd,
      dropWhile_digits rest hrest ds (fun c hc => h c (List.mem_cons_of_mem _ hc))]

/-- The mantissa of a run of digits followed by neither a digit nor '.' is the
run. -/
theorem mantissaRun_digits (ds rest : List Char) (hds : ∀ c ∈ ds, c.isDigit = true)
    (hrest : ∀ c, rest.head? = some c → c.isDigit = false ∧ c ≠ Char.ofNat 46) :
    mantissaRun Char.isDigit (ds ++ rest) = ds := by
  have h1 := takeWhile_digits rest (fun c hc => (hrest c hc).1) ds hds
  have h2 := dropWhile_digits rest (fun c hc => (hrest c hc).1) ds hds
  have h3 : (rest.head? == some (Char.ofNat 46)) = false := by
    cases rest with
    | nil => rfl
    | cons r rest => simpa using (hrest r rfl).2
  unfold mantissaRun
  simp only [h1, h2, h3, Bool.false_and, Bool.false_eq_true, if_false]

/-- No exponent part starts with a character other than the exponent letter. -/
theorem exponentRun_head_false (mark : Nat) (s : List Char)
    (h : ∀ c, s.head? = some c → lowerCode c ≠ mark) : exponentRun mark s = [] := by
  cases s with
  | nil => rfl
  | cons c rest =>
    have hc := h c rfl
    simp [exponentRun, hc]

/-- No subject sequence starts with a character that is not a digit, a sign,
'.', or the letter i or n in either case. -/
theorem strtofSubject_no_number (c : Char) (rest : List Char) (hsp : isspace c = false)
    (hd : c.isDigit = false) (hm : c ≠ Char.ofNat 45) (hp : c ≠ Char.ofNat 43)
    (hdot : c ≠ Char.ofNat 46) (hi : lowerCode c ≠ 105) (hn : lowerCode c ≠ 110) :
    strtofSubject (c :: rest) = none := by
  have e1 : (some c == some (Char.ofNat 45)) = false := by simpa using hm
  have e2 : (some c == some (Char.ofNat 43)) = false := by simpa using hp
  have e3 : (some c == some (Char.ofNat 46)) = false := by simpa using hdot
  have h48 : lowerCode c ≠ 48 := by
    have := lowerCode_of_not_isDigit c hd
    omega
  have w1 := startsWord_head_false 48 [120] (c :: rest) (fun x hx => by cases hx; exact h48)
  have w2 := startsWord_head_false 105 [110, 102, 105, 110, 105, 116, 121] (c :: rest)
    (fun x hx => by cases hx; exact hi)
  have w3 := startsWord_head_false 105 [110, 102] (c :: rest) (fun x hx => by cases hx; exact hi)
  have w4 := startsWord_head_false 110 [97, 110] (c :: rest) (fun x hx => by cases hx; exact hn)
  have hman : mantissaRun Char.isDigit (c :: rest) = [] := by
    simp [mantissaRun, List.takeWhile, List.dropWhile, hd, e3]
  unfold strtofSubject unsignedSubject
  simp [List.dropWhile, hsp, e1, e2, w1, w2, w3, w4, hman]

/-- The subject sequence of a string that starts with a digit and not with a
hexadecimal mark, when no exponent follows its decimal mantissa, is the
mantissa. -/
theorem strtofSubject_of_decimal (s subject : List Char) (d : Char)
    (hhead : s.head? = some d) (hd : d.isDigit = true)
    (hx : startsWord [48, 120] s = false)
    (hman : mantissaRun Char.isDigit s = subject) (hne : subject.isEmpty = false)
    (hexp : exponentRun 101 (s.drop subject.length) = []) :
    strtofSubject s = some subject := by
  cases s with
  | nil => cases hhead
  | cons c tl =>
    cases hhead
    have hsp := isspace_of_isDigit d hd
    obtain ⟨hm, hp⟩ := ne_sign_of_isDigit d hd
    have e1 : (some d == some (Char.ofNat 45)) = false := by simpa using hm
    have e2 : (some d == some (Char.ofNat 43)) = false := by simpa using hp
    have hlow := lowerCode_of_isDigit d hd
    have w2 := startsWord_head_false 105 [110, 102, 105, 110, 105, 116, 121]
      (d :: tl) (fun x hx => by cases hx; omega)
    have w3 := startsWord_head_false 105 [110, 102] (d :: tl)
      (fun x hx => by cases hx; omega)
    have w4 := startsWord_head_false 110 [97, 110] (d :: tl)
      (fun x hx => by cases hx; omega)
    unfold strtofSubject unsignedSubject
    simp only [List.dropWhile, hsp, List.head?_cons, e1, e2, Bool.or_self, Bool.false_eq_true,
      if_false, List.drop_zero, hx, Bool.false_and, w2, w3, w4, hman, hexp, hne,
      List.take_zero, List.nil_append, List.append_nil, Bool.not_false, if_true]

/-- The subject sequence of a run of digits followed by a character that is not
a digit, '.', or the letter e or x in either case, is the run. -/
theorem strtofSubject_digits (ds rest : List Char) (hne : ds ≠ [])
    (hds : ∀ c ∈ ds, c.isDigit = true)
    (hrest : ∀ c, rest.head? = some c →
      c.isDigit = false ∧ c ≠ Char.ofNat 46 ∧ lowerCode c ≠ 101 ∧ lowerCode c ≠ 120) :
    strtofSubject (ds ++ rest) = some ds := by
  have hman := mantissaRun_digits ds rest hds
    (fun c hc => ⟨(hrest c hc).1, (hrest c hc).2.1⟩)
  have hexp := exponentRun_head_false 101 rest (fun c hc => (hrest c hc).2.2.1)
  cases ds with
  | nil => exact absurd rfl hne
  | cons d ds' =>
    have hd : d.isDigit = true := hds d (List.mem_cons_self _ _)
    have hx : startsWord [120] (ds' ++ rest) = false := by
      refine startsWord_head_false 120 [] _ ?_
      intro c hc
      cases ds' with
      | nil => exact (hrest c hc).2.2.2
      | cons d2 ds2 =>
        cases hc
        have := lowerCode_of_isDigit c (hds c (by simp))
        omega
    refine strtofSubject_of_decimal _ _ d rfl hd ?_ hman rfl ?_
    · exact (startsWord_cons 48 [120] d (ds' ++ rest)).trans (by rw [hx, Bool.and_false])
    · rw [List.drop_left]
      exact hexp

end FloatSubject

section LeadingPart

/-- The mantissa is a leading part of the string. -/
theorem mantissaRun_leading (isDig : Char → Bool) (s : List Char) :
    ∃ r, s = mantissaRun isDig s ++ r := by
  have hs : s = s.takeWhile isDig ++ s.dropWhile isDig :=
    (List.takeWhile_append_dropWhile isDig s).symm
  unfold mantissaRun
  simp only []
  split
  · rename_i hcond
    simp only [Bool.and_eq_true, beq_iff_eq] at hcond
    have htl : s.dropWhile isDig = Char.ofNat 46 :: (s.dropWhile isDig).tail := by
      cases hdw : s.dropWhile isDig with
      | nil => rw [hdw] at hcond; simp at hcond
      | cons c tl =>
        rw [hdw] at hcond
        simp only [List.head?_cons, Option.some.injEq] at hcond
        rw [hcond.1]
        rfl
    refine ⟨(s.dropWhile isDig).tail.dropWhile isDig, ?_⟩
    rw [List.append_assoc, List.cons_append, List.takeWhile_append_dropWhile, ← htl]
    exact hs
  · exact ⟨s.dropWhile isDig, hs⟩

/-- The exponent part is a leading part of the string. -/
theorem exponentRun_leading (mark : Nat) (s : List Char) :
    ∃ r, s = exponentRun mark s ++ r := by
  cases s with
  | nil => exact ⟨[], rfl⟩
  | cons m rest =>
    unfold exponentRun
    simp only []
    generalize (if (rest.head? == some (Char.ofNat 45) || rest.head? == some (Char.ofNat 43))
      = true then 1 else 0) = k
    by_cases h1 : (lowerCode m == mark) = true
    · rw [if_pos h1]
      by_cases h2 : ((rest.drop k).takeWhile Char.isDigit).isEmpty = true
      · rw [if_pos h2]
        exact ⟨m :: rest, rfl⟩
      · rw [if_neg h2]
        refine ⟨(rest.drop k).dropWhile Char.isDigit, ?_⟩
        rw [List.cons_append, List.append_assoc, List.takeWhile_append_dropWhile,
          List.take_append_drop]
    · rw [if_neg h1]
      exact ⟨m :: rest, rfl⟩

/-- The parenthesised sequence after `NAN` is a leading part of the string. -/
theorem nanRun_leading (s : List Char) : ∃ r, s = nanRun s ++ r := by
  cases s with
  | nil => exact ⟨[], rfl⟩
  | cons c rest =>
    unfold nanRun
    simp only []
    by_cases hcond : (c == Char.ofNat 40 &&
        (rest.dropWhile isNanChar).head? == some (Char.ofNat 41)) = true
    · rw [if_pos hcond]
      simp only [Bool.and_eq_true, beq_iff_eq] at hcond
      have htl : rest.dropWhile isNanChar
          = Char.ofNat 41 :: (rest.dropWhile isNanChar).tail := by
        cases hdw : rest.dropWhile isNanChar with
        | nil => rw [hdw] at hcond; simp at hcond
        | cons x tl =>
          rw [hdw] at hcond
          simp only [List.head?_cons, Option.some.injEq] at hcond
          rw [hcond.2]
          rfl
      refine ⟨(rest.dropWhile isNanChar).tail, ?_⟩
      rw [List.cons_append, List.append_assoc, List.singleton_append, ← htl,
        List.takeWhile_append_dropWhile]
    · rw [if_neg hcond]
      exact ⟨c :: rest, rfl⟩

/-- The unsigned subject sequence is a leading part of the string. -/
theorem unsignedSubject_leading (s : List Char) : ∃ r, s = unsignedSubject s ++ r := by
  unfold unsignedSubject
  simp only []
  split
  · obtain ⟨r1, h1⟩ := mantissaRun_leading isxdigit (s.drop 2)
    obtain ⟨r2, h2⟩ := exponentRun_leading 112
      ((s.drop 2).drop (mantissaRun isxdigit (s.drop 2)).length)
    refine ⟨r2, ?_⟩
    have h3 : (s.drop 2).drop (mantissaRun isxdigit (s.drop 2)).length = r1 := by
      conv => lhs; arg 2; rw [h1]
      exact List.drop_left _ _
    rw [List.append_assoc, List.append_assoc, ← h2, h3, ← h1, List.take_append_drop]
  · split
    · exact ⟨s.drop 8, (List.take_append_drop 8 s).symm⟩
    · split
      · exact ⟨s.drop 3, (List.take_append_drop 3 s).symm⟩
      · split
        · obtain ⟨r, h⟩ := nanRun_leading (s.drop 3)
          refine ⟨r, ?_⟩
          rw [List.append_assoc, ← h, List.take_append_drop]
        · split
          · obtain ⟨r1, h1⟩ := mantissaRun_leading Char.isDigit s
            obtain ⟨r2, h2⟩ := exponentRun_leading 101
              (s.drop (mantissaRun Char.isDigit s).length)
            refine ⟨r2, ?_⟩
            have h3 : s.drop (mantissaRun Char.isDigit s).length = r1 := by
              conv => lhs; arg 2; rw [h1]
              exact List.drop_left _ _
            rw [List.append_assoc, ← h2, h3, ← h1]
          · exact ⟨s, rfl⟩

/-- The subject sequence of `strtof` is a leading part of the string after its
leading whitespace, and it is not empty. -/
theorem strtofSubject_leading (s subject : List Char)
    (h : strtofSubject s = some subject) :
    subject ≠ [] ∧ ∃ r, s.dropWhile isspace = subject ++ r := by
  unfold strtofSubject at h
  simp only [] at h
  generalize (if ((s.dropWhile isspace).head? == some (Char.ofNat 45) ||
    (s.dropWhile isspace).head? == some (Char.ofNat 43)) = true then 1 else 0) = k at h
  by_cases hbody : (unsignedSubject ((s.dropWhile isspace).drop k)).isEmpty = true
  · rw [if_pos hbody] at h
    cases h
  · rw [if_neg hbody] at h
    simp only [Option.some.injEq] at h
    obtain ⟨r, hr⟩ := unsignedSubject_leading ((s.dropWhile isspace).drop k)
    subst h
    refine ⟨?_, r, ?_⟩
    · intro he
      have := List.append_eq_nil.1 he
      rw [this.2] at hbody
      exact hbody rfl
    · rw [List.append_assoc, ← hr, List.take_append_drop]

/-- A string that starts with no whitespace loses nothing to `dropWhile`. -/
theorem dropWhile_isspace_token (cs : List Char) (h : ∀ c ∈ cs, isspace c = false) :
    cs.dropWhile isspace = cs := by
  cases cs with
  | nil => rfl
  | cons c rest => simp [List.dropWhile, h c (List.mem_cons_self _ _)]

end LeadingPart

/-! ## Polylists that are not triangulated (C3) -/

/-- Counterexample for C3 as stated: the `vcount` entries "4294967299" and
"3abc" differ from 3, yet they decode to 3 (the first by reduction modulo 2^32,
the second because `strtol` reads the leading digit), the check passes, and
`parse_geometry` adds a `ModelNode` with one triangle and writes no
diagnostic. -/
theorem parse_geometry_accepts_decoded_three :
    (checkPolylistIsTriangulated (Examples.truncatedPolylist "4294967299") = true ∧
      (parse_geometry_child ({ lib_geometries := Examples.uvLib } : Model Dec)
          (Examples.truncatedPolylist "4294967299")).map
          (fun st => (st.modelNodes.map (fun m => m.triangles), st.cerr))
        = Except.ok ([[{ position := [0, 1, 2] }]], [])) ∧
    (checkPolylistIsTriangulated (Examples.truncatedPolylist "3abc") = true ∧
      (parse_geometry_child ({ lib_geometries := Examples.uvLib } : Model Dec)
          (Examples.truncatedPolylist "3abc")).map
          (fun st => (st.modelNodes.map (fun m => m.triangles), st.cerr))
        = Except.ok ([[{ position := [0, 1, 2] }]], [])) := by
  refine ⟨⟨?_, ?_⟩, ?_, ?_⟩ <;> decide

/-- C3 (amended): a polylist passes `checkPolylistIsTriangulated` exactly when
every whitespace separated token of its `vcount` text decodes to 3 (the number
`strtol` reads from the token, stored in a `u32`), and is then parsed like a
triangles element.  For a polylist with a token that decodes to something
else, the loop body of `parse_geometry` only writes the diagnostic; so
`parse_geometry` treats the children before it, appends the diagnostic and
nothing else (no `ModelNode`, no triangle, no material), and goes on with the
children after it. -/
theorem parse_geometry_rejects_polylist {F : Type} [CFloat F] (st : Model F)
    (child vcount : XmlNode)
    (hname : child.name = "polylist")
    (hvcount : child.first_node "vcount" = some vcount) :
    (checkPolylistIsTriangulated child = true
      ↔ ∀ t ∈ wsTokens vcount.value, toU32 (strtol t) = 3) ∧
    ((∀ t ∈ wsTokens vcount.value, toU32 (strtol t) = 3) →
      parse_geometry_child st child = parse_geometry_primitive child st) ∧
    ((∃ t ∈ wsTokens vcount.value, toU32 (strtol t) ≠ 3) →
      parse_geometry_child st child
          = Except.ok { st with cerr := st.cerr ++ [NOT_TRIANGULATED_MSG] } ∧
      (∀ geometry mesh : XmlNode, geometry.first_node "mesh" = some mesh →
        mesh.children = [child] →
        parse_geometry (some geometry) st
          = Except.ok { st with cerr := st.cerr ++ [NOT_TRIANGULATED_MSG] }) ∧
      (∀ (geometry mesh : XmlNode) (before after : List XmlNode),
        geometry.first_node "mesh" = some mesh →
        mesh.children = before ++ child :: after →
        parse_geometry (some geometry) st
          = (before.foldlM parse_geometry_child st >>= fun st1 =>
              after.foldlM parse_geometry_child
                { st1 with cerr := st1.cerr ++ [NOT_TRIANGULATED_MSG] }))) := by
  have hiff : checkPolylistIsTriangulated child = true
      ↔ ∀ t ∈ wsTokens vcount.value, toU32 (strtol t) = 3 := by
    unfold checkPolylistIsTriangulated
    rw [hvcount]
    simp only [parse_u32_vector, tokens_eq_wsTokens, List.all_eq_true, List.mem_map,
      beq_iff_eq, forall_exists_index, and_imp, forall_apply_eq_imp_iff₂]
  refine ⟨hiff, ?_, ?_⟩
  · intro hall
    unfold parse_geometry_child
    simp [hname, hiff.2 hall]
  intro hbad
  have hcheck : checkPolylistIsTriangulated child = false := by
    obtain ⟨t, ht, hne⟩ := hbad
    cases hc : checkPolylistIsTriangulated child with
    | false => rfl
    | true => exact absurd (hiff.1 hc t ht) hne
  have hstep : ∀ s : Model F, parse_geometry_child s child
      = Except.ok { s with cerr := s.cerr ++ [NOT_TRIANGULATED_MSG] } := by
    intro s
    unfold parse_geometry_child
    simp [hname, hcheck, NOT_TRIANGULATED_MSG]
  refine ⟨hstep st, ?_, ?_⟩
  · intro geometry mesh hmesh hchildren
    simp [parse_geometry, deref, hmesh, hchildren, hstep]
  · intro geometry mesh before after hmesh hchildren
    simp only [parse_geometry, deref, bind_ok, hmesh, hchildren, List.foldlM_append,
      List.foldlM_cons, hstep]

/-- Witness for C3 (amended): a polylist with `vcount` "3 4 3" as the only child
of a mesh; its token "4" decodes to 4.  A polylist with `vcount` "3abc" is
parsed like a triangles element. -/
theorem parse_geometry_rejects_polylist_witness :
    (checkPolylistIsTriangulated Examples.quadPolylist = true
      ↔ ∀ t ∈ wsTokens "3 4 3", toU32 (strtol t) = 3) ∧
    parse_geometry_child ({ lib_geometries := Examples.uvLib } : Model Dec)
        (Examples.truncatedPolylist "3abc")
      = parse_geometry_primitive (Examples.truncatedPolylist "3abc")
          ({ lib_geometries := Examples.uvLib } : Model Dec) ∧
    parse_geometry_child ({} : Model Dec) Examples.quadPolylist
        = Except.ok { ({} : Model Dec) with cerr := [] ++ [NOT_TRIANGULATED_MSG] } ∧
    parse_geometry
        (some (Examples.el "geometry" [] [Examples.el "mesh" [] [Examples.quadPolylist]]))
        ({} : Model Dec)
      = Except.ok { ({} : Model Dec) with cerr := [] ++ [NOT_TRIANGULATED_MSG] } :=
  ⟨(parse_geometry_rejects_polylist ({} : Model Dec) Examples.quadPolylist
      (Examples.tx "vcount" [] "3 4 3") (by decide) (by decide)).1,
   (parse_geometry_rejects_polylist ({ lib_geometries := Examples.uvLib } : Model Dec)
      (Examples.truncatedPolylist "3abc") (Examples.tx "vcount" [] "3abc")
      (by decide) (by decide)).2.1 (by decide),
   ((parse_geometry_rejects_polylist ({} : Model Dec) Examples.quadPolylist
      (Examples.tx "vcount" [] "3 4 3") (by decide) (by decide)).2.2
      ⟨"4", by decide, by decide⟩).1,
   ((parse_geometry_rejects_polylist ({} : Model Dec) Examples.quadPolylist
      (Examples.tx "vcount" [] "3 4 3") (by decide) (by decide)).2.2
      ⟨"4", by decide, by decide⟩).2.1
      (Examples.el "geometry" [] [Examples.el "mesh" [] [Examples.quadPolylist]])
      (Examples.el "mesh" [] [Examples.quadPolylist]) (by decide) (by decide)⟩

/-- Counterexample for C12 as stated: the token "12abc" does not parse as a
number and decodes as 12, not as zero. -/
theorem parse_u32_vector_reads_prefix :
    parse_u32_vector "7 12abc abc" = [7, 12, 0] ∧
    parse_u32_vector "7 12abc abc" ≠ [7, 0, 0] := by
  constructor <;> decide

/-- C12 (amended): for every input string both decoders return one value per
whitespace separated token, in token order (they are total functions): the
`u32` of what `strtol` reads from the token, and what `strtof` reads from the
token.  Integers: a token that starts with decimal digits, or with '+' and
decimal digits, decodes to the number that the longest run of these digits
writes, clamped to the range of `long` and reduced modulo 2^32 (to the number
itself when it is below 2^32), whatever follows the run; a token that starts
with '-' and decimal digits decodes to the negated number of the longest run,
clamped and reduced modulo 2^32; a token that starts with neither a digit nor a
sign, or with a sign that no digit follows, decodes as zero.  Floats: a token
with no subject sequence decodes as zero, which is the case when it starts with
a character that is not a digit, a sign, '.', or the letter i or n in either
case; any other token decodes to the float of its subject sequence, which is a
leading part of the token; a token that starts with decimal digits, the longest
run of which is followed by nothing or by a character that is not '.' or the
letter e or x in either case, decodes as the run alone does. -/
theorem value_decoders_per_token {F : Type} [CFloat F] (str : String) :
    parse_u32_vector str = (wsTokens str).map (fun t => toU32 (strtol t)) ∧
    (parse_float_vector str : List F) = (wsTokens str).map CFloat.strtof ∧
    (∀ t ∈ wsTokens str, ∀ ds rest : List Char,
      (t.data = ds ++ rest ∨ t.data = Char.ofNat 43 :: (ds ++ rest)) → ds ≠ [] →
      (∀ c ∈ ds, c.isDigit = true) → (∀ c, rest.head? = some c → c.isDigit = false) →
      toU32 (strtol t) = min (digitsValue ds) (2 ^ 63 - 1) % U32_MOD ∧
      (digitsValue ds < U32_MOD → toU32 (strtol t) = digitsValue ds)) ∧
    (∀ t ∈ wsTokens str, ∀ ds rest : List Char,
      t.data = Char.ofNat 45 :: (ds ++ rest) → ds ≠ [] →
      (∀ c ∈ ds, c.isDigit = true) → (∀ c, rest.head? = some c → c.isDigit = false) →
      toU32 (strtol t) = (U32_MOD - min (digitsValue ds) (2 ^ 63) % U32_MOD) % U32_MOD) ∧
    (∀ t ∈ wsTokens str,
      (∀ c, t.data.head? = some c →
        c.isDigit = false ∧ c ≠ Char.ofNat 45 ∧ c ≠ Char.ofNat 43) →
      toU32 (strtol t) = 0) ∧
    (∀ t ∈ wsTokens str, ∀ (sign : Char) (rest : List Char), t.data = sign :: rest →
      (sign = Char.ofNat 45 ∨ sign = Char.ofNat 43) →
      (∀ c, rest.head? = some c → c.isDigit = false) →
      toU32 (strtol t) = 0) ∧
    (∀ t ∈ wsTokens str, strtofSubject t.data = none →
      (CFloat.strtof t : F) = CFloat.zero) ∧
    (∀ t ∈ wsTokens str,
      (∀ c, t.data.head? = some c →
        c.isDigit = false ∧ c ≠ Char.ofNat 45 ∧ c ≠ Char.ofNat 43 ∧ c ≠ Char.ofNat 46 ∧
          lowerCode c ≠ 105 ∧ lowerCode c ≠ 110) →
      (CFloat.strtof t : F) = CFloat.zero) ∧
    (∀ t ∈ wsTokens str, ∀ subject : List Char, strtofSubject t.data = some subject →
      subject ≠ [] ∧ (∃ rest, t.data = subject ++ rest) ∧
        (CFloat.strtof t : F) = CFloat.ofSubject subject) ∧
    (∀ t ∈ wsTokens str, ∀ ds rest : List Char, t.data = ds ++ rest → ds ≠ [] →
      (∀ c ∈ ds, c.isDigit = true) →
      (∀ c, rest.head? = some c →
        c.isDigit = false ∧ c ≠ Char.ofNat 46 ∧ lowerCode c ≠ 101 ∧ lowerCode c ≠ 120) →
      (CFloat.strtof t : F) = CFloat.ofSubject ds ∧
        (CFloat.strtof t : F) = CFloat.strtof (String.mk ds)) := by
  have htok : ∀ t ∈ wsTokens str, t.data ≠ [] ∧ ∀ c ∈ t.data, isspace c = false := by
    intro t ht
    rw [← tokens_eq_wsTokens] at ht
    exact tokensAux_no_space str.data [] (by simp) t ht
  refine ⟨?_, ?_, ?_, ?_, ?_, ?_, ?_, ?_, ?_, ?_⟩
  · rw [parse_u32_vector, tokens_eq_wsTokens]
  · rw [parse_float_vector, tokens_eq_wsTokens]
  · intro t _ ds rest ht hne hds hrest
    have hval : toU32 (strtol t) = min (digitsValue ds) (2 ^ 63 - 1) % U32_MOD := by
      rcases ht with ht | ht
      · have hread := strtolRead_digits ds rest hne hds hrest
        unfold strtol
        rw [ht, hread]
        exact toU32_clamp_nonneg _
      · have hread := strtolRead_signed_digits (Char.ofNat 43) ds rest (Or.inr rfl) hne hds hrest
        rw [if_neg (by decide)] at hread
        unfold strtol
        rw [ht, hread]
        exact toU32_clamp_nonneg _
    refine ⟨hval, ?_⟩
    intro hlt
    rw [hval]
    unfold U32_MOD at *
    omega
  · intro t _ ds rest ht hne hds hrest
    have hread := strtolRead_signed_digits (Char.ofNat 45) ds rest (Or.inl rfl) hne hds hrest
    rw [if_pos rfl] at hread
    unfold strtol
    rw [ht, hread]
    exact toU32_clamp_neg _
  · intro t ht hhead
    obtain ⟨hne, hsp⟩ := htok t ht
    cases hdata : t.data with
    | nil => exact absurd hdata hne
    | cons c rest =>
      obtain ⟨hd, hm, hp⟩ := hhead c (by rw [hdata]; rfl)
      have hspc : isspace c = false := hsp c (by rw [hdata]; exact List.mem_cons_self _ _)
      have hread := strtolRead_no_number c rest hspc hd hm hp
      unfold strtol
      rw [hdata, hread]
      decide
  · intro t _ sign rest ht hsign hrest
    have hread := strtolRead_sign_only sign rest hsign hrest
    unfold strtol
    rw [ht, hread]
    decide
  · intro t _ hnone
    unfold CFloat.strtof
    rw [hnone]
  · intro t ht hhead
    obtain ⟨hne, hsp⟩ := htok t ht
    cases hdata : t.data with
    | nil => exact absurd hdata hne
    | cons c rest =>
      obtain ⟨hd, hm, hp, hdot, hi, hn⟩ := hhead c (by rw [hdata]; rfl)
      have hspc : isspace c = false := hsp c (by rw [hdata]; exact List.mem_cons_self _ _)
      have hread := strtofSubject_no_number c rest hspc hd hm hp hdot hi hn
      unfold CFloat.strtof
      rw [hdata, hread]
  · intro t ht subject hsub
    obtain ⟨hne, hsp⟩ := htok t ht
    obtain ⟨h1, r, h2⟩ := strtofSubject_leading t.data subject hsub
    rw [dropWhile_isspace_token t.data hsp] at h2
    refine ⟨h1, ⟨r, h2⟩, ?_⟩
    unfold CFloat.strtof
    rw [hsub]
  · intro t _ ds rest ht hne hds hrest
    have h1 := strtofSubject_digits ds rest hne hds hrest
    have h2 := strtofSubject_digits ds [] hne hds (fun c hc => by cases hc)
    rw [List.append_nil] at h2
    unfold CFloat.strtof
    rw [ht, h1]
    simp only [h2, and_self]

/-- Witness for C12 (amended): the string "7 12abc abc -x -1 +5 4294967296" has
seven tokens; as integers "12abc" decodes as 12, "+5" as 5, "4294967296" as 0,
"-1" as 4294967295, "abc" and "-x" as zero; as floats "abc" decodes as zero and
"12abc" as "12" does. -/
theorem value_decoders_per_token_witness :
    parse_u32_vector "7 12abc abc -x -1 +5 4294967296"
      = (wsTokens "7 12abc abc -x -1 +5 4294967296").map (fun t => toU32 (strtol t)) ∧
    (parse_float_vector "7 12abc abc -x -1 +5 4294967296" : List Dec)
      = (wsTokens "7 12abc abc -x -1 +5 4294967296").map CFloat.strtof ∧
    toU32 (strtol "12abc") = 12 ∧
    toU32 (strtol "+5") = 5 ∧
    toU32 (strtol "4294967296") = 0 ∧
    toU32 (strtol "-1") = 4294967295 ∧
    toU32 (strtol "abc") = 0 ∧
    toU32 (strtol "-x") = 0 ∧
    (CFloat.strtof "abc" : Dec) = CFloat.zero ∧
    (CFloat.strtof "-x" : Dec) = CFloat.zero ∧
    (CFloat.strtof "12abc" : Dec) = CFloat.strtof "12" ∧
    (CFloat.strtof "-1" : Dec) = CFloat.ofSubject "-1".data := by
  have h := value_decoders_per_token (F := Dec) "7 12abc abc -x -1 +5 4294967296"
  obtain ⟨h1, h2, h3, h4, h5, h6, h7, h8, h9, h10⟩ := h
  refine ⟨h1, h2, ?_, ?_, ?_, ?_, ?_, ?_, ?_, ?_, ?_, ?_⟩
  · exact ((h3 "12abc" (by decide) "12".data "abc".data (Or.inl (by decide)) (by decide)
      (by decide) (by intro c hc; cases hc; decide)).2 (by decide)).trans (by decide)
  · exact ((h3 "+5" (by decide) "5".data [] (Or.inr (by decide)) (by decide)
      (by decide) (by intro c hc; cases hc)).2 (by decide)).trans (by decide)
  · exact ((h3 "4294967296" (by decide) "4294967296".data [] (Or.inl (by decide)) (by decide)
      (by decide) (by intro c hc; cases hc)).1).trans (by decide)
  · exact (h4 "-1" (by decide) "1".data [] (by decide) (by decide)
      (by decide) (by intro c hc; cases hc)).trans (by decide)
  · exact h5 "abc" (by decide) (by intro c hc; cases hc; decide)
  · exact h6 "-x" (by decide) (Char.ofNat 45) "x".data (by decide) (Or.inl rfl)
      (by intro c hc; cases hc; decide)
  · exact h8 "abc" (by decide) (by intro c hc; cases hc; decide)
  · exact h7 "-x" (by decide) (by decide)
  · exact (h10 "12abc" (by decide) "12".data "abc".data (by decide) (by decide)
      (by decide) (by intro c hc; cases hc; decide)).2
  · exact (h9 "-1" (by decide) "-1".data (by decide)).2.2

/-! ## Triangle assembly (C14) -/

section Assembly

/-- Without overflow the corner subscript at a non-negative offset is
`i*stride*3 + j*stride + offset`. -/
theorem cornerIndex_of_nonneg (i stride j : Nat) (offset : Int) (h0 : 0 ≤ offset)
    (h : i * stride * 3 + j * stride + offset.toNat < SIZE_MOD) :
    cornerIndex i stride j offset = i * stride * 3 + j * stride + offset.toNat := by
  have hk : offset = (offset.toNat : Int) := (Int.toNat_of_nonneg h0).symm
  unfold cornerIndex
  rw [hk, toSizeT_natCast _ (by omega), Int.toNat_ofNat, Nat.mod_eq_of_lt h]

/-- A read of a channel that lies inside the index list returns the entry. -/
theorem read_inside (index_list : List Nat) (stride i j : Nat) (offset : Int)
    (hin : ChannelInside index_list stride i offset) (hsize : index_list.length < SIZE_MOD)
    (hj : j < 3) :
    vecGet index_list (cornerIndex i stride j offset)
      = Except.ok (index_list.getD (i * stride * 3 + j * stride + offset.toNat) 0) := by
  have hlt := hin.2 j hj
  rw [cornerIndex_of_nonneg i stride j offset hin.1 (by omega)]
  exact vecGet_of_lt _ _ _ hlt

/-- One corner of a triangle whose reads lie inside the index list. -/
theorem parse_triangles_corner_inside (index_list : List Nat) (stride : Nat)
    (offsets : Semantics_offsets) (aliased : Bool) (i j : Nat) (tri : Triangle)
    (hsize : index_list.length < SIZE_MOD) (hj : j < 3)
    (hv : offsets.vertexOffset > -1 → ChannelInside index_list stride i offsets.vertexOffset)
    (ht : offsets.texCoordOffset > -1 →
      ChannelInside index_list stride i offsets.texCoordOffset)
    (hc : offsets.colorOffset > -1 → ChannelInside index_list stride i offsets.colorOffset)
    (ha : aliased = true → ChannelInside index_list stride i offsets.vertexOffset)
    (hn : aliased = false → offsets.normalOffset > -1 →
      ChannelInside index_list stride i offsets.normalOffset) :
    parse_triangles_corner index_list stride offsets aliased i tri j
      = Except.ok
        { position := if offsets.vertexOffset > -1
            then tri.position.set j (cornerValue index_list stride i j offsets.vertexOffset)
            else tri.position
          uv := if offsets.texCoordOffset > -1
            then tri.uv.set j (cornerValue index_list stride i j offsets.texCoordOffset)
            else tri.uv
          color := if offsets.colorOffset > -1
            then tri.color.set j (cornerValue index_list stride i j offsets.colorOffset)
            else tri.color
          normal := if aliased
            then tri.normal.set j (cornerValue index_list stride i j offsets.vertexOffset)
            else if offsets.normalOffset > -1
              then tri.normal.set j (cornerValue index_list stride i j offsets.normalOffset)
              else tri.normal } := by
  have rv := fun b => read_inside index_list stride i j _ (hv b) hsize hj
  have rt := fun b => read_inside index_list stride i j _ (ht b) hsize hj
  have rc := fun b => read_inside index_list stride i j _ (hc b) hsize hj
  have ra := fun b => read_inside index_list stride i j _ (ha b) hsize hj
  have rn := fun b b' => read_inside index_list stride i j _ (hn b b') hsize hj
  unfold parse_triangles_corner cornerValue
  by_cases bv : offsets.vertexOffset > -1 <;> by_cases bt : offsets.texCoordOffset > -1 <;>
    by_cases bc : offsets.colorOffset > -1 <;> cases aliased <;>
    by_cases bn : offsets.normalOffset > -1 <;>
    simp [bv, bt, bc, bn, rv, rt, rc, ra, rn]

/-- A triangle whose reads lie inside the index list is assembled as
`assembledTriangle` describes. -/
theorem parse_triangles_triangle_inside (index_list : List Nat) (stride : Nat)
    (offsets : Semantics_offsets) (aliased : Bool) (i : Nat)
    (hsize : index_list.length < SIZE_MOD)
    (hv : offsets.vertexOffset > -1 → ChannelInside index_list stride i offsets.vertexOffset)
    (ht : offsets.texCoordOffset > -1 →
      ChannelInside index_list stride i offsets.texCoordOffset)
    (hc : offsets.colorOffset > -1 → ChannelInside index_list stride i offsets.colorOffset)
    (ha : aliased = true → ChannelInside index_list stride i offsets.vertexOffset)
    (hn : aliased = false → offsets.normalOffset > -1 →
      ChannelInside index_list stride i offsets.normalOffset) :
    parse_triangles_triangle index_list stride offsets aliased i
      = Except.ok (assembledTriangle index_list stride offsets aliased i) := by
  unfold parse_triangles_triangle
  simp only [List.foldlM_cons, List.foldlM_nil]
  rw [parse_triangles_corner_inside index_list stride offsets aliased i 0 _ hsize (by decide)
    hv ht hc ha hn, bind_ok]
  rw [parse_triangles_corner_inside index_list stride offsets aliased i 1 _ hsize (by decide)
    hv ht hc ha hn, bind_ok]
  rw [parse_triangles_corner_inside index_list stride offsets aliased i 2 _ hsize (by decide)
    hv ht hc ha hn, bind_ok]
  unfold assembledTriangle channelValues
  by_cases bv : offsets.vertexOffset > -1 <;> by_cases bt : offsets.texCoordOffset > -1 <;>
    by_cases bc : offsets.colorOffset > -1 <;> cases aliased <;>
    by_cases bn : offsets.normalOffset > -1 <;>
    simp [bv, bt, bc, bn, List.set]

/-- The loop of `parse_triangles` over triangles that can all be assembled
appends them in order. -/
theorem parse_triangles_loop_inside {F : Type} [CFloat F] (f : Nat → Except Fault Triangle)
    (T : Nat → Triangle) :
    ∀ (l : List Nat) (m : ModelNode F), (∀ i ∈ l, f i = Except.ok (T i)) →
      l.foldlM (fun (model : ModelNode F) i => do
          let tri ← f i
          pure (model.addTriangle tri)) m
        = Except.ok { m with triangles := m.triangles ++ l.map T }
  | [], m, _ => by simp
  | i :: l, m, h => by
    rw [List.foldlM_cons, h i (List.mem_cons_self _ _)]
    simp only [bind_ok, pure_eq_ok]
    refine Eq.trans
      (parse_triangles_loop_inside f T l _ (fun i' hi' => h i' (List.mem_cons_of_mem _ hi'))) ?_
    simp [ModelNode.addTriangle]

/-- A channel whose offset is below the stride lies inside the index list for
every triangle below the count the stride was computed from. -/
theorem channelInside_of_lt_stride (index_list : List Nat) (n stride i : Nat) (offset : Int)
    (hstride : stride = index_list.length / (n * 3)) (hi : i < n)
    (h0 : 0 ≤ offset) (hlt : offset < stride) :
    ChannelInside index_list stride i offset := by
  refine ⟨h0, ?_⟩
  intro j hj
  have h1 : (i * 3 + j + 1) * stride ≤ (n * 3) * stride :=
    Nat.mul_le_mul_right _ (by omega)
  have h2 : (i * 3 + j + 1) * stride = i * stride * 3 + j * stride + stride := by ring
  have h3 : (n * 3) * stride ≤ index_list.length := by
    rw [hstride]
    exact Nat.mul_div_le _ _
  omega

/-- An entry of the three indices of a channel. -/
theorem channelValues_get (index_list : List Nat) (stride i j : Nat) (offset : Int)
    (hj : j < 3) (hin : ChannelInside index_list stride i offset) :
    (channelValues index_list stride i offset).get? j
      = (index_list.get? (i * stride * 3 + j * stride + offset.toNat)).map Int.ofNat := by
  have hlt := hin.2 j hj
  have hval : (index_list.get? (i * stride * 3 + j * stride + offset.toNat)).map Int.ofNat
      = some (cornerValue index_list stride i j offset) := by
    simp [cornerValue, List.getD, List.getElem?_eq_getElem hlt]
  rw [hval]
  unfold channelValues
  have hj3 : j = 0 ∨ j = 1 ∨ j = 2 := by omega
  rcases hj3 with h | h | h <;> subst h <;> rfl

end Assembly

/-- Counterexample for C14 as stated: with count "4294967297" the triangle
count held in a `u32` is 1 and one triangle is appended, not 4294967297; and
with a VERTEX input at offset 3 over the index list "0 1 2" (stride 1) the
subscript 3 is past the end of the index list and no triangle is appended. -/
theorem parse_triangles_count_and_reads :
    (parse_triangles (F := Dec) Examples.uvLib
        (Examples.trianglesNode "4294967297" "0 1 2") {} []).map
        (fun r => r.1.triangles)
      = Except.ok [{ position := [0, 1, 2] }] ∧
    (parse_triangles (F := Dec) Examples.uvLib
        (Examples.trianglesVertexAt "3" "1" "0 1 2") {} []).map
        (fun r => r.1.triangles)
      = Except.error Fault.outOfBounds := by
  constructor <;> decide

/-- C14 (amended): for a primitive element with a `p` child and a `count`
attribute that reads as `n`, with `0 < n` and `3 * n` below 2^32, whose inputs
have been processed, let `stride` be the number of decoded indices divided by
`n * 3`.  When every offset is below the stride (and the VERTEX channel is bound
whenever normals are aliased to it), `parse_triangles` returns, appends exactly
`n` triangles and changes nothing else, and for all `i < n` and `j < 3` the
index stored for corner `j` of triangle `i` is
`index_list[i*stride*3 + j*stride + offset]` on each of the channels position,
uv and colour that is bound, and on the normal channel when it is bound at an
offset of at least 1; a position, uv or colour channel that is not bound holds
the sentinel -1. -/
theorem parse_triangles_assembles {F : Type} [CFloat F] (lib_geometries : NodeMap)
    (triangles indices : XmlNode) (countAttr : XmlAttr) (model : ModelNode F)
    (cerr : List String) (n : Nat) (st : InputsState F) (index_list : List Nat) (stride : Nat)
    (hp : triangles.first_node "p" = some indices)
    (hc : findAttribute triangles "count" = some countAttr)
    (hn : stol countAttr.value = Except.ok (n : Int))
    (hpos : 0 < n) (hsmall : n * 3 < U32_MOD)
    (hin : parse_triangles_inputs lib_geometries triangles model {} cerr = Except.ok st)
    (hidx : index_list = parse_u32_vector indices.value)
    (hstride : stride = index_list.length / (n * 3))
    (hlen : stride < U32_MOD)
    (hv : st.offsets.vertexOffset < stride) (ht : st.offsets.texCoordOffset < stride)
    (hcol : st.offsets.colorOffset < stride) (hnrm : st.offsets.normalOffset < stride)
    (halias : st.offsets.normalOffset < 1 → st.model.normals ≠ [] →
      0 ≤ st.offsets.vertexOffset) :
    ∃ tris : List Triangle,
      parse_triangles lib_geometries triangles model cerr
        = Except.ok ({ st.model with triangles := st.model.triangles ++ tris }, st.cerr) ∧
      tris.length = n ∧
      ∀ i j, i < n → j < 3 → ∃ t, tris.get? i = some t ∧
        (∀ k : Nat, st.offsets.vertexOffset = k →
          t.position.get? j
            = (index_list.get? (i * stride * 3 + j * stride + k)).map Int.ofNat) ∧
        (∀ k : Nat, st.offsets.texCoordOffset = k →
          t.uv.get? j = (index_list.get? (i * stride * 3 + j * stride + k)).map Int.ofNat) ∧
        (∀ k : Nat, st.offsets.colorOffset = k →
          t.color.get? j
            = (index_list.get? (i * stride * 3 + j * stride + k)).map Int.ofNat) ∧
        (∀ k : Nat, 1 ≤ k → st.offsets.normalOffset = k →
          t.normal.get? j
            = (index_list.get? (i * stride * 3 + j * stride + k)).map Int.ofNat) ∧
        (st.offsets.vertexOffset ≤ -1 → t.position.get? j = some (-1)) ∧
        (st.offsets.texCoordOffset ≤ -1 → t.uv.get? j = some (-1)) ∧
        (st.offsets.colorOffset ≤ -1 → t.color.get? j = some (-1)) := by
  have hcnt : toU32 (n : Int) = n := by
    unfold toU32
    unfold U32_MOD at *
    omega
  have hmod : (n * 3) % U32_MOD = n * 3 := Nat.mod_eq_of_lt hsmall
  have hsize : index_list.length < SIZE_MOD := by
    have h1 : index_list.length < (n * 3) * (index_list.length / (n * 3) + 1) :=
      Nat.lt_mul_div_succ _ (by omega)
    have h2 : (n * 3) * (index_list.length / (n * 3) + 1) ≤ U32_MOD * U32_MOD :=
      Nat.mul_le_mul (Nat.le_of_lt hsmall) (by omega)
    have h3 : U32_MOD * U32_MOD = SIZE_MOD := by decide
    omega
  have hstr : (index_list.length / (n * 3)) % U32_MOD = stride := by
    rw [← hstride]
    exact Nat.mod_eq_of_lt hlen
  -- the reads of every triangle lie inside the index list
  have inside : ∀ i, i < n → ∀ offset : Int, 0 ≤ offset → offset < stride →
      ChannelInside index_list stride i offset :=
    fun i hi offset h0 hlt => channelInside_of_lt_stride index_list n stride i offset hstride hi h0 hlt
  have htri : ∀ i ∈ List.range n,
      parse_triangles_triangle index_list stride st.offsets
          (decide (st.offsets.normalOffset < 1) && decide (st.model.getNumOfNormals > 0)) i
        = Except.ok (assembledTriangle index_list stride st.offsets
          (decide (st.offsets.normalOffset < 1) && decide (st.model.getNumOfNormals > 0)) i) := by
    intro i hi
    have hi' : i < n := List.mem_range.1 hi
    refine parse_triangles_triangle_inside index_list stride st.offsets _ i hsize
      (fun b => inside i hi' _ (by omega) hv) (fun b => inside i hi' _ (by omega) ht)
      (fun b => inside i hi' _ (by omega) hcol) ?_
      (fun _ b => inside i hi' _ (by omega) hnrm)
    intro hal
    simp only [Bool.and_eq_true, decide_eq_true_eq, ModelNode.getNumOfNormals] at hal
    have hne : st.model.normals ≠ [] := by
      intro he
      rw [he] at hal
      simp at hal
    exact inside i hi' _ (halias hal.1 hne) hv
  refine ⟨(List.range n).map (assembledTriangle index_list stride st.offsets
      (decide (st.offsets.normalOffset < 1) && decide (st.model.getNumOfNormals > 0))),
    ?_, by simp, ?_⟩
  · unfold parse_triangles
    simp only [hp, hc, hn, bind_ok, hcnt, hin, hmod, ← hidx, hstr]
    rw [if_neg (by omega)]
    rw [parse_triangles_loop_inside _ _ (List.range n) st.model htri]
    rfl
  · intro i j hi hj
    refine ⟨assembledTriangle index_list stride st.offsets
      (decide (st.offsets.normalOffset < 1) && decide (st.model.getNumOfNormals > 0)) i,
      by simp [hi], ?_⟩
    refine ⟨?_, ?_, ?_, ?_, ?_, ?_, ?_⟩
    · intro k hk
      have hb : st.offsets.vertexOffset > -1 := by omega
      have hin' := inside i hi _ (by omega) hv
      simp only [assembledTriangle, hb, if_true]
      rw [channelValues_get index_list stride i j _ hj hin', hk, Int.toNat_ofNat]
    · intro k hk
      have hb : st.offsets.texCoordOffset > -1 := by omega
      have hin' := inside i hi _ (by omega) ht
      simp only [assembledTriangle, hb, if_true]
      rw [channelValues_get index_list stride i j _ hj hin', hk, Int.toNat_ofNat]
    · intro k hk
      have hb : st.offsets.colorOffset > -1 := by omega
      have hin' := inside i hi _ (by omega) hcol
      simp only [assembledTriangle, hb, if_true]
      rw [channelValues_get index_list stride i j _ hj hin', hk, Int.toNat_ofNat]
    · intro k hk1 hk
      have hb : st.offsets.normalOffset > -1 := by omega
      have hna : ¬ st.offsets.normalOffset < 1 := by omega
      have hin' := inside i hi _ (by omega) hnrm
      simp only [assembledTriangle, hna, decide_False, Bool.false_and, Bool.false_eq_true,
        if_false, hb, if_true]
      rw [channelValues_get index_list stride i j _ hj hin', hk, Int.toNat_ofNat]
    · intro hu
      have hb : ¬ st.offsets.vertexOffset > -1 := by omega
      have hj3 : j = 0 ∨ j = 1 ∨ j = 2 := by omega
      simp only [assembledTriangle, hb, if_false]
      rcases hj3 with h | h | h <;> subst h <;> rfl
    · intro hu
      have hb : ¬ st.offsets.texCoordOffset > -1 := by omega
      have hj3 : j = 0 ∨ j = 1 ∨ j = 2 := by omega
      simp only [assembledTriangle, hb, if_false]
      rcases hj3 with h | h | h <;> subst h <;> rfl
    · intro hu
      have hb : ¬ st.offsets.colorOffset > -1 := by omega
      have hj3 : j = 0 ∨ j = 1 ∨ j = 2 := by omega
      simp only [assembledTriangle, hb, if_false]
      rcases hj3 with h | h | h <;> subst h <;> rfl

/-- Witness for C14 (amended): one triangle over the index list "0 0 1 1 2 2"
with a VERTEX input at offset 0 and a TEXCOORD input at offset 1; the stride is
2. -/
theorem parse_triangles_assembles_witness :
    ∃ tris : List Triangle,
      parse_triangles Examples.uvLib (Examples.trianglesUv "0" "0 0 1 1 2 2") {} []
        = Except.ok ({ Examples.uvInputsState.model with
            triangles := Examples.uvInputsState.model.triangles ++ tris },
          Examples.uvInputsState.cerr) ∧
      tris.length = 1 ∧
      ∀ i j, i < 1 → j < 3 → ∃ t, tris.get? i = some t ∧
        (∀ k : Nat, Examples.uvInputsState.offsets.vertexOffset = k →
          t.position.get? j
            = ([0, 0, 1, 1, 2, 2].get? (i * 2 * 3 + j * 2 + k)).map Int.ofNat) ∧
        (∀ k : Nat, Examples.uvInputsState.offsets.texCoordOffset = k →
          t.uv.get? j = ([0, 0, 1, 1, 2, 2].get? (i * 2 * 3 + j * 2 + k)).map Int.ofNat) ∧
        (∀ k : Nat, Examples.uvInputsState.offsets.colorOffset = k →
          t.color.get? j
            = ([0, 0, 1, 1, 2, 2].get? (i * 2 * 3 + j * 2 + k)).map Int.ofNat) ∧
        (∀ k : Nat, 1 ≤ k → Examples.uvInputsState.offsets.normalOffset = k →
          t.normal.get? j
            = ([0, 0, 1, 1, 2, 2].get? (i * 2 * 3 + j * 2 + k)).map Int.ofNat) ∧
        (Examples.uvInputsState.offsets.vertexOffset ≤ -1 → t.position.get? j = some (-1)) ∧
        (Examples.uvInputsState.offsets.texCoordOffset ≤ -1 → t.uv.get? j = some (-1)) ∧
        (Examples.uvInputsState.offsets.colorOffset ≤ -1 → t.color.get? j = some (-1)) := by
  refine parse_triangles_assembles Examples.uvLib (Examples.trianglesUv "0" "0 0 1 1 2 2")
    (Examples.indicesNode "0 0 1 1 2 2") ⟨"count", "1"⟩ ({} : ModelNode Dec) [] 1
    Examples.uvInputsState [0, 0, 1, 1, 2, 2] 2 ?_ ?_ ?_ ?_ ?_ rfl ?_ ?_ ?_ ?_ ?_ ?_ ?_
    (fun _ hne => absurd rfl hne)
  all_goals decide

/-! ## Index reads of the triangle loop (C23) -/

section IndexReads

end IndexReads

section IndexReadsOfPrimitive
variable {F : Type} [CFloat F]

end IndexReadsOfPrimitive

section ParamOffsets

/-- The first position in a list that starts with `c`. -/
theorem isFirstNamed_zero (paramName : String) (c : XmlNode) (l : List XmlNode) :
    IsFirstNamed paramName (c :: l) 0 ↔ carries "name" paramName c = true := by
  unfold IsFirstNamed
  constructor
  · rintro ⟨⟨c', hc', hcar⟩, _⟩
    simp only [List.get?_cons_zero, Option.some.injEq] at hc'
    rw [hc']
    exact hcar
  · intro h
    exact ⟨⟨c, rfl, h⟩, fun k' c' hk => absurd hk (Nat.not_lt_zero _)⟩

/-- A later position is first in `c :: l` when `c` does not carry the name and
the position before it is first in `l`. -/
theorem isFirstNamed_succ (paramName : String) (c : XmlNode) (l : List XmlNode) (k : Nat) :
    IsFirstNamed paramName (c :: l) (k + 1)
      ↔ carries "name" paramName c = false ∧ IsFirstNamed paramName l k := by
  unfold IsFirstNamed
  constructor
  · rintro ⟨⟨c', hc', hcar⟩, hbefore⟩
    refine ⟨hbefore 0 c (Nat.succ_pos _) rfl, ⟨c', by simpa using hc', hcar⟩, ?_⟩
    intro k' c'' hk hget
    exact hbefore (k' + 1) c'' (by omega) (by simpa using hget)
  · rintro ⟨hc, ⟨c', hc', hcar⟩, hbefore⟩
    refine ⟨⟨c', by simpa using hc', hcar⟩, ?_⟩
    intro k' c'' hk hget
    cases k' with
    | zero =>
      simp only [List.get?_cons_zero, Option.some.injEq] at hget
      rw [← hget]
      exact hc
    | succ k'' => exact hbefore k'' c'' (by omega) (by simpa using hget)

/-- The search over the parameters built from a list of children, against the
children that are complete `param` elements. -/
theorem getParamOffsetFrom_children (paramName : String) :
    ∀ (l : List XmlNode) (i : Nat),
      (∀ k : Nat,
        getParamOffsetFrom paramName
            (l.filterMap (fun child =>
              if child.name = "param" then
                match findAttribute child "name", findAttribute child "type" with
                | some nameAttr, some typeAttr =>
                  some ({ name := nameAttr.value, type := typeAttr.value } : Accessor_param)
                | _, _ => none
              else none)) i = ((i + k : Nat) : Int)
          ↔ IsFirstNamed paramName
              (l.filter (fun c => decide (c.name = "param") &&
                (findAttribute c "name").isSome && (findAttribute c "type").isSome)) k) ∧
      (getParamOffsetFrom paramName
            (l.filterMap (fun child =>
              if child.name = "param" then
                match findAttribute child "name", findAttribute child "type" with
                | some nameAttr, some typeAttr =>
                  some ({ name := nameAttr.value, type := typeAttr.value } : Accessor_param)
                | _, _ => none
              else none)) i = -1
          ↔ ∀ c ∈ l.filter (fun c => decide (c.name = "param") &&
                (findAttribute c "name").isSome && (findAttribute c "type").isSome),
              carries "name" paramName c = false)
  | [], i => by
    refine ⟨fun k => ?_, ?_⟩
    · simp only [List.filterMap_nil, getParamOffsetFrom, NOT_FOUND, List.filter_nil]
      constructor
      · intro h
        omega
      · rintro ⟨⟨c, hc, _⟩, _⟩
        simp at hc
    · simp [getParamOffsetFrom, NOT_FOUND]
  | c :: l, i => by
    obtain ⟨ihk, ihn⟩ := getParamOffsetFrom_children paramName l (i + 1)
    obtain ⟨ihk0, ihn0⟩ := getParamOffsetFrom_children paramName l i
    by_cases hname : c.name = "param"
    · cases hn : findAttribute c "name" with
      | none =>
        simp only [List.filterMap_cons, hname, if_true, hn, List.filter_cons, decide_True,
          Option.isSome_none, Bool.and_false, Bool.false_and, Bool.false_eq_true, if_false]
        exact ⟨ihk0, ihn0⟩
      | some nameAttr =>
        cases ht : findAttribute c "type" with
        | none =>
          simp only [List.filterMap_cons, hname, if_true, hn, ht, List.filter_cons, decide_True,
            Option.isSome_none, Option.isSome_some, Bool.and_false, Bool.and_true,
            Bool.false_eq_true, if_false]
          exact ⟨ihk0, ihn0⟩
        | some typeAttr =>
          have hcar : carries "name" paramName c = decide (nameAttr.value = paramName) := by
            simp only [carries, hn]
            rfl
          simp only [List.filterMap_cons, hname, if_true, hn, ht, List.filter_cons, decide_True,
            Option.isSome_some, Bool.and_true, getParamOffsetFrom]
          by_cases hv : nameAttr.value = paramName
          · simp only [hv, if_true]
            refine ⟨fun k => ?_, ?_⟩
            · cases k with
              | zero =>
                rw [isFirstNamed_zero, hcar]
                simp [hv]
              | succ k =>
                rw [isFirstNamed_succ, hcar]
                simp only [hv, decide_True, Bool.true_eq_false, false_and, iff_false]
                omega
            · constructor
              · intro h
                omega
              · intro h
                have := h c (List.mem_cons_self _ _)
                rw [hcar] at this
                simp [hv] at this
          · simp only [hv, if_false]
            refine ⟨fun k => ?_, ?_⟩
            · cases k with
              | zero =>
                rw [isFirstNamed_zero, hcar]
                simp only [hv, decide_False, Bool.false_eq_true, iff_false]
                intro h
                by_cases hnf : getParamOffsetFrom paramName
                    (l.filterMap (fun child =>
                      if child.name = "param" then
                        match findAttribute child "name", findAttribute child "type" with
                        | some nameAttr, some typeAttr =>
                          some ({ name := nameAttr.value, type := typeAttr.value } : Accessor_param)
                        | _, _ => none
                      else none)) (i + 1) = NOT_FOUND
                · rw [hnf] at h
                  simp only [NOT_FOUND] at h
                  omega
                · obtain ⟨j, _, hj⟩ := getParamOffsetFrom_found paramName _ (i + 1) hnf
                  rw [hj] at h
                  omega
              | succ k =>
                rw [isFirstNamed_succ, hcar]
                simp only [hv, decide_False, true_and]
                rw [← ihk k]
                have e : i + 1 + k = i + (k + 1) := by omega
                rw [e]
            · rw [ihn]
              constructor
              · intro h c' hc'
                rcases List.mem_cons.1 hc' with h1 | h1
                · rw [h1, hcar]
                  simp [hv]
                · exact h c' h1
              · intro h c' hc'
                exact h c' (List.mem_cons_of_mem _ hc')
    · simp only [List.filterMap_cons, hname, if_false, List.filter_cons, decide_False,
        Bool.false_and, Bool.false_eq_true]
      exact ⟨ihk0, ihn0⟩

end ParamOffsets

/-- Counterexample for C21 as stated: in an accessor whose `param` children are
an unnamed one followed by "X", "Y", "Z", the first `param` child named "X" is
at position 1 among all `param` children, and `getParamOffset` answers 0; in an
accessor whose only `param` child is named "X" and has no type, a `param` child
has that name, and `getParamOffset` answers -1. -/
theorem getParamOffset_skips_incomplete_param :
    IsFirstNamed "X" (paramChildren Examples.skippingAccessor) 1 ∧
    getParamOffset "X" (parse_accessor_params Examples.skippingAccessor) = 0 ∧
    (∃ c ∈ paramChildren Examples.untypedAccessor, carries "name" "X" c = true) ∧
    getParamOffset "X" (parse_accessor_params Examples.untypedAccessor) = -1 := by
  refine ⟨⟨⟨_, rfl, by decide⟩, ?_⟩, by decide, ⟨_, List.mem_cons_self _ _, by decide⟩, by decide⟩
  intro k' c' hk hget
  have hk0 : k' = 0 := by omega
  subst hk0
  cases hget
  decide

/-- C21 (amended): the column offset that `getParamOffset` returns for a
parameter name, over the list built by `parse_accessor_params`, is the position
of the first `param` child with that name among the `param` children of the
accessor that carry both a `name` and a `type` attribute, in document order (a
`param` child without one of the two is not counted); it is -1 exactly when no
such child has that name.  When every `param` child carries both attributes
these are all the `param` children. -/
theorem getParamOffset_over_complete_params (accessor : XmlNode) (paramName : String) :
    (∀ k : Nat, getParamOffset paramName (parse_accessor_params accessor) = (k : Int)
      ↔ IsFirstNamed paramName (completeParams accessor) k) ∧
    (getParamOffset paramName (parse_accessor_params accessor) = -1
      ↔ ∀ c ∈ completeParams accessor, carries "name" paramName c = false) ∧
    ((∀ c ∈ paramChildren accessor,
        (findAttribute c "name").isSome = true ∧ (findAttribute c "type").isSome = true) →
      completeParams accessor = paramChildren accessor) := by
  obtain ⟨hk, hn⟩ := getParamOffsetFrom_children paramName accessor.children 0
  refine ⟨?_, hn, ?_⟩
  · intro k
    have := hk k
    simp only [Nat.zero_add] at this
    exact this
  · intro hall
    unfold completeParams paramChildren
    apply List.filter_congr
    intro c hc
    by_cases hp : c.name = "param"
    · have hmem : c ∈ paramChildren accessor := by
        unfold paramChildren
        exact List.mem_filter.2 ⟨hc, by simpa using hp⟩
      obtain ⟨h1, h2⟩ := hall c hmem
      simp [hp, h1, h2]
    · simp [hp]

/-- Witness for C21 (amended): the accessor with an unnamed `param` child before
"X", "Y", "Z", and the accessor with "X", "Y", "Z" only. -/
theorem getParamOffset_over_complete_params_witness :
    (getParamOffset "Y" (parse_accessor_params Examples.skippingAccessor) = ((1 : Nat) : Int)
      ↔ IsFirstNamed "Y" (completeParams Examples.skippingAccessor) 1) ∧
    completeParams (Examples.el "accessor" [] Examples.xyzParams)
      = paramChildren (Examples.el "accessor" [] Examples.xyzParams) :=
  ⟨(getParamOffset_over_complete_params Examples.skippingAccessor "Y").1 1,
   (getParamOffset_over_complete_params (Examples.el "accessor" [] Examples.xyzParams) "X").2.2
     (by decide)⟩

/-! ## The packed colour of a material (C22) -/

section PackedColour
variable {F : Type} [CFloat F]

/-- Three bytes and the byte 0xFF are packed without overlap: the value is
`r*2^24 + g*2^16 + b*2^8 + 0xFF`, it fits in a `u32`, and each byte is recovered
by shifting and masking. -/
theorem BYTES_TO_UINT_low_byte (r g b : Nat) (hr : r < 256) (hg : g < 256) (hb : b < 256) :
    BYTES_TO_UINT r g b 0xFF = r * 2 ^ 24 + g * 2 ^ 16 + b * 2 ^ 8 + 0xFF ∧
    BYTES_TO_UINT r g b 0xFF % 256 = 0xFF ∧
    BYTES_TO_UINT r g b 0xFF / 2 ^ 24 % 256 = r ∧
    BYTES_TO_UINT r g b 0xFF / 2 ^ 16 % 256 = g ∧
    BYTES_TO_UINT r g b 0xFF / 2 ^ 8 % 256 = b := by
  have e1 : r <<< 24 ||| g <<< 16 = 2 ^ 24 * r + g * 2 ^ 16 := by
    rw [Nat.shiftLeft_eq, Nat.shiftLeft_eq, Nat.mul_comm r]
    exact (Nat.mul_add_lt_is_or (by omega) r).symm
  have e2 : (2 ^ 24 * r + g * 2 ^ 16) ||| b <<< 8 = 2 ^ 16 * (2 ^ 8 * r + g) + b * 2 ^ 8 := by
    rw [Nat.shiftLeft_eq]
    have : 2 ^ 24 * r + g * 2 ^ 16 = 2 ^ 16 * (2 ^ 8 * r + g) := by ring
    rw [this]
    exact (Nat.mul_add_lt_is_or (by omega) _).symm
  have e3 : (2 ^ 16 * (2 ^ 8 * r + g) + b * 2 ^ 8) ||| 0xFF
      = 2 ^ 8 * (2 ^ 16 * r + 2 ^ 8 * g + b) + 0xFF := by
    have : 2 ^ 16 * (2 ^ 8 * r + g) + b * 2 ^ 8 = 2 ^ 8 * (2 ^ 16 * r + 2 ^ 8 * g + b) := by ring
    rw [this]
    exact (Nat.mul_add_lt_is_or (by omega) _).symm
  have hval : BYTES_TO_UINT r g b 0xFF = r * 2 ^ 24 + g * 2 ^ 16 + b * 2 ^ 8 + 0xFF := by
    unfold BYTES_TO_UINT
    rw [e1, e2, e3]
    unfold U32_MOD
    omega
  rw [hval]
  refine ⟨rfl, ?_, ?_, ?_, ?_⟩ <;> omega

/-- The transparent branch never changes the colour. -/
theorem parse_material_transparent_color (transparent : XmlNode) (mat r : Material F)
    (h : parse_material_transparent transparent mat = Except.ok r) : r.color = mat.color := by
  unfold parse_material_transparent at h
  obtain ⟨_, _, h⟩ := bind_eq_ok h
  split at h
  · split at h
    · obtain ⟨_, _, h⟩ := bind_eq_ok h
      simp at h; subst h; rfl
    · simp at h; subst h; rfl
  · split at h
    · split at h
      · obtain ⟨_, _, h⟩ := bind_eq_ok h
        obtain ⟨_, _, h⟩ := bind_eq_ok h
        obtain ⟨_, _, h⟩ := bind_eq_ok h
        simp at h; subst h; rfl
      · simp at h; subst h; rfl
    · simp at h; subst h; rfl

/-- The colour after the diffuse branch: unchanged when `diffuse` has a texture,
or neither texture nor colour; packed from the first three components of the
flat colour when it has a colour and no texture. -/
theorem parse_material_diffuse_color (lib_images localSidMap : NodeMap) (diffuse : XmlNode)
    (mat : Material F) (cerr : List String) (rd : Material F × List String)
    (h : parse_material_diffuse lib_images localSidMap diffuse mat cerr = Except.ok rd) :
    (∀ texture, diffuse.first_node "texture" = some texture → rd.1.color = mat.color) ∧
    (diffuse.first_node "texture" = none →
      (diffuse.first_node "color" = none → rd.1.color = mat.color) ∧
      ∀ color, diffuse.first_node "color" = some color →
        ∃ c0 c1 c2 : F,
          (parse_float_vector color.value : List F).get? 0 = some c0 ∧
          (parse_float_vector color.value : List F).get? 1 = some c1 ∧
          (parse_float_vector color.value : List F).get? 2 = some c2 ∧
          rd.1.color = BYTES_TO_UINT (CFloat.scale255 c0 % 256) (CFloat.scale255 c1 % 256)
            (CFloat.scale255 c2 % 256) 0xFF) := by
  unfold parse_material_diffuse at h
  split at h
  · rename_i texture htex
    refine ⟨fun _ _ => ?_, fun hnone => by rw [htex] at hnone; cases hnone⟩
    split at h
    · obtain ⟨_, _, h⟩ := bind_eq_ok h
      split at h
      · split at h
        · obtain ⟨_, _, h⟩ := bind_eq_ok h
          split at h
          · split at h
            · split at h
              · obtain ⟨_, _, h⟩ := bind_eq_ok h
                simp at h
                subst h
                rfl
              · simp at h; subst h; rfl
            · simp at h; subst h; rfl
          · simp at h; subst h; rfl
        · simp at h; subst h; rfl
      · simp at h; subst h; rfl
    · simp at h; subst h; rfl
  · rename_i htex
    refine ⟨(fun texture ht => by rw [htex] at ht; cases ht), fun _ => ?_⟩
    split at h
    · rename_i color hcol
      obtain ⟨c0, h0, h⟩ := bind_eq_ok h
      obtain ⟨c1, h1, h⟩ := bind_eq_ok h
      obtain ⟨c2, h2, h⟩ := bind_eq_ok h
      simp only [pure_eq_ok, Except.ok.injEq] at h
      subst h
      refine ⟨(fun hn => by rw [hcol] at hn; cases hn), ?_⟩
      intro color' hc'
      rw [hcol] at hc'
      cases hc'
      exact ⟨c0, c1, c2, vecGet_eq_ok h0, vecGet_eq_ok h1, vecGet_eq_ok h2, rfl⟩
    · rename_i hcol
      simp only [pure_eq_ok, Except.ok.injEq] at h
      subst h
      exact ⟨fun _ => rfl, fun color hc => by rw [hcol] at hc; cases hc⟩

end PackedColour

section PackedColour2
variable {F : Type} [CFloat F]

/-- A colour is kept or packed from three bytes and 0xFF: in both cases a low
byte 0xFF stays a low byte 0xFF. -/
theorem parse_material_diffuse_low_byte (lib_images localSidMap : NodeMap) (diffuse : XmlNode)
    (mat : Material F) (cerr : List String) (rd : Material F × List String)
    (h : parse_material_diffuse lib_images localSidMap diffuse mat cerr = Except.ok rd)
    (hmat : mat.color % 256 = 0xFF) : rd.1.color % 256 = 0xFF := by
  obtain ⟨htex, hflat⟩ := parse_material_diffuse_color _ _ _ _ _ _ h
  cases ht : diffuse.first_node "texture" with
  | some texture => rw [htex texture ht]; exact hmat
  | none =>
    obtain ⟨hnone, hsome⟩ := hflat ht
    cases hc : diffuse.first_node "color" with
    | none => rw [hnone hc]; exact hmat
    | some color =>
      obtain ⟨c0, c1, c2, _, _, _, hcol⟩ := hsome color hc
      rw [hcol]
      exact (BYTES_TO_UINT_low_byte _ _ _ (Nat.mod_lt _ (by decide)) (Nat.mod_lt _ (by decide))
        (Nat.mod_lt _ (by decide))).2.1

/-- Resolution through the effect keeps a low byte 0xFF of the colour. -/
theorem parse_material_effect_low_byte (lib_effects lib_images : NodeMap) (mat_node : XmlNode)
    (mat : Material F) (cerr : List String) (res : Material F × List String)
    (h : parse_material_effect lib_effects lib_images mat_node mat cerr = Except.ok res)
    (hmat : mat.color % 256 = 0xFF) : res.1.color % 256 = 0xFF := by
  unfold parse_material_effect at h
  split at h
  · split at h
    · obtain ⟨_, _, h⟩ := bind_eq_ok h
      split at h
      · obtain ⟨_, _, h⟩ := bind_eq_ok h
        split at h
        · split at h
          · obtain ⟨r1, hr1, h⟩ := bind_eq_ok h
            have hc1 : r1.1.color % 256 = 0xFF := by
              split at hr1
              · exact parse_material_diffuse_low_byte _ _ _ _ _ _ hr1 hmat
              · simp at hr1; subst hr1; exact hmat
            split at h
            · obtain ⟨m2, hm2, h⟩ := bind_eq_ok h
              simp at h; subst h
              rw [show ((m2, r1.2) : Material F × List String).1 = m2 from rfl,
                parse_material_transparent_color _ _ _ hm2]
              exact hc1
            · simp at h; subst h; exact hc1
          · simp at h; subst h; exact hmat
        · simp at h; subst h; exact hmat
      · simp at h; subst h; exact hmat
    · simp at h; subst h; exact hmat
  · simp at h; subst h; exact hmat

/-- Resolution through an effect whose chain reaches a `diffuse` element: the
colour is what the diffuse branch leaves. -/
theorem parse_material_effect_diffuse (lib_effects lib_images : NodeMap)
    (mat_node instance_effect effect profile_COMMON technique shader diffuse : XmlNode)
    (urlAttr : XmlAttr) (key : String)
    (mat : Material F) (cerr : List String) (res : Material F × List String)
    (h : parse_material_effect lib_effects lib_images mat_node mat cerr = Except.ok res)
    (hinst : mat_node.first_node "instance_effect" = some instance_effect)
    (hurl : findAttribute instance_effect "url" = some urlAttr)
    (hkey : ID_SUBSTR urlAttr.value = Except.ok key)
    (heffect : lib_effects key = some effect)
    (hprofile : effect.first_node "profile_COMMON" = some profile_COMMON)
    (htechnique : profile_COMMON.first_node "technique" = some technique)
    (hshader : technique.first_child = some shader)
    (hdiffuse : shader.first_node "diffuse" = some diffuse) :
    ∃ rd, parse_material_diffuse lib_images (buildLocalIdMap "sid" NodeMap.empty profile_COMMON)
        diffuse mat cerr = Except.ok rd ∧ res.1.color = rd.1.color := by
  unfold parse_material_effect at h
  simp only [hinst, hurl, hkey, bind_ok, heffect, hprofile, deref, htechnique, hshader,
    hdiffuse] at h
  obtain ⟨rd, hrd, h⟩ := bind_eq_ok h
  refine ⟨rd, hrd, ?_⟩
  split at h
  · obtain ⟨m2, hm2, h⟩ := bind_eq_ok h
    simp only [pure_eq_ok, Except.ok.injEq] at h
    subst h
    exact parse_material_transparent_color _ _ _ hm2
  · simp only [pure_eq_ok, Except.ok.injEq] at h
    subst h
    rfl

/-- The material a fresh `parse_new_material` starts from has the colour
0xFFFFFFFF. -/
theorem newMaterial_color (mat_node : XmlNode) :
    (match findAttribute mat_node "name" with
      | some nameAttr => ({ name := nameAttr.value } : Material F)
      | none => {}).color = 0xFFFFFFFF := by
  cases findAttribute mat_node "name" <;> rfl

/-- The material a fresh `parse_new_material` starts from has the low byte
0xFF. -/
theorem newMaterial_low_byte (mat_node : XmlNode) :
    (match findAttribute mat_node "name" with
      | some nameAttr => ({ name := nameAttr.value } : Material F)
      | none => {}).color % 256 = 0xFF := by
  rw [newMaterial_color]

end PackedColour2

/-- C22: the colour of every material that `parse_new_material` produces has
the low byte 0xFF (calls keep this for the materials of the list, and a new
material is appended with it).  For a new material whose effect chain reaches a
`diffuse` element: when `diffuse` holds a texture the colour stays 0xFFFFFFFF;
when it holds a flat colour and no texture the colour is
`r*2^24 + g*2^16 + b*2^8 + 0xFF` for the bytes `r`, `g`, `b` of the first three
components scaled by 255, and each byte is recovered from it by shifting and
masking. -/
theorem parse_new_material_packed_colour {F : Type} [CFloat F] (mat_node : Option XmlNode)
    (st st1 : Model F) (r : Option Nat)
    (h : parse_new_material mat_node st = Except.ok (r, st1)) :
    ((∀ m ∈ st.materials, m.color % 256 = 0xFF) → ∀ m ∈ st1.materials, m.color % 256 = 0xFF) ∧
    (∀ node, mat_node = some node →
      doesMaterialNameAlreadyExist st.materials (materialName node) = NOT_FOUND →
      ∃ m, st1.materials = st.materials ++ [m] ∧ m.color % 256 = 0xFF ∧
        ∀ (instance_effect effect profile_COMMON technique shader diffuse : XmlNode)
          (urlAttr : XmlAttr) (key : String),
          node.first_node "instance_effect" = some instance_effect →
          findAttribute instance_effect "url" = some urlAttr →
          ID_SUBSTR urlAttr.value = Except.ok key →
          st.lib_effects key = some effect →
          effect.first_node "profile_COMMON" = some profile_COMMON →
          profile_COMMON.first_node "technique" = some technique →
          technique.first_child = some shader →
          shader.first_node "diffuse" = some diffuse →
          (∀ texture, diffuse.first_node "texture" = some texture → m.color = 0xFFFFFFFF) ∧
          (diffuse.first_node "texture" = none →
            ∀ color, diffuse.first_node "color" = some color →
              ∃ c0 c1 c2 : F,
                (parse_float_vector color.value : List F).get? 0 = some c0 ∧
                (parse_float_vector color.value : List F).get? 1 = some c1 ∧
                (parse_float_vector color.value : List F).get? 2 = some c2 ∧
                m.color = (CFloat.scale255 c0 % 256) * 2 ^ 24 + (CFloat.scale255 c1 % 256) * 2 ^ 16
                  + (CFloat.scale255 c2 % 256) * 2 ^ 8 + 0xFF ∧
                m.color / 2 ^ 24 % 256 = CFloat.scale255 c0 % 256 ∧
                m.color / 2 ^ 16 % 256 = CFloat.scale255 c1 % 256 ∧
                m.color / 2 ^ 8 % 256 = CFloat.scale255 c2 % 256)) := by
  cases mat_node with
  | none =>
    simp only [parse_new_material, pure_eq_ok, Except.ok.injEq, Prod.mk.injEq] at h
    obtain ⟨_, hst⟩ := h
    subst hst
    exact ⟨fun hall => hall, fun node hn => by cases hn⟩
  | some node0 =>
    unfold parse_new_material at h
    simp only [newMaterial_name] at h
    by_cases hfound : doesMaterialNameAlreadyExist st.materials (materialName node0) = NOT_FOUND
    · simp only [hfound, ne_eq, not_true_eq_false, if_false] at h
      obtain ⟨res, hres, h⟩ := bind_eq_ok h
      simp only [pure_eq_ok, Except.ok.injEq, Prod.mk.injEq] at h
      obtain ⟨_, hst⟩ := h
      have hmats : st1.materials = st.materials ++ [res.1] := by rw [← hst]
      have hlow : res.1.color % 256 = 0xFF :=
        parse_material_effect_low_byte _ _ _ _ _ _ hres
          (newMaterial_low_byte node0)
      constructor
      · intro hall m hm
        rw [hmats] at hm
        rcases List.mem_append.1 hm with h1 | h1
        · exact hall m h1
        · rw [List.mem_singleton.1 h1]
          exact hlow
      · intro node hn _
        cases hn
        refine ⟨res.1, hmats, hlow, ?_⟩
        intro instance_effect effect profile_COMMON technique shader diffuse urlAttr key
          hinst hurl hkey heffect hprofile htechnique hshader hdiffuse
        obtain ⟨rd, hrd, hcol⟩ := parse_material_effect_diffuse _ _ _ _ _ _ _ _ _ _ _ _ _ _
          hres hinst hurl hkey heffect hprofile htechnique hshader hdiffuse
        obtain ⟨htex, hflat⟩ := parse_material_diffuse_color _ _ _ _ _ _ hrd
        constructor
        · intro texture ht
          rw [hcol, htex texture ht]
          exact newMaterial_color node0
        · intro ht color hc
          obtain ⟨c0, c1, c2, g0, g1, g2, hpacked⟩ := (hflat ht).2 color hc
          obtain ⟨b1, _, b3, b4, b5⟩ := BYTES_TO_UINT_low_byte
            (CFloat.scale255 c0 % 256) (CFloat.scale255 c1 % 256) (CFloat.scale255 c2 % 256)
            (Nat.mod_lt _ (by decide)) (Nat.mod_lt _ (by decide)) (Nat.mod_lt _ (by decide))
          rw [hcol, hpacked]
          exact ⟨c0, c1, c2, g0, g1, g2, b1, b3, b4, b5⟩
    · simp only [ne_eq, hfound, not_false_eq_true, if_true, pure_eq_ok, Except.ok.injEq,
        Prod.mk.injEq] at h
      obtain ⟨_, hst⟩ := h
      subst hst
      exact ⟨fun hall => hall, fun node hn hnew => by cases hn; exact absurd hnew hfound⟩

/-- Witness for C22: the material "red" whose effect has the flat diffuse
colour (0.2, 0.7, 0.4, 1) gets the bytes 51, 178, 102 and the low byte 0xFF. -/
theorem parse_new_material_packed_colour_witness :
    ∃ (r : Option Nat) (st1 : Model Dec),
      parse_new_material (some Examples.matRed)
          (Examples.effectState (Examples.shaderEffect [Examples.flatDiffuse]))
        = Except.ok (r, st1) ∧
      ∃ m, st1.materials = [] ++ [m] ∧ m.color % 256 = 0xFF ∧
        m.color = 51 * 2 ^ 24 + 178 * 2 ^ 16 + 102 * 2 ^ 8 + 0xFF := by
  obtain ⟨res, hres⟩ : ∃ res, parse_new_material (some Examples.matRed)
      (Examples.effectState (Examples.shaderEffect [Examples.flatDiffuse]))
      = Except.ok res := ⟨_, rfl⟩
  obtain ⟨m, hm, hlow, hchain⟩ :=
    (parse_new_material_packed_colour (some Examples.matRed)
      (Examples.effectState (Examples.shaderEffect [Examples.flatDiffuse])) res.2 res.1 hres).2
      Examples.matRed rfl (by decide)
  have hflat := (hchain (Examples.el "instance_effect" [⟨"url", "#fx"⟩] [])
    (Examples.shaderEffect [Examples.flatDiffuse])
    (Examples.el "profile_COMMON" [] [
      Examples.el "technique" [⟨"sid", "common"⟩] [Examples.el "phong" [] [Examples.flatDiffuse]]])
    (Examples.el "technique" [⟨"sid", "common"⟩] [Examples.el "phong" [] [Examples.flatDiffuse]])
    (Examples.el "phong" [] [Examples.flatDiffuse]) Examples.flatDiffuse ⟨"url", "#fx"⟩ "fx"
    (by decide) (by decide) (by decide) (by decide) (by decide) (by decide) (by decide)
    (by decide)).2 (by decide) (Examples.tx "color" [] "0.2 0.7 0.4 1") (by decide)
  obtain ⟨c0, c1, c2, g0, g1, g2, hcol, _⟩ := hflat
  have e0 : c0 = ⟨2, 1⟩ := Option.some.inj (g0.symm.trans (by decide))
  have e1 : c1 = ⟨7, 1⟩ := Option.some.inj (g1.symm.trans (by decide))
  have e2 : c2 = ⟨4, 1⟩ := Option.some.inj (g2.symm.trans (by decide))
  subst e0 e1 e2
  exact ⟨res.1, res.2, hres, m, hm, hlow, hcol.trans (by decide)⟩

/-! ## Termination of the scene walk (C24) -/

section SceneWalkLemmas

/-- Reference chains that end within `n` references end within any larger
number. -/
theorem resolvesWithin_mono (lib_visuals : NodeMap) :
    ∀ (n m : Nat), n ≤ m → ∀ url, ResolvesWithin lib_visuals n url →
      ResolvesWithin lib_visuals m url
  | 0, _, _, _, h => absurd h (by simp [ResolvesWithin])
  | n + 1, m, hle, url, h => by
    obtain ⟨m', rfl⟩ : ∃ m', m = m' + 1 := ⟨m - 1, by omega⟩
    obtain ⟨key, target, hkey, htarget, hsub⟩ := h
    exact ⟨key, target, hkey, htarget, fun url' hu =>
      resolvesWithin_mono lib_visuals n m' (by omega) url' (hsub url' hu)⟩

mutual
/-- The walk of a subtree returns the leaves of the description when every url
it meets has the property `R`, and a url with that property names an entry of
the library on which the walk returns the leaves of the description. -/
theorem sceneWalk_node (lib_visuals : NodeMap) (R : String → Prop)
    (hR : ∀ url, R url → ∃ key target, ID_SUBSTR url = Except.ok key ∧
      lib_visuals key = some target ∧
      ∃ leaves, SceneWalk lib_visuals target leaves ∧ ReturnsLeaves lib_visuals target leaves) :
    ∀ x, (∀ url ∈ instanceUrls x, R url) →
      ∃ leaves, SceneWalk lib_visuals x leaves ∧ ReturnsLeaves lib_visuals x leaves
  | .mk nm v a cs, hres => by
    by_cases hg : nm = "instance_geometry"
    · subst hg
      refine ⟨[.mk "instance_geometry" v a cs], SceneWalk.geometry _ rfl, 1, ?_⟩
      intro fuel' hf nodes
      obtain ⟨f, rfl⟩ : ∃ f, fuel' = f + 1 := ⟨fuel' - 1, by omega⟩
      simp [recursivelyFindAllInstanceGeometryNodes, deref, XmlNode.name]
    · by_cases hi : nm = "instance_node"
      · subst hi
        cases hurl : findAttribute (.mk "instance_node" v a cs) "url" with
        | none =>
          refine ⟨[], SceneWalk.unbound _ hg rfl hurl, 1, ?_⟩
          intro fuel' hf nodes
          obtain ⟨f, rfl⟩ : ∃ f, fuel' = f + 1 := ⟨fuel' - 1, by omega⟩
          simp [recursivelyFindAllInstanceGeometryNodes, deref, XmlNode.name, hurl]
        | some urlAttr =>
          have hmem : urlAttr.value ∈ instanceUrls (.mk "instance_node" v a cs) := by
            simp [instanceUrls, hurl]
          obtain ⟨key, target, hkey, htarget, leaves, hwalk, fuel, hfuel⟩ :=
            hR _ (hres _ hmem)
          refine ⟨leaves, SceneWalk.reference _ urlAttr key target leaves hg rfl hurl hkey
            htarget hwalk, fuel + 1, ?_⟩
          intro fuel' hf nodes
          obtain ⟨f, rfl⟩ : ∃ f, fuel' = f + 1 := ⟨fuel' - 1, by omega⟩
          have := hfuel f (by omega) nodes
          simp [recursivelyFindAllInstanceGeometryNodes, deref, XmlNode.name, hurl, hkey,
            htarget, this]
      · have hsub : ∀ url ∈ instanceUrlsList cs, R url := by
          intro url hu
          apply hres
          simp only [instanceUrls, hg, hi, if_false]
          exact hu
        obtain ⟨leaves, hwalk, fuel, hfuel⟩ := sceneWalk_list lib_visuals R hR cs hsub
        refine ⟨leaves, SceneWalk.descend _ leaves hg hi hwalk, fuel + 1, ?_⟩
        intro fuel' hf nodes
        obtain ⟨f, rfl⟩ : ∃ f, fuel' = f + 1 := ⟨fuel' - 1, by omega⟩
        have := hfuel f (by omega) nodes
        simp [recursivelyFindAllInstanceGeometryNodes, deref, XmlNode.name, hg, hi,
          XmlNode.children, this]
/-- The walk of a list of sibling subtrees all of whose urls have the property
`R`. -/
theorem sceneWalk_list (lib_visuals : NodeMap) (R : String → Prop)
    (hR : ∀ url, R url → ∃ key target, ID_SUBSTR url = Except.ok key ∧
      lib_visuals key = some target ∧
      ∃ leaves, SceneWalk lib_visuals target leaves ∧ ReturnsLeaves lib_visuals target leaves) :
    ∀ cs, (∀ url ∈ instanceUrlsList cs, R url) →
      ∃ leaves, SceneWalkAll lib_visuals cs leaves ∧ ReturnsLeavesAll lib_visuals cs leaves
  | [], _ => ⟨[], SceneWalkAll.nil, 0, fun _ _ nodes => by simp⟩
  | c :: cs, hres => by
    obtain ⟨first, hw1, f1, hf1⟩ := sceneWalk_node lib_visuals R hR c
      (fun url hu => hres url (by simp [instanceUrlsList, hu]))
    obtain ⟨rest, hw2, f2, hf2⟩ := sceneWalk_list lib_visuals R hR cs
      (fun url hu => hres url (by simp [instanceUrlsList, hu]))
    refine ⟨first ++ rest, SceneWalkAll.cons c cs first rest hw1 hw2, max f1 f2, ?_⟩
    intro fuel' hf nodes
    rw [List.foldlM_cons, hf1 fuel' (by omega) nodes, bind_ok,
      hf2 fuel' (by omega) (nodes ++ first), List.append_assoc]
end

/-- The walk returns on every subtree whose reference chains resolve and end
within `n` references. -/
theorem sceneWalk_within (lib_visuals : NodeMap) :
    ∀ (n : Nat) (x : XmlNode), (∀ url ∈ instanceUrls x, ResolvesWithin lib_visuals n url) →
      ∃ leaves, SceneWalk lib_visuals x leaves ∧ ReturnsLeaves lib_visuals x leaves
  | 0, x, hres =>
    sceneWalk_node lib_visuals (ResolvesWithin lib_visuals 0) (fun _ h => absurd h (by
      simp [ResolvesWithin])) x hres
  | n + 1, x, hres =>
    sceneWalk_node lib_visuals (ResolvesWithin lib_visuals (n + 1)) (fun url h => by
      obtain ⟨key, target, hkey, htarget, hsub⟩ := h
      exact ⟨key, target, hkey, htarget, sceneWalk_within lib_visuals n target hsub⟩) x hres

/-- In a layered library a url that resolves below level `n` starts reference
chains that end within `n` references. -/
theorem resolvesWithin_of_layered (lib_visuals : NodeMap) (level : String → Nat)
    (hlay : Layered lib_visuals level) :
    ∀ (n : Nat) (url : String), Resolves lib_visuals level n url →
      ResolvesWithin lib_visuals n url := by
  intro n
  induction n using Nat.strong_induction_on with
  | _ n ih =>
    intro url hres
    obtain ⟨key, target, hkey, htarget, hlevel⟩ := hres
    obtain ⟨m, rfl⟩ : ∃ m, n = m + 1 := ⟨n - 1, by omega⟩
    refine ⟨key, target, hkey, htarget, ?_⟩
    intro url' hu
    have h1 := ih (level key) hlevel url' (hlay key target htarget url' hu)
    exact resolvesWithin_mono lib_visuals (level key) m (by omega) url' h1

/-- A loop that returns has returned from the step of each of its elements. -/
theorem foldlM_step_of_mem {α β : Type} (f : β → α → Except Fault β) :
    ∀ (l : List α) (acc out : β) (x : α), l.foldlM f acc = Except.ok out → x ∈ l →
      ∃ acc' out', f acc' x = Except.ok out'
  | [], _, _, _, _, hx => by cases hx
  | c :: l, acc, out, x, h, hx => by
    rw [List.foldlM_cons] at h
    obtain ⟨mid, hmid, h⟩ := bind_eq_ok h
    rcases List.mem_cons.1 hx with hxc | hxl
    · exact ⟨acc, mid, by rw [hxc]; exact hmid⟩
    · exact foldlM_step_of_mem f l mid out x h hxl

/-- A call that returns has made, with a smaller budget, a call that returned
on every node it calls. -/
theorem walkCalls_returns (lib_visuals : NodeMap) (x y : XmlNode)
    (hcall : WalkCalls lib_visuals x y) (fuel : Nat) (nodes out : List XmlNode)
    (h : recursivelyFindAllInstanceGeometryNodes lib_visuals fuel nodes (some x)
      = Except.ok out) :
    ∃ fuel' nodes' out', fuel' < fuel ∧
      recursivelyFindAllInstanceGeometryNodes lib_visuals fuel' nodes' (some y)
        = Except.ok out' := by
  cases fuel with
  | zero => simp [recursivelyFindAllInstanceGeometryNodes] at h
  | succ f =>
    cases hcall with
    | child hg hi hmem =>
      simp only [recursivelyFindAllInstanceGeometryNodes, deref, bind_ok, hg, hi, if_false] at h
      obtain ⟨acc', out', hstep⟩ := foldlM_step_of_mem _ _ _ _ y h hmem
      exact ⟨f, acc', out', Nat.lt_succ_self f, hstep⟩
    | reference urlAttr key hg hi hurl hkey htarget =>
      simp only [recursivelyFindAllInstanceGeometryNodes, deref, bind_ok, hg, hi, if_false,
        if_true, hurl, hkey, htarget] at h
      exact ⟨f, nodes, out, Nat.lt_succ_self f, h⟩

/-- The same along a chain of calls. -/
theorem walkCalls_chain_returns (lib_visuals : NodeMap) (x y : XmlNode)
    (hchain : Relation.TransGen (WalkCalls lib_visuals) x y) :
    ∀ (fuel : Nat) (nodes out : List XmlNode),
      recursivelyFindAllInstanceGeometryNodes lib_visuals fuel nodes (some x) = Except.ok out →
      ∃ fuel' nodes' out', fuel' < fuel ∧
        recursivelyFindAllInstanceGeometryNodes lib_visuals fuel' nodes' (some y)
          = Except.ok out' := by
  induction hchain with
  | single hcall => exact fun fuel nodes out h => walkCalls_returns _ _ _ hcall fuel nodes out h
  | tail _ hcall ihc =>
    intro fuel nodes out h
    obtain ⟨f1, n1, o1, hlt1, h1⟩ := ihc fuel nodes out h
    obtain ⟨f2, n2, o2, hlt2, h2⟩ := walkCalls_returns _ _ _ hcall f1 n1 o1 h1
    exact ⟨f2, n2, o2, by omega, h2⟩

/-- A call on a node that lies on a cycle of calls returns for no budget. -/
theorem walk_cycle_never_returns (lib_visuals : NodeMap) (x : XmlNode)
    (hcycle : Relation.TransGen (WalkCalls lib_visuals) x x) :
    ∀ (fuel : Nat) (nodes out : List XmlNode),
      recursivelyFindAllInstanceGeometryNodes lib_visuals fuel nodes (some x) ≠ Except.ok out := by
  intro fuel
  induction fuel using Nat.strong_induction_on with
  | _ fuel ih =>
    intro nodes out h
    obtain ⟨f', n', o', hlt, h'⟩ := walkCalls_chain_returns _ _ _ hcycle fuel nodes out h
    exact ih f' hlt n' o' h'

end SceneWalkLemmas

/-- C24: when every chain of `instance_node` references that starts in `current`
resolves and ends within `n` references (every url met resolves to an entry of
the library and no chain runs into a cycle),
`recursivelyFindAllInstanceGeometryNodes` returns on `current` for every budget
from some depth on, and what it appends is the list of instance_geometry nodes
of the description: in depth-first order, one entry per instance path, nothing
from below an `instance_geometry` or `instance_node` element.  So it does when
the entries of the library carry levels that every reference lowers.  When a
node lies on a cycle of calls (it reaches itself through an `instance_node`
reference), the call on it returns for no budget. -/
theorem recursivelyFind_terminates (lib_visuals : NodeMap) :
    (∀ (n : Nat) (current : XmlNode),
      (∀ url ∈ instanceUrls current, ResolvesWithin lib_visuals n url) →
      ∃ leaves, SceneWalk lib_visuals current leaves ∧
        ReturnsLeaves lib_visuals current leaves) ∧
    (∀ (level : String → Nat) (n : Nat) (current : XmlNode), Layered lib_visuals level →
      (∀ url ∈ instanceUrls current, Resolves lib_visuals level n url) →
      ∃ leaves, SceneWalk lib_visuals current leaves ∧
        ReturnsLeaves lib_visuals current leaves) ∧
    (∀ x, Relation.TransGen (WalkCalls lib_visuals) x x →
      ∀ (fuel : Nat) (nodes out : List XmlNode),
        recursivelyFindAllInstanceGeometryNodes lib_visuals fuel nodes (some x)
          ≠ Except.ok out) := by
  refine ⟨sceneWalk_within lib_visuals, ?_, ?_⟩
  · intro level n current hlay hres
    exact sceneWalk_within lib_visuals n current
      (fun url hu => resolvesWithin_of_layered lib_visuals level hlay n url (hres url hu))
  · exact fun x hcycle => walk_cycle_never_returns lib_visuals x hcycle

/-- The library of the reuse example is layered: the scene refers to "part",
which refers to nothing. -/
theorem reuseLib_layered : Layered Examples.reuseLib Examples.reuseLevel := by
  intro key target h url hu
  unfold Examples.reuseLib at h
  by_cases h1 : key = "vs"
  · subst h1
    simp only [if_true, Option.some.injEq] at h
    subst h
    have hmem : url ∈ ["#part", "#part"] := hu
    have hurl : url = "#part" := by simpa using hmem
    subst hurl
    exact ⟨"part", Examples.partNode, rfl, rfl, by decide⟩
  · by_cases h2 : key = "part"
    · subst h2
      simp only [h1, if_false, if_true, Option.some.injEq] at h
      subst h
      have hmem : url ∈ ([] : List String) := hu
      cases hmem
    · simp [h1, h2] at h

/-- Witness for C24: a scene that refers twice to a node holding one
instance_geometry returns that node twice, its reference chains ending within
one reference and its library being layered; a node that refers to itself
never returns. -/
theorem recursivelyFind_terminates_witness :
    (∀ url ∈ instanceUrls Examples.reuseScene, ResolvesWithin Examples.reuseLib 1 url) ∧
    Layered Examples.reuseLib Examples.reuseLevel ∧
    (∃ leaves, SceneWalk Examples.reuseLib Examples.reuseScene leaves ∧
      ReturnsLeaves Examples.reuseLib Examples.reuseScene leaves) ∧
    (∃ leaves, SceneWalk Examples.reuseLib Examples.reuseScene leaves ∧
      ReturnsLeaves Examples.reuseLib Examples.reuseScene leaves) ∧
    recursivelyFindAllInstanceGeometryNodes Examples.reuseLib 5 [] (some Examples.reuseScene)
      = Except.ok [Examples.instanceGeometry "#g", Examples.instanceGeometry "#g"] ∧
    Relation.TransGen (WalkCalls Examples.loopLib) Examples.loopNode Examples.loopNode ∧
    (∀ (fuel : Nat) (nodes out : List XmlNode),
      recursivelyFindAllInstanceGeometryNodes Examples.loopLib fuel nodes
        (some Examples.loopNode) ≠ Except.ok out) := by
  have hwithin : ∀ url ∈ instanceUrls Examples.reuseScene,
      ResolvesWithin Examples.reuseLib 1 url := by
    intro url hu
    have hmem : url ∈ ["#part", "#part"] := hu
    have hurl : url = "#part" := by simpa using hmem
    subst hurl
    refine ⟨"part", Examples.partNode, rfl, rfl, ?_⟩
    intro url' hu'
    have hmem' : url' ∈ ([] : List String) := hu'
    cases hmem'
  have hbelow : ∀ url ∈ instanceUrls Examples.reuseScene,
      Resolves Examples.reuseLib Examples.reuseLevel 2 url := by
    intro url hu
    have hmem : url ∈ ["#part", "#part"] := hu
    have hurl : url = "#part" := by simpa using hmem
    subst hurl
    exact ⟨"part", Examples.partNode, rfl, rfl, by decide⟩
  have hcycle : Relation.TransGen (WalkCalls Examples.loopLib) Examples.loopNode
      Examples.loopNode := by
    refine Relation.TransGen.tail (Relation.TransGen.single
      (WalkCalls.child Examples.loopNode (Examples.instanceNode "#loop") ?_ ?_ ?_))
      (WalkCalls.reference (Examples.instanceNode "#loop") Examples.loopNode ⟨"url", "#loop"⟩
        "loop" ?_ ?_ ?_ ?_ ?_)
    all_goals decide
  exact ⟨hwithin, reuseLib_layered,
    (recursivelyFind_terminates Examples.reuseLib).1 1 Examples.reuseScene hwithin,
    (recursivelyFind_terminates Examples.reuseLib).2.1 Examples.reuseLevel 2
      Examples.reuseScene reuseLib_layered hbelow,
    by decide,
    hcycle,
    (recursivelyFind_terminates Examples.loopLib).2.2 Examples.loopNode hcycle⟩
end SimpleCOLLADA
